import Mathlib

/-!
# Adaptive-Climb eviction policies of libCacheSim: a shallow embedding

Source files embedded here:
* `libCacheSim/cache/eviction/DynamicAdaptiveClimb.c`
* `libCacheSim/cache/eviction/AdaptiveClimb.c`

Modelling conventions.
* A `cache_obj_t *` is the identifier of the object it points to (the hashtable holds one
  object per identifier); `NULL` is `none`.
* The heap of live `cache_obj_t` structures is the hashtable itself: a map from identifiers to
  structures. Reading a field through a pointer that is not live yields `none`/`0`, writing
  through it does nothing (C leaves both undefined).
* C `int` fields are unbounded `Int`; array indices are `Nat`.
* C `double` values are exact rationals.
* The `while` loop of the insert path takes a fuel argument; the theorems show that a fuel of
  at least the queue length always reaches the loop exit of the source.
-/

/-! ## Objects, heap and the base cache -/

/-- The fields of `cache_obj_t` used by the policies: the size and the two queue links. -/
structure cache_obj_t where
  obj_size : Nat
  prev : Option Nat
  next : Option Nat
deriving DecidableEq, Repr

/-- The fields of `request_t` used by the policies. -/
structure request_t where
  obj_id : Nat
  obj_size : Nat
deriving DecidableEq, Repr

/-- Live objects by identifier. -/
abbrev Heap := Nat → Option cache_obj_t

/-- Read `a->queue.prev`. -/
def prevOf (h : Heap) (a : Nat) : Option Nat := (h a).bind fun o => o.prev

/-- Read `a->queue.next`. -/
def nextOf (h : Heap) (a : Nat) : Option Nat := (h a).bind fun o => o.next

/-- Read `a->obj_size`. -/
def objSize (h : Heap) (a : Nat) : Nat := ((h a).map fun o => o.obj_size).getD 0

/-- Write `a->queue.prev = v`. -/
def setPrev (h : Heap) (a : Nat) (v : Option Nat) : Heap :=
  fun i => if i = a then (h i).map fun o => { o with prev := v } else h i

/-- Write `a->queue.next = v`. -/
def setNext (h : Heap) (a : Nat) (v : Option Nat) : Heap :=
  fun i => if i = a then (h i).map fun o => { o with next := v } else h i

/-- The part of `cache_t` the policies read and write, with the policy parameters `P`
behind `eviction_params`. -/
structure cache_t (P : Type) where
  hashtable : Heap
  occupied_byte : Nat
  cache_size : Nat
  obj_md_size : Nat
  eviction_params : P

/-- The state the queue code works on: the heap, the two queue ends (fields `q_head` and
`q_tail` of the policy parameters) and the byte accounting of `cache_t`. -/
structure CacheCore where
  heap : Heap
  q_head : Option Nat
  q_tail : Option Nat
  occupied_byte : Nat
  cache_size : Nat
  obj_md_size : Nat

/-- Modelled from the spec: `hashtable_find_obj_id` of the object registry, which is not among
the source files ("find(id) -> object-or-none"). -/
def hashtable_find_obj_id (h : Heap) (obj_id : Nat) : Option Nat :=
  if (h obj_id).isSome then some obj_id else none

/-- Modelled from the spec: `cache_find_base`, the registry lookup for a request, which is not
among the source files ("find(id) -> object-or-none"); the flag `update_cache` only concerns
metadata outside the model. -/
def cache_find_base {P : Type} (cache : cache_t P) (req : request_t) (_update_cache : Bool) :
    Option Nat :=
  hashtable_find_obj_id cache.hashtable req.obj_id

/-- Modelled from the spec: the registry and accounting part of `cache_insert_base`, which is
not among the source files ("Registry insert"): a fresh unlinked object of the requested size
is registered and its bytes, size plus per-object overhead, are accounted. -/
def CacheCore.insert_base (k : CacheCore) (req : request_t) : Option Nat × CacheCore :=
  (some req.obj_id,
   { k with
     heap := fun i => if i = req.obj_id then some ⟨req.obj_size, none, none⟩ else k.heap i
     occupied_byte := k.occupied_byte + req.obj_size + k.obj_md_size })

/-- Modelled from the spec: `cache_remove_obj_base`, which is not among the source files
("delete it from the Registry", "release its accounted bytes"). -/
def CacheCore.remove_obj_base (k : CacheCore) (obj : Nat) (remove_from_hashtable : Bool) :
    CacheCore :=
  { k with
    heap := if remove_from_hashtable then fun i => if i = obj then none else k.heap i
            else k.heap
    occupied_byte := k.occupied_byte - (objSize k.heap obj + k.obj_md_size) }

/-- Modelled from the spec: `cache_evict_base`, which is not among the source files ("remove it
from the Registry, release its accounted bytes"). -/
def CacheCore.evict_base (k : CacheCore) (obj : Nat) (remove_from_hashtable : Bool) :
    CacheCore :=
  k.remove_obj_base obj remove_from_hashtable

/-! ## Machine arithmetic -/

/-- The value of a C `int` after an operation whose mathematical result is `x`: it wraps at
`2 ^ 31` (two's complement; the overflow of `total_requests++`, which the C standard leaves
undefined, wraps on the usual targets). -/
@[irreducible]
def wrap_int (x : Int) : Int := (x + 2 ^ 31) % 2 ^ 32 - 2 ^ 31

/-- The power `2 ^ e` as a rational, for an integer exponent. -/
def pow2 (e : Int) : ℚ :=
  if e ≥ 0 then ((2 ^ e.toNat : Nat) : ℚ) else 1 / ((2 ^ (-e).toNat : Nat) : ℚ)

/-- The number of halvings that take `n` below 2, at most `fuel` of them. -/
def halvings : Nat → Nat → Nat
  | 0, _ => 0
  | fuel + 1, n => if n < 2 then 0 else 1 + halvings fuel (n / 2)

/-- The position of the leading bit of `n`: the `k` with `2 ^ k ≤ n < 2 ^ (k + 1)`, and 0
for `n = 0`. -/
def leading_bit (n : Nat) : Nat := halvings n n

/-- The integer nearest to the non-negative rational `x`, a tie going to the even one. -/
def round_half_even (x : ℚ) : Nat :=
  let n := x.num.natAbs
  let fl := n / x.den
  let rem := n % x.den
  if 2 * rem < x.den then fl
  else if 2 * rem > x.den then fl + 1
  else if fl % 2 = 0 then fl else fl + 1

/-- The value of a C `double` after an operation whose exact result is `q`: IEEE 754 binary64,
rounding to nearest, ties to even, with 53 significant bits down to the subnormal quantum
`2 ^ -1074`. Overflow to infinity is left out: the controller only handles rates. -/
def round_double (q : ℚ) : ℚ :=
  if q = 0 then 0
  else
    let a : ℚ := |q|
    let e0 : Int := (leading_bit q.num.natAbs : Int) - (leading_bit q.den : Int)
    -- the exponent of `a`: `2 ^ e ≤ a < 2 ^ (e + 1)`
    let e : Int := if a < pow2 e0 then e0 - 1 else e0
    -- the spacing of the doubles around `a`
    let qe : Int := max (e - 52) (-1074)
    let r : ℚ := (round_half_even (a / pow2 qe) : ℚ) * pow2 qe
    if q < 0 then -r else r

/-! ## The queue code shared, statement for statement, by both policies -/

/-- The block "Remove from current position" / "Remove from queue" of `move_to_head`,
`AdaptiveClimb_get` and both `remove` functions:
`if (obj->queue.prev) obj->queue.prev->queue.next = obj->queue.next; else q_head = obj->queue.next;`
`if (obj->queue.next) obj->queue.next->queue.prev = obj->queue.prev; else q_tail = obj->queue.prev;` -/
def detach (k : CacheCore) (obj : Nat) : CacheCore :=
  let k1 : CacheCore :=
    match prevOf k.heap obj with
    | some pv => { k with heap := setNext k.heap pv (nextOf k.heap obj) }
    | none => { k with q_head := nextOf k.heap obj }
  match nextOf k1.heap obj with
  | some nx => { k1 with heap := setPrev k1.heap nx (prevOf k1.heap obj) }
  | none => { k1 with q_tail := prevOf k1.heap obj }

/-- The block "Insert at head" / "Move to head" / "Insert new object at head":
`obj->queue.next = q_head; obj->queue.prev = NULL;`
`if (q_head) q_head->queue.prev = obj; else q_tail = obj;`
`q_head = obj;` -/
def insert_at_head (k : CacheCore) (obj : Nat) : CacheCore :=
  let k1 : CacheCore := { k with heap := setNext k.heap obj k.q_head }
  let k2 : CacheCore := { k1 with heap := setPrev k1.heap obj none }
  let k3 : CacheCore :=
    match k2.q_head with
    | some hd => { k2 with heap := setPrev k2.heap hd (some obj) }
    | none => { k2 with q_tail := some obj }
  { k3 with q_head := some obj }

/-- The victim removal of the eviction loop and of `evict`:
`if (victim->queue.prev) victim->queue.prev->queue.next = NULL; else q_head = NULL;`
`q_tail = victim->queue.prev;`
`cache_evict_base(cache, victim, true);` -/
def evict_victim (k : CacheCore) (victim : Nat) : CacheCore :=
  let k1 : CacheCore :=
    match prevOf k.heap victim with
    | some pv => { k with heap := setNext k.heap pv none }
    | none => { k with q_head := none }
  let k2 : CacheCore := { k1 with q_tail := prevOf k1.heap victim }
  k2.evict_base victim true

/-- The loop "Evict if needed" of both `insert` functions:
`while (occupied + req->obj_size + obj_md_size > cache_size)`
`{ victim = q_tail; if (!victim) break; ...remove victim... }`. -/
def evict_loop (req : request_t) : Nat → CacheCore → CacheCore
  | 0, k => k
  | fuel + 1, k =>
    if k.occupied_byte + req.obj_size + k.obj_md_size > k.cache_size then
      match k.q_tail with
      | none => k
      | some victim => evict_loop req fuel (evict_victim k victim)
    else k

/-- The queue from the head along `next`, at most `fuel` objects. -/
def walk_next (h : Heap) : Nat → Option Nat → List Nat
  | 0, _ => []
  | _ + 1, none => []
  | fuel + 1, some a => a :: walk_next h fuel (nextOf h a)

/-- The queue from the tail along `prev`, at most `fuel` objects. -/
def walk_prev (h : Heap) : Nat → Option Nat → List Nat
  | 0, _ => []
  | _ + 1, none => []
  | fuel + 1, some a => a :: walk_prev h fuel (prevOf h a)

/-! ## DynamicAdaptiveClimb.c -/

namespace DynamicAdaptiveClimb

/-- `#define HIT_MISS_WINDOW 1000`. -/
def HIT_MISS_WINDOW : Nat := 1000

/-- `#define MIN_K 5`. -/
def MIN_K : Int := 5

/-- `#define MAX_K 5000`. -/
def MAX_K : Int := 5000

/-- `#define ADJUSTMENT_INTERVAL 10000`. -/
def ADJUSTMENT_INTERVAL : Int := 10000

/-- `#define ADAPTIVECLIMB_FALLBACK_INTERVAL 5`. -/
def ADAPTIVECLIMB_FALLBACK_INTERVAL : Int := 5

/-- `#define EMA_ALPHA 0.3`. -/
def EMA_ALPHA : ℚ := 3 / 10

/-- `struct DynamicAdaptiveClimb_params`. -/
structure DynamicAdaptiveClimb_params_t where
  jump : Int
  jump_prime : Int
  K : Int
  epsilon : ℚ
  q_head : Option Nat
  q_tail : Option Nat
  queue_size : Int
  recent_hits : List Int
  hit_miss_ptr : Nat
  total_requests : Int
  recent_hit_count : Int
  last_miss_rates : List ℚ
  last_hit_rates : List ℚ
  ema_miss_ratio : ℚ
  fallback_counter : Int
  in_fallback : Int

/-- The queue state of a cache of this policy. -/
def toCore (cache : cache_t DynamicAdaptiveClimb_params_t) : CacheCore :=
  { heap := cache.hashtable
    q_head := cache.eviction_params.q_head
    q_tail := cache.eviction_params.q_tail
    occupied_byte := cache.occupied_byte
    cache_size := cache.cache_size
    obj_md_size := cache.obj_md_size }

/-- Write a queue state back into a cache of this policy. -/
def ofCore (cache : cache_t DynamicAdaptiveClimb_params_t) (k : CacheCore) :
    cache_t DynamicAdaptiveClimb_params_t :=
  { hashtable := k.heap
    occupied_byte := k.occupied_byte
    cache_size := k.cache_size
    obj_md_size := k.obj_md_size
    eviction_params := { cache.eviction_params with q_head := k.q_head, q_tail := k.q_tail } }

/-- `update_hit_miss_window`, for a window of `W` slots (`HIT_MISS_WINDOW` in the source). -/
def update_hit_miss_window (W : Nat) (params : DynamicAdaptiveClimb_params_t) (hit : Int) :
    DynamicAdaptiveClimb_params_t :=
  let p1 : DynamicAdaptiveClimb_params_t :=
    if params.recent_hits.getD params.hit_miss_ptr 0 ≠ 0 then
      { params with recent_hit_count := params.recent_hit_count - 1 }
    else params
  let p2 : DynamicAdaptiveClimb_params_t :=
    { p1 with recent_hits := p1.recent_hits.set p1.hit_miss_ptr hit }
  let p3 : DynamicAdaptiveClimb_params_t :=
    if hit ≠ 0 then { p2 with recent_hit_count := p2.recent_hit_count + 1 } else p2
  { p3 with hit_miss_ptr := (p3.hit_miss_ptr + 1) % W }

/-- The local `miss_rate` of `adjust_k_parameter`:
`1.0 - ((double)params->recent_hit_count / HIT_MISS_WINDOW)`, for a window of `W` slots. -/
def miss_rate (W : Nat) (params : DynamicAdaptiveClimb_params_t) : ℚ :=
  1 - (params.recent_hit_count : ℚ) / (W : ℚ)

/-- The local `hit_rate` of `adjust_k_parameter`: `1.0 - miss_rate`. -/
def hit_rate (W : Nat) (params : DynamicAdaptiveClimb_params_t) : ℚ :=
  1 - miss_rate W params

/-- The flag `improving` of `adjust_k_parameter`, computed after the EMA update:
`params->ema_miss_ratio < params->last_miss_rates[2]`. -/
def improving (params : DynamicAdaptiveClimb_params_t) : Bool :=
  decide (EMA_ALPHA * miss_rate HIT_MISS_WINDOW params + (1 - EMA_ALPHA) * params.ema_miss_ratio
    < params.last_miss_rates.getD 2 0)

/-- The block "Check for improvement" of `adjust_k_parameter`, run after the EMA update. -/
def fallback_update (p1 : DynamicAdaptiveClimb_params_t) : DynamicAdaptiveClimb_params_t :=
  let improving : Bool := decide (p1.ema_miss_ratio < p1.last_miss_rates.getD 2 0)
  if improving then
    let q : DynamicAdaptiveClimb_params_t := { p1 with fallback_counter := 0 }
    if q.in_fallback ≠ 0 then { q with in_fallback := 0 } else q
  else
    let q : DynamicAdaptiveClimb_params_t :=
      { p1 with fallback_counter := p1.fallback_counter + 1 }
    if q.fallback_counter ≥ ADAPTIVECLIMB_FALLBACK_INTERVAL then { q with in_fallback := 1 }
    else q

/-- The block "Parameter update logic" of `adjust_k_parameter`; `miss_rate` is the local
variable of that name. -/
def parameter_update (miss_rate : ℚ) (p2 : DynamicAdaptiveClimb_params_t) :
    DynamicAdaptiveClimb_params_t :=
  if p2.in_fallback ≠ 0 then
    -- AdaptiveClimb logic: simple up/down
    if miss_rate > p2.last_miss_rates.getD 2 0 then
      let q : DynamicAdaptiveClimb_params_t :=
        { p2 with K := if p2.K > MIN_K then p2.K - 1 else MIN_K }
      { q with jump := if q.jump < MAX_K then q.jump + 1 else MAX_K }
    else
      let q : DynamicAdaptiveClimb_params_t :=
        { p2 with K := if p2.K < MAX_K then p2.K + 1 else MAX_K }
      { q with jump := if q.jump > MIN_K then q.jump - 1 else MIN_K }
  else
    -- Aggressive DynamicAdaptiveClimb logic
    if miss_rate > p2.last_miss_rates.getD 2 0 then
      let q : DynamicAdaptiveClimb_params_t :=
        { p2 with K := if p2.K > MIN_K then p2.K - 2 else MIN_K }
      { q with jump := if q.jump < MAX_K then q.jump + 2 else MAX_K }
    else
      let q : DynamicAdaptiveClimb_params_t :=
        { p2 with K := if p2.K < MAX_K then p2.K + 2 else MAX_K }
      { q with jump := if q.jump > MIN_K then q.jump - 2 else MIN_K }

/-- The block "Update last miss rates" of `adjust_k_parameter`: six assignments in source
order; `miss_rate` and `hit_rate` are the local variables of those names. -/
def history_update (miss_rate hit_rate : ℚ) (p3 : DynamicAdaptiveClimb_params_t) :
    DynamicAdaptiveClimb_params_t :=
  let p4 : DynamicAdaptiveClimb_params_t :=
    { p3 with last_miss_rates := p3.last_miss_rates.set 0 miss_rate }
  let p5 : DynamicAdaptiveClimb_params_t :=
    { p4 with last_miss_rates := p4.last_miss_rates.set 1 (p4.last_miss_rates.getD 0 0) }
  let p6 : DynamicAdaptiveClimb_params_t :=
    { p5 with last_miss_rates := p5.last_miss_rates.set 2 (p5.last_miss_rates.getD 1 0) }
  let p7 : DynamicAdaptiveClimb_params_t :=
    { p6 with last_hit_rates := p6.last_hit_rates.set 0 hit_rate }
  let p8 : DynamicAdaptiveClimb_params_t :=
    { p7 with last_hit_rates := p7.last_hit_rates.set 1 (p7.last_hit_rates.getD 0 0) }
  { p8 with last_hit_rates := p8.last_hit_rates.set 2 (p8.last_hit_rates.getD 1 0) }

/-- The body of `adjust_k_parameter` below its cadence guard: one controller tick. -/
def controller_tick (params : DynamicAdaptiveClimb_params_t) : DynamicAdaptiveClimb_params_t :=
  let miss_rate : ℚ := miss_rate HIT_MISS_WINDOW params
  let hit_rate : ℚ := 1 - miss_rate
  -- Update EMA
  let p1 : DynamicAdaptiveClimb_params_t :=
    { params with
      ema_miss_ratio := EMA_ALPHA * miss_rate + (1 - EMA_ALPHA) * params.ema_miss_ratio }
  -- Check for improvement
  let p2 := fallback_update p1
  -- Parameter update logic
  let p3 := parameter_update miss_rate p2
  -- Update last miss rates
  history_update miss_rate hit_rate p3

/-- `adjust_k_parameter`: the cadence guard, then the tick. The guard compares a remainder
with 0, so the remainder of C (truncated, `Int.tmod`) and `%` (floored) decide it alike, also
on a wrapped, negative counter (`rem_zero_iff`). -/
def adjust_k_parameter (params : DynamicAdaptiveClimb_params_t) : DynamicAdaptiveClimb_params_t :=
  if params.total_requests % ADJUSTMENT_INTERVAL ≠ 0 then params
  else controller_tick params

/-- `move_to_head`. -/
def move_to_head (cache : cache_t DynamicAdaptiveClimb_params_t) (obj : Option Nat) :
    cache_t DynamicAdaptiveClimb_params_t :=
  match obj with
  | none => cache
  | some o =>
    -- Remove from current position
    let c1 := ofCore cache (detach (toCore cache) o)
    -- Insert at head
    ofCore c1 (insert_at_head (toCore c1) o)

/-- `DynamicAdaptiveClimb_get`. -/
def DynamicAdaptiveClimb_get (cache : cache_t DynamicAdaptiveClimb_params_t) (req : request_t) :
    Bool × cache_t DynamicAdaptiveClimb_params_t :=
  match cache_find_base cache req true with
  | none => (false, cache)
  | some obj =>
    let c1 : cache_t DynamicAdaptiveClimb_params_t :=
      { cache with
        eviction_params :=
          { cache.eviction_params with
            total_requests := wrap_int (cache.eviction_params.total_requests + 1) } }
    let c2 : cache_t DynamicAdaptiveClimb_params_t :=
      { c1 with eviction_params := update_hit_miss_window HIT_MISS_WINDOW c1.eviction_params 1 }
    let c3 := move_to_head c2 (some obj)
    let c4 : cache_t DynamicAdaptiveClimb_params_t :=
      { c3 with eviction_params := adjust_k_parameter c3.eviction_params }
    (true, c4)

/-- `DynamicAdaptiveClimb_find`. -/
def DynamicAdaptiveClimb_find (cache : cache_t DynamicAdaptiveClimb_params_t) (req : request_t)
    (update_cache : Bool) : Option Nat :=
  cache_find_base cache req update_cache

/-- `DynamicAdaptiveClimb_insert`; `fuel` bounds the iterations of the eviction loop. -/
def DynamicAdaptiveClimb_insert (fuel : Nat) (cache : cache_t DynamicAdaptiveClimb_params_t)
    (req : request_t) : Option Nat × cache_t DynamicAdaptiveClimb_params_t :=
  match cache_find_base cache req false with
  | some obj => (some obj, (DynamicAdaptiveClimb_get cache req).2)
  | none =>
    let c1 : cache_t DynamicAdaptiveClimb_params_t :=
      { cache with
        eviction_params :=
          { cache.eviction_params with
            total_requests := wrap_int (cache.eviction_params.total_requests + 1) } }
    let c2 : cache_t DynamicAdaptiveClimb_params_t :=
      { c1 with eviction_params := update_hit_miss_window HIT_MISS_WINDOW c1.eviction_params 0 }
    -- Evict if needed
    let c3 := ofCore c2 (evict_loop req fuel (toCore c2))
    -- Insert new object at head
    let r := (toCore c3).insert_base req
    let c4 := ofCore c3 r.2
    let c5 :=
      match r.1 with
      | some o => ofCore c4 (insert_at_head (toCore c4) o)
      | none => c4
    let c6 : cache_t DynamicAdaptiveClimb_params_t :=
      { c5 with eviction_params := adjust_k_parameter c5.eviction_params }
    (r.1, c6)

/-- `DynamicAdaptiveClimb_to_evict`. -/
def DynamicAdaptiveClimb_to_evict (cache : cache_t DynamicAdaptiveClimb_params_t)
    (_req : request_t) : Option Nat :=
  cache.eviction_params.q_tail

/-- `DynamicAdaptiveClimb_evict`. -/
def DynamicAdaptiveClimb_evict (cache : cache_t DynamicAdaptiveClimb_params_t)
    (_req : request_t) : cache_t DynamicAdaptiveClimb_params_t :=
  match cache.eviction_params.q_tail with
  | none => cache
  | some victim => ofCore cache (evict_victim (toCore cache) victim)

/-- `DynamicAdaptiveClimb_remove`. -/
def DynamicAdaptiveClimb_remove (cache : cache_t DynamicAdaptiveClimb_params_t) (obj_id : Nat) :
    Bool × cache_t DynamicAdaptiveClimb_params_t :=
  match hashtable_find_obj_id cache.hashtable obj_id with
  | none => (false, cache)
  | some obj =>
    -- Remove from queue
    let k1 := detach (toCore cache) obj
    (true, ofCore cache (k1.remove_obj_base obj true))

/-- The fields of `common_cache_params_t` the policies use: the nominal capacity, and the
per-object overhead that the base cache derives from the configuration. -/
structure common_cache_params_t where
  cache_size : Nat
  obj_md_size : Nat

/-- `DynamicAdaptiveClimb_init`, for a window of `W` slots (`HIT_MISS_WINDOW` in the source).
The base constructor `cache_struct_init` (not among the source files) yields an empty registry
with no bytes accounted. `(size_t)(cache_size * 1.20)` is the floor of the exact product,
which the `double` product yields for capacities below about `2 ^ 51` bytes, and
`(int)sqrt((double)cache_size / 1024)` the integer square root of the quotient. -/
def DynamicAdaptiveClimb_init_W (W : Nat) (ccache_params : common_cache_params_t) :
    cache_t DynamicAdaptiveClimb_params_t :=
  let K0 : Int := (Nat.sqrt (ccache_params.cache_size / 1024) : Int)
  let K1 : Int := if K0 < 5 then 5 else K0
  let K2 : Int := if K1 > 5000 then 5000 else K1
  { hashtable := fun _ => none
    occupied_byte := 0
    cache_size := ccache_params.cache_size * 6 / 5
    obj_md_size := ccache_params.obj_md_size
    eviction_params :=
      { K := K2
        jump := K2
        jump_prime := 0
        epsilon := 1 / 10
        q_head := none
        q_tail := none
        queue_size := 0
        hit_miss_ptr := 0
        total_requests := 0
        recent_hit_count := 0
        recent_hits := List.replicate W 0
        last_miss_rates := List.replicate 3 0
        last_hit_rates := List.replicate 3 0
        ema_miss_ratio := 1 / 2
        fallback_counter := 0
        in_fallback := 0 } }

/-- `DynamicAdaptiveClimb_init`. -/
def DynamicAdaptiveClimb_init (ccache_params : common_cache_params_t) :
    cache_t DynamicAdaptiveClimb_params_t :=
  DynamicAdaptiveClimb_init_W HIT_MISS_WINDOW ccache_params

end DynamicAdaptiveClimb

/-! ## AdaptiveClimb.c -/

namespace AdaptiveClimb

/-- `struct AdaptiveClimb_params`. -/
structure AdaptiveClimb_params_t where
  jump : Int
  K : Int
  q_head : Option Nat
  q_tail : Option Nat

/-- `#define HIT_MISS_WINDOW 1000`. -/
def HIT_MISS_WINDOW : Nat := 1000

/-- `#define ADJUSTMENT_INTERVAL 1000`. -/
def ADJUSTMENT_INTERVAL : Int := 1000

/-- `#define MIN_K 5`. -/
def MIN_K : Int := 5

/-- `#define MAX_K 5000`. -/
def MAX_K : Int := 5000

/-- The file-scope `static` variables `recent_hits`, `hit_miss_ptr`, `total_requests`,
`recent_hit_count` and `last_miss_rate`. -/
structure Globals where
  recent_hits : List Int
  hit_miss_ptr : Nat
  total_requests : Int
  recent_hit_count : Int
  last_miss_rate : ℚ

/-- The file-scope variables and one cache of this policy. -/
structure State where
  globals : Globals
  cache : cache_t AdaptiveClimb_params_t

/-- The initial values of the file-scope variables, for a window of `W` slots. -/
def Globals.initial (W : Nat) : Globals :=
  { recent_hits := List.replicate W 0
    hit_miss_ptr := 0
    total_requests := 0
    recent_hit_count := 0
    last_miss_rate := 0 }

/-- The queue state of a cache of this policy. -/
def toCore (cache : cache_t AdaptiveClimb_params_t) : CacheCore :=
  { heap := cache.hashtable
    q_head := cache.eviction_params.q_head
    q_tail := cache.eviction_params.q_tail
    occupied_byte := cache.occupied_byte
    cache_size := cache.cache_size
    obj_md_size := cache.obj_md_size }

/-- Write a queue state back into a cache of this policy. -/
def ofCore (cache : cache_t AdaptiveClimb_params_t) (k : CacheCore) :
    cache_t AdaptiveClimb_params_t :=
  { hashtable := k.heap
    occupied_byte := k.occupied_byte
    cache_size := k.cache_size
    obj_md_size := k.obj_md_size
    eviction_params := { cache.eviction_params with q_head := k.q_head, q_tail := k.q_tail } }

/-- `update_hit_miss_window`, for a window of `W` slots (`HIT_MISS_WINDOW` in the source). -/
def update_hit_miss_window (W : Nat) (g : Globals) (hit : Int) : Globals :=
  let g1 : Globals :=
    if g.recent_hits.getD g.hit_miss_ptr 0 ≠ 0 then
      { g with recent_hit_count := g.recent_hit_count - 1 }
    else g
  let g2 : Globals := { g1 with recent_hits := g1.recent_hits.set g1.hit_miss_ptr hit }
  let g3 : Globals :=
    if hit ≠ 0 then { g2 with recent_hit_count := g2.recent_hit_count + 1 } else g2
  { g3 with hit_miss_ptr := (g3.hit_miss_ptr + 1) % W }

/-- `adjust_k_parameter`. The guard compares a remainder with 0, so the remainder of C
(truncated, `Int.tmod`) and `%` (floored) decide it alike, also on a wrapped, negative
counter (`rem_zero_iff`). -/
def adjust_k_parameter (g : Globals) (params : AdaptiveClimb_params_t) :
    Globals × AdaptiveClimb_params_t :=
  if g.total_requests % ADJUSTMENT_INTERVAL ≠ 0 then (g, params)
  else
    let miss_rate : ℚ := 1 - (g.recent_hit_count : ℚ) / (HIT_MISS_WINDOW : ℚ)
    let p1 : AdaptiveClimb_params_t :=
      if miss_rate > g.last_miss_rate then
        let q : AdaptiveClimb_params_t :=
          { params with K := if params.K > MIN_K then params.K - 2 else MIN_K }
        { q with jump := if q.jump < MAX_K then q.jump + 2 else MAX_K }
      else
        let q : AdaptiveClimb_params_t :=
          { params with K := if params.K < MAX_K then params.K + 2 else MAX_K }
        { q with jump := if q.jump > MIN_K then q.jump - 2 else MIN_K }
    ({ g with last_miss_rate := miss_rate }, p1)

/-- `AdaptiveClimb_get`. -/
def AdaptiveClimb_get (s : State) (req : request_t) : Bool × State :=
  match cache_find_base s.cache req true with
  | none => (false, s)
  | some obj =>
    let g1 : Globals :=
      { s.globals with total_requests := wrap_int (s.globals.total_requests + 1) }
    let g2 := update_hit_miss_window HIT_MISS_WINDOW g1 1
    let r := adjust_k_parameter g2 s.cache.eviction_params
    let c1 : cache_t AdaptiveClimb_params_t := { s.cache with eviction_params := r.2 }
    -- Remove from current position
    let c2 := ofCore c1 (detach (toCore c1) obj)
    -- Move to head (recency)
    let c3 := ofCore c2 (insert_at_head (toCore c2) obj)
    (true, { globals := r.1, cache := c3 })

/-- `AdaptiveClimb_find`. -/
def AdaptiveClimb_find (s : State) (req : request_t) (update_cache : Bool) : Option Nat :=
  cache_find_base s.cache req update_cache

/-- `AdaptiveClimb_insert`; `fuel` bounds the iterations of the eviction loop. -/
def AdaptiveClimb_insert (fuel : Nat) (s : State) (req : request_t) : Option Nat × State :=
  match cache_find_base s.cache req false with
  | some obj => (some obj, (AdaptiveClimb_get s req).2)
  | none =>
    let g1 : Globals :=
      { s.globals with total_requests := wrap_int (s.globals.total_requests + 1) }
    let g2 := update_hit_miss_window HIT_MISS_WINDOW g1 0
    let r := adjust_k_parameter g2 s.cache.eviction_params
    let c1 : cache_t AdaptiveClimb_params_t := { s.cache with eviction_params := r.2 }
    -- Evict if needed
    let c2 := ofCore c1 (evict_loop req fuel (toCore c1))
    -- Insert new object at head
    let i := (toCore c2).insert_base req
    let c3 := ofCore c2 i.2
    let c4 :=
      match i.1 with
      | some o => ofCore c3 (insert_at_head (toCore c3) o)
      | none => c3
    (i.1, { globals := r.1, cache := c4 })

/-- `AdaptiveClimb_to_evict`. -/
def AdaptiveClimb_to_evict (s : State) (_req : request_t) : Option Nat :=
  s.cache.eviction_params.q_tail

/-- `AdaptiveClimb_evict`. -/
def AdaptiveClimb_evict (s : State) (_req : request_t) : State :=
  match s.cache.eviction_params.q_tail with
  | none => s
  | some victim => { s with cache := ofCore s.cache (evict_victim (toCore s.cache) victim) }

/-- `AdaptiveClimb_remove`. -/
def AdaptiveClimb_remove (s : State) (obj_id : Nat) : Bool × State :=
  match hashtable_find_obj_id s.cache.hashtable obj_id with
  | none => (false, s)
  | some obj =>
    -- Remove from queue
    let k1 := detach (toCore s.cache) obj
    (true, { s with cache := ofCore s.cache (k1.remove_obj_base obj true) })

/-- `AdaptiveClimb_init`; the base constructor `cache_struct_init` (not among the source
files) yields an empty registry with no bytes accounted. -/
def AdaptiveClimb_init (cache_size obj_md_size : Nat) : cache_t AdaptiveClimb_params_t :=
  { hashtable := fun _ => none
    occupied_byte := 0
    cache_size := cache_size
    obj_md_size := obj_md_size
    eviction_params := { K := 10, jump := 1, q_head := none, q_tail := none } }

end AdaptiveClimb

/-! ## Specification vocabulary -/

/-- The head of `l`, or `n` when `l` is empty. -/
def headOr (l : List Nat) (n : Option Nat) : Option Nat :=
  match l with
  | [] => n
  | b :: _ => some b

/-- The last entry of `l`, or `p` when `l` is empty. -/
def lastOr : List Nat → Option Nat → Option Nat
  | [], p => p
  | a :: rest, _ => lastOr rest (some a)

/-- A doubly-linked segment: the objects of `l` are live, each `next` is the following entry
(`n` for the last one) and each `prev` is the preceding entry (`p` for the first one). -/
def Seg (h : Heap) : Option Nat → List Nat → Option Nat → Prop
  | _, [], _ => True
  | p, a :: rest, n =>
    (h a).isSome = true ∧ prevOf h a = p ∧ nextOf h a = headOr rest n ∧ Seg h (some a) rest n

/-- The queue of `k` is the list `l`, head first: `q_head` and `q_tail` are its ends (both
null when it is empty), it is a doubly-linked chain closed by null on both sides, and no
object occurs twice. -/
def Linked (k : CacheCore) (l : List Nat) : Prop :=
  k.q_head = l.head? ∧ k.q_tail = l.getLast? ∧ Seg k.heap none l none ∧ l.Nodup

/-- The bytes accounted for the objects of `l`: size plus per-object overhead each. -/
def accounted (k : CacheCore) (l : List Nat) : Nat :=
  (l.map fun a => objSize k.heap a + k.obj_md_size).sum

/-- A well-formed cache whose queue is `l`, head first: the queue is linked, its members are
exactly the registered objects, and the occupied bytes are the bytes accounted for them. -/
def QueueIs (k : CacheCore) (l : List Nat) : Prop :=
  Linked k l ∧ (∀ id, (k.heap id).isSome = true ↔ id ∈ l) ∧ k.occupied_byte = accounted k l

/-- The occupied bytes once the last `i` entries of the queue `l` have been evicted. -/
def occupied_after (k : CacheCore) (l : List Nat) (i : Nat) : Nat :=
  k.occupied_byte - accounted k (l.rtake i)

/-- The loop condition of the insert path. -/
def over_capacity (req : request_t) (k : CacheCore) : Prop :=
  k.occupied_byte + req.obj_size + k.obj_md_size > k.cache_size

instance (req : request_t) (k : CacheCore) : Decidable (over_capacity req k) := by
  unfold over_capacity; infer_instance

/-! ## Runs of operations, requests, recorded outcomes and controller ticks -/

namespace DynamicAdaptiveClimb

/-- The operations of the policy interface that change the cache. -/
inductive Op where
  | insert (req : request_t)
  | get (req : request_t)
  | evict (req : request_t)
  | remove (obj_id : Nat)

/-- One operation of the policy interface. -/
def step (fuel : Nat) (cache : cache_t DynamicAdaptiveClimb_params_t) :
    Op → cache_t DynamicAdaptiveClimb_params_t
  | Op.insert req => (DynamicAdaptiveClimb_insert fuel cache req).2
  | Op.get req => (DynamicAdaptiveClimb_get cache req).2
  | Op.evict req => DynamicAdaptiveClimb_evict cache req
  | Op.remove obj_id => (DynamicAdaptiveClimb_remove cache obj_id).2

/-- A sequence of operations, first to last. -/
def run (fuel : Nat) (cache : cache_t DynamicAdaptiveClimb_params_t) (ops : List Op) :
    cache_t DynamicAdaptiveClimb_params_t :=
  ops.foldl (step fuel) cache

/-- One completed request: `get` on a hit, `insert` on a miss. The result is the hit flag. -/
def process_request (fuel : Nat) (cache : cache_t DynamicAdaptiveClimb_params_t)
    (req : request_t) : Bool × cache_t DynamicAdaptiveClimb_params_t :=
  match cache_find_base cache req false with
  | some _ => DynamicAdaptiveClimb_get cache req
  | none => (false, (DynamicAdaptiveClimb_insert fuel cache req).2)

/-- A sequence of requests, first to last. -/
def run_requests (fuel : Nat) (cache : cache_t DynamicAdaptiveClimb_params_t)
    (reqs : List request_t) : cache_t DynamicAdaptiveClimb_params_t :=
  reqs.foldl (fun c req => (process_request fuel c req).2) cache

/-- The request is a miss whose eviction loop leaves through `if (!victim) break;`: the queue
is empty and the loop condition still holds. -/
def emptied_over_capacity (fuel : Nat) (cache : cache_t DynamicAdaptiveClimb_params_t)
    (req : request_t) : Prop :=
  cache_find_base cache req false = none ∧
  (evict_loop req fuel (toCore cache)).q_tail = none ∧
  over_capacity req (evict_loop req fuel (toCore cache))

instance (fuel : Nat) (cache : cache_t DynamicAdaptiveClimb_params_t) (req : request_t) :
    Decidable (emptied_over_capacity fuel cache req) := by
  unfold emptied_over_capacity; infer_instance

/-- Record a sequence of outcomes, first to last, in a window of `W` slots. -/
def record_all (W : Nat) (params : DynamicAdaptiveClimb_params_t) (outcomes : List Int) :
    DynamicAdaptiveClimb_params_t :=
  outcomes.foldl (update_hit_miss_window W) params

/-- One controller tick taken when the window holds `c` hits. -/
def tick_with (params : DynamicAdaptiveClimb_params_t) (c : Int) :
    DynamicAdaptiveClimb_params_t :=
  controller_tick { params with recent_hit_count := c }

/-- A sequence of controller ticks; the list gives the hit count of the window at each. -/
def ticks (params : DynamicAdaptiveClimb_params_t) (cs : List Int) :
    DynamicAdaptiveClimb_params_t :=
  cs.foldl tick_with params

/-- Every tick of the sequence is non-improving: at each, the updated `ema_miss_ratio` is not
below `last_miss_rates[2]`. -/
def NonImprovingRun : DynamicAdaptiveClimb_params_t → List Int → Prop
  | _, [] => True
  | params, c :: cs =>
    improving { params with recent_hit_count := c } = false ∧
      NonImprovingRun (tick_with params c) cs

/-! ### The controller in the arithmetic of `double`

The rationals above compute the controller exactly. The C code computes it in `double`, where
every operation returns the exact result rounded, once per operation (expressions evaluated
in `double`, no fused multiply-add); `rnd` is that rounding (`round_double` for IEEE 754
binary64, `id` for the exact controller). A `double` is the rational it denotes; the
conversions `(double)params->recent_hit_count` and of `HIT_MISS_WINDOW` are exact. -/

/-- The local `miss_rate` of `adjust_k_parameter` as computed in `double`:
`1.0 - ((double)params->recent_hit_count / HIT_MISS_WINDOW)`, one rounding for the quotient
and one for the difference. -/
def miss_rate_fl (rnd : ℚ → ℚ) (W : Nat) (params : DynamicAdaptiveClimb_params_t) : ℚ :=
  rnd (1 - rnd ((params.recent_hit_count : ℚ) / (W : ℚ)))

/-- The value assigned to `params->ema_miss_ratio` as computed in `double`:
`EMA_ALPHA * miss_rate + (1.0 - EMA_ALPHA) * params->ema_miss_ratio`, with the literal `0.3`
rounded and one rounding for each of the two products, the difference and the sum. -/
def ema_fl (rnd : ℚ → ℚ) (params : DynamicAdaptiveClimb_params_t) : ℚ :=
  rnd (rnd (rnd EMA_ALPHA * miss_rate_fl rnd HIT_MISS_WINDOW params)
    + rnd (rnd (1 - rnd EMA_ALPHA) * params.ema_miss_ratio))

/-- The flag `improving` of `adjust_k_parameter` as computed in `double`. -/
def improving_fl (rnd : ℚ → ℚ) (params : DynamicAdaptiveClimb_params_t) : Bool :=
  decide (ema_fl rnd params < params.last_miss_rates.getD 2 0)

/-- The body of `adjust_k_parameter` below its cadence guard as computed in `double`. -/
def controller_tick_fl (rnd : ℚ → ℚ) (params : DynamicAdaptiveClimb_params_t) :
    DynamicAdaptiveClimb_params_t :=
  let miss_rate : ℚ := miss_rate_fl rnd HIT_MISS_WINDOW params
  let hit_rate : ℚ := rnd (1 - miss_rate)
  -- Update EMA
  let p1 : DynamicAdaptiveClimb_params_t :=
    { params with ema_miss_ratio := ema_fl rnd params }
  -- Check for improvement
  let p2 := fallback_update p1
  -- Parameter update logic
  let p3 := parameter_update miss_rate p2
  -- Update last miss rates
  history_update miss_rate hit_rate p3

/-- One controller tick in `double`, taken when the window holds `c` hits. -/
def tick_with_fl (rnd : ℚ → ℚ) (params : DynamicAdaptiveClimb_params_t) (c : Int) :
    DynamicAdaptiveClimb_params_t :=
  controller_tick_fl rnd { params with recent_hit_count := c }

/-- A sequence of controller ticks in `double`; the list gives the hit count of the window at
each. -/
def ticks_fl (rnd : ℚ → ℚ) (params : DynamicAdaptiveClimb_params_t) (cs : List Int) :
    DynamicAdaptiveClimb_params_t :=
  cs.foldl (tick_with_fl rnd) params

/-- Every tick of the sequence is non-improving in `double`: at each, the updated
`ema_miss_ratio` is not below `last_miss_rates[2]`. -/
def NonImprovingRun_fl (rnd : ℚ → ℚ) : DynamicAdaptiveClimb_params_t → List Int → Prop
  | _, [] => True
  | params, c :: cs =>
    improving_fl rnd { params with recent_hit_count := c } = false ∧
      NonImprovingRun_fl rnd (tick_with_fl rnd params c) cs

end DynamicAdaptiveClimb

namespace AdaptiveClimb

/-- The fresh state of the policy: zeroed file-scope variables and an empty cache. -/
def initial (cache_size obj_md_size : Nat) : State :=
  { globals := Globals.initial HIT_MISS_WINDOW
    cache := AdaptiveClimb_init cache_size obj_md_size }

end AdaptiveClimb

/-! ## The states of the queue scenario -/

namespace DynamicAdaptiveClimb

/-- A fresh cache of nominal capacity 3 (boosted capacity `3 * 6 / 5 = 3`) without per-object
overhead, after admitting the objects 1, 2 and 3 (A, B and C) of size 1 in this order. -/
def scenario_ABC : cache_t DynamicAdaptiveClimb_params_t :=
  (DynamicAdaptiveClimb_insert 3
    (DynamicAdaptiveClimb_insert 3
      (DynamicAdaptiveClimb_insert 3 (DynamicAdaptiveClimb_init ⟨3, 0⟩) ⟨1, 1⟩).2 ⟨2, 1⟩).2
    ⟨3, 1⟩).2

end DynamicAdaptiveClimb

namespace AdaptiveClimb

/-- A fresh cache of capacity 3 without per-object overhead, after admitting the objects 1, 2
and 3 (A, B and C) of size 1 in this order. -/
def scenario_ABC : State :=
  (AdaptiveClimb_insert 3
    (AdaptiveClimb_insert 3 (AdaptiveClimb_insert 3 (initial 3 0) ⟨1, 1⟩).2 ⟨2, 1⟩).2 ⟨3, 1⟩).2

end AdaptiveClimb

/-- Queue integrity in terms of the pointers: for some list `l` without repetition (the chain
is acyclic), `q_head` is the first and `q_tail` the last entry of `l` (both null when `l` is
empty); walking `next` from `q_head` lists exactly `l` and then reaches null, and walking
`prev` from `q_tail` lists `l` backwards and then reaches null, whatever the bound on the
walk beyond the length; along `l` each `next` is the following and each `prev` the preceding
entry; `head.prev` and `tail.next` are null; `q_head` is null exactly when `q_tail` is; and
the members of `l` are exactly the registered objects. -/
def QueueIntegrity (k : CacheCore) : Prop :=
  ∃ l : List Nat, l.Nodup ∧
    k.q_head = l.head? ∧ k.q_tail = l.getLast? ∧
    (∀ fuel, l.length ≤ fuel → walk_next k.heap fuel k.q_head = l) ∧
    (∀ fuel, l.length ≤ fuel → walk_prev k.heap fuel k.q_tail = l.reverse) ∧
    Seg k.heap none l none ∧
    (∀ a, k.q_head = some a → prevOf k.heap a = none) ∧
    (∀ a, k.q_tail = some a → nextOf k.heap a = none) ∧
    (k.q_head = none ↔ k.q_tail = none) ∧
    (∀ id, (k.heap id).isSome = true ↔ id ∈ l)

/-! ## Loop iterations, and requests and ticks of the simple policy -/

/-- The number of iterations that the loop "Evict if needed" performs within `fuel`: the same
recursion as `evict_loop`, counting the evictions. -/
def evict_loop_iterations (req : request_t) : Nat → CacheCore → Nat
  | 0, _ => 0
  | fuel + 1, k =>
    if k.occupied_byte + req.obj_size + k.obj_md_size > k.cache_size then
      match k.q_tail with
      | none => 0
      | some victim => evict_loop_iterations req fuel (evict_victim k victim) + 1
    else 0

namespace AdaptiveClimb

/-- One completed request: `get` on a hit, `insert` on a miss. The result is the hit flag. -/
def process_request (fuel : Nat) (s : State) (req : request_t) : Bool × State :=
  match cache_find_base s.cache req false with
  | some _ => AdaptiveClimb_get s req
  | none => (false, (AdaptiveClimb_insert fuel s req).2)

/-- A sequence of requests, first to last. -/
def run_requests (fuel : Nat) (s : State) (reqs : List request_t) : State :=
  reqs.foldl (fun st req => (process_request fuel st req).2) s

/-- The file-scope variables at the call of `adjust_k_parameter` that a request with outcome
`hit` makes: after `total_requests++` and `update_hit_miss_window(hit)`. -/
def at_adjust (g : Globals) (hit : Int) : Globals :=
  update_hit_miss_window HIT_MISS_WINDOW
    { g with total_requests := wrap_int (g.total_requests + 1) } hit

/-- Whether a call of `adjust_k_parameter` with these file-scope variables gets past the
cadence guard `if (total_requests % ADJUSTMENT_INTERVAL != 0) return;`. -/
def passes_guard (g : Globals) : Bool :=
  decide (g.total_requests % ADJUSTMENT_INTERVAL = 0)

/-- Whether the request ticks the controller: whether its call of `adjust_k_parameter` gets
past the cadence guard. -/
def request_ticks (s : State) (req : request_t) : Bool :=
  match cache_find_base s.cache req false with
  | some _ => passes_guard (at_adjust s.globals 1)
  | none => passes_guard (at_adjust s.globals 0)

/-- The number of requests of a trace that tick the controller. -/
def tick_count (fuel : Nat) : State → List request_t → Nat
  | _, [] => 0
  | s, req :: rest =>
    (if request_ticks s req then 1 else 0) + tick_count fuel (process_request fuel s req).2 rest

/-- One call of `adjust_k_parameter` made when the window holds `c` hits. -/
def tick_with (s : Globals × AdaptiveClimb_params_t) (c : Int) :
    Globals × AdaptiveClimb_params_t :=
  adjust_k_parameter { s.1 with recent_hit_count := c } s.2

/-- A sequence of calls of `adjust_k_parameter`; the list gives the hit count of the window
at each. -/
def ticks (s : Globals × AdaptiveClimb_params_t) (cs : List Int) :
    Globals × AdaptiveClimb_params_t :=
  cs.foldl tick_with s

end AdaptiveClimb

namespace DynamicAdaptiveClimb

/-- The window is consistent: the buffer has `W` slots holding 0 or 1, the cursor is inside it
and `recent_hit_count` is the sum of the slots (`B ++ A` lists them oldest first). -/
def window_consistent (W : Nat) (p : DynamicAdaptiveClimb_params_t) : Prop :=
  ∃ A B, p.recent_hits = A ++ B ∧ p.hit_miss_ptr = A.length ∧ B ≠ [] ∧
    (A ++ B).length = W ∧ p.recent_hit_count = (B ++ A).sum ∧ ∀ v ∈ B ++ A, v = 0 ∨ v = 1

end DynamicAdaptiveClimb

namespace DynamicAdaptiveClimb

/-- The cache of the scenario, queue 3,2,1, beside an object 7 that is live but unlinked: both
its links are null and it is not in the queue. -/
def scenario_unlinked : cache_t DynamicAdaptiveClimb_params_t :=
  { scenario_ABC with
    hashtable := fun i => if i = 7 then some ⟨1, none, none⟩ else scenario_ABC.hashtable i }

end DynamicAdaptiveClimb

namespace DynamicAdaptiveClimb

/-- The outcomes of a sequence of requests, first to last: 1 for a hit, 0 for a miss. -/
def outcomes (fuel : Nat) (cache : cache_t DynamicAdaptiveClimb_params_t) :
    List request_t → List Int
  | [] => []
  | req :: rest =>
    (if (process_request fuel cache req).1 then 1 else 0)
      :: outcomes fuel (process_request fuel cache req).2 rest

end DynamicAdaptiveClimb

/-! ## The position helpers of DynamicAdaptiveClimb.c -/

namespace DynamicAdaptiveClimb

/-- The loop of `get_obj_pos_array` from index `i` with `k` indices left:
`for (...; i < queue_size; ++i) if (queue[i] == obj) return i + 1;` and `return -1` after
it. The array is the list `queue` of pointers. -/
def get_obj_pos_array_from (queue : List (Option Nat)) (obj : Option Nat) : Nat → Nat → Int
  | 0, _ => -1
  | k + 1, i =>
    if queue.getD i none = obj then (i : Int) + 1 -- 1-based
    else get_obj_pos_array_from queue obj k (i + 1)

/-- `get_obj_pos_array`. -/
def get_obj_pos_array (queue : List (Option Nat)) (queue_size : Int) (obj : Option Nat) : Int :=
  get_obj_pos_array_from queue obj queue_size.toNat 0

/-- `get_obj_at_pos_array`. -/
def get_obj_at_pos_array (queue : List (Option Nat)) (queue_size : Int) (pos : Int) :
    Option Nat :=
  if pos < 1 ∨ pos > queue_size then none
  else queue.getD (pos - 1).toNat none

/-- The loop `while (head && head != obj) { head = head->queue.next; pos++; }` of the small
queue branch; the result is the final `(head, pos)`, or `none` when the loop has not ended
within the fuel. -/
def scan_to_obj (h : Heap) (obj : Nat) : Nat → Option Nat → Int → Option (Option Nat × Int)
  | 0, _, _ => none
  | _ + 1, none, pos => some (none, pos)
  | fuel + 1, some a, pos =>
    if a = obj then some (some a, pos) else scan_to_obj h obj fuel (nextOf h a) (pos + 1)

/-- The loop `while (tail->queue.next) tail = tail->queue.next;`; `none` when it has not
ended within the fuel. -/
def find_tail (h : Heap) : Nat → Nat → Option Nat
  | 0, _ => none
  | fuel + 1, a =>
    match nextOf h a with
    | some b => find_tail h fuel b
    | none => some a

/-- The loop "Search from head (first half)":
`while (cur && pos <= queue_size/2) { if (cur == obj) return pos; cur = cur->queue.next; pos++; }`.
The result is `some (some pos)` for `return pos`, `some none` when the loop ends without
returning and `none` when it has not ended within the fuel; `half` is `queue_size/2`. -/
def search_from_head (h : Heap) (obj : Nat) (half : Int) :
    Nat → Option Nat → Int → Option (Option Int)
  | 0, _, _ => none
  | _ + 1, none, _ => some none
  | fuel + 1, some a, pos =>
    if pos ≤ half then
      if a = obj then some (some pos)
      else search_from_head h obj half fuel (nextOf h a) (pos + 1)
    else some none

/-- The loop "Search from tail (second half)":
`while (cur && pos > queue_size/2) { if (cur == obj) return pos; cur = cur->queue.prev; pos--; }`,
with the results of `search_from_head`. -/
def search_from_tail (h : Heap) (obj : Nat) (half : Int) :
    Nat → Option Nat → Int → Option (Option Int)
  | 0, _, _ => none
  | _ + 1, none, _ => some none
  | fuel + 1, some a, pos =>
    if pos > half then
      if a = obj then some (some pos)
      else search_from_tail h obj half fuel (prevOf h a) (pos - 1)
    else some none

/-- `get_obj_pos_optimized`; `none` when a loop has not ended within the fuel. -/
def get_obj_pos_optimized (fuel : Nat) (h : Heap) (head obj : Option Nat) (queue_size : Int) :
    Option Int :=
  match head, obj with
  | none, _ => some (-1)
  | some _, none => some (-1)
  | some hd, some o =>
    -- If object is at head, return 1
    if hd = o then some 1
    -- If object is at tail, return queue_size
    else if nextOf h o = none then some queue_size
    -- For small queues, use full traversal
    else if queue_size ≤ 50 then
      (scan_to_obj h o fuel (some hd) 1).map fun r => if r.1 = some o then r.2 else -1
    else
      -- For large queues, use limited traversal from both ends
      (find_tail h fuel hd).bind fun tail =>
        (search_from_head h o (Int.tdiv queue_size 2) fuel (some hd) 1).bind fun r =>
          match r with
          | some pos => some pos
          | none =>
            (search_from_tail h o (Int.tdiv queue_size 2) fuel (some tail) queue_size).map
              fun r2 => r2.getD (-1)

/-- The loop `for (int i = 1; i < pos && cur; i++) cur = cur->queue.next;` with `k` values of
`i` left. -/
def step_next (h : Heap) : Nat → Option Nat → Option Nat
  | 0, cur => cur
  | _ + 1, none => none
  | k + 1, some a => step_next h k (nextOf h a)

/-- The loop `for (int i = queue_size; i > pos && cur; i--) cur = cur->queue.prev;` with `k`
values of `i` left. -/
def step_prev (h : Heap) : Nat → Option Nat → Option Nat
  | 0, cur => cur
  | _ + 1, none => none
  | k + 1, some a => step_prev h k (prevOf h a)

/-- `get_obj_at_pos_optimized`; the result is the pointer returned, or `none` when the walk
to the tail has not ended within the fuel. -/
def get_obj_at_pos_optimized (fuel : Nat) (h : Heap) (head : Option Nat) (pos queue_size : Int) :
    Option (Option Nat) :=
  match head with
  | none => some none
  | some hd =>
    if pos < 1 ∨ pos > queue_size then some none
    -- If position is 1, return head
    else if pos = 1 then some (some hd)
    -- If position is queue_size, traverse to tail
    else if pos = queue_size then (find_tail h fuel hd).map some
    -- For small positions, traverse from head
    else if pos ≤ Int.tdiv queue_size 2 then some (step_next h (pos - 1).toNat (some hd))
    -- For large positions, traverse from tail
    else (find_tail h fuel hd).map fun t => step_prev h (queue_size - pos).toNat (some t)

/-- A chain of the objects 1 to 60 in this order, each of size 1: a queue beyond the
threshold 50 of `get_obj_pos_optimized`. -/
def chain60 : Heap := fun i =>
  if 1 ≤ i ∧ i ≤ 60 then
    some ⟨1, if i = 1 then none else some (i - 1), if i = 60 then none else some (i + 1)⟩
  else none

end DynamicAdaptiveClimb

/-! ## 3LCache.c -/

namespace Cache3L

/-- Arithmetic on `uint64_t` wraps modulo `2 ^ 64`. -/
def UINT64_MOD : Nat := 2 ^ 64

/-- `struct meta_t`; pointers to nodes are the identifiers of their objects. -/
structure meta_t where
  obj_id : Nat
  size : Nat
  last_access : Nat
  freq : Nat
  prev : Option Nat
  next : Option Nat
deriving DecidableEq, Repr

/-- Allocated metadata nodes by pointer. -/
abbrev MetaHeap := Nat → Option meta_t

/-- `cache_3l_t`: `table` is the registry of identifiers and `metas` the allocated nodes. -/
structure cache_3l_t where
  cache_size : Nat
  current_size : Nat
  table : Nat → Bool
  metas : MetaHeap
  head : Option Nat
  tail : Option Nat
  model_trained : Bool

/-- Read `node->prev`. -/
def nodePrev (m : MetaHeap) (a : Nat) : Option Nat := (m a).bind fun o => o.prev

/-- Read `node->next`. -/
def nodeNext (m : MetaHeap) (a : Nat) : Option Nat := (m a).bind fun o => o.next

/-- Read `node->size`. -/
def nodeSize (m : MetaHeap) (a : Nat) : Nat := ((m a).map fun o => o.size).getD 0

/-- Read `node->obj_id`. -/
def nodeId (m : MetaHeap) (a : Nat) : Nat := ((m a).map fun o => o.obj_id).getD a

/-- Write `a->prev = v`. -/
def setNodePrev (m : MetaHeap) (a : Nat) (v : Option Nat) : MetaHeap :=
  fun i => if i = a then (m i).map fun o => { o with prev := v } else m i

/-- Write `a->next = v`. -/
def setNodeNext (m : MetaHeap) (a : Nat) (v : Option Nat) : MetaHeap :=
  fun i => if i = a then (m i).map fun o => { o with next := v } else m i

/-- Modelled from the spec: `hashtable_find_obj_id` on the table of the 3L cache, which is not
among the source files ("find(id) -> object-or-none"); the node found is the one allocated
for the identifier. -/
def table_find (c : cache_3l_t) (obj_id : Nat) : Option Nat :=
  if c.table obj_id then some obj_id else none

/-- Modelled from the spec: `hashtable_insert` on the table of the 3L cache, which is not
among the source files ("Registry insert"). -/
def table_insert (c : cache_3l_t) (req : request_t) : cache_3l_t :=
  { c with table := fun i => if i = req.obj_id then true else c.table i }

/-- Modelled from the spec: `hashtable_delete_obj_id` on the table of the 3L cache, which is
not among the source files ("delete"). -/
def table_delete (c : cache_3l_t) (obj_id : Nat) : cache_3l_t :=
  { c with table := fun i => if i = obj_id then false else c.table i }

/-- `remove_from_list`. -/
def remove_from_list (c : cache_3l_t) (node : Nat) : cache_3l_t :=
  let c1 : cache_3l_t :=
    match nodePrev c.metas node with
    | some pv => { c with metas := setNodeNext c.metas pv (nodeNext c.metas node) }
    | none => c
  let c2 : cache_3l_t :=
    match nodeNext c1.metas node with
    | some nx => { c1 with metas := setNodePrev c1.metas nx (nodePrev c1.metas node) }
    | none => c1
  let c3 : cache_3l_t :=
    if c2.head = some node then { c2 with head := nodeNext c2.metas node } else c2
  let c4 : cache_3l_t :=
    if c3.tail = some node then { c3 with tail := nodePrev c3.metas node } else c3
  { c4 with metas := setNodePrev (setNodeNext c4.metas node none) node none }

/-- `insert_at_head` of 3LCache.c. -/
def insert_at_head (c : cache_3l_t) (node : Nat) : cache_3l_t :=
  let c1 : cache_3l_t := { c with metas := setNodeNext c.metas node c.head }
  let c2 : cache_3l_t := { c1 with metas := setNodePrev c1.metas node none }
  let c3 : cache_3l_t :=
    match c2.head with
    | some hd => { c2 with metas := setNodePrev c2.metas hd (some node) }
    | none => c2
  let c4 : cache_3l_t := { c3 with head := some node }
  if c4.tail = none then { c4 with tail := some node } else c4

/-- `cache_3l_lookup`; `clock_time` stands for `req->clock_time`. -/
def cache_3l_lookup (c : cache_3l_t) (req : request_t) (clock_time : Nat) :
    Bool × cache_3l_t :=
  match table_find c req.obj_id with
  | some node =>
    -- Cache hit: update metadata
    let c1 : cache_3l_t :=
      { c with
        metas := fun i =>
          if i = node then
            (c.metas i).map fun o =>
              { o with last_access := clock_time, freq := (o.freq + 1) % UINT64_MOD }
          else c.metas i }
    (true, insert_at_head (remove_from_list c1 node) node)
  | none => (false, c)

/-- `cache_3l_admit`; the new node is allocated under the identifier of the object. -/
def cache_3l_admit (c : cache_3l_t) (req : request_t) (clock_time : Nat) : cache_3l_t :=
  -- If object is too large, skip
  if req.obj_size > c.cache_size then c
  else
    let node : Nat := req.obj_id
    let c1 : cache_3l_t :=
      { c with
        metas := fun i =>
          if i = node then some ⟨req.obj_id, req.obj_size, clock_time, 1, none, none⟩
          else c.metas i }
    -- Insert into table and LRU list
    let c2 := table_insert c1 req
    let c3 := insert_at_head c2 node
    { c3 with current_size := (c3.current_size + req.obj_size) % UINT64_MOD }

/-- The body of the loop of `cache_3l_evict` for the victim `cache->tail`:
`remove_from_list`, `hashtable_delete_obj_id`, `current_size -= victim->size`, `free`. -/
def evict_body (c : cache_3l_t) (victim : Nat) : cache_3l_t :=
  let c1 := remove_from_list c victim
  let c2 := table_delete c1 (nodeId c1.metas victim)
  let c3 : cache_3l_t :=
    { c2 with
      current_size := (c2.current_size + UINT64_MOD - nodeSize c2.metas victim) % UINT64_MOD }
  { c3 with metas := fun i => if i = victim then none else c3.metas i }

/-- `cache_3l_evict`: `while (cache->current_size > cache->cache_size && cache->tail)`.
The result is `none` when the loop has not ended within `fuel` iterations. -/
def cache_3l_evict : Nat → cache_3l_t → Option cache_3l_t
  | 0, c =>
    if c.current_size > c.cache_size then
      match c.tail with
      | some _ => none
      | none => some c
    else some c
  | fuel + 1, c =>
    if c.current_size > c.cache_size then
      match c.tail with
      | some victim => cache_3l_evict fuel (evict_body c victim)
      | none => some c
    else some c

/-- The condition of the loop of the miss path of `cache_3l_get`:
`c->current_size + req->obj_size > c->cache_size`, the sum taken in `uint64_t`. -/
def miss_loop_condition (c : cache_3l_t) (req : request_t) : Bool :=
  decide ((c.current_size + req.obj_size) % UINT64_MOD > c.cache_size)

/-- The loop of the miss path of `cache_3l_get`:
`while (c->current_size + req->obj_size > c->cache_size) { cache_3l_evict(c); }`.
Each call of `cache_3l_evict` may take `efuel` iterations; the result is `none` when the
loop has not ended within `fuel` iterations. -/
def miss_loop (efuel : Nat) (req : request_t) : Nat → cache_3l_t → Option cache_3l_t
  | 0, c => if miss_loop_condition c req then none else some c
  | fuel + 1, c =>
    if miss_loop_condition c req then
      (cache_3l_evict efuel c).bind fun c1 => miss_loop efuel req fuel c1
    else some c

/-- The state after `n` executions of the body of the loop of the miss path. -/
def miss_loop_state (efuel : Nat) : Nat → cache_3l_t → Option cache_3l_t
  | 0, c => some c
  | n + 1, c => (cache_3l_evict efuel c).bind fun c1 => miss_loop_state efuel n c1

/-- `cache_3l_get` on the `cache_3l_t` behind `cache->eviction_params`; `none` when it does
not return within the fuel. -/
def cache_3l_get (efuel fuel : Nat) (c : cache_3l_t) (req : request_t) (clock_time : Nat) :
    Option (Bool × cache_3l_t) :=
  match cache_3l_lookup c req clock_time with
  | (true, c1) => some (true, c1)
  | (false, c1) =>
    -- Miss: admit and evict as needed
    (miss_loop efuel req fuel c1).map fun c2 => (false, cache_3l_admit c2 req clock_time)

/-- The `cache_3l_t` set up by `cache_3l_init`; `create_hashtable`, not among the source
files, gives an empty table. -/
def cache_3l_init (ccache_params : DynamicAdaptiveClimb.common_cache_params_t) : cache_3l_t :=
  { cache_size := ccache_params.cache_size
    current_size := 0
    table := fun _ => false
    metas := fun _ => none
    head := none
    tail := none
    model_trained := false }

/-- A cache of capacity 10 after the admission of object 1 of size 8. -/
def scenario_one : cache_3l_t :=
  cache_3l_admit (cache_3l_init ⟨10, 0⟩) ⟨1, 8⟩ 0

end Cache3L

/-! ## Deciding the shape of a concrete queue -/

/-- Whether a concrete list is a doubly-linked segment of a concrete heap can be computed. -/
instance Seg.instDecidable (h : Heap) :
    ∀ (p : Option Nat) (l : List Nat) (n : Option Nat), Decidable (Seg h p l n)
  | _, [], _ => isTrue trivial
  | p, a :: rest, n =>
    have := Seg.instDecidable h (some a) rest n
    (inferInstance : Decidable
      ((h a).isSome = true ∧ prevOf h a = p ∧ nextOf h a = headOr rest n ∧
        Seg h (some a) rest n))

instance (k : CacheCore) (l : List Nat) : Decidable (Linked k l) := by
  unfold Linked; infer_instance

namespace DynamicAdaptiveClimb

/-- A cache whose queue is the chain of the objects 1 to 60, with `queue_size` set to 60. -/
def scenario_chain60 : cache_t DynamicAdaptiveClimb_params_t :=
  { hashtable := chain60
    occupied_byte := 60
    cache_size := 120
    obj_md_size := 0
    eviction_params :=
      { (DynamicAdaptiveClimb_init ⟨100, 0⟩).eviction_params with
        q_head := some 1, q_tail := some 60, queue_size := 60 } }

end DynamicAdaptiveClimb

/-! ## Wrapping of C integers -/

theorem wrap_int_small (x : Int) (h0 : -2 ^ 31 ≤ x) (h1 : x < 2 ^ 31) : wrap_int x = x := by
  unfold wrap_int; omega

theorem wrap_int_over (x : Int) (h0 : 2 ^ 31 ≤ x) (h1 : x < 2 ^ 31 + 2 ^ 32) :
    wrap_int x = x - 2 ^ 32 := by
  unfold wrap_int; omega

theorem wrap_int_add (a b : Int) : wrap_int (wrap_int a + b) = wrap_int (a + b) := by
  unfold wrap_int; omega

/-- The truncated remainder of C is zero exactly when the floored one is. -/
theorem rem_zero_iff (x n : Int) : Int.tmod x n = 0 ↔ x % n = 0 :=
  ⟨fun h => Int.emod_eq_zero_of_dvd (Int.dvd_of_tmod_eq_zero h),
    fun h => Int.tmod_eq_zero_of_dvd (Int.dvd_of_emod_eq_zero h)⟩

theorem wrap_int_succ (t : Nat) (h : t + 1 < 2 ^ 31) :
    wrap_int ((t : Int) + 1) = ((t + 1 : Nat) : Int) := by
  unfold wrap_int; push_cast; omega

theorem wrap_int_natCast (n : Nat) (h : n < 2 ^ 31) : wrap_int (n : Int) = n := by
  unfold wrap_int; omega

/-- From the request that wraps the counter up to request 2147484000 the wrapped counter is
never a multiple of 1000. -/
theorem wrap_int_succ_no_tick (t : Nat) (h0 : 2147483647 ≤ t) (h1 : t < 2147484000) :
    wrap_int ((t : Int) + 1) % 1000 ≠ 0 := by
  rw [wrap_int_over _ (by omega) (by omega)]; omega

/-- Below the range of `int` the guard of the next request sees the plain count. -/
theorem wrap_int_succ_guard (t : Nat) (h : t < 2 ^ 31) :
    wrap_int ((t : Int) + 1) % 1000 = 0 ↔ (t + 1) % 1000 = 0 := by
  by_cases h1 : t + 1 < 2 ^ 31
  · rw [wrap_int_small _ (by omega) (by omega)]; omega
  · have ht : t = 2147483647 := by omega
    subst ht; decide!

/-! ## Heap lemmas -/

theorem isSome_setPrev (h : Heap) (a b : Nat) (v : Option Nat) :
    ((setPrev h a v) b).isSome = (h b).isSome := by
  unfold setPrev; split_ifs <;> simp

theorem isSome_setNext (h : Heap) (a b : Nat) (v : Option Nat) :
    ((setNext h a v) b).isSome = (h b).isSome := by
  unfold setNext; split_ifs <;> simp

theorem objSize_setPrev (h : Heap) (a b : Nat) (v : Option Nat) :
    objSize (setPrev h a v) b = objSize h b := by
  unfold objSize setPrev; split_ifs <;> cases h b <;> simp

theorem objSize_setNext (h : Heap) (a b : Nat) (v : Option Nat) :
    objSize (setNext h a v) b = objSize h b := by
  unfold objSize setNext; split_ifs <;> cases h b <;> simp

theorem prevOf_setNext (h : Heap) (a b : Nat) (v : Option Nat) :
    prevOf (setNext h a v) b = prevOf h b := by
  unfold prevOf setNext; split_ifs <;> cases h b <;> simp

theorem nextOf_setPrev (h : Heap) (a b : Nat) (v : Option Nat) :
    nextOf (setPrev h a v) b = nextOf h b := by
  unfold nextOf setPrev; split_ifs <;> cases h b <;> simp

theorem prevOf_setPrev_ne (h : Heap) {a b : Nat} (v : Option Nat) (hne : b ≠ a) :
    prevOf (setPrev h a v) b = prevOf h b := by
  unfold prevOf setPrev; simp [hne]

theorem nextOf_setNext_ne (h : Heap) {a b : Nat} (v : Option Nat) (hne : b ≠ a) :
    nextOf (setNext h a v) b = nextOf h b := by
  unfold nextOf setNext; simp [hne]

theorem prevOf_setPrev_self (h : Heap) {a : Nat} (v : Option Nat) (ha : (h a).isSome = true) :
    prevOf (setPrev h a v) a = v := by
  unfold prevOf setPrev
  cases hx : h a with
  | none => simp [hx] at ha
  | some o => simp

theorem nextOf_setNext_self (h : Heap) {a : Nat} (v : Option Nat) (ha : (h a).isSome = true) :
    nextOf (setNext h a v) a = v := by
  unfold nextOf setNext
  cases hx : h a with
  | none => simp [hx] at ha
  | some o => simp

/-! ## Segment lemmas -/

theorem headOr_append (l1 l2 : List Nat) (n : Option Nat) :
    headOr (l1 ++ l2) n = headOr l1 (headOr l2 n) := by
  cases l1 <;> rfl

theorem headOr_none (l : List Nat) : headOr l none = l.head? := by
  cases l <;> rfl

theorem lastOr_concat (l : List Nat) (a : Nat) (p : Option Nat) :
    lastOr (l ++ [a]) p = some a := by
  induction l generalizing p with
  | nil => rfl
  | cons b rest ih => exact ih (some b)

theorem lastOr_none (l : List Nat) : lastOr l none = l.getLast? := by
  rcases List.eq_nil_or_concat l with rfl | ⟨l0, a, rfl⟩
  · rfl
  · rw [List.concat_eq_append, lastOr_concat]; simp

theorem Seg.isSome {h : Heap} {p n : Option Nat} {l : List Nat} (hs : Seg h p l n) :
    ∀ a ∈ l, (h a).isSome = true := by
  induction l generalizing p with
  | nil => intro a ha; cases ha
  | cons b rest ih =>
    intro a ha
    rcases List.mem_cons.1 ha with rfl | ha
    · exact hs.1
    · exact ih hs.2.2.2 a ha

/-- A segment only depends on the links of its own objects. -/
theorem Seg.frame {h h' : Heap} {p n : Option Nat} {l : List Nat} (hs : Seg h p l n)
    (hsome : ∀ a ∈ l, (h' a).isSome = (h a).isSome)
    (hprev : ∀ a ∈ l, prevOf h' a = prevOf h a)
    (hnext : ∀ a ∈ l, nextOf h' a = nextOf h a) : Seg h' p l n := by
  induction l generalizing p with
  | nil => trivial
  | cons b rest ih =>
    have hb : b ∈ b :: rest := List.mem_cons_self _ _
    refine ⟨by rw [hsome b hb]; exact hs.1, by rw [hprev b hb]; exact hs.2.1,
      by rw [hnext b hb]; exact hs.2.2.1, ?_⟩
    exact ih hs.2.2.2 (fun a ha => hsome a (List.mem_cons_of_mem _ ha))
      (fun a ha => hprev a (List.mem_cons_of_mem _ ha))
      (fun a ha => hnext a (List.mem_cons_of_mem _ ha))

theorem seg_append (h : Heap) (p n : Option Nat) (l1 l2 : List Nat) :
    Seg h p (l1 ++ l2) n ↔ Seg h p l1 (headOr l2 n) ∧ Seg h (lastOr l1 p) l2 n := by
  induction l1 generalizing p with
  | nil => simp [Seg, lastOr]
  | cons a rest ih =>
    have e : (a :: rest) ++ l2 = a :: (rest ++ l2) := rfl
    rw [e]
    constructor
    · rintro ⟨h1, h2, h3, h4⟩
      rw [headOr_append] at h3
      have h5 := (ih (some a)).1 h4
      exact ⟨⟨h1, h2, h3, h5.1⟩, h5.2⟩
    · rintro ⟨⟨h1, h2, h3, h4⟩, h5⟩
      exact ⟨h1, h2, by rw [headOr_append]; exact h3, (ih (some a)).2 ⟨h4, h5⟩⟩

/-- Redirect the `next` link of the last object of a segment. -/
theorem Seg.setNext_last {h : Heap} {p n : Option Nat} {l : List Nat} {a : Nat}
    (hs : Seg h p (l ++ [a]) n) (ha : a ∉ l) (n' : Option Nat) :
    Seg (setNext h a n') p (l ++ [a]) n' := by
  rw [seg_append] at hs ⊢
  obtain ⟨h1, h2⟩ := hs
  constructor
  · exact h1.frame (fun b _ => isSome_setNext h a b n') (fun b _ => prevOf_setNext h a b n')
      (fun b hb => nextOf_setNext_ne h n' (fun e => ha (e ▸ hb)))
  · exact ⟨by rw [isSome_setNext]; exact h2.1, by rw [prevOf_setNext]; exact h2.2.1,
      by rw [nextOf_setNext_self h n' h2.1]; rfl, trivial⟩

/-- Redirect the `prev` link of the first object of a segment. -/
theorem Seg.setPrev_head {h : Heap} {p n : Option Nat} {l : List Nat} {a : Nat}
    (hs : Seg h p (a :: l) n) (ha : a ∉ l) (p' : Option Nat) :
    Seg (setPrev h a p') p' (a :: l) n := by
  refine ⟨by rw [isSome_setPrev]; exact hs.1, prevOf_setPrev_self h p' hs.1,
    by rw [nextOf_setPrev]; exact hs.2.2.1, ?_⟩
  exact hs.2.2.2.frame (fun b _ => isSome_setPrev h a b p')
    (fun b hb => prevOf_setPrev_ne h p' (fun e => ha (e ▸ hb)))
    (fun b _ => nextOf_setPrev h a b p')

/-- Walking `next` from the first object of a null-terminated segment lists the segment. -/
theorem seg_walk_next {h : Heap} {p : Option Nat} {l : List Nat} (hs : Seg h p l none)
    (fuel : Nat) (hf : l.length ≤ fuel) : walk_next h fuel l.head? = l := by
  induction l generalizing p fuel with
  | nil => cases fuel <;> rfl
  | cons a rest ih =>
    cases fuel with
    | zero => simp at hf
    | succ f =>
      have hn : nextOf h a = rest.head? := by rw [hs.2.2.1, headOr_none]
      simp only [List.head?_cons, walk_next, hn]
      rw [ih hs.2.2.2 f (by simpa using hf)]

/-- Walking `prev` from the last object of a segment that starts at null lists the segment
backwards. -/
theorem seg_walk_prev {h : Heap} {n : Option Nat} {l : List Nat} (hs : Seg h none l n)
    (fuel : Nat) (hf : l.length ≤ fuel) : walk_prev h fuel l.getLast? = l.reverse := by
  induction l using List.reverseRecOn generalizing n fuel with
  | nil => cases fuel <;> rfl
  | append_singleton l0 a ih =>
    cases fuel with
    | zero => simp at hf
    | succ f =>
      rw [seg_append] at hs
      have hp : prevOf h a = l0.getLast? := by rw [hs.2.2.1, lastOr_none]
      simp only [List.getLast?_append, List.getLast?_singleton, Option.or, walk_prev, hp,
        List.reverse_append, List.reverse_cons, List.reverse_nil, List.nil_append,
        List.singleton_append]
      rw [ih hs.1 f (by simpa using hf)]

/-! ## The queue blocks on a linked queue -/

theorem detach_frame (k : CacheCore) (x : Nat) :
    (∀ a, ((detach k x).heap a).isSome = (k.heap a).isSome) ∧
    (∀ a, objSize (detach k x).heap a = objSize k.heap a) ∧
    (detach k x).occupied_byte = k.occupied_byte ∧
    (detach k x).cache_size = k.cache_size ∧ (detach k x).obj_md_size = k.obj_md_size := by
  dsimp only [detach]
  refine ⟨?_, ?_, ?_, ?_, ?_⟩ <;>
    (split <;> split <;>
      simp [isSome_setPrev, isSome_setNext, objSize_setPrev, objSize_setNext])

theorem insert_at_head_frame (k : CacheCore) (x : Nat) :
    (∀ a, ((insert_at_head k x).heap a).isSome = (k.heap a).isSome) ∧
    (∀ a, objSize (insert_at_head k x).heap a = objSize k.heap a) ∧
    (insert_at_head k x).occupied_byte = k.occupied_byte ∧
    (insert_at_head k x).cache_size = k.cache_size ∧
    (insert_at_head k x).obj_md_size = k.obj_md_size := by
  dsimp only [insert_at_head]
  refine ⟨?_, ?_, ?_, ?_, ?_⟩ <;>
    (split <;> simp [isSome_setPrev, isSome_setNext, objSize_setPrev, objSize_setNext])

theorem linked_nil_iff (k : CacheCore) :
    Linked k [] ↔ k.q_head = none ∧ k.q_tail = none := by
  simp [Linked, Seg]

/-- Detaching a queued object leaves the other objects linked in their old order. -/
theorem detach_linked {k : CacheCore} {pre post : List Nat} {x : Nat}
    (hl : Linked k (pre ++ x :: post)) : Linked (detach k x) (pre ++ post) := by
  obtain ⟨hh, ht, hs, hnd⟩ := hl
  rw [seg_append] at hs
  obtain ⟨hs1, hx, hpx, hnx, hs3⟩ := hs
  have hnd' := List.nodup_append.1 hnd
  have hxpre : x ∉ pre := fun hm => hnd'.2.2 hm (List.mem_cons_self _ _)
  have hxpost : x ∉ post := (List.nodup_cons.1 hnd'.2.1).1
  have hpost : post.Nodup := (List.nodup_cons.1 hnd'.2.1).2
  have hdisj : ∀ a, a ∈ pre → a ∉ post := fun a ha hb =>
    hnd'.2.2 ha (List.mem_cons_of_mem _ hb)
  have hnd2 : (pre ++ post).Nodup :=
    List.nodup_append.2 ⟨hnd'.1, hpost, fun a ha hb => hdisj a ha hb⟩
  rcases List.eq_nil_or_concat pre with rfl | ⟨pre0, pv, rfl⟩
  · -- the object is the head
    have hp : prevOf k.heap x = none := hpx
    cases post with
    | nil =>
      have hn : nextOf k.heap x = none := hnx
      have e : detach k x = { k with q_head := none, q_tail := none } := by
        unfold detach; simp [hp, hn]
      rw [e]; exact (linked_nil_iff _).2 ⟨rfl, rfl⟩
    | cons nx post0 =>
      have hn : nextOf k.heap x = some nx := hnx
      have e : detach k x = { k with q_head := some nx, heap := setPrev k.heap nx none } := by
        unfold detach; simp [hp, hn]
      rw [e]
      refine ⟨rfl, ?_, ?_, hnd2⟩
      · simpa using ht
      · exact hs3.setPrev_head (List.nodup_cons.1 hpost).1 none
  · -- the object has a predecessor
    rw [List.concat_eq_append] at hs1 hpx hxpre hdisj hnd2 hh ⊢
    have hp : prevOf k.heap x = some pv := by rw [hpx, lastOr_concat]
    have hpvx : x ≠ pv := fun e => hxpre (by simp [e])
    have hpvpre : pv ∉ pre0 := by
      have h1 := hnd'.1
      rw [List.concat_eq_append] at h1
      exact fun hm => (List.nodup_append.1 h1).2.2 hm (List.mem_singleton_self _)
    have hpvpost : pv ∉ post := hdisj pv (by simp)
    cases post with
    | nil =>
      have hn : nextOf k.heap x = none := hnx
      have e : detach k x = { k with heap := setNext k.heap pv none, q_tail := some pv } := by
        unfold detach; simp [hp, hn, nextOf_setNext_ne _ _ hpvx, prevOf_setNext]
      rw [e]
      refine ⟨?_, ?_, ?_, hnd2⟩
      · simpa [List.head?_append] using hh
      · simp
      · simpa using hs1.setNext_last hpvpre none
    | cons nx post0 =>
      have hn : nextOf k.heap x = some nx := hnx
      have e : detach k x =
          { k with heap := setPrev (setNext k.heap pv (some nx)) nx (some pv) } := by
        unfold detach; simp [hp, hn, nextOf_setNext_ne _ _ hpvx, prevOf_setNext]
      rw [e]
      have hnxpre : nx ∉ pre0 ++ [pv] := fun hm => hdisj nx hm (List.mem_cons_self _ _)
      refine ⟨?_, ?_, ?_, hnd2⟩
      · simpa [List.head?_append] using hh
      · simpa [List.getLast?_append] using ht
      · rw [seg_append]
        constructor
        · exact (hs1.setNext_last hpvpre (some nx)).frame (fun b _ => isSome_setPrev _ _ _ _)
            (fun b hb => prevOf_setPrev_ne _ _ (fun e => hnxpre (e ▸ hb)))
            (fun b _ => nextOf_setPrev _ _ _ _)
        · rw [lastOr_concat]
          have hs3' : Seg (setNext k.heap pv (some nx)) (some x) (nx :: post0) none :=
            hs3.frame (fun b _ => isSome_setNext _ _ _ _) (fun b _ => prevOf_setNext _ _ _ _)
              (fun b hb => nextOf_setNext_ne _ _ (fun e => hpvpost (e ▸ hb)))
          exact hs3'.setPrev_head (List.nodup_cons.1 hpost).1 (some pv)

/-- Linking a live object that is not queued in front of a linked queue. -/
theorem insert_at_head_linked {k : CacheCore} {l : List Nat} {x : Nat} (hl : Linked k l)
    (hx : x ∉ l) (hlive : (k.heap x).isSome = true) : Linked (insert_at_head k x) (x :: l) := by
  obtain ⟨hh, ht, hs, hnd⟩ := hl
  have hnd2 : (x :: l).Nodup := List.nodup_cons.2 ⟨hx, hnd⟩
  cases l with
  | nil =>
    have hq : k.q_head = none := hh
    have e : insert_at_head k x =
        { k with heap := setPrev (setNext k.heap x none) x none, q_tail := some x,
                 q_head := some x } := by
      simp [insert_at_head, hq]
    rw [e]
    refine ⟨rfl, rfl, ⟨?_, ?_, ?_, trivial⟩, hnd2⟩
    · rw [isSome_setPrev, isSome_setNext]; exact hlive
    · exact prevOf_setPrev_self _ _ (by rw [isSome_setNext]; exact hlive)
    · rw [nextOf_setPrev]; exact nextOf_setNext_self _ _ hlive
  | cons hd rest =>
    have hq : k.q_head = some hd := hh
    have e : insert_at_head k x =
        { k with heap := setPrev (setPrev (setNext k.heap x (some hd)) x none) hd (some x),
                 q_head := some x } := by
      simp [insert_at_head, hq]
    rw [e]
    have hxhd : x ≠ hd := fun e => hx (by simp [e])
    have hs2 : Seg (setPrev (setNext k.heap x (some hd)) x none) none (hd :: rest) none :=
      hs.frame (fun b _ => by rw [isSome_setPrev, isSome_setNext])
        (fun b hb => by
          have hbx : b ≠ x := fun e => hx (e ▸ hb)
          rw [prevOf_setPrev_ne _ _ hbx, prevOf_setNext])
        (fun b hb => by
          have hbx : b ≠ x := fun e => hx (e ▸ hb)
          rw [nextOf_setPrev, nextOf_setNext_ne _ _ hbx])
    refine ⟨rfl, ?_, ⟨?_, ?_, ?_, ?_⟩, hnd2⟩
    · simpa using ht
    · rw [isSome_setPrev, isSome_setPrev, isSome_setNext]; exact hlive
    · rw [prevOf_setPrev_ne _ _ hxhd]
      exact prevOf_setPrev_self _ _ (by rw [isSome_setNext]; exact hlive)
    · rw [nextOf_setPrev, nextOf_setPrev]; exact nextOf_setNext_self _ _ hlive
    · exact hs2.setPrev_head (List.nodup_cons.1 hnd).1 (some x)

theorem accounted_append (k : CacheCore) (l1 l2 : List Nat) :
    accounted k (l1 ++ l2) = accounted k l1 + accounted k l2 := by
  simp [accounted]

theorem accounted_congr {k k' : CacheCore} {l : List Nat}
    (hsz : ∀ a ∈ l, objSize k'.heap a = objSize k.heap a) (hmd : k'.obj_md_size = k.obj_md_size) :
    accounted k' l = accounted k l := by
  unfold accounted
  congr 1
  apply List.map_congr_left
  intro a ha
  rw [hsz a ha, hmd]

theorem accounted_perm (k : CacheCore) {l1 l2 : List Nat} (hp : l1.Perm l2) :
    accounted k l1 = accounted k l2 :=
  (hp.map _).sum_eq

/-- Deleting from the registry an object that has been taken out of the queue. -/
theorem remove_obj_base_queueIs {k : CacheCore} {l : List Nat} {t : Nat} (hl : Linked k l)
    (ht : t ∉ l) (hreg : ∀ id, (k.heap id).isSome = true ↔ id ∈ l ∨ id = t)
    (hocc : k.occupied_byte = accounted k l + (objSize k.heap t + k.obj_md_size)) :
    QueueIs (k.remove_obj_base t true) l := by
  obtain ⟨hh, htl, hs, hnd⟩ := hl
  have hne : ∀ a ∈ l, a ≠ t := fun a ha e => ht (e ▸ ha)
  have hheap : ∀ a ∈ l, (k.remove_obj_base t true).heap a = k.heap a := by
    intro a ha
    simp [CacheCore.remove_obj_base, hne a ha]
  refine ⟨⟨hh, htl, ?_, hnd⟩, ?_, ?_⟩
  · exact hs.frame (fun a ha => by rw [hheap a ha])
      (fun a ha => by unfold prevOf; rw [hheap a ha])
      (fun a ha => by unfold nextOf; rw [hheap a ha])
  · intro id
    by_cases hid : id = t
    · subst hid
      simp [CacheCore.remove_obj_base, ht]
    · have := hreg id
      simp only [CacheCore.remove_obj_base, if_true, if_neg hid]
      simpa [hid] using this
  · have hacc : accounted (k.remove_obj_base t true) l = accounted k l :=
      accounted_congr (fun a ha => by unfold objSize; rw [hheap a ha]) rfl
    rw [hacc]
    show k.occupied_byte - (objSize k.heap t + k.obj_md_size) = accounted k l
    omega

/-- Evicting the tail of a well-formed queue leaves the well-formed queue without it. -/
theorem evict_victim_queueIs {k : CacheCore} {init : List Nat} {t : Nat}
    (hq : QueueIs k (init ++ [t])) : QueueIs (evict_victim k t) init := by
  obtain ⟨⟨hh, htl, hs, hnd⟩, hreg, hocc⟩ := hq
  have hs0 := hs
  rw [seg_append] at hs
  obtain ⟨hs1, hlive, hpt, -, -⟩ := hs
  have hnd' := List.nodup_append.1 hnd
  have htinit : t ∉ init := fun hm => hnd'.2.2 hm (List.mem_singleton_self _)
  have hreg' : ∀ (h' : Heap), (∀ a, (h' a).isSome = (k.heap a).isSome) →
      ∀ id, (h' id).isSome = true ↔ id ∈ init ∨ id = t := by
    intro h' hh' id
    rw [hh' id, hreg id]; simp
  have hocc' : k.occupied_byte = accounted k init + (objSize k.heap t + k.obj_md_size) := by
    rw [hocc, accounted_append]; simp [accounted]
  rcases List.eq_nil_or_concat init with rfl | ⟨init0, pv, rfl⟩
  · have hp : prevOf k.heap t = none := hpt
    have e : evict_victim k t =
        ({ k with q_head := none, q_tail := none } : CacheCore).remove_obj_base t true := by
      simp [evict_victim, hp, CacheCore.evict_base]
    rw [e]
    exact remove_obj_base_queueIs ((linked_nil_iff _).2 ⟨rfl, rfl⟩) htinit
      (hreg' _ (fun _ => rfl)) hocc'
  · rw [List.concat_eq_append] at hs1 hpt htinit hreg' hocc' hh hnd' ⊢
    have hp : prevOf k.heap t = some pv := by rw [hpt, lastOr_concat]
    have e : evict_victim k t =
        ({ k with heap := setNext k.heap pv none, q_tail := some pv } :
          CacheCore).remove_obj_base t true := by
      simp [evict_victim, hp, CacheCore.evict_base, prevOf_setNext]
    rw [e]
    have hpv : pv ∉ init0 := fun hm =>
      (List.nodup_append.1 hnd'.1).2.2 hm (List.mem_singleton_self _)
    refine remove_obj_base_queueIs ⟨?_, ?_, ?_, hnd'.1⟩ htinit
      (hreg' _ (fun a => isSome_setNext _ _ _ _)) ?_
    · simpa [List.head?_append] using hh
    · simp
    · exact hs1.setNext_last hpv none
    · have hacc : accounted ({ k with heap := setNext k.heap pv none, q_tail := some pv } :
          CacheCore) (init0 ++ [pv]) = accounted k (init0 ++ [pv]) :=
        accounted_congr (fun a _ => objSize_setNext _ _ _ _) rfl
      rw [hacc]
      show k.occupied_byte = _ + (objSize (setNext k.heap pv none) t + k.obj_md_size)
      rw [objSize_setNext]; exact hocc'

/-- A hit: detaching a queued object and linking it at the head moves it to the front. -/
theorem move_queueIs {k : CacheCore} {l : List Nat} {x : Nat} (hq : QueueIs k l) (hx : x ∈ l) :
    QueueIs (insert_at_head (detach k x) x) (x :: l.erase x) := by
  obtain ⟨hl, hreg, hocc⟩ := hq
  obtain ⟨pre, post, rfl⟩ := List.append_of_mem hx
  have hnd' := List.nodup_append.1 hl.2.2.2
  have hxpre : x ∉ pre := fun hm => hnd'.2.2 hm (List.mem_cons_self _ _)
  have hxpost : x ∉ post := (List.nodup_cons.1 hnd'.2.1).1
  have he : (pre ++ x :: post).erase x = pre ++ post := by
    rw [List.erase_append_right _ hxpre, List.erase_cons_head]
  rw [he]
  have hd := detach_linked hl
  obtain ⟨f1, f2, f3, f4, f5⟩ := detach_frame k x
  obtain ⟨g1, g2, g3, g4, g5⟩ := insert_at_head_frame (detach k x) x
  have hlive : ((detach k x).heap x).isSome = true := by rw [f1, hreg]; exact hx
  have hxn : x ∉ pre ++ post := by simp [hxpre, hxpost]
  refine ⟨insert_at_head_linked hd hxn hlive, ?_, ?_⟩
  · intro id
    rw [g1, f1, hreg]
    simp only [List.mem_append, List.mem_cons]; tauto
  · rw [g3, f3, hocc]
    have hacc : accounted (insert_at_head (detach k x) x) (x :: (pre ++ post)) =
        accounted k (x :: (pre ++ post)) :=
      accounted_congr (fun a _ => by rw [g2, f2]) (by rw [g5, f5])
    rw [hacc]
    exact accounted_perm k List.perm_middle

/-- Explicit removal: detaching a queued object and deleting it from the registry. -/
theorem remove_queueIs {k : CacheCore} {l : List Nat} {x : Nat} (hq : QueueIs k l)
    (hx : x ∈ l) : QueueIs ((detach k x).remove_obj_base x true) (l.erase x) := by
  obtain ⟨hl, hreg, hocc⟩ := hq
  obtain ⟨pre, post, rfl⟩ := List.append_of_mem hx
  have hnd' := List.nodup_append.1 hl.2.2.2
  have hxpre : x ∉ pre := fun hm => hnd'.2.2 hm (List.mem_cons_self _ _)
  have hxpost : x ∉ post := (List.nodup_cons.1 hnd'.2.1).1
  have he : (pre ++ x :: post).erase x = pre ++ post := by
    rw [List.erase_append_right _ hxpre, List.erase_cons_head]
  rw [he]
  obtain ⟨f1, f2, f3, f4, f5⟩ := detach_frame k x
  have hxn : x ∉ pre ++ post := by simp [hxpre, hxpost]
  refine remove_obj_base_queueIs (detach_linked hl) hxn ?_ ?_
  · intro id
    rw [f1, hreg]
    simp only [List.mem_append, List.mem_cons]; tauto
  · rw [f3, hocc, f2, f5]
    have hacc : accounted (detach k x) (pre ++ post) = accounted k (pre ++ post) :=
      accounted_congr (fun a _ => f2 a) f5
    rw [hacc, accounted_append, accounted_append]
    simp [accounted]; omega

/-- A miss: registering a new object and linking it at the head of a well-formed queue. -/
theorem insert_new_queueIs {k : CacheCore} {l : List Nat} (req : request_t)
    (hq : QueueIs k l) (hx : (k.heap req.obj_id).isSome = false) :
    QueueIs (insert_at_head (k.insert_base req).2 req.obj_id) (req.obj_id :: l) := by
  obtain ⟨⟨hh, htl, hs, hnd⟩, hreg, hocc⟩ := hq
  have hxl : req.obj_id ∉ l := fun hm => by
    have := (hreg _).2 hm
    rw [hx] at this; cases this
  have hne : ∀ a ∈ l, a ≠ req.obj_id := fun a ha e => hxl (e ▸ ha)
  have hheap : ∀ a ∈ l, (k.insert_base req).2.heap a = k.heap a := by
    intro a ha
    simp [CacheCore.insert_base, hne a ha]
  have hlk : Linked (k.insert_base req).2 l :=
    ⟨hh, htl, hs.frame (fun a ha => by rw [hheap a ha])
      (fun a ha => by unfold prevOf; rw [hheap a ha])
      (fun a ha => by unfold nextOf; rw [hheap a ha]), hnd⟩
  have hlive : ((k.insert_base req).2.heap req.obj_id).isSome = true := by
    simp [CacheCore.insert_base]
  obtain ⟨g1, g2, g3, g4, g5⟩ := insert_at_head_frame (k.insert_base req).2 req.obj_id
  refine ⟨insert_at_head_linked hlk hxl hlive, ?_, ?_⟩
  · intro id
    rw [g1]
    by_cases hid : id = req.obj_id
    · subst hid; simp [hlive]
    · have := hreg id
      simp only [CacheCore.insert_base, if_neg hid, List.mem_cons]
      simpa [hid] using this
  · rw [g3]
    have hacc : accounted (insert_at_head (k.insert_base req).2 req.obj_id) l = accounted k l :=
      accounted_congr (fun a ha => by rw [g2]; unfold objSize; rw [hheap a ha]) (by rw [g5]; rfl)
    have hsz : objSize (insert_at_head (k.insert_base req).2 req.obj_id).heap req.obj_id =
        req.obj_size := by
      rw [g2]; simp [objSize, CacheCore.insert_base]
    have hmd : (insert_at_head (k.insert_base req).2 req.obj_id).obj_md_size = k.obj_md_size := by
      rw [g5]; rfl
    have e : accounted (insert_at_head (k.insert_base req).2 req.obj_id) (req.obj_id :: l) =
        (req.obj_size + k.obj_md_size) + accounted k l := by
      rw [← hacc]; simp [accounted, hsz, hmd]
    rw [e]
    show k.occupied_byte + req.obj_size + k.obj_md_size = _
    omega

/-! ## The eviction loop -/

theorem evict_victim_frame (k : CacheCore) (t : Nat) :
    (evict_victim k t).cache_size = k.cache_size ∧
    (evict_victim k t).obj_md_size = k.obj_md_size ∧
    (evict_victim k t).occupied_byte = k.occupied_byte - (objSize k.heap t + k.obj_md_size) ∧
    (∀ a, a ≠ t → objSize (evict_victim k t).heap a = objSize k.heap a) := by
  have hsz : ∀ (h : Heap) (a : Nat), a ≠ t →
      objSize (fun i => if i = t then none else h i) a = objSize h a := by
    intro h a ha
    simp [objSize, ha]
  cases hp : prevOf k.heap t with
  | none =>
    have e : evict_victim k t =
        ({ k with q_head := none, q_tail := none } : CacheCore).remove_obj_base t true := by
      simp [evict_victim, hp, CacheCore.evict_base]
    rw [e]
    exact ⟨rfl, rfl, rfl, fun a ha => hsz _ a ha⟩
  | some pv =>
    have e : evict_victim k t =
        ({ k with heap := setNext k.heap pv none, q_tail := some pv } :
          CacheCore).remove_obj_base t true := by
      simp [evict_victim, hp, CacheCore.evict_base, prevOf_setNext]
    rw [e]
    refine ⟨rfl, rfl, ?_, fun a ha => ?_⟩
    · show k.occupied_byte - (objSize (setNext k.heap pv none) t + k.obj_md_size) = _
      rw [objSize_setNext]
    · show objSize (fun i => if i = t then none else setNext k.heap pv none i) a = _
      rw [hsz _ a ha, objSize_setNext]

theorem occupied_after_zero (k : CacheCore) (l : List Nat) :
    occupied_after k l 0 = k.occupied_byte := by
  simp [occupied_after, accounted]

theorem occupied_after_step {k : CacheCore} {init : List Nat} {t : Nat}
    (hq : QueueIs k (init ++ [t])) (i : Nat) :
    occupied_after (evict_victim k t) init i = occupied_after k (init ++ [t]) (i + 1) := by
  obtain ⟨f1, f2, f3, f4⟩ := evict_victim_frame k t
  have htinit : t ∉ init := fun hm =>
    (List.nodup_append.1 hq.1.2.2.2).2.2 hm (List.mem_singleton_self _)
  have hacc : accounted (evict_victim k t) (init.rtake i) = accounted k (init.rtake i) :=
    accounted_congr (fun a ha => f4 a (fun e => htinit (e ▸ List.mem_of_mem_drop ha))) f2
  unfold occupied_after
  rw [hacc, f3, List.rtake_concat_succ, accounted_append]
  simp [accounted]; omega

/-- The eviction loop on a well-formed queue `l`: it evicts the last `j` entries, where every
smaller number of evictions leaves the cache over capacity and `j` evictions either make room,
or empty the queue, or use up the fuel. -/
theorem evict_loop_spec (req : request_t) (fuel : Nat) :
    ∀ (k : CacheCore) (l : List Nat), QueueIs k l →
    ∃ j, j ≤ fuel ∧ j ≤ l.length ∧ QueueIs (evict_loop req fuel k) (l.rdrop j) ∧
      (evict_loop req fuel k).occupied_byte = occupied_after k l j ∧
      (evict_loop req fuel k).cache_size = k.cache_size ∧
      (evict_loop req fuel k).obj_md_size = k.obj_md_size ∧
      (∀ i, i < j → occupied_after k l i + req.obj_size + k.obj_md_size > k.cache_size) ∧
      (j = fuel ∨ j = l.length ∨
        occupied_after k l j + req.obj_size + k.obj_md_size ≤ k.cache_size) := by
  induction fuel with
  | zero =>
    intro k l hq
    refine ⟨0, le_refl _, Nat.zero_le _, ?_, ?_, rfl, rfl, ?_, Or.inl rfl⟩
    · rw [List.rdrop_zero]; exact hq
    · rw [occupied_after_zero]; rfl
    · intro i hi; cases hi
  | succ f ih =>
    intro k l hq
    by_cases hc : k.occupied_byte + req.obj_size + k.obj_md_size > k.cache_size
    · rcases List.eq_nil_or_concat l with rfl | ⟨init, t, rfl⟩
      · have ht : k.q_tail = none := hq.1.2.1
        have e : evict_loop req (f + 1) k = k := by simp [evict_loop, hc, ht]
        rw [e]
        refine ⟨0, Nat.zero_le _, le_refl _, ?_, ?_, rfl, rfl, ?_, Or.inr (Or.inl rfl)⟩
        · rw [List.rdrop_zero]; exact hq
        · rw [occupied_after_zero]
        · intro i hi; cases hi
      · rw [List.concat_eq_append] at hq ⊢
        have ht : k.q_tail = some t := by rw [hq.1.2.1]; simp
        have e : evict_loop req (f + 1) k = evict_loop req f (evict_victim k t) := by
          simp [evict_loop, hc, ht]
        rw [e]
        obtain ⟨f1, f2, f3, f4⟩ := evict_victim_frame k t
        obtain ⟨j, hj1, hj2, hj3, hj4, hj5, hj6, hj7, hj8⟩ := ih _ _ (evict_victim_queueIs hq)
        refine ⟨j + 1, Nat.succ_le_succ hj1, by simpa using hj2, ?_, ?_, ?_, ?_, ?_, ?_⟩
        · rw [List.rdrop_concat_succ]; exact hj3
        · rw [hj4, occupied_after_step hq]
        · rw [hj5, f1]
        · rw [hj6, f2]
        · intro i hi
          cases i with
          | zero => rw [occupied_after_zero]; exact hc
          | succ i0 =>
            have := hj7 i0 (by omega)
            rw [occupied_after_step hq, f1, f2] at this
            exact this
        · rcases hj8 with h | h | h
          · exact Or.inl (by omega)
          · exact Or.inr (Or.inl (by simp [h]))
          · rw [occupied_after_step hq, f1, f2] at h
            exact Or.inr (Or.inr h)
    · have e : evict_loop req (f + 1) k = k := by simp [evict_loop, hc]
      rw [e]
      refine ⟨0, Nat.zero_le _, Nat.zero_le _, ?_, ?_, rfl, rfl, ?_, Or.inr (Or.inr ?_)⟩
      · rw [List.rdrop_zero]; exact hq
      · rw [occupied_after_zero]
      · intro i hi; cases hi
      · rw [occupied_after_zero]; omega

/-- With enough fuel the eviction loop leaves through one of the two exits of the source: the
loop condition is false, or the queue is empty. -/
theorem evict_loop_exit (req : request_t) {fuel : Nat} {k : CacheCore} {l : List Nat}
    (hq : QueueIs k l) (hf : l.length ≤ fuel) :
    ∃ j, j ≤ l.length ∧ QueueIs (evict_loop req fuel k) (l.rdrop j) ∧
      (evict_loop req fuel k).occupied_byte = occupied_after k l j ∧
      (evict_loop req fuel k).cache_size = k.cache_size ∧
      (evict_loop req fuel k).obj_md_size = k.obj_md_size ∧
      (∀ i, i < j → occupied_after k l i + req.obj_size + k.obj_md_size > k.cache_size) ∧
      (j = l.length ∨ occupied_after k l j + req.obj_size + k.obj_md_size ≤ k.cache_size) := by
  obtain ⟨j, h1, h2, h3, h4, h5, h6, h7, h8⟩ := evict_loop_spec req fuel k l hq
  refine ⟨j, h2, h3, h4, h5, h6, h7, ?_⟩
  rcases h8 with h | h | h
  · exact Or.inl (by omega)
  · exact Or.inl h
  · exact Or.inr h

theorem queueIs_unique {k : CacheCore} {l l' : List Nat} (h : QueueIs k l) (h' : QueueIs k l') :
    l = l' := by
  have e1 := seg_walk_next h.1.2.2.1 (max l.length l'.length) (le_max_left _ _)
  have e2 := seg_walk_next h'.1.2.2.1 (max l.length l'.length) (le_max_right _ _)
  rw [← h.1.1] at e1
  rw [← h'.1.1] at e2
  exact e1.symm.trans e2

theorem queueIs_nil_occupied {k : CacheCore} (h : QueueIs k []) : k.occupied_byte = 0 := by
  rw [h.2.2]; rfl

theorem queueIs_registered {k : CacheCore} {l : List Nat} (h : QueueIs k l) (id : Nat) :
    hashtable_find_obj_id k.heap id = (if id ∈ l then some id else none) := by
  unfold hashtable_find_obj_id
  by_cases hm : id ∈ l
  · simp [hm, (h.2.1 id).2 hm]
  · have : ¬ (k.heap id).isSome = true := fun hs => hm ((h.2.1 id).1 hs)
    simp [hm, this]

/-! ## The two policies on the shared queue state -/

namespace DynamicAdaptiveClimb

theorem toCore_ofCore (c : cache_t DynamicAdaptiveClimb_params_t) (k : CacheCore) :
    toCore (ofCore c k) = k := rfl

theorem update_hit_miss_window_q_head (W : Nat) (p : DynamicAdaptiveClimb_params_t)
    (hit : Int) : (update_hit_miss_window W p hit).q_head = p.q_head := by
  unfold update_hit_miss_window; dsimp only; split_ifs <;> rfl

theorem update_hit_miss_window_q_tail (W : Nat) (p : DynamicAdaptiveClimb_params_t)
    (hit : Int) : (update_hit_miss_window W p hit).q_tail = p.q_tail := by
  unfold update_hit_miss_window; dsimp only; split_ifs <;> rfl

theorem fallback_update_queue (p : DynamicAdaptiveClimb_params_t) :
    (fallback_update p).q_head = p.q_head ∧ (fallback_update p).q_tail = p.q_tail := by
  unfold fallback_update; dsimp only; split_ifs <;> exact ⟨rfl, rfl⟩

theorem parameter_update_queue (m : ℚ) (p : DynamicAdaptiveClimb_params_t) :
    (parameter_update m p).q_head = p.q_head ∧ (parameter_update m p).q_tail = p.q_tail := by
  unfold parameter_update; dsimp only; split_ifs <;> exact ⟨rfl, rfl⟩

theorem controller_tick_queue (p : DynamicAdaptiveClimb_params_t) :
    (controller_tick p).q_head = p.q_head ∧ (controller_tick p).q_tail = p.q_tail := by
  unfold controller_tick history_update
  dsimp only
  rw [(parameter_update_queue _ _).1, (parameter_update_queue _ _).2,
    (fallback_update_queue _).1, (fallback_update_queue _).2]
  exact ⟨rfl, rfl⟩

theorem adjust_k_parameter_q_head (p : DynamicAdaptiveClimb_params_t) :
    (adjust_k_parameter p).q_head = p.q_head := by
  unfold adjust_k_parameter
  split_ifs
  · rfl
  · exact (controller_tick_queue p).1

theorem adjust_k_parameter_q_tail (p : DynamicAdaptiveClimb_params_t) :
    (adjust_k_parameter p).q_tail = p.q_tail := by
  unfold adjust_k_parameter
  split_ifs
  · rfl
  · exact (controller_tick_queue p).2

/-- The queue state after a hit. -/
theorem get_hit_core (c : cache_t DynamicAdaptiveClimb_params_t) (req : request_t)
    (h : (c.hashtable req.obj_id).isSome = true) :
    (DynamicAdaptiveClimb_get c req).1 = true ∧
    toCore (DynamicAdaptiveClimb_get c req).2 =
      insert_at_head (detach (toCore c) req.obj_id) req.obj_id := by
  have hf : cache_find_base c req true = some req.obj_id := by
    simp [cache_find_base, hashtable_find_obj_id, h]
  unfold DynamicAdaptiveClimb_get
  rw [hf]
  refine ⟨rfl, ?_⟩
  simp only [move_to_head, toCore, ofCore, adjust_k_parameter_q_head, adjust_k_parameter_q_tail,
    update_hit_miss_window_q_head, update_hit_miss_window_q_tail]

/-- A lookup that misses leaves `get` without effect. -/
theorem get_miss (c : cache_t DynamicAdaptiveClimb_params_t) (req : request_t)
    (h : (c.hashtable req.obj_id).isSome = false) :
    DynamicAdaptiveClimb_get c req = (false, c) := by
  have hf : cache_find_base c req true = none := by
    simp [cache_find_base, hashtable_find_obj_id, h]
  unfold DynamicAdaptiveClimb_get
  rw [hf]

/-- The queue state after the miss path of `insert`. -/
theorem insert_miss_core (fuel : Nat) (c : cache_t DynamicAdaptiveClimb_params_t)
    (req : request_t) (h : (c.hashtable req.obj_id).isSome = false) :
    (DynamicAdaptiveClimb_insert fuel c req).1 = some req.obj_id ∧
    toCore (DynamicAdaptiveClimb_insert fuel c req).2 =
      insert_at_head ((evict_loop req fuel (toCore c)).insert_base req).2 req.obj_id := by
  have hf : cache_find_base c req false = none := by
    simp [cache_find_base, hashtable_find_obj_id, h]
  unfold DynamicAdaptiveClimb_insert
  rw [hf]
  refine ⟨rfl, ?_⟩
  simp only [CacheCore.insert_base, toCore, ofCore, adjust_k_parameter_q_head,
    adjust_k_parameter_q_tail, update_hit_miss_window_q_head, update_hit_miss_window_q_tail]

/-- On a registered object `insert` is `get`. -/
theorem insert_hit (fuel : Nat) (c : cache_t DynamicAdaptiveClimb_params_t) (req : request_t)
    (h : (c.hashtable req.obj_id).isSome = true) :
    DynamicAdaptiveClimb_insert fuel c req =
      (some req.obj_id, (DynamicAdaptiveClimb_get c req).2) := by
  have hf : cache_find_base c req false = some req.obj_id := by
    simp [cache_find_base, hashtable_find_obj_id, h]
  unfold DynamicAdaptiveClimb_insert
  rw [hf]

end DynamicAdaptiveClimb

namespace AdaptiveClimb

theorem ac_adjust_q_head (g : Globals) (p : AdaptiveClimb_params_t) :
    (adjust_k_parameter g p).2.q_head = p.q_head := by
  unfold adjust_k_parameter; dsimp only; split_ifs <;> rfl

theorem ac_adjust_q_tail (g : Globals) (p : AdaptiveClimb_params_t) :
    (adjust_k_parameter g p).2.q_tail = p.q_tail := by
  unfold adjust_k_parameter; dsimp only; split_ifs <;> rfl

/-- The queue state after a hit. -/
theorem ac_get_hit_core (s : State) (req : request_t)
    (h : (s.cache.hashtable req.obj_id).isSome = true) :
    (AdaptiveClimb_get s req).1 = true ∧
    toCore (AdaptiveClimb_get s req).2.cache =
      insert_at_head (detach (toCore s.cache) req.obj_id) req.obj_id := by
  have hf : cache_find_base s.cache req true = some req.obj_id := by
    simp [cache_find_base, hashtable_find_obj_id, h]
  unfold AdaptiveClimb_get
  rw [hf]
  refine ⟨rfl, ?_⟩
  simp only [toCore, ofCore, ac_adjust_q_head, ac_adjust_q_tail]

/-- The queue state after the miss path of `insert`. -/
theorem ac_insert_miss_core (fuel : Nat) (s : State) (req : request_t)
    (h : (s.cache.hashtable req.obj_id).isSome = false) :
    (AdaptiveClimb_insert fuel s req).1 = some req.obj_id ∧
    toCore (AdaptiveClimb_insert fuel s req).2.cache =
      insert_at_head ((evict_loop req fuel (toCore s.cache)).insert_base req).2 req.obj_id := by
  have hf : cache_find_base s.cache req false = none := by
    simp [cache_find_base, hashtable_find_obj_id, h]
  unfold AdaptiveClimb_insert
  rw [hf]
  refine ⟨rfl, ?_⟩
  simp only [CacheCore.insert_base, toCore, ofCore, ac_adjust_q_head,
    ac_adjust_q_tail]

end AdaptiveClimb

/-! ## Well-formed queues, as the code sees them -/

/-- What a well-formed queue `l` means for the pointers: walking `next` from `q_head` lists
`l`, walking `prev` from `q_tail` lists it backwards, the head has no `prev`, the tail has no
`next`, and `q_head` is null exactly when `q_tail` is. -/
theorem queueIs_pointers {k : CacheCore} {l : List Nat} (h : QueueIs k l) :
    walk_next k.heap l.length k.q_head = l ∧
    walk_prev k.heap l.length k.q_tail = l.reverse ∧
    (∀ a, k.q_head = some a → prevOf k.heap a = none) ∧
    (∀ a, k.q_tail = some a → nextOf k.heap a = none) ∧
    (k.q_head = none ↔ k.q_tail = none) := by
  obtain ⟨⟨hh, ht, hs, hnd⟩, -, -⟩ := h
  refine ⟨?_, ?_, ?_, ?_, ?_⟩
  · rw [hh]; exact seg_walk_next hs _ (le_refl _)
  · rw [ht]; exact seg_walk_prev hs _ (le_refl _)
  · intro a ha
    cases l with
    | nil => rw [hh] at ha; cases ha
    | cons b rest =>
      rw [hh] at ha
      cases ha
      exact hs.2.1
  · intro a ha
    rcases List.eq_nil_or_concat l with rfl | ⟨init, t, rfl⟩
    · rw [ht] at ha; cases ha
    · rw [List.concat_eq_append] at ht hs
      rw [ht] at ha
      simp at ha
      subst ha
      rw [seg_append] at hs
      exact hs.2.2.2.1
  · rw [hh, ht]
    cases l with
    | nil => simp
    | cons b rest => simp

theorem queueIs_empty {k : CacheCore} (hh : k.q_head = none) (ht : k.q_tail = none)
    (hheap : ∀ id, k.heap id = none) (hocc : k.occupied_byte = 0) : QueueIs k [] := by
  refine ⟨(linked_nil_iff k).2 ⟨hh, ht⟩, ?_, ?_⟩
  · intro id; simp [hheap id]
  · rw [hocc]; rfl

theorem evict_loop_fits (req : request_t) (fuel : Nat) (k : CacheCore)
    (hfit : ¬ over_capacity req k) : evict_loop req fuel k = k := by
  unfold over_capacity at hfit
  cases fuel with
  | zero => rfl
  | succ f => simp [evict_loop, hfit]

/-- The miss path on a well-formed queue `l`, on the shared queue state: the loop evicts the
last `j` entries, one per iteration from the tail, `j` being the least number of evictions
that makes room (the whole queue if none does), and the new object is linked at the head. -/
theorem miss_path_spec (req : request_t) {fuel : Nat} {k : CacheCore} {l : List Nat}
    (hq : QueueIs k l) (habs : (k.heap req.obj_id).isSome = false) (hf : l.length ≤ fuel) :
    ∃ j, j ≤ l.length ∧
      (∀ i, i < j → occupied_after k l i + req.obj_size + k.obj_md_size > k.cache_size) ∧
      (j = l.length ∨ occupied_after k l j + req.obj_size + k.obj_md_size ≤ k.cache_size) ∧
      (∀ i, i ≤ j → QueueIs (evict_loop req i k) (l.rdrop i)) ∧
      QueueIs (evict_loop req fuel k) (l.rdrop j) ∧
      (evict_loop req fuel k).occupied_byte = occupied_after k l j ∧
      QueueIs (insert_at_head ((evict_loop req fuel k).insert_base req).2 req.obj_id)
        (req.obj_id :: l.rdrop j) := by
  obtain ⟨j, h1, h2, h3, h4, h5, h6, h7⟩ := evict_loop_exit req hq hf
  refine ⟨j, h1, h6, h7, ?_, h2, h3, ?_⟩
  · intro i hi
    obtain ⟨j', g1, g2, g3, -, -, -, -, g8⟩ := evict_loop_spec req i k l hq
    have hj' : j' = i := by
      rcases g8 with h | h | h
      · exact h
      · omega
      · by_contra hne
        have := h6 j' (by omega)
        omega
    rw [hj'] at g3
    exact g3
  · apply insert_new_queueIs req h2
    cases hs : ((evict_loop req fuel k).heap req.obj_id).isSome with
    | false => rfl
    | true =>
      have hm : req.obj_id ∈ l.rdrop j := (h2.2.1 _).1 hs
      have hm' : req.obj_id ∈ l := List.mem_of_mem_take hm
      have := (hq.2.1 _).2 hm'
      rw [habs] at this; cases this

namespace DynamicAdaptiveClimb

theorem queueIs_init (W : Nat) (ccp : common_cache_params_t) :
    QueueIs (toCore (DynamicAdaptiveClimb_init_W W ccp)) [] :=
  queueIs_empty rfl rfl (fun _ => rfl) rfl

/-- A miss that needs no eviction, on a well-formed queue. -/
theorem insert_fits_queueIs (fuel : Nat) {c : cache_t DynamicAdaptiveClimb_params_t}
    {l : List Nat} (req : request_t) (hq : QueueIs (toCore c) l)
    (habs : (c.hashtable req.obj_id).isSome = false) (hfit : ¬ over_capacity req (toCore c)) :
    QueueIs (toCore (DynamicAdaptiveClimb_insert fuel c req).2) (req.obj_id :: l) := by
  rw [(insert_miss_core fuel c req habs).2, evict_loop_fits req fuel _ hfit]
  exact insert_new_queueIs req hq habs

end DynamicAdaptiveClimb

namespace AdaptiveClimb

theorem queueIs_initial (cache_size obj_md_size : Nat) :
    QueueIs (toCore (initial cache_size obj_md_size).cache) [] :=
  queueIs_empty rfl rfl (fun _ => rfl) rfl

/-- A miss that needs no eviction, on a well-formed queue. -/
theorem ac_insert_fits_queueIs (fuel : Nat) {s : State} {l : List Nat} (req : request_t)
    (hq : QueueIs (toCore s.cache) l) (habs : (s.cache.hashtable req.obj_id).isSome = false)
    (hfit : ¬ over_capacity req (toCore s.cache)) :
    QueueIs (toCore (AdaptiveClimb_insert fuel s req).2.cache) (req.obj_id :: l) := by
  rw [(ac_insert_miss_core fuel s req habs).2, evict_loop_fits req fuel _ hfit]
  exact insert_new_queueIs req hq habs

end AdaptiveClimb

/-! ## Recency ordering on a hit -/

/-- C1. A hit on a cached object X of a well-formed queue `l` returns true and leaves the
well-formed queue `X :: l.erase X`: X is at the head and the other objects keep their
head-to-tail order. This holds for `DynamicAdaptiveClimb_get` (through `move_to_head`) and for
`AdaptiveClimb_get`. -/
theorem hit_moves_to_head (c : cache_t DynamicAdaptiveClimb.DynamicAdaptiveClimb_params_t)
    (s : AdaptiveClimb.State) (l l' : List Nat) (req : request_t)
    (hq : QueueIs (DynamicAdaptiveClimb.toCore c) l) (hx : req.obj_id ∈ l)
    (hq' : QueueIs (AdaptiveClimb.toCore s.cache) l') (hx' : req.obj_id ∈ l') :
    ((DynamicAdaptiveClimb.DynamicAdaptiveClimb_get c req).1 = true ∧
      (DynamicAdaptiveClimb.DynamicAdaptiveClimb_get c req).2.eviction_params.q_head
        = some req.obj_id ∧
      QueueIs (DynamicAdaptiveClimb.toCore (DynamicAdaptiveClimb.DynamicAdaptiveClimb_get c req).2)
        (req.obj_id :: l.erase req.obj_id)) ∧
    ((AdaptiveClimb.AdaptiveClimb_get s req).1 = true ∧
      (AdaptiveClimb.AdaptiveClimb_get s req).2.cache.eviction_params.q_head
        = some req.obj_id ∧
      QueueIs (AdaptiveClimb.toCore (AdaptiveClimb.AdaptiveClimb_get s req).2.cache)
        (req.obj_id :: l'.erase req.obj_id)) := by
  have h1 := DynamicAdaptiveClimb.get_hit_core c req ((hq.2.1 _).2 hx)
  have h2 := AdaptiveClimb.ac_get_hit_core s req ((hq'.2.1 _).2 hx')
  have m1 := move_queueIs hq hx
  have m2 := move_queueIs hq' hx'
  rw [← h1.2] at m1
  rw [← h2.2] at m2
  exact ⟨⟨h1.1, m1.1.1, m1⟩, ⟨h2.1, m2.1.1, m2⟩⟩

theorem DynamicAdaptiveClimb.dac_scenario_queueIs :
    QueueIs (DynamicAdaptiveClimb.toCore DynamicAdaptiveClimb.scenario_ABC) [3, 2, 1] :=
  DynamicAdaptiveClimb.insert_fits_queueIs 3 ⟨3, 1⟩
    (DynamicAdaptiveClimb.insert_fits_queueIs 3 ⟨2, 1⟩
      (DynamicAdaptiveClimb.insert_fits_queueIs 3 ⟨1, 1⟩
        (DynamicAdaptiveClimb.queueIs_init _ ⟨3, 0⟩) (by decide) (by decide))
      (by decide) (by decide))
    (by decide!) (by decide!)

theorem AdaptiveClimb.ac_scenario_queueIs :
    QueueIs (AdaptiveClimb.toCore AdaptiveClimb.scenario_ABC.cache) [3, 2, 1] :=
  AdaptiveClimb.ac_insert_fits_queueIs 3 ⟨3, 1⟩
    (AdaptiveClimb.ac_insert_fits_queueIs 3 ⟨2, 1⟩
      (AdaptiveClimb.ac_insert_fits_queueIs 3 ⟨1, 1⟩
        (AdaptiveClimb.queueIs_initial 3 0) (by decide) (by decide))
      (by decide!) (by decide!))
    (by decide!) (by decide!)

/-- C1, at the queue 3,2,1 (C,B,A) of the scenario and a hit on object 1 (A): both policies
return true and the queue becomes 1,3,2. -/
theorem hit_moves_to_head_witness :
    (QueueIs (DynamicAdaptiveClimb.toCore DynamicAdaptiveClimb.scenario_ABC) [3, 2, 1] ∧
      QueueIs (AdaptiveClimb.toCore AdaptiveClimb.scenario_ABC.cache) [3, 2, 1]) ∧
    ((DynamicAdaptiveClimb.DynamicAdaptiveClimb_get DynamicAdaptiveClimb.scenario_ABC ⟨1, 1⟩).1
        = true ∧
      (DynamicAdaptiveClimb.DynamicAdaptiveClimb_get
        DynamicAdaptiveClimb.scenario_ABC ⟨1, 1⟩).2.eviction_params.q_head = some 1 ∧
      QueueIs (DynamicAdaptiveClimb.toCore
        (DynamicAdaptiveClimb.DynamicAdaptiveClimb_get DynamicAdaptiveClimb.scenario_ABC ⟨1, 1⟩).2)
        [1, 3, 2]) ∧
    ((AdaptiveClimb.AdaptiveClimb_get AdaptiveClimb.scenario_ABC ⟨1, 1⟩).1 = true ∧
      (AdaptiveClimb.AdaptiveClimb_get
        AdaptiveClimb.scenario_ABC ⟨1, 1⟩).2.cache.eviction_params.q_head = some 1 ∧
      QueueIs (AdaptiveClimb.toCore
        (AdaptiveClimb.AdaptiveClimb_get AdaptiveClimb.scenario_ABC ⟨1, 1⟩).2.cache) [1, 3, 2]) :=
  ⟨⟨DynamicAdaptiveClimb.dac_scenario_queueIs, AdaptiveClimb.ac_scenario_queueIs⟩,
    hit_moves_to_head DynamicAdaptiveClimb.scenario_ABC AdaptiveClimb.scenario_ABC [3, 2, 1]
      [3, 2, 1] ⟨1, 1⟩ DynamicAdaptiveClimb.dac_scenario_queueIs (by decide)
      AdaptiveClimb.ac_scenario_queueIs (by decide)⟩

/-! ## The miss path -/

/-- C2. On a well-formed queue `l` and a request for an object absent from the registry, the
miss path of `DynamicAdaptiveClimb_insert` (and of `AdaptiveClimb_insert`) evicts exactly the
last `k` entries of the queue, one per loop iteration starting from the tail, where no smaller
number of tail evictions makes `occupied + size + overhead <= capacity` and `k` evictions do,
unless `k` is the whole queue; the new object is then placed at the head, in front of the
surviving objects in their old order. -/
theorem miss_evicts_lru_then_admits (fuel : Nat)
    (c : cache_t DynamicAdaptiveClimb.DynamicAdaptiveClimb_params_t) (s : AdaptiveClimb.State)
    (l l' : List Nat) (req : request_t)
    (hq : QueueIs (DynamicAdaptiveClimb.toCore c) l)
    (habs : cache_find_base c req false = none) (hf : l.length ≤ fuel)
    (hq' : QueueIs (AdaptiveClimb.toCore s.cache) l')
    (habs' : cache_find_base s.cache req false = none) (hf' : l'.length ≤ fuel) :
    (∃ k, k ≤ l.length ∧
      (∀ i, i < k → occupied_after (DynamicAdaptiveClimb.toCore c) l i + req.obj_size
        + c.obj_md_size > c.cache_size) ∧
      (k = l.length ∨ occupied_after (DynamicAdaptiveClimb.toCore c) l k + req.obj_size
        + c.obj_md_size ≤ c.cache_size) ∧
      (∀ i, i ≤ k → QueueIs (evict_loop req i (DynamicAdaptiveClimb.toCore c)) (l.rdrop i)) ∧
      (DynamicAdaptiveClimb.DynamicAdaptiveClimb_insert fuel c req).1 = some req.obj_id ∧
      QueueIs
        (DynamicAdaptiveClimb.toCore (DynamicAdaptiveClimb.DynamicAdaptiveClimb_insert fuel c req).2)
        (req.obj_id :: l.rdrop k)) ∧
    (∃ k, k ≤ l'.length ∧
      (∀ i, i < k → occupied_after (AdaptiveClimb.toCore s.cache) l' i + req.obj_size
        + s.cache.obj_md_size > s.cache.cache_size) ∧
      (k = l'.length ∨ occupied_after (AdaptiveClimb.toCore s.cache) l' k + req.obj_size
        + s.cache.obj_md_size ≤ s.cache.cache_size) ∧
      (∀ i, i ≤ k → QueueIs (evict_loop req i (AdaptiveClimb.toCore s.cache)) (l'.rdrop i)) ∧
      (AdaptiveClimb.AdaptiveClimb_insert fuel s req).1 = some req.obj_id ∧
      QueueIs (AdaptiveClimb.toCore (AdaptiveClimb.AdaptiveClimb_insert fuel s req).2.cache)
        (req.obj_id :: l'.rdrop k)) := by
  have ha : (c.hashtable req.obj_id).isSome = false := by
    unfold cache_find_base hashtable_find_obj_id at habs
    cases hs : (c.hashtable req.obj_id).isSome with
    | false => rfl
    | true => rw [hs] at habs; simp at habs
  have ha' : (s.cache.hashtable req.obj_id).isSome = false := by
    unfold cache_find_base hashtable_find_obj_id at habs'
    cases hs : (s.cache.hashtable req.obj_id).isSome with
    | false => rfl
    | true => rw [hs] at habs'; simp at habs'
  obtain ⟨k, h1, h2, h3, h4, -, -, h5⟩ := miss_path_spec req hq ha hf
  obtain ⟨k', g1, g2, g3, g4, -, -, g5⟩ := miss_path_spec req hq' ha' hf'
  have e := DynamicAdaptiveClimb.insert_miss_core fuel c req ha
  have e' := AdaptiveClimb.ac_insert_miss_core fuel s req ha'
  rw [← e.2] at h5
  rw [← e'.2] at g5
  exact ⟨⟨k, h1, h2, h3, h4, e.1, h5⟩, ⟨k', g1, g2, g3, g4, e'.1, g5⟩⟩

/-- C2, at the full queue 3,2,1 of the scenario and a request for the absent object 4. -/
theorem miss_evicts_lru_then_admits_witness :
    (QueueIs (DynamicAdaptiveClimb.toCore DynamicAdaptiveClimb.scenario_ABC) [3, 2, 1] ∧
      cache_find_base DynamicAdaptiveClimb.scenario_ABC ⟨4, 1⟩ false = none ∧
      QueueIs (AdaptiveClimb.toCore AdaptiveClimb.scenario_ABC.cache) [3, 2, 1] ∧
      cache_find_base AdaptiveClimb.scenario_ABC.cache ⟨4, 1⟩ false = none) ∧
    ((∃ k, k ≤ [3, 2, 1].length ∧
      (∀ i, i < k →
        occupied_after (DynamicAdaptiveClimb.toCore DynamicAdaptiveClimb.scenario_ABC) [3, 2, 1] i
          + (⟨4, 1⟩ : request_t).obj_size + DynamicAdaptiveClimb.scenario_ABC.obj_md_size
          > DynamicAdaptiveClimb.scenario_ABC.cache_size) ∧
      (k = [3, 2, 1].length ∨
        occupied_after (DynamicAdaptiveClimb.toCore DynamicAdaptiveClimb.scenario_ABC) [3, 2, 1] k
          + (⟨4, 1⟩ : request_t).obj_size + DynamicAdaptiveClimb.scenario_ABC.obj_md_size
          ≤ DynamicAdaptiveClimb.scenario_ABC.cache_size) ∧
      (∀ i, i ≤ k →
        QueueIs (evict_loop ⟨4, 1⟩ i (DynamicAdaptiveClimb.toCore DynamicAdaptiveClimb.scenario_ABC))
          ([3, 2, 1].rdrop i)) ∧
      (DynamicAdaptiveClimb.DynamicAdaptiveClimb_insert 3
        DynamicAdaptiveClimb.scenario_ABC ⟨4, 1⟩).1 = some 4 ∧
      QueueIs
        (DynamicAdaptiveClimb.toCore
          (DynamicAdaptiveClimb.DynamicAdaptiveClimb_insert 3
            DynamicAdaptiveClimb.scenario_ABC ⟨4, 1⟩).2)
        (4 :: [3, 2, 1].rdrop k)) ∧
    (∃ k, k ≤ [3, 2, 1].length ∧
      (∀ i, i < k →
        occupied_after (AdaptiveClimb.toCore AdaptiveClimb.scenario_ABC.cache) [3, 2, 1] i
          + (⟨4, 1⟩ : request_t).obj_size + AdaptiveClimb.scenario_ABC.cache.obj_md_size
          > AdaptiveClimb.scenario_ABC.cache.cache_size) ∧
      (k = [3, 2, 1].length ∨
        occupied_after (AdaptiveClimb.toCore AdaptiveClimb.scenario_ABC.cache) [3, 2, 1] k
          + (⟨4, 1⟩ : request_t).obj_size + AdaptiveClimb.scenario_ABC.cache.obj_md_size
          ≤ AdaptiveClimb.scenario_ABC.cache.cache_size) ∧
      (∀ i, i ≤ k →
        QueueIs (evict_loop ⟨4, 1⟩ i (AdaptiveClimb.toCore AdaptiveClimb.scenario_ABC.cache))
          ([3, 2, 1].rdrop i)) ∧
      (AdaptiveClimb.AdaptiveClimb_insert 3 AdaptiveClimb.scenario_ABC ⟨4, 1⟩).1 = some 4 ∧
      QueueIs
        (AdaptiveClimb.toCore
          (AdaptiveClimb.AdaptiveClimb_insert 3 AdaptiveClimb.scenario_ABC ⟨4, 1⟩).2.cache)
        (4 :: [3, 2, 1].rdrop k))) :=
  ⟨⟨DynamicAdaptiveClimb.dac_scenario_queueIs, by decide!, AdaptiveClimb.ac_scenario_queueIs,
      by decide!⟩,
    miss_evicts_lru_then_admits 3 DynamicAdaptiveClimb.scenario_ABC AdaptiveClimb.scenario_ABC
      [3, 2, 1] [3, 2, 1] ⟨4, 1⟩ DynamicAdaptiveClimb.dac_scenario_queueIs (by decide!)
      (by decide) AdaptiveClimb.ac_scenario_queueIs (by decide!) (by decide)⟩

/-! ## Queue integrity along every run -/

namespace DynamicAdaptiveClimb

theorem evict_core (c : cache_t DynamicAdaptiveClimb_params_t) (req : request_t) :
    toCore (DynamicAdaptiveClimb_evict c req) =
      (match (toCore c).q_tail with
        | none => toCore c
        | some victim => evict_victim (toCore c) victim) := by
  unfold DynamicAdaptiveClimb_evict
  cases h : c.eviction_params.q_tail with
  | none => simp [toCore, h]
  | some v => simp [toCore, ofCore, h]

theorem remove_hit_core (c : cache_t DynamicAdaptiveClimb_params_t) (obj_id : Nat)
    (h : (c.hashtable obj_id).isSome = true) :
    (DynamicAdaptiveClimb_remove c obj_id).1 = true ∧
    toCore (DynamicAdaptiveClimb_remove c obj_id).2 =
      (detach (toCore c) obj_id).remove_obj_base obj_id true := by
  have hf : hashtable_find_obj_id c.hashtable obj_id = some obj_id := by
    simp [hashtable_find_obj_id, h]
  unfold DynamicAdaptiveClimb_remove
  rw [hf]
  exact ⟨rfl, rfl⟩

theorem remove_miss (c : cache_t DynamicAdaptiveClimb_params_t) (obj_id : Nat)
    (h : (c.hashtable obj_id).isSome = false) :
    DynamicAdaptiveClimb_remove c obj_id = (false, c) := by
  have hf : hashtable_find_obj_id c.hashtable obj_id = none := by
    simp [hashtable_find_obj_id, h]
  unfold DynamicAdaptiveClimb_remove
  rw [hf]

/-- A hit on a well-formed queue, through `get`. -/
theorem get_queueIs {c : cache_t DynamicAdaptiveClimb_params_t} {l : List Nat}
    (req : request_t) (hq : QueueIs (toCore c) l) :
    ∃ l', QueueIs (toCore (DynamicAdaptiveClimb_get c req).2) l' ∧ l'.length = l.length := by
  cases hs : (c.hashtable req.obj_id).isSome with
  | false => rw [get_miss c req hs]; exact ⟨l, hq, rfl⟩
  | true =>
    have hx : req.obj_id ∈ l := (hq.2.1 _).1 hs
    refine ⟨req.obj_id :: l.erase req.obj_id, ?_, ?_⟩
    · rw [(get_hit_core c req hs).2]; exact move_queueIs hq hx
    · rw [List.length_cons, List.length_erase_of_mem hx]
      have : 0 < l.length := List.length_pos_of_mem hx
      omega

/-- Every operation of the interface keeps the queue well formed. -/
theorem step_queueIs {fuel : Nat} {c : cache_t DynamicAdaptiveClimb_params_t} {l : List Nat}
    (op : Op) (hq : QueueIs (toCore c) l) (hf : l.length ≤ fuel) :
    ∃ l', QueueIs (toCore (step fuel c op)) l' ∧ l'.length ≤ l.length + 1 := by
  cases op with
  | insert req =>
    show ∃ l', QueueIs (toCore (DynamicAdaptiveClimb_insert fuel c req).2) l' ∧ _
    cases hs : (c.hashtable req.obj_id).isSome with
    | true =>
      rw [insert_hit fuel c req hs]
      obtain ⟨l', h1, h2⟩ := get_queueIs req hq
      exact ⟨l', h1, by omega⟩
    | false =>
      obtain ⟨j, -, -, -, -, -, -, h5⟩ := miss_path_spec req hq hs hf
      rw [← (insert_miss_core fuel c req hs).2] at h5
      refine ⟨_, h5, ?_⟩
      rw [List.length_cons]
      have : (l.rdrop j).length ≤ l.length := by simp [List.rdrop]
      omega
  | get req =>
    obtain ⟨l', h1, h2⟩ := get_queueIs req hq
    exact ⟨l', h1, by omega⟩
  | evict req =>
    show ∃ l', QueueIs (toCore (DynamicAdaptiveClimb_evict c req)) l' ∧ _
    rw [evict_core]
    rcases List.eq_nil_or_concat l with rfl | ⟨init, t, rfl⟩
    · have ht : (toCore c).q_tail = none := hq.1.2.1
      rw [ht]; exact ⟨[], hq, by simp⟩
    · rw [List.concat_eq_append] at hq hf ⊢
      have ht : (toCore c).q_tail = some t := by rw [hq.1.2.1]; simp
      rw [ht]
      exact ⟨init, evict_victim_queueIs hq, by simp; omega⟩
  | remove obj_id =>
    show ∃ l', QueueIs (toCore (DynamicAdaptiveClimb_remove c obj_id).2) l' ∧ _
    cases hs : (c.hashtable obj_id).isSome with
    | false => rw [remove_miss c obj_id hs]; exact ⟨l, hq, by omega⟩
    | true =>
      have hx : obj_id ∈ l := (hq.2.1 _).1 hs
      rw [(remove_hit_core c obj_id hs).2]
      refine ⟨_, remove_queueIs hq hx, ?_⟩
      rw [List.length_erase_of_mem hx]; omega

theorem run_queueIs (fuel : Nat) (ops : List Op) :
    ∀ (c : cache_t DynamicAdaptiveClimb_params_t) (l : List Nat), QueueIs (toCore c) l →
      l.length + ops.length ≤ fuel →
      ∃ l', QueueIs (toCore (run fuel c ops)) l' ∧ l'.length ≤ l.length + ops.length := by
  induction ops with
  | nil => intro c l hq _; exact ⟨l, hq, by simp⟩
  | cons op rest ih =>
    intro c l hq hf
    simp only [List.length_cons] at hf ⊢
    have hf1 : l.length ≤ fuel := by omega
    obtain ⟨l1, h1, h2⟩ := @step_queueIs fuel c l op hq hf1
    obtain ⟨l2, h3, h4⟩ := ih (step fuel c op) l1 h1 (by omega)
    exact ⟨l2, h3, by omega⟩

end DynamicAdaptiveClimb

theorem queueIs_integrity {k : CacheCore} {l : List Nat} (h : QueueIs k l) :
    QueueIntegrity k := by
  obtain ⟨-, -, p3, p4, p5⟩ := queueIs_pointers h
  obtain ⟨⟨hh, ht, hs, hnd⟩, hreg, -⟩ := h
  refine ⟨l, hnd, hh, ht, ?_, ?_, hs, p3, p4, p5, hreg⟩
  · intro fuel hf
    rw [hh]
    exact seg_walk_next hs fuel hf
  · intro fuel hf
    rw [ht]
    exact seg_walk_prev hs fuel hf

/-- C3. From the initial empty state of `DynamicAdaptiveClimb_init`, after every sequence of
insert, get, evict and remove operations the recency queue is a single acyclic doubly-linked
chain with `head.prev` and `tail.next` null, `q_head` null exactly when `q_tail` is, and the
queue members are exactly the registry members: `q_head` and `q_tail` are the two ends of a
repetition-free list that the walks from either end list in full before reaching null, and
the state is a well-formed cache whose queue is that list. -/
theorem queue_integrity_invariant (ccp : DynamicAdaptiveClimb.common_cache_params_t)
    (fuel : Nat) (ops : List DynamicAdaptiveClimb.Op) (hf : ops.length ≤ fuel) :
    QueueIntegrity
      (DynamicAdaptiveClimb.toCore
        (DynamicAdaptiveClimb.run fuel (DynamicAdaptiveClimb.DynamicAdaptiveClimb_init ccp)
          ops)) ∧
    ∃ l : List Nat,
      QueueIs
        (DynamicAdaptiveClimb.toCore
          (DynamicAdaptiveClimb.run fuel (DynamicAdaptiveClimb.DynamicAdaptiveClimb_init ccp)
            ops)) l := by
  obtain ⟨l, h, -⟩ := DynamicAdaptiveClimb.run_queueIs fuel ops _ []
    (DynamicAdaptiveClimb.queueIs_init _ ccp) (by simpa using hf)
  exact ⟨queueIs_integrity h, l, h⟩

/-- C3, at a run of five operations on a cache of nominal capacity 3. -/
theorem queue_integrity_invariant_witness :
    [DynamicAdaptiveClimb.Op.insert ⟨1, 1⟩, DynamicAdaptiveClimb.Op.insert ⟨2, 1⟩,
      DynamicAdaptiveClimb.Op.get ⟨1, 1⟩, DynamicAdaptiveClimb.Op.evict ⟨0, 0⟩,
      DynamicAdaptiveClimb.Op.remove 1].length ≤ 5 ∧
    QueueIntegrity
      (DynamicAdaptiveClimb.toCore
        (DynamicAdaptiveClimb.run 5 (DynamicAdaptiveClimb.DynamicAdaptiveClimb_init ⟨3, 0⟩)
          [DynamicAdaptiveClimb.Op.insert ⟨1, 1⟩, DynamicAdaptiveClimb.Op.insert ⟨2, 1⟩,
            DynamicAdaptiveClimb.Op.get ⟨1, 1⟩, DynamicAdaptiveClimb.Op.evict ⟨0, 0⟩,
            DynamicAdaptiveClimb.Op.remove 1])) ∧
    ∃ l : List Nat,
      QueueIs
        (DynamicAdaptiveClimb.toCore
          (DynamicAdaptiveClimb.run 5 (DynamicAdaptiveClimb.DynamicAdaptiveClimb_init ⟨3, 0⟩)
            [DynamicAdaptiveClimb.Op.insert ⟨1, 1⟩, DynamicAdaptiveClimb.Op.insert ⟨2, 1⟩,
              DynamicAdaptiveClimb.Op.get ⟨1, 1⟩, DynamicAdaptiveClimb.Op.evict ⟨0, 0⟩,
              DynamicAdaptiveClimb.Op.remove 1])) l :=
  ⟨by decide, queue_integrity_invariant ⟨3, 0⟩ 5 _ (by decide)⟩

/-! ## Capacity -/

theorem rdrop_length_self (l : List Nat) : l.rdrop l.length = [] := by
  simp [List.rdrop]

/-- What the admission at the end of the miss path does to the accounting. -/
theorem admit_frame (k : CacheCore) (req : request_t) :
    (insert_at_head (k.insert_base req).2 req.obj_id).occupied_byte
      = k.occupied_byte + req.obj_size + k.obj_md_size ∧
    (insert_at_head (k.insert_base req).2 req.obj_id).cache_size = k.cache_size ∧
    (insert_at_head (k.insert_base req).2 req.obj_id).obj_md_size = k.obj_md_size ∧
    objSize (insert_at_head (k.insert_base req).2 req.obj_id).heap req.obj_id = req.obj_size := by
  obtain ⟨-, g2, g3, g4, g5⟩ := insert_at_head_frame (k.insert_base req).2 req.obj_id
  refine ⟨by rw [g3]; rfl, by rw [g4]; rfl, by rw [g5]; rfl, ?_⟩
  rw [g2]; simp [objSize, CacheCore.insert_base]

/-- What a hit does to the accounting. -/
theorem move_frame (k : CacheCore) (x : Nat) :
    (insert_at_head (detach k x) x).occupied_byte = k.occupied_byte ∧
    (insert_at_head (detach k x) x).cache_size = k.cache_size ∧
    (insert_at_head (detach k x) x).obj_md_size = k.obj_md_size ∧
    (∀ a, objSize (insert_at_head (detach k x) x).heap a = objSize k.heap a) := by
  obtain ⟨-, f2, f3, f4, f5⟩ := detach_frame k x
  obtain ⟨-, g2, g3, g4, g5⟩ := insert_at_head_frame (detach k x) x
  exact ⟨by rw [g3, f3], by rw [g4, f4], by rw [g5, f5], fun a => by rw [g2, f2]⟩

/-- An absent object larger than the capacity: the miss path evicts the whole queue and then
admits the object. -/
theorem oversized_admitted (req : request_t) {fuel : Nat} {k : CacheCore} {l : List Nat}
    (hq : QueueIs k l) (habs : (k.heap req.obj_id).isSome = false) (hf : l.length ≤ fuel)
    (hbig : req.obj_size > k.cache_size) :
    QueueIs (insert_at_head ((evict_loop req fuel k).insert_base req).2 req.obj_id)
      [req.obj_id] := by
  obtain ⟨j, -, -, h3, -, -, -, h5⟩ := miss_path_spec req hq habs hf
  have hj : j = l.length := by
    rcases h3 with h | h
    · exact h
    · omega
  rw [hj, rdrop_length_self] at h5
  exact h5

/-- The invariant behind the capacity bound: the cache is within capacity, or its queue is a
single object whose size plus overhead exceeds the capacity. -/
theorem miss_capacity (req : request_t) {fuel : Nat} {k : CacheCore} {l : List Nat}
    (hq : QueueIs k l) (habs : (k.heap req.obj_id).isSome = false) (hf : l.length ≤ fuel) :
    ∃ l', QueueIs (insert_at_head ((evict_loop req fuel k).insert_base req).2 req.obj_id) l' ∧
      l'.length ≤ l.length + 1 ∧
      ((insert_at_head ((evict_loop req fuel k).insert_base req).2 req.obj_id).occupied_byte
          ≤ k.cache_size ∨
        ((evict_loop req fuel k).q_tail = none ∧ over_capacity req (evict_loop req fuel k) ∧
          l' = [req.obj_id] ∧ req.obj_size + k.obj_md_size > k.cache_size)) := by
  obtain ⟨j, hj, h1, h2, h3, h4, h6, h7⟩ := evict_loop_exit req hq hf
  obtain ⟨a1, a2, a3, a4⟩ := admit_frame (evict_loop req fuel k) req
  have habs' : ((evict_loop req fuel k).heap req.obj_id).isSome = false := by
    cases hs : ((evict_loop req fuel k).heap req.obj_id).isSome with
    | false => rfl
    | true =>
      have hm' : req.obj_id ∈ l := List.mem_of_mem_take ((h1.2.1 _).1 hs)
      have := (hq.2.1 _).2 hm'
      rw [habs] at this; cases this
  have hnew := insert_new_queueIs req h1 habs'
  by_cases hov : over_capacity req (evict_loop req fuel k)
  · have hov' := hov
    unfold over_capacity at hov'
    rw [h2, h3, h4] at hov'
    have hjl : j = l.length := by
      rcases h7 with h | h
      · exact h
      · omega
    rw [hjl, rdrop_length_self] at h1 hnew
    refine ⟨[req.obj_id], hnew, by simp, Or.inr ⟨h1.1.2.1, hov, rfl, ?_⟩⟩
    have h0 := queueIs_nil_occupied h1
    unfold over_capacity at hov
    rw [h0, h3, h4] at hov
    omega
  · refine ⟨_, hnew, ?_, Or.inl ?_⟩
    · rw [List.length_cons]
      have : (l.rdrop j).length ≤ l.length := by simp [List.rdrop]
      omega
    · unfold over_capacity at hov
      rw [a1]; rw [h3] at hov; omega

namespace DynamicAdaptiveClimb

theorem process_request_hit (fuel : Nat) (c : cache_t DynamicAdaptiveClimb_params_t)
    (req : request_t) (h : (c.hashtable req.obj_id).isSome = true) :
    process_request fuel c req = DynamicAdaptiveClimb_get c req := by
  have hf : cache_find_base c req false = some req.obj_id := by
    simp [cache_find_base, hashtable_find_obj_id, h]
  unfold process_request
  rw [hf]

theorem process_request_miss (fuel : Nat) (c : cache_t DynamicAdaptiveClimb_params_t)
    (req : request_t) (h : (c.hashtable req.obj_id).isSome = false) :
    process_request fuel c req = (false, (DynamicAdaptiveClimb_insert fuel c req).2) := by
  have hf : cache_find_base c req false = none := by
    simp [cache_find_base, hashtable_find_obj_id, h]
  unfold process_request
  rw [hf]

/-- One request keeps the invariant of the capacity bound. -/
theorem process_request_capacity {fuel : Nat} {c : cache_t DynamicAdaptiveClimb_params_t}
    {l : List Nat} (req : request_t) (hq : QueueIs (toCore c) l) (hf : l.length ≤ fuel)
    (hinv : c.occupied_byte ≤ c.cache_size ∨
      ∃ x, l = [x] ∧ objSize c.hashtable x + c.obj_md_size > c.cache_size) :
    ∃ l', QueueIs (toCore (process_request fuel c req).2) l' ∧ l'.length ≤ l.length + 1 ∧
      ((process_request fuel c req).2.occupied_byte ≤ (process_request fuel c req).2.cache_size ∨
        ∃ x, l' = [x] ∧
          objSize (process_request fuel c req).2.hashtable x
            + (process_request fuel c req).2.obj_md_size
            > (process_request fuel c req).2.cache_size) := by
  cases hs : (c.hashtable req.obj_id).isSome with
  | true =>
    rw [process_request_hit fuel c req hs]
    have hx : req.obj_id ∈ l := (hq.2.1 _).1 hs
    have hc := (get_hit_core c req hs).2
    obtain ⟨m1, m2, m3, m4⟩ := move_frame (toCore c) req.obj_id
    rw [← hc] at m1 m2 m3 m4
    have hm := move_queueIs hq hx
    rw [← hc] at hm
    refine ⟨_, hm, ?_, ?_⟩
    · rw [List.length_cons, List.length_erase_of_mem hx]
      have : 0 < l.length := List.length_pos_of_mem hx
      omega
    · rcases hinv with h | ⟨x, hl, hbig⟩
      · left
        show (toCore (DynamicAdaptiveClimb_get c req).2).occupied_byte
          ≤ (toCore (DynamicAdaptiveClimb_get c req).2).cache_size
        rw [m1, m2]; exact h
      · right
        subst hl
        have hxe : req.obj_id = x := by simpa using hx
        subst hxe
        refine ⟨req.obj_id, by simp, ?_⟩
        show objSize (toCore (DynamicAdaptiveClimb_get c req).2).heap req.obj_id
          + (toCore (DynamicAdaptiveClimb_get c req).2).obj_md_size
          > (toCore (DynamicAdaptiveClimb_get c req).2).cache_size
        rw [m4, m3, m2]; exact hbig
  | false =>
    rw [process_request_miss fuel c req hs]
    obtain ⟨l', h1, h2, h3⟩ := miss_capacity req hq hs hf
    obtain ⟨a1, a2, a3, a4⟩ := admit_frame (evict_loop req fuel (toCore c)) req
    have hcap : (evict_loop req fuel (toCore c)).cache_size = c.cache_size := by
      obtain ⟨j, -, -, -, g, -⟩ := evict_loop_exit req hq hf
      exact g
    have hmd : (evict_loop req fuel (toCore c)).obj_md_size = c.obj_md_size := by
      obtain ⟨j, -, -, -, -, g, -⟩ := evict_loop_exit req hq hf
      exact g
    have hc := (insert_miss_core fuel c req hs).2
    rw [← hc] at h1 h3 a2 a3 a4
    refine ⟨l', h1, h2, ?_⟩
    rcases h3 with h | ⟨-, -, hl, hbig⟩
    · left
      show (toCore (DynamicAdaptiveClimb_insert fuel c req).2).occupied_byte
        ≤ (toCore (DynamicAdaptiveClimb_insert fuel c req).2).cache_size
      rw [a2, hcap]; exact h
    · right
      refine ⟨req.obj_id, hl, ?_⟩
      show objSize (toCore (DynamicAdaptiveClimb_insert fuel c req).2).heap req.obj_id
        + (toCore (DynamicAdaptiveClimb_insert fuel c req).2).obj_md_size
        > (toCore (DynamicAdaptiveClimb_insert fuel c req).2).cache_size
      rw [a4, a3, a2, hcap, hmd]; exact hbig

theorem run_requests_capacity (fuel : Nat) (reqs : List request_t) :
    ∀ (c : cache_t DynamicAdaptiveClimb_params_t) (l : List Nat), QueueIs (toCore c) l →
      l.length + reqs.length ≤ fuel →
      (c.occupied_byte ≤ c.cache_size ∨
        ∃ x, l = [x] ∧ objSize c.hashtable x + c.obj_md_size > c.cache_size) →
      ∃ l', QueueIs (toCore (run_requests fuel c reqs)) l' ∧
        l'.length ≤ l.length + reqs.length ∧
        ((run_requests fuel c reqs).occupied_byte ≤ (run_requests fuel c reqs).cache_size ∨
          ∃ x, l' = [x] ∧
            objSize (run_requests fuel c reqs).hashtable x
              + (run_requests fuel c reqs).obj_md_size
              > (run_requests fuel c reqs).cache_size) := by
  induction reqs with
  | nil => intro c l hq _ hinv; exact ⟨l, hq, by simp, hinv⟩
  | cons r rest ih =>
    intro c l hq hf hinv
    simp only [List.length_cons] at hf ⊢
    have hf1 : l.length ≤ fuel := by omega
    obtain ⟨l1, h1, h2, h3⟩ := @process_request_capacity fuel c l r hq hf1 hinv
    obtain ⟨l2, h4, h5, h6⟩ := ih (process_request fuel c r).2 l1 h1 (by omega) h3
    exact ⟨l2, h4, by omega, h6⟩

end DynamicAdaptiveClimb

/-- C4 as stated fails. On a cache of capacity 3, the miss on object 1 of size 5 empties the
(empty) queue while over capacity and admits the object; the next request for object 1 is a
hit, after which 5 bytes are occupied although that request never found the queue empty while
over capacity. -/
theorem capacity_bound_counterexample :
    (DynamicAdaptiveClimb.process_request 2
      (DynamicAdaptiveClimb.run_requests 2
        (DynamicAdaptiveClimb.DynamicAdaptiveClimb_init ⟨3, 0⟩) [⟨1, 5⟩]) ⟨1, 5⟩).1 = true ∧
    ¬ ((DynamicAdaptiveClimb.process_request 2
          (DynamicAdaptiveClimb.run_requests 2
            (DynamicAdaptiveClimb.DynamicAdaptiveClimb_init ⟨3, 0⟩) [⟨1, 5⟩]) ⟨1, 5⟩).2.occupied_byte
        ≤ (DynamicAdaptiveClimb.process_request 2
          (DynamicAdaptiveClimb.run_requests 2
            (DynamicAdaptiveClimb.DynamicAdaptiveClimb_init ⟨3, 0⟩) [⟨1, 5⟩]) ⟨1, 5⟩).2.cache_size ∨
      DynamicAdaptiveClimb.emptied_over_capacity 2
        (DynamicAdaptiveClimb.run_requests 2
          (DynamicAdaptiveClimb.DynamicAdaptiveClimb_init ⟨3, 0⟩) [⟨1, 5⟩]) ⟨1, 5⟩) := by
  decide

/-- C4, amended. After each completed request of a request sequence from the initial state,
`occupied_byte <= cache_size`, unless during that request (a miss) the queue became empty
while the cache was still over capacity, or the request is a hit on the only queued object and
that object's size plus overhead exceeds the capacity. -/
theorem capacity_bound_amended (ccp : DynamicAdaptiveClimb.common_cache_params_t) (fuel : Nat)
    (reqs : List request_t) (req : request_t)
    (c : cache_t DynamicAdaptiveClimb.DynamicAdaptiveClimb_params_t)
    (hc : c = DynamicAdaptiveClimb.run_requests fuel
      (DynamicAdaptiveClimb.DynamicAdaptiveClimb_init ccp) reqs)
    (hf : reqs.length + 1 ≤ fuel) :
    (DynamicAdaptiveClimb.process_request fuel c req).2.occupied_byte
      ≤ (DynamicAdaptiveClimb.process_request fuel c req).2.cache_size ∨
    DynamicAdaptiveClimb.emptied_over_capacity fuel c req ∨
    ((DynamicAdaptiveClimb.process_request fuel c req).1 = true ∧
      QueueIs (DynamicAdaptiveClimb.toCore c) [req.obj_id] ∧
      objSize c.hashtable req.obj_id + c.obj_md_size > c.cache_size) := by
  obtain ⟨l, hq, hlen, hinv⟩ := DynamicAdaptiveClimb.run_requests_capacity fuel reqs
    (DynamicAdaptiveClimb.DynamicAdaptiveClimb_init ccp) []
    (DynamicAdaptiveClimb.queueIs_init _ ccp) (by simpa using Nat.le_of_succ_le hf)
    (Or.inl (Nat.zero_le _))
  rw [← hc] at hq hinv
  have hlf : l.length ≤ fuel := by simp at hlen; omega
  cases hs : (c.hashtable req.obj_id).isSome with
  | true =>
    rw [DynamicAdaptiveClimb.process_request_hit fuel c req hs]
    have hx : req.obj_id ∈ l := (hq.2.1 _).1 hs
    have hg := DynamicAdaptiveClimb.get_hit_core c req hs
    obtain ⟨m1, m2, -, -⟩ := move_frame (DynamicAdaptiveClimb.toCore c) req.obj_id
    rw [← hg.2] at m1 m2
    rcases hinv with h | ⟨x, hl, hbig⟩
    · left
      show (DynamicAdaptiveClimb.toCore
          (DynamicAdaptiveClimb.DynamicAdaptiveClimb_get c req).2).occupied_byte
        ≤ (DynamicAdaptiveClimb.toCore
          (DynamicAdaptiveClimb.DynamicAdaptiveClimb_get c req).2).cache_size
      rw [m1, m2]; exact h
    · right; right
      subst hl
      have hxe : req.obj_id = x := by simpa using hx
      subst hxe
      exact ⟨hg.1, hq, hbig⟩
  | false =>
    rw [DynamicAdaptiveClimb.process_request_miss fuel c req hs]
    obtain ⟨l', -, -, h3⟩ := miss_capacity req hq hs hlf
    obtain ⟨-, a2, -, -⟩ := admit_frame (evict_loop req fuel (DynamicAdaptiveClimb.toCore c)) req
    have hcap : (evict_loop req fuel (DynamicAdaptiveClimb.toCore c)).cache_size
        = c.cache_size := by
      obtain ⟨j, -, -, -, g, -⟩ := evict_loop_exit req hq hlf
      exact g
    have hi := (DynamicAdaptiveClimb.insert_miss_core fuel c req hs).2
    rw [← hi] at h3 a2
    rcases h3 with h | ⟨ht, hov, -, -⟩
    · left
      show (DynamicAdaptiveClimb.toCore
          (DynamicAdaptiveClimb.DynamicAdaptiveClimb_insert fuel c req).2).occupied_byte
        ≤ (DynamicAdaptiveClimb.toCore
          (DynamicAdaptiveClimb.DynamicAdaptiveClimb_insert fuel c req).2).cache_size
      rw [a2, hcap]; exact h
    · right; left
      refine ⟨?_, ht, hov⟩
      simp [cache_find_base, hashtable_find_obj_id, hs]

/-- C4 amended, at the request sequence of the counterexample: the second request is the hit
on the oversized object. -/
theorem capacity_bound_amended_witness :
    ([⟨1, 5⟩] : List request_t).length + 1 ≤ 2 ∧
    ((DynamicAdaptiveClimb.process_request 2
        (DynamicAdaptiveClimb.run_requests 2
          (DynamicAdaptiveClimb.DynamicAdaptiveClimb_init ⟨3, 0⟩) [⟨1, 5⟩]) ⟨1, 5⟩).2.occupied_byte
      ≤ (DynamicAdaptiveClimb.process_request 2
        (DynamicAdaptiveClimb.run_requests 2
          (DynamicAdaptiveClimb.DynamicAdaptiveClimb_init ⟨3, 0⟩) [⟨1, 5⟩]) ⟨1, 5⟩).2.cache_size ∨
    DynamicAdaptiveClimb.emptied_over_capacity 2
      (DynamicAdaptiveClimb.run_requests 2
        (DynamicAdaptiveClimb.DynamicAdaptiveClimb_init ⟨3, 0⟩) [⟨1, 5⟩]) ⟨1, 5⟩ ∨
    ((DynamicAdaptiveClimb.process_request 2
        (DynamicAdaptiveClimb.run_requests 2
          (DynamicAdaptiveClimb.DynamicAdaptiveClimb_init ⟨3, 0⟩) [⟨1, 5⟩]) ⟨1, 5⟩).1 = true ∧
      QueueIs (DynamicAdaptiveClimb.toCore
        (DynamicAdaptiveClimb.run_requests 2
          (DynamicAdaptiveClimb.DynamicAdaptiveClimb_init ⟨3, 0⟩) [⟨1, 5⟩])) [1] ∧
      objSize (DynamicAdaptiveClimb.run_requests 2
          (DynamicAdaptiveClimb.DynamicAdaptiveClimb_init ⟨3, 0⟩) [⟨1, 5⟩]).hashtable 1
        + (DynamicAdaptiveClimb.run_requests 2
          (DynamicAdaptiveClimb.DynamicAdaptiveClimb_init ⟨3, 0⟩) [⟨1, 5⟩]).obj_md_size
        > (DynamicAdaptiveClimb.run_requests 2
          (DynamicAdaptiveClimb.DynamicAdaptiveClimb_init ⟨3, 0⟩) [⟨1, 5⟩]).cache_size)) :=
  ⟨by decide, capacity_bound_amended ⟨3, 0⟩ 2 [⟨1, 5⟩] ⟨1, 5⟩ _ rfl (by decide)⟩

/-! ## Oversized objects -/

/-- C5 as stated fails. On fresh caches of capacity 3 the absent object 1 of size 5 exceeds
the capacity, and after the miss path of either policy it is in the registry and it is the
queue. -/
theorem oversized_never_admitted_counterexample :
    ((⟨1, 5⟩ : request_t).obj_size
        > (DynamicAdaptiveClimb.DynamicAdaptiveClimb_init ⟨3, 0⟩).cache_size ∧
      cache_find_base (DynamicAdaptiveClimb.DynamicAdaptiveClimb_init ⟨3, 0⟩) ⟨1, 5⟩ false = none ∧
      ¬ (cache_find_base
            (DynamicAdaptiveClimb.DynamicAdaptiveClimb_insert 1
              (DynamicAdaptiveClimb.DynamicAdaptiveClimb_init ⟨3, 0⟩) ⟨1, 5⟩).2 ⟨1, 5⟩ false = none ∧
          1 ∉ walk_next
            (DynamicAdaptiveClimb.DynamicAdaptiveClimb_insert 1
              (DynamicAdaptiveClimb.DynamicAdaptiveClimb_init ⟨3, 0⟩) ⟨1, 5⟩).2.hashtable 1
            (DynamicAdaptiveClimb.DynamicAdaptiveClimb_insert 1
              (DynamicAdaptiveClimb.DynamicAdaptiveClimb_init ⟨3, 0⟩)
                ⟨1, 5⟩).2.eviction_params.q_head)) ∧
    ((⟨1, 5⟩ : request_t).obj_size > (AdaptiveClimb.initial 3 0).cache.cache_size ∧
      cache_find_base (AdaptiveClimb.initial 3 0).cache ⟨1, 5⟩ false = none ∧
      ¬ (cache_find_base
            (AdaptiveClimb.AdaptiveClimb_insert 1 (AdaptiveClimb.initial 3 0) ⟨1, 5⟩).2.cache
            ⟨1, 5⟩ false = none ∧
          1 ∉ walk_next
            (AdaptiveClimb.AdaptiveClimb_insert 1 (AdaptiveClimb.initial 3 0)
              ⟨1, 5⟩).2.cache.hashtable 1
            (AdaptiveClimb.AdaptiveClimb_insert 1 (AdaptiveClimb.initial 3 0)
              ⟨1, 5⟩).2.cache.eviction_params.q_head)) := by
  decide!

/-- C5, amended. For a well-formed cache and an absent object whose size exceeds the capacity,
the miss path of either policy evicts every queued object and then admits the object: `insert`
returns it, it is registered, and it is the only member of the queue. -/
theorem oversized_is_admitted (fuel : Nat)
    (c : cache_t DynamicAdaptiveClimb.DynamicAdaptiveClimb_params_t) (s : AdaptiveClimb.State)
    (l l' : List Nat) (req : request_t)
    (hq : QueueIs (DynamicAdaptiveClimb.toCore c) l)
    (habs : cache_find_base c req false = none) (hf : l.length ≤ fuel)
    (hbig : req.obj_size > c.cache_size)
    (hq' : QueueIs (AdaptiveClimb.toCore s.cache) l')
    (habs' : cache_find_base s.cache req false = none) (hf' : l'.length ≤ fuel)
    (hbig' : req.obj_size > s.cache.cache_size) :
    ((DynamicAdaptiveClimb.DynamicAdaptiveClimb_insert fuel c req).1 = some req.obj_id ∧
      cache_find_base (DynamicAdaptiveClimb.DynamicAdaptiveClimb_insert fuel c req).2 req false
        = some req.obj_id ∧
      QueueIs
        (DynamicAdaptiveClimb.toCore (DynamicAdaptiveClimb.DynamicAdaptiveClimb_insert fuel c req).2)
        [req.obj_id]) ∧
    ((AdaptiveClimb.AdaptiveClimb_insert fuel s req).1 = some req.obj_id ∧
      cache_find_base (AdaptiveClimb.AdaptiveClimb_insert fuel s req).2.cache req false
        = some req.obj_id ∧
      QueueIs (AdaptiveClimb.toCore (AdaptiveClimb.AdaptiveClimb_insert fuel s req).2.cache)
        [req.obj_id]) := by
  have ha : (c.hashtable req.obj_id).isSome = false := by
    unfold cache_find_base hashtable_find_obj_id at habs
    cases hs : (c.hashtable req.obj_id).isSome with
    | false => rfl
    | true => rw [hs] at habs; simp at habs
  have ha' : (s.cache.hashtable req.obj_id).isSome = false := by
    unfold cache_find_base hashtable_find_obj_id at habs'
    cases hs : (s.cache.hashtable req.obj_id).isSome with
    | false => rfl
    | true => rw [hs] at habs'; simp at habs'
  have h1 := oversized_admitted req hq ha hf hbig
  have h2 := oversized_admitted req hq' ha' hf' hbig'
  have e := DynamicAdaptiveClimb.insert_miss_core fuel c req ha
  have e' := AdaptiveClimb.ac_insert_miss_core fuel s req ha'
  rw [← e.2] at h1
  rw [← e'.2] at h2
  refine ⟨⟨e.1, ?_, h1⟩, ⟨e'.1, ?_, h2⟩⟩
  · have := queueIs_registered h1 req.obj_id
    simpa [cache_find_base] using this
  · have := queueIs_registered h2 req.obj_id
    simpa [cache_find_base] using this

/-- C5 amended, at the full queue 3,2,1 of the scenario (capacity 3) and the absent object 4
of size 5. -/
theorem oversized_is_admitted_witness :
    (QueueIs (DynamicAdaptiveClimb.toCore DynamicAdaptiveClimb.scenario_ABC) [3, 2, 1] ∧
      cache_find_base DynamicAdaptiveClimb.scenario_ABC ⟨4, 5⟩ false = none ∧
      (⟨4, 5⟩ : request_t).obj_size > DynamicAdaptiveClimb.scenario_ABC.cache_size ∧
      QueueIs (AdaptiveClimb.toCore AdaptiveClimb.scenario_ABC.cache) [3, 2, 1] ∧
      cache_find_base AdaptiveClimb.scenario_ABC.cache ⟨4, 5⟩ false = none ∧
      (⟨4, 5⟩ : request_t).obj_size > AdaptiveClimb.scenario_ABC.cache.cache_size) ∧
    (((DynamicAdaptiveClimb.DynamicAdaptiveClimb_insert 3
          DynamicAdaptiveClimb.scenario_ABC ⟨4, 5⟩).1 = some 4 ∧
      cache_find_base
        (DynamicAdaptiveClimb.DynamicAdaptiveClimb_insert 3
          DynamicAdaptiveClimb.scenario_ABC ⟨4, 5⟩).2 ⟨4, 5⟩ false = some 4 ∧
      QueueIs
        (DynamicAdaptiveClimb.toCore
          (DynamicAdaptiveClimb.DynamicAdaptiveClimb_insert 3
            DynamicAdaptiveClimb.scenario_ABC ⟨4, 5⟩).2) [4]) ∧
    ((AdaptiveClimb.AdaptiveClimb_insert 3 AdaptiveClimb.scenario_ABC ⟨4, 5⟩).1 = some 4 ∧
      cache_find_base
        (AdaptiveClimb.AdaptiveClimb_insert 3 AdaptiveClimb.scenario_ABC ⟨4, 5⟩).2.cache
        ⟨4, 5⟩ false = some 4 ∧
      QueueIs
        (AdaptiveClimb.toCore
          (AdaptiveClimb.AdaptiveClimb_insert 3 AdaptiveClimb.scenario_ABC ⟨4, 5⟩).2.cache)
        [4])) :=
  ⟨⟨DynamicAdaptiveClimb.dac_scenario_queueIs, by decide!, by decide!,
      AdaptiveClimb.ac_scenario_queueIs, by decide!, by decide!⟩,
    oversized_is_admitted 3 DynamicAdaptiveClimb.scenario_ABC AdaptiveClimb.scenario_ABC
      [3, 2, 1] [3, 2, 1] ⟨4, 5⟩ DynamicAdaptiveClimb.dac_scenario_queueIs (by decide!)
      (by decide) (by decide!) AdaptiveClimb.ac_scenario_queueIs (by decide!) (by decide)
      (by decide!)⟩

/-! ## The queue scenario -/

/-- C8. With capacity 3, no per-object overhead and objects of size 1: admitting A, B, C
(objects 1, 2, 3) into the empty cache evicts nothing and gives the queue C,B,A; requesting A
is a hit and gives A,C,B; admitting D (object 4) is a miss that evicts exactly B and gives
D,A,C with 3 bytes occupied. This holds for both policies. -/
theorem queue_scenario :
    ((DynamicAdaptiveClimb.DynamicAdaptiveClimb_init ⟨3, 0⟩).cache_size = 3 ∧
      walk_next DynamicAdaptiveClimb.scenario_ABC.hashtable 3
        DynamicAdaptiveClimb.scenario_ABC.eviction_params.q_head = [3, 2, 1] ∧
      DynamicAdaptiveClimb.scenario_ABC.occupied_byte = 3 ∧
      cache_find_base DynamicAdaptiveClimb.scenario_ABC ⟨1, 1⟩ false = some 1 ∧
      cache_find_base DynamicAdaptiveClimb.scenario_ABC ⟨2, 1⟩ false = some 2 ∧
      cache_find_base DynamicAdaptiveClimb.scenario_ABC ⟨3, 1⟩ false = some 3 ∧
      (DynamicAdaptiveClimb.DynamicAdaptiveClimb_get DynamicAdaptiveClimb.scenario_ABC ⟨1, 1⟩).1
        = true ∧
      walk_next
        (DynamicAdaptiveClimb.DynamicAdaptiveClimb_get
          DynamicAdaptiveClimb.scenario_ABC ⟨1, 1⟩).2.hashtable 3
        (DynamicAdaptiveClimb.DynamicAdaptiveClimb_get
          DynamicAdaptiveClimb.scenario_ABC ⟨1, 1⟩).2.eviction_params.q_head = [1, 3, 2] ∧
      cache_find_base
        (DynamicAdaptiveClimb.DynamicAdaptiveClimb_get DynamicAdaptiveClimb.scenario_ABC ⟨1, 1⟩).2
        ⟨4, 1⟩ false = none ∧
      walk_next
        (DynamicAdaptiveClimb.DynamicAdaptiveClimb_insert 3
          (DynamicAdaptiveClimb.DynamicAdaptiveClimb_get
            DynamicAdaptiveClimb.scenario_ABC ⟨1, 1⟩).2 ⟨4, 1⟩).2.hashtable 3
        (DynamicAdaptiveClimb.DynamicAdaptiveClimb_insert 3
          (DynamicAdaptiveClimb.DynamicAdaptiveClimb_get
            DynamicAdaptiveClimb.scenario_ABC ⟨1, 1⟩).2 ⟨4, 1⟩).2.eviction_params.q_head
        = [4, 1, 3] ∧
      walk_prev
        (DynamicAdaptiveClimb.DynamicAdaptiveClimb_insert 3
          (DynamicAdaptiveClimb.DynamicAdaptiveClimb_get
            DynamicAdaptiveClimb.scenario_ABC ⟨1, 1⟩).2 ⟨4, 1⟩).2.hashtable 3
        (DynamicAdaptiveClimb.DynamicAdaptiveClimb_insert 3
          (DynamicAdaptiveClimb.DynamicAdaptiveClimb_get
            DynamicAdaptiveClimb.scenario_ABC ⟨1, 1⟩).2 ⟨4, 1⟩).2.eviction_params.q_tail
        = [3, 1, 4] ∧
      cache_find_base
        (DynamicAdaptiveClimb.DynamicAdaptiveClimb_insert 3
          (DynamicAdaptiveClimb.DynamicAdaptiveClimb_get
            DynamicAdaptiveClimb.scenario_ABC ⟨1, 1⟩).2 ⟨4, 1⟩).2 ⟨2, 1⟩ false = none ∧
      (DynamicAdaptiveClimb.DynamicAdaptiveClimb_insert 3
        (DynamicAdaptiveClimb.DynamicAdaptiveClimb_get
          DynamicAdaptiveClimb.scenario_ABC ⟨1, 1⟩).2 ⟨4, 1⟩).2.occupied_byte = 3) ∧
    (walk_next AdaptiveClimb.scenario_ABC.cache.hashtable 3
        AdaptiveClimb.scenario_ABC.cache.eviction_params.q_head = [3, 2, 1] ∧
      AdaptiveClimb.scenario_ABC.cache.occupied_byte = 3 ∧
      cache_find_base AdaptiveClimb.scenario_ABC.cache ⟨1, 1⟩ false = some 1 ∧
      cache_find_base AdaptiveClimb.scenario_ABC.cache ⟨2, 1⟩ false = some 2 ∧
      cache_find_base AdaptiveClimb.scenario_ABC.cache ⟨3, 1⟩ false = some 3 ∧
      (AdaptiveClimb.AdaptiveClimb_get AdaptiveClimb.scenario_ABC ⟨1, 1⟩).1 = true ∧
      walk_next
        (AdaptiveClimb.AdaptiveClimb_get AdaptiveClimb.scenario_ABC ⟨1, 1⟩).2.cache.hashtable 3
        (AdaptiveClimb.AdaptiveClimb_get
          AdaptiveClimb.scenario_ABC ⟨1, 1⟩).2.cache.eviction_params.q_head = [1, 3, 2] ∧
      cache_find_base
        (AdaptiveClimb.AdaptiveClimb_get AdaptiveClimb.scenario_ABC ⟨1, 1⟩).2.cache
        ⟨4, 1⟩ false = none ∧
      walk_next
        (AdaptiveClimb.AdaptiveClimb_insert 3
          (AdaptiveClimb.AdaptiveClimb_get
            AdaptiveClimb.scenario_ABC ⟨1, 1⟩).2 ⟨4, 1⟩).2.cache.hashtable 3
        (AdaptiveClimb.AdaptiveClimb_insert 3
          (AdaptiveClimb.AdaptiveClimb_get
            AdaptiveClimb.scenario_ABC ⟨1, 1⟩).2 ⟨4, 1⟩).2.cache.eviction_params.q_head
        = [4, 1, 3] ∧
      walk_prev
        (AdaptiveClimb.AdaptiveClimb_insert 3
          (AdaptiveClimb.AdaptiveClimb_get
            AdaptiveClimb.scenario_ABC ⟨1, 1⟩).2 ⟨4, 1⟩).2.cache.hashtable 3
        (AdaptiveClimb.AdaptiveClimb_insert 3
          (AdaptiveClimb.AdaptiveClimb_get
            AdaptiveClimb.scenario_ABC ⟨1, 1⟩).2 ⟨4, 1⟩).2.cache.eviction_params.q_tail
        = [3, 1, 4] ∧
      cache_find_base
        (AdaptiveClimb.AdaptiveClimb_insert 3
          (AdaptiveClimb.AdaptiveClimb_get AdaptiveClimb.scenario_ABC ⟨1, 1⟩).2 ⟨4, 1⟩).2.cache
        ⟨2, 1⟩ false = none ∧
      (AdaptiveClimb.AdaptiveClimb_insert 3
        (AdaptiveClimb.AdaptiveClimb_get
          AdaptiveClimb.scenario_ABC ⟨1, 1⟩).2 ⟨4, 1⟩).2.cache.occupied_byte = 3) := by
  decide!

/-! ## The hit/miss window -/

theorem sum_eq_count_one (L : List Int) (h : ∀ v ∈ L, v = 0 ∨ v = 1) :
    L.sum = (L.count 1 : Int) := by
  induction L with
  | nil => rfl
  | cons a rest ih =>
    have hr := ih (fun v hv => h v (List.mem_cons_of_mem _ hv))
    rcases h a (List.mem_cons_self _ _) with ha | ha
    · subst ha; simp [hr]
    · subst ha; simp [hr]; omega

namespace DynamicAdaptiveClimb

/-- The window holds the chronological list `T` of its last `W` outcomes: the buffer is
`A ++ B` with the cursor at the start of `B`, `T` is `B ++ A`, and `recent_hit_count` is the
sum of `T`, whose entries are 0 or 1. -/
theorem window_step (W : Nat) (p : DynamicAdaptiveClimb_params_t) (o : Int)
    (ho : o = 0 ∨ o = 1) (T : List Int)
    (hinv : ∃ A B, p.recent_hits = A ++ B ∧ p.hit_miss_ptr = A.length ∧ B ≠ [] ∧
      (A ++ B).length = W ∧ B ++ A = T ∧ p.recent_hit_count = T.sum ∧
      ∀ v ∈ T, v = 0 ∨ v = 1) :
    ∃ A B, (update_hit_miss_window W p o).recent_hits = A ++ B ∧
      (update_hit_miss_window W p o).hit_miss_ptr = A.length ∧ B ≠ [] ∧
      (A ++ B).length = W ∧ B ++ A = T.tail ++ [o] ∧
      (update_hit_miss_window W p o).recent_hit_count = (T.tail ++ [o]).sum ∧
      ∀ v ∈ T.tail ++ [o], v = 0 ∨ v = 1 := by
  obtain ⟨A, B, hbuf, hptr, hB, hlen, hT, hcnt, h01⟩ := hinv
  cases B with
  | nil => exact absurd rfl hB
  | cons x B0 =>
    subst hT
    have hx : x = 0 ∨ x = 1 := h01 x (by simp)
    have hget : p.recent_hits.getD p.hit_miss_ptr 0 = x := by
      rw [hbuf, hptr, List.getD_eq_getElem?_getD, List.getElem?_append_right (le_refl _)]
      simp
    have hset : p.recent_hits.set p.hit_miss_ptr o = A ++ o :: B0 := by
      rw [hbuf, hptr]; simp
    have hbufs : (update_hit_miss_window W p o).recent_hits = A ++ o :: B0 := by
      unfold update_hit_miss_window
      dsimp only
      split_ifs <;> exact hset
    have hptrs : (update_hit_miss_window W p o).hit_miss_ptr = (A.length + 1) % W := by
      unfold update_hit_miss_window
      dsimp only
      split_ifs <;> rw [hptr]
    have hcnts : (update_hit_miss_window W p o).recent_hit_count
        = p.recent_hit_count - x + o := by
      unfold update_hit_miss_window
      dsimp only
      rw [hget]
      rcases hx with hx | hx <;> rcases ho with ho | ho <;> subst hx <;> subst ho <;> simp
    have htail : (x :: B0 ++ A).tail = B0 ++ A := rfl
    have h01' : ∀ v ∈ B0 ++ A ++ [o], v = 0 ∨ v = 1 := by
      intro v hv
      rcases List.mem_append.1 hv with hv | hv
      · exact h01 v (List.mem_cons_of_mem _ hv)
      · rw [List.mem_singleton] at hv; rw [hv]; exact ho
    have hsum : p.recent_hit_count - x + o = (B0 ++ A ++ [o]).sum := by
      rw [hcnt]; simp; ring
    simp only [List.length_append, List.length_cons] at hlen
    cases B0 with
    | nil =>
      refine ⟨[], A ++ [o], ?_, ?_, by simp, ?_, ?_, ?_, ?_⟩
      · rw [hbufs]; simp
      · rw [hptrs]
        have : A.length + 1 = W := by simpa using hlen
        rw [this]; simp
      · simp; simpa using hlen
      · rw [htail]; simp
      · rw [hcnts, htail, hsum]
      · rw [htail]; exact h01'
    | cons y B1 =>
      refine ⟨A ++ [o], y :: B1, ?_, ?_, by simp, ?_, ?_, ?_, ?_⟩
      · rw [hbufs]; simp
      · rw [hptrs]
        simp only [List.length_cons] at hlen
        rw [Nat.mod_eq_of_lt (by omega)]; simp
      · simp only [List.length_cons] at hlen; simp; omega
      · rw [htail]; simp
      · rw [hcnts, htail, hsum]
      · rw [htail]; exact h01'

theorem window_run (W : Nat) (os : List Int) :
    ∀ (p : DynamicAdaptiveClimb_params_t) (T : List Int), (∀ o ∈ os, o = 0 ∨ o = 1) →
      (∃ A B, p.recent_hits = A ++ B ∧ p.hit_miss_ptr = A.length ∧ B ≠ [] ∧
        (A ++ B).length = W ∧ B ++ A = T ∧ p.recent_hit_count = T.sum ∧
        ∀ v ∈ T, v = 0 ∨ v = 1) →
      ∃ A B, (record_all W p os).recent_hits = A ++ B ∧
        (record_all W p os).hit_miss_ptr = A.length ∧ B ≠ [] ∧
        (A ++ B).length = W ∧ B ++ A = (T ++ os).drop os.length ∧
        (record_all W p os).recent_hit_count = ((T ++ os).drop os.length).sum ∧
        ∀ v ∈ (T ++ os).drop os.length, v = 0 ∨ v = 1 := by
  induction os with
  | nil => intro p T _ hinv; simpa [record_all] using hinv
  | cons o rest ih =>
    intro p T h01 hinv
    have hTne : T ≠ [] := by
      obtain ⟨A, B, -, -, hB, -, hT, -, -⟩ := hinv
      intro h; rw [h] at hT
      exact hB (List.append_eq_nil.1 hT).1
    have hstep := window_step W p o (h01 o (List.mem_cons_self _ _)) T hinv
    have hrec := ih (update_hit_miss_window W p o) (T.tail ++ [o])
      (fun v hv => h01 v (List.mem_cons_of_mem _ hv)) hstep
    have hdrop : (T ++ o :: rest).drop (o :: rest).length
        = (T.tail ++ [o] ++ rest).drop rest.length := by
      cases T with
      | nil => exact absurd rfl hTne
      | cons t T0 => simp
    rw [hdrop]
    exact hrec

end DynamicAdaptiveClimb

/-- C6. From the zero-initialised window of `DynamicAdaptiveClimb_init` (for any window size
`W > 0`; 1000 in the source) and any sequence of `N` outcomes in {0,1} recorded with
`update_hit_miss_window`, `recent_hit_count` equals the sum of the buffer and equals the
number of 1-outcomes among the last `min N W` recorded outcomes. -/
theorem window_correctness (W : Nat) (hW : 0 < W)
    (ccp : DynamicAdaptiveClimb.common_cache_params_t) (os : List Int)
    (h01 : ∀ o ∈ os, o = 0 ∨ o = 1) :
    (DynamicAdaptiveClimb.record_all W
        (DynamicAdaptiveClimb.DynamicAdaptiveClimb_init_W W ccp).eviction_params os).recent_hit_count
      = (DynamicAdaptiveClimb.record_all W
        (DynamicAdaptiveClimb.DynamicAdaptiveClimb_init_W W ccp).eviction_params os).recent_hits.sum ∧
    (DynamicAdaptiveClimb.record_all W
        (DynamicAdaptiveClimb.DynamicAdaptiveClimb_init_W W ccp).eviction_params os).recent_hit_count
      = ((os.rtake (min os.length W)).count 1 : Int) := by
  have h0 : ∃ A B,
      (DynamicAdaptiveClimb.DynamicAdaptiveClimb_init_W W ccp).eviction_params.recent_hits = A ++ B ∧
      (DynamicAdaptiveClimb.DynamicAdaptiveClimb_init_W W ccp).eviction_params.hit_miss_ptr
        = A.length ∧ B ≠ [] ∧
      (A ++ B).length = W ∧ B ++ A = List.replicate W 0 ∧
      (DynamicAdaptiveClimb.DynamicAdaptiveClimb_init_W W ccp).eviction_params.recent_hit_count
        = (List.replicate W (0 : Int)).sum ∧
      ∀ v ∈ List.replicate W (0 : Int), v = 0 ∨ v = 1 := by
    refine ⟨[], List.replicate W 0, rfl, rfl, ?_, by simp, by simp, ?_, ?_⟩
    · intro h
      have := congrArg List.length h
      simp at this; omega
    · simp [DynamicAdaptiveClimb.DynamicAdaptiveClimb_init_W]
    · intro v hv; exact Or.inl (List.eq_of_mem_replicate hv)
  obtain ⟨A, B, hbuf, -, -, -, hT, hcnt, hall⟩ :=
    DynamicAdaptiveClimb.window_run W os _ _ h01 h0
  constructor
  · rw [hcnt, hbuf, ← hT]; simp; ring
  · rw [hcnt, List.drop_append_eq_append_drop]
    have hz : ((List.replicate W (0 : Int)).drop os.length).sum = 0 := by
      simp [List.drop_replicate]
    have hidx : os.length - min os.length W = os.length - W := by omega
    rw [List.sum_append, hz, zero_add, List.rtake, hidx, List.length_replicate]
    apply sum_eq_count_one
    intro v hv
    exact h01 v (List.mem_of_mem_drop hv)

/-- C6, at a window of 4 slots and the five outcomes 1,1,0,0,1. -/
theorem window_correctness_witness :
    (0 < 4 ∧ ∀ o ∈ ([1, 1, 0, 0, 1] : List Int), o = 0 ∨ o = 1) ∧
    ((DynamicAdaptiveClimb.record_all 4
        (DynamicAdaptiveClimb.DynamicAdaptiveClimb_init_W 4 ⟨0, 0⟩).eviction_params
        [1, 1, 0, 0, 1]).recent_hit_count
      = (DynamicAdaptiveClimb.record_all 4
        (DynamicAdaptiveClimb.DynamicAdaptiveClimb_init_W 4 ⟨0, 0⟩).eviction_params
        [1, 1, 0, 0, 1]).recent_hits.sum ∧
    (DynamicAdaptiveClimb.record_all 4
        (DynamicAdaptiveClimb.DynamicAdaptiveClimb_init_W 4 ⟨0, 0⟩).eviction_params
        [1, 1, 0, 0, 1]).recent_hit_count
      = ((([1, 1, 0, 0, 1] : List Int).rtake
          (min ([1, 1, 0, 0, 1] : List Int).length 4)).count 1 : Int)) :=
  ⟨⟨by decide, by decide⟩, window_correctness 4 (by decide) ⟨0, 0⟩ [1, 1, 0, 0, 1] (by decide)⟩

/-- C7 as stated fails. With 4 slots and a fresh window, after the outcomes 1,1,0,0 the hit
rate is 1/2, the cursor is back at slot 0 and that slot holds the first 1; the further outcome
1 overwrites a 1 with a 1, so the hit rate is not 3/4. -/
theorem window_scenario_counterexample :
    DynamicAdaptiveClimb.hit_rate 4
      (DynamicAdaptiveClimb.record_all 4
        (DynamicAdaptiveClimb.DynamicAdaptiveClimb_init_W 4 ⟨0, 0⟩).eviction_params [1, 1, 0, 0])
      = 1 / 2 ∧
    (DynamicAdaptiveClimb.record_all 4
      (DynamicAdaptiveClimb.DynamicAdaptiveClimb_init_W 4 ⟨0, 0⟩).eviction_params
      [1, 1, 0, 0]).hit_miss_ptr = 0 ∧
    (DynamicAdaptiveClimb.record_all 4
      (DynamicAdaptiveClimb.DynamicAdaptiveClimb_init_W 4 ⟨0, 0⟩).eviction_params
      [1, 1, 0, 0]).recent_hits = [1, 1, 0, 0] ∧
    ¬ (DynamicAdaptiveClimb.hit_rate 4
      (DynamicAdaptiveClimb.update_hit_miss_window 4
        (DynamicAdaptiveClimb.record_all 4
          (DynamicAdaptiveClimb.DynamicAdaptiveClimb_init_W 4 ⟨0, 0⟩).eviction_params
          [1, 1, 0, 0]) 1)
      = 3 / 4) := by
  decide!

/-- C7, amended. With 4 slots and a fresh window, after the outcomes 1,1,0,0 the hit rate
(`recent_hit_count / W`) is 1/2; the further outcome 1 overwrites the oldest slot (index 0,
holding the first 1) with a 1, so the buffer is still 1,1,0,0, `recent_hit_count` is still 2
and the hit rate is still exactly 1/2. -/
theorem window_scenario_amended (ccp : DynamicAdaptiveClimb.common_cache_params_t) :
    DynamicAdaptiveClimb.hit_rate 4
      (DynamicAdaptiveClimb.record_all 4
        (DynamicAdaptiveClimb.DynamicAdaptiveClimb_init_W 4 ccp).eviction_params [1, 1, 0, 0])
      = 1 / 2 ∧
    (DynamicAdaptiveClimb.record_all 4
      (DynamicAdaptiveClimb.DynamicAdaptiveClimb_init_W 4 ccp).eviction_params
      [1, 1, 0, 0]).hit_miss_ptr = 0 ∧
    (DynamicAdaptiveClimb.record_all 4
      (DynamicAdaptiveClimb.DynamicAdaptiveClimb_init_W 4 ccp).eviction_params
      [1, 1, 0, 0]).recent_hits = [1, 1, 0, 0] ∧
    (DynamicAdaptiveClimb.update_hit_miss_window 4
      (DynamicAdaptiveClimb.record_all 4
        (DynamicAdaptiveClimb.DynamicAdaptiveClimb_init_W 4 ccp).eviction_params
        [1, 1, 0, 0]) 1).recent_hits = [1, 1, 0, 0] ∧
    (DynamicAdaptiveClimb.update_hit_miss_window 4
      (DynamicAdaptiveClimb.record_all 4
        (DynamicAdaptiveClimb.DynamicAdaptiveClimb_init_W 4 ccp).eviction_params
        [1, 1, 0, 0]) 1).recent_hit_count = 2 ∧
    DynamicAdaptiveClimb.hit_rate 4
      (DynamicAdaptiveClimb.update_hit_miss_window 4
        (DynamicAdaptiveClimb.record_all 4
          (DynamicAdaptiveClimb.DynamicAdaptiveClimb_init_W 4 ccp).eviction_params
          [1, 1, 0, 0]) 1)
      = 1 / 2 := by
  refine ⟨?_, ?_, ?_, ?_, ?_, ?_⟩ <;>
    simp [DynamicAdaptiveClimb.record_all, DynamicAdaptiveClimb.update_hit_miss_window,
      DynamicAdaptiveClimb.DynamicAdaptiveClimb_init_W, DynamicAdaptiveClimb.hit_rate,
      DynamicAdaptiveClimb.miss_rate] <;>
    norm_num

/-! ## The controller -/

namespace DynamicAdaptiveClimb

theorem fallback_update_K (p : DynamicAdaptiveClimb_params_t) :
    (fallback_update p).K = p.K ∧ (fallback_update p).jump = p.jump := by
  unfold fallback_update; dsimp only; split_ifs <;> exact ⟨rfl, rfl⟩

theorem fallback_update_improving (p : DynamicAdaptiveClimb_params_t)
    (h : decide (p.ema_miss_ratio < p.last_miss_rates.getD 2 0) = true) :
    (fallback_update p).fallback_counter = 0 ∧ (fallback_update p).in_fallback = 0 := by
  unfold fallback_update
  dsimp only
  rw [h]
  simp only [if_true]
  split_ifs with h1
  · exact ⟨rfl, rfl⟩
  · exact ⟨rfl, not_not.1 h1⟩

theorem fallback_update_non_improving (p : DynamicAdaptiveClimb_params_t)
    (h : decide (p.ema_miss_ratio < p.last_miss_rates.getD 2 0) = false) :
    (fallback_update p).fallback_counter = p.fallback_counter + 1 ∧
    (fallback_update p).in_fallback =
      (if p.fallback_counter + 1 ≥ ADAPTIVECLIMB_FALLBACK_INTERVAL then 1 else p.in_fallback) := by
  unfold fallback_update
  dsimp only
  rw [h]
  simp only [Bool.false_eq_true, if_false]
  split_ifs <;> exact ⟨rfl, rfl⟩

theorem parameter_update_fallback (m : ℚ) (p : DynamicAdaptiveClimb_params_t) :
    (parameter_update m p).fallback_counter = p.fallback_counter ∧
    (parameter_update m p).in_fallback = p.in_fallback := by
  unfold parameter_update; dsimp only; split_ifs <;> exact ⟨rfl, rfl⟩

/-- A non-improving tick counts up and enters the fallback regime at the threshold. -/
theorem tick_non_improving (p : DynamicAdaptiveClimb_params_t) (h : improving p = false) :
    (controller_tick p).fallback_counter = p.fallback_counter + 1 ∧
    (controller_tick p).in_fallback =
      (if p.fallback_counter + 1 ≥ ADAPTIVECLIMB_FALLBACK_INTERVAL then 1 else p.in_fallback) := by
  have h1 := fallback_update_non_improving
    { p with ema_miss_ratio :=
        EMA_ALPHA * miss_rate HIT_MISS_WINDOW p + (1 - EMA_ALPHA) * p.ema_miss_ratio } h
  unfold controller_tick history_update
  dsimp only
  rw [(parameter_update_fallback _ _).1, (parameter_update_fallback _ _).2]
  exact h1

/-- At a multiple of `ADJUSTMENT_INTERVAL` a call of `adjust_k_parameter` is a tick. -/
theorem adjust_k_parameter_at_tick (p : DynamicAdaptiveClimb_params_t)
    (h : p.total_requests % ADJUSTMENT_INTERVAL = 0) :
    adjust_k_parameter p = controller_tick p := by
  unfold adjust_k_parameter
  rw [if_neg (not_not.2 h)]

/-- A tick leaves the request counter alone, so a run of ticks is a run of calls of
`adjust_k_parameter` at multiples of `ADJUSTMENT_INTERVAL`. -/
theorem tick_with_eq_adjust (p : DynamicAdaptiveClimb_params_t) (c : Int)
    (h : p.total_requests % ADJUSTMENT_INTERVAL = 0) :
    tick_with p c = adjust_k_parameter { p with recent_hit_count := c } ∧
    (tick_with p c).total_requests = p.total_requests := by
  constructor
  · exact (adjust_k_parameter_at_tick { p with recent_hit_count := c } h).symm
  · have h1 : ∀ q : DynamicAdaptiveClimb_params_t,
        (fallback_update q).total_requests = q.total_requests := by
      intro q; unfold fallback_update; dsimp only; split_ifs <;> rfl
    have h2 : ∀ (m : ℚ) (q : DynamicAdaptiveClimb_params_t),
        (parameter_update m q).total_requests = q.total_requests := by
      intro m q; unfold parameter_update; dsimp only; split_ifs <;> rfl
    unfold tick_with controller_tick history_update
    dsimp only
    rw [h2, h1]

theorem ticks_append (p : DynamicAdaptiveClimb_params_t) (l1 l2 : List Int) :
    ticks p (l1 ++ l2) = ticks (ticks p l1) l2 := by
  simp [ticks, List.foldl_append]

theorem nonImprovingRun_append (l1 l2 : List Int) :
    ∀ p : DynamicAdaptiveClimb_params_t, NonImprovingRun p (l1 ++ l2) →
      NonImprovingRun p l1 ∧ NonImprovingRun (ticks p l1) l2 := by
  induction l1 with
  | nil => intro p h; exact ⟨trivial, h⟩
  | cons c rest ih =>
    intro p h
    obtain ⟨h1, h2⟩ := h
    obtain ⟨h3, h4⟩ := ih _ h2
    exact ⟨⟨h1, h3⟩, h4⟩

/-- A run of non-improving ticks: the counter grows by the number of ticks, and the regime is
fallback as soon as the counter has reached the threshold. -/
theorem nonImprovingRun_fallback (cs : List Int) :
    ∀ p : DynamicAdaptiveClimb_params_t, NonImprovingRun p cs →
      (ticks p cs).fallback_counter = p.fallback_counter + cs.length ∧
      (ticks p cs).in_fallback =
        (if cs ≠ [] ∧ p.fallback_counter + cs.length ≥ ADAPTIVECLIMB_FALLBACK_INTERVAL then 1
          else p.in_fallback) := by
  induction cs with
  | nil => intro p _; simp [ticks]
  | cons c rest ih =>
    intro p h
    obtain ⟨h1, h2⟩ := h
    obtain ⟨t1, t2⟩ := tick_non_improving _ h1
    obtain ⟨i1, i2⟩ := ih _ h2
    have e : ticks p (c :: rest) = ticks (tick_with p c) rest := rfl
    have t1' : (tick_with p c).fallback_counter = p.fallback_counter + 1 := t1
    have t2' : (tick_with p c).in_fallback =
        (if p.fallback_counter + 1 ≥ ADAPTIVECLIMB_FALLBACK_INTERVAL then 1
          else p.in_fallback) := t2
    rw [e, i1, i2, t1', t2']
    constructor
    · simp only [List.length_cons]; push_cast; ring
    · unfold ADAPTIVECLIMB_FALLBACK_INTERVAL
      cases rest with
      | nil => simp
      | cons d rest0 =>
        simp only [List.length_cons, ne_eq, not_false_eq_true, true_and, reduceCtorEq]
        push_cast
        split_ifs <;> first | rfl | omega

theorem parameter_update_aggressive (m : ℚ) (p : DynamicAdaptiveClimb_params_t)
    (hf : p.in_fallback = 0) (hK : p.K = 6) (hj : p.jump = 6) :
    (parameter_update m p).K = 4 ∨ (parameter_update m p).jump = 4 := by
  unfold parameter_update
  dsimp only
  rw [hf, hK, hj]
  simp only [ne_eq, not_true_eq_false, if_false, MIN_K, MAX_K]
  split_ifs <;> simp <;> omega

/-- With `K = jump = 6` in the aggressive regime, one tick takes `K` or `jump` to 4. -/
theorem tick_breaks_clamp (p : DynamicAdaptiveClimb_params_t) (hK : p.K = 6) (hj : p.jump = 6)
    (hf : p.in_fallback = 0) (hc : p.fallback_counter = 0) :
    (controller_tick p).K = 4 ∨ (controller_tick p).jump = 4 := by
  have hfb : (fallback_update
      { p with ema_miss_ratio :=
          EMA_ALPHA * miss_rate HIT_MISS_WINDOW p + (1 - EMA_ALPHA) * p.ema_miss_ratio }).in_fallback
      = 0 := by
    cases hi : improving p with
    | true =>
      exact (fallback_update_improving
        { p with ema_miss_ratio :=
            EMA_ALPHA * miss_rate HIT_MISS_WINDOW p + (1 - EMA_ALPHA) * p.ema_miss_ratio } hi).2
    | false =>
      rw [(fallback_update_non_improving
        { p with ema_miss_ratio :=
            EMA_ALPHA * miss_rate HIT_MISS_WINDOW p + (1 - EMA_ALPHA) * p.ema_miss_ratio } hi).2]
      show (if p.fallback_counter + 1 ≥ ADAPTIVECLIMB_FALLBACK_INTERVAL then 1
        else p.in_fallback) = 0
      rw [hc, hf]
      unfold ADAPTIVECLIMB_FALLBACK_INTERVAL
      simp
  have hKj := fallback_update_K
    { p with ema_miss_ratio :=
        EMA_ALPHA * miss_rate HIT_MISS_WINDOW p + (1 - EMA_ALPHA) * p.ema_miss_ratio }
  have h := parameter_update_aggressive (miss_rate HIT_MISS_WINDOW p) _ hfb
    (hKj.1.trans hK) (hKj.2.trans hj)
  unfold controller_tick history_update
  exact h

end DynamicAdaptiveClimb

namespace DynamicAdaptiveClimb

theorem update_hit_miss_window_ctl (W : Nat) (p : DynamicAdaptiveClimb_params_t) (hit : Int) :
    (update_hit_miss_window W p hit).total_requests = p.total_requests ∧
    (update_hit_miss_window W p hit).K = p.K ∧
    (update_hit_miss_window W p hit).jump = p.jump ∧
    (update_hit_miss_window W p hit).in_fallback = p.in_fallback ∧
    (update_hit_miss_window W p hit).fallback_counter = p.fallback_counter := by
  unfold update_hit_miss_window
  dsimp only
  split_ifs <;> exact ⟨rfl, rfl, rfl, rfl, rfl⟩

/-- The parameters after one request: `adjust_k_parameter` applied to parameters whose
request counter has been incremented and whose controller fields are untouched. -/
theorem process_request_params (fuel : Nat) (c : cache_t DynamicAdaptiveClimb_params_t)
    (req : request_t) :
    ∃ p', (process_request fuel c req).2.eviction_params = adjust_k_parameter p' ∧
      p'.total_requests = wrap_int (c.eviction_params.total_requests + 1) ∧
      p'.K = c.eviction_params.K ∧ p'.jump = c.eviction_params.jump ∧
      p'.in_fallback = c.eviction_params.in_fallback ∧
      p'.fallback_counter = c.eviction_params.fallback_counter := by
  obtain ⟨u1, u2, u3, u4, u5⟩ := update_hit_miss_window_ctl HIT_MISS_WINDOW
    { c.eviction_params with
      total_requests := wrap_int (c.eviction_params.total_requests + 1) } 1
  obtain ⟨v1, v2, v3, v4, v5⟩ := update_hit_miss_window_ctl HIT_MISS_WINDOW
    { c.eviction_params with
      total_requests := wrap_int (c.eviction_params.total_requests + 1) } 0
  cases hs : (c.hashtable req.obj_id).isSome with
  | true =>
    have hf : cache_find_base c req true = some req.obj_id := by
      simp [cache_find_base, hashtable_find_obj_id, hs]
    rw [process_request_hit fuel c req hs]
    unfold DynamicAdaptiveClimb_get
    rw [hf]
    exact ⟨_, rfl, u1, u2, u3, u4, u5⟩
  | false =>
    have hf : cache_find_base c req false = none := by
      simp [cache_find_base, hashtable_find_obj_id, hs]
    rw [process_request_miss fuel c req hs]
    unfold DynamicAdaptiveClimb_insert
    rw [hf]
    exact ⟨_, rfl, v1, v2, v3, v4, v5⟩

theorem run_requests_append (fuel : Nat) (c : cache_t DynamicAdaptiveClimb_params_t)
    (l1 l2 : List request_t) :
    run_requests fuel c (l1 ++ l2) = run_requests fuel (run_requests fuel c l1) l2 := by
  simp [run_requests, List.foldl_append]

/-- Before the first tick the controller is as initialised and the request counter counts the
requests. -/
theorem run_requests_before_tick (fuel : Nat) (reqs : List request_t) :
    ∀ (c : cache_t DynamicAdaptiveClimb_params_t) (n : Nat),
      c.eviction_params.total_requests = n → c.eviction_params.K = 6 →
      c.eviction_params.jump = 6 → c.eviction_params.in_fallback = 0 →
      c.eviction_params.fallback_counter = 0 → n + reqs.length < 10000 →
      (run_requests fuel c reqs).eviction_params.total_requests = (n + reqs.length : Nat) ∧
      (run_requests fuel c reqs).eviction_params.K = 6 ∧
      (run_requests fuel c reqs).eviction_params.jump = 6 ∧
      (run_requests fuel c reqs).eviction_params.in_fallback = 0 ∧
      (run_requests fuel c reqs).eviction_params.fallback_counter = 0 := by
  induction reqs with
  | nil => intro c n h1 h2 h3 h4 h5 _; exact ⟨by simpa [run_requests] using h1, h2, h3, h4, h5⟩
  | cons r rest ih =>
    intro c n h1 h2 h3 h4 h5 hlt
    simp only [List.length_cons] at hlt
    have hmod : ((n : Int) + 1) % 10000 ≠ 0 := by omega
    have hlt1 : n + 1 + rest.length < 10000 := by omega
    have hn : n + 1 + rest.length = n + (rest.length + 1) := by omega
    have hcast : ((n : Int) + 1) = ((n + 1 : Nat) : Int) := by push_cast; ring
    have hw : wrap_int ((n : Int) + 1) = (n : Int) + 1 :=
      wrap_int_small _ (by omega) (by omega)
    obtain ⟨p', e, q1, q2, q3, q4, q5⟩ := process_request_params fuel c r
    have hno : adjust_k_parameter p' = p' := by
      unfold adjust_k_parameter ADJUSTMENT_INTERVAL
      rw [q1, h1, hw]
      simp [hmod]
    rw [hno] at e
    have hrun : run_requests fuel c (r :: rest)
        = run_requests fuel (process_request fuel c r).2 rest := rfl
    rw [hrun]
    have := ih (process_request fuel c r).2 (n + 1)
      (by rw [e, q1, h1, hw, hcast]) (by rw [e, q2, h2]) (by rw [e, q3, h3])
      (by rw [e, q4, h4]) (by rw [e, q5, h5]) hlt1
    simp only [List.length_cons]
    rw [hn] at this
    exact this

theorem init_controller (ccp : common_cache_params_t) (h : ccp.cache_size = 36864) :
    (DynamicAdaptiveClimb_init ccp).eviction_params.total_requests = (0 : Nat) ∧
    (DynamicAdaptiveClimb_init ccp).eviction_params.K = 6 ∧
    (DynamicAdaptiveClimb_init ccp).eviction_params.jump = 6 ∧
    (DynamicAdaptiveClimb_init ccp).eviction_params.in_fallback = 0 ∧
    (DynamicAdaptiveClimb_init ccp).eviction_params.fallback_counter = 0 := by
  have hs : Nat.sqrt (36864 / 1024) = 6 := by
    have : 36864 / 1024 = 6 * 6 := by norm_num
    rw [this, Nat.sqrt_eq]
  refine ⟨rfl, ?_, ?_, rfl, rfl⟩ <;>
    simp [DynamicAdaptiveClimb_init, DynamicAdaptiveClimb_init_W, h, hs]

end DynamicAdaptiveClimb

/-- C9, the code at the failing input. `DynamicAdaptiveClimb_init` with nominal capacity
36864 sets `K = jump = 6`, inside [5, 5000]; after any 10000 requests, whatever their
outcomes, the first controller tick has run and `K = 4` or `jump = 4`, below `MIN_K = 5`. -/
theorem clamp_broken_at_first_tick (obj_md_size fuel : Nat) (reqs : List request_t)
    (hlen : reqs.length = 10000) :
    (DynamicAdaptiveClimb.DynamicAdaptiveClimb_init ⟨36864, obj_md_size⟩).eviction_params.K = 6 ∧
    (DynamicAdaptiveClimb.DynamicAdaptiveClimb_init ⟨36864, obj_md_size⟩).eviction_params.jump = 6 ∧
    ((DynamicAdaptiveClimb.run_requests fuel
        (DynamicAdaptiveClimb.DynamicAdaptiveClimb_init ⟨36864, obj_md_size⟩)
        reqs).eviction_params.K = 4 ∨
      (DynamicAdaptiveClimb.run_requests fuel
        (DynamicAdaptiveClimb.DynamicAdaptiveClimb_init ⟨36864, obj_md_size⟩)
        reqs).eviction_params.jump = 4) := by
  obtain ⟨i1, i2, i3, i4, i5⟩ :=
    DynamicAdaptiveClimb.init_controller ⟨36864, obj_md_size⟩ rfl
  refine ⟨i2, i3, ?_⟩
  rcases List.eq_nil_or_concat reqs with rfl | ⟨front, last, rfl⟩
  · simp at hlen
  · rw [List.concat_eq_append] at hlen ⊢
    have hfront : front.length = 9999 := by simpa using hlen
    obtain ⟨b1, b2, b3, b4, b5⟩ := DynamicAdaptiveClimb.run_requests_before_tick fuel front
      _ 0 i1 i2 i3 i4 i5 (by omega)
    rw [DynamicAdaptiveClimb.run_requests_append]
    obtain ⟨p', e, q1, q2, q3, q4, q5⟩ := DynamicAdaptiveClimb.process_request_params fuel
      (DynamicAdaptiveClimb.run_requests fuel
        (DynamicAdaptiveClimb.DynamicAdaptiveClimb_init ⟨36864, obj_md_size⟩) front) last
    have htick : DynamicAdaptiveClimb.adjust_k_parameter p'
        = DynamicAdaptiveClimb.controller_tick p' := by
      have hw : wrap_int (((0 + 9999 : Nat) : Int) + 1) = 10000 := by decide!
      unfold DynamicAdaptiveClimb.adjust_k_parameter DynamicAdaptiveClimb.ADJUSTMENT_INTERVAL
      rw [q1, b1, hfront, hw]
      simp
    have hrun : DynamicAdaptiveClimb.run_requests fuel
        (DynamicAdaptiveClimb.run_requests fuel
          (DynamicAdaptiveClimb.DynamicAdaptiveClimb_init ⟨36864, obj_md_size⟩) front) [last]
        = (DynamicAdaptiveClimb.process_request fuel
          (DynamicAdaptiveClimb.run_requests fuel
            (DynamicAdaptiveClimb.DynamicAdaptiveClimb_init ⟨36864, obj_md_size⟩) front)
          last).2 := rfl
    rw [hrun, e, htick]
    exact DynamicAdaptiveClimb.tick_breaks_clamp p' (q2.trans b2) (q3.trans b3) (q4.trans b4)
      (q5.trans b5)

/-- C9 at a trace of 10000 requests for one object. -/
theorem clamp_broken_at_first_tick_witness :
    (List.replicate 10000 (⟨1, 1⟩ : request_t)).length = 10000 ∧
    ((DynamicAdaptiveClimb.DynamicAdaptiveClimb_init ⟨36864, 0⟩).eviction_params.K = 6 ∧
    (DynamicAdaptiveClimb.DynamicAdaptiveClimb_init ⟨36864, 0⟩).eviction_params.jump = 6 ∧
    ((DynamicAdaptiveClimb.run_requests 1
        (DynamicAdaptiveClimb.DynamicAdaptiveClimb_init ⟨36864, 0⟩)
        (List.replicate 10000 ⟨1, 1⟩)).eviction_params.K = 4 ∨
      (DynamicAdaptiveClimb.run_requests 1
        (DynamicAdaptiveClimb.DynamicAdaptiveClimb_init ⟨36864, 0⟩)
        (List.replicate 10000 ⟨1, 1⟩)).eviction_params.jump = 4)) :=
  ⟨List.length_replicate _ _,
    clamp_broken_at_first_tick 0 1 (List.replicate 10000 ⟨1, 1⟩) (List.length_replicate _ _)⟩

/-! ## Fallback hysteresis in the arithmetic of `double` -/

namespace DynamicAdaptiveClimb

/-- With the exact arithmetic as rounding the `double` controller is the exact one. -/
theorem controller_tick_fl_id (p : DynamicAdaptiveClimb_params_t) :
    controller_tick_fl id p = controller_tick p ∧ improving_fl id p = improving p :=
  ⟨rfl, rfl⟩

/-- An improving tick resets the counter and leaves the fallback regime. -/
theorem tick_fl_improving (rnd : ℚ → ℚ) (p : DynamicAdaptiveClimb_params_t)
    (h : improving_fl rnd p = true) :
    (controller_tick_fl rnd p).fallback_counter = 0 ∧
    (controller_tick_fl rnd p).in_fallback = 0 := by
  have h1 := fallback_update_improving { p with ema_miss_ratio := ema_fl rnd p } h
  unfold controller_tick_fl history_update
  dsimp only
  rw [(parameter_update_fallback _ _).1, (parameter_update_fallback _ _).2]
  exact h1

/-- A non-improving tick counts up and enters the fallback regime at the threshold. -/
theorem tick_fl_non_improving (rnd : ℚ → ℚ) (p : DynamicAdaptiveClimb_params_t)
    (h : improving_fl rnd p = false) :
    (controller_tick_fl rnd p).fallback_counter = p.fallback_counter + 1 ∧
    (controller_tick_fl rnd p).in_fallback =
      (if p.fallback_counter + 1 ≥ ADAPTIVECLIMB_FALLBACK_INTERVAL then 1 else p.in_fallback) := by
  have h1 := fallback_update_non_improving { p with ema_miss_ratio := ema_fl rnd p } h
  unfold controller_tick_fl history_update
  dsimp only
  rw [(parameter_update_fallback _ _).1, (parameter_update_fallback _ _).2]
  exact h1

theorem ticks_fl_append (rnd : ℚ → ℚ) (p : DynamicAdaptiveClimb_params_t) (l1 l2 : List Int) :
    ticks_fl rnd p (l1 ++ l2) = ticks_fl rnd (ticks_fl rnd p l1) l2 := by
  simp [ticks_fl, List.foldl_append]

theorem nonImprovingRun_fl_append (rnd : ℚ → ℚ) (l1 l2 : List Int) :
    ∀ p : DynamicAdaptiveClimb_params_t, NonImprovingRun_fl rnd p (l1 ++ l2) →
      NonImprovingRun_fl rnd p l1 ∧ NonImprovingRun_fl rnd (ticks_fl rnd p l1) l2 := by
  induction l1 with
  | nil => intro p h; exact ⟨trivial, h⟩
  | cons c rest ih =>
    intro p h
    obtain ⟨h1, h2⟩ := h
    obtain ⟨h3, h4⟩ := ih _ h2
    exact ⟨⟨h1, h3⟩, h4⟩

/-- A run of non-improving ticks: the counter grows by the number of ticks, and the regime is
fallback as soon as the counter has reached the threshold. -/
theorem nonImprovingRun_fl_fallback (rnd : ℚ → ℚ) (cs : List Int) :
    ∀ p : DynamicAdaptiveClimb_params_t, NonImprovingRun_fl rnd p cs →
      (ticks_fl rnd p cs).fallback_counter = p.fallback_counter + cs.length ∧
      (ticks_fl rnd p cs).in_fallback =
        (if cs ≠ [] ∧ p.fallback_counter + cs.length ≥ ADAPTIVECLIMB_FALLBACK_INTERVAL then 1
          else p.in_fallback) := by
  induction cs with
  | nil => intro p _; simp [ticks_fl]
  | cons c rest ih =>
    intro p h
    obtain ⟨h1, h2⟩ := h
    obtain ⟨t1, t2⟩ := tick_fl_non_improving rnd _ h1
    obtain ⟨i1, i2⟩ := ih _ h2
    have e : ticks_fl rnd p (c :: rest) = ticks_fl rnd (tick_with_fl rnd p c) rest := rfl
    have t1' : (tick_with_fl rnd p c).fallback_counter = p.fallback_counter + 1 := t1
    have t2' : (tick_with_fl rnd p c).in_fallback =
        (if p.fallback_counter + 1 ≥ ADAPTIVECLIMB_FALLBACK_INTERVAL then 1
          else p.in_fallback) := t2
    rw [e, i1, i2, t1', t2']
    constructor
    · simp only [List.length_cons]; push_cast; ring
    · unfold ADAPTIVECLIMB_FALLBACK_INTERVAL
      cases rest with
      | nil => simp
      | cons d rest0 =>
        simp only [List.length_cons, ne_eq, not_false_eq_true, true_and, reduceCtorEq]
        push_cast
        split_ifs <;> first | rfl | omega

/-- The rounding of `double` decides whether a tick improves. From the controller of
`DynamicAdaptiveClimb_init` for 1048576 bytes, at hit counts 500, 500, 500, 350 and then 105,
the exact smoothed miss ratio of the fifth tick equals the previous sample 0.65 (not below
it), whereas in `double` it is 0.64999999999999991, below the `double` 0.65: in `double` the
fifth tick improves and leaves flag and counter at 0, in exact arithmetic it is the fifth
non-improving tick and enters the fallback regime. -/
theorem double_rounding_decides_improving :
    improving_fl round_double
      { ticks_fl round_double (DynamicAdaptiveClimb_init ⟨1048576, 0⟩).eviction_params
          [500, 500, 500, 350] with recent_hit_count := 105 } = true ∧
    (ticks_fl round_double (DynamicAdaptiveClimb_init ⟨1048576, 0⟩).eviction_params
      [500, 500, 500, 350, 105]).in_fallback = 0 ∧
    (ticks_fl round_double (DynamicAdaptiveClimb_init ⟨1048576, 0⟩).eviction_params
      [500, 500, 500, 350, 105]).fallback_counter = 0 ∧
    (ticks_fl round_double (DynamicAdaptiveClimb_init ⟨1048576, 0⟩).eviction_params
      [500, 500, 500, 350, 105]).ema_miss_ratio = 5854679515581644 / 9007199254740992 ∧
    improving
      { ticks (DynamicAdaptiveClimb_init ⟨1048576, 0⟩).eviction_params
          [500, 500, 500, 350] with recent_hit_count := 105 } = false ∧
    (ticks (DynamicAdaptiveClimb_init ⟨1048576, 0⟩).eviction_params
      [500, 500, 500, 350, 105]).in_fallback = 1 ∧
    (ticks (DynamicAdaptiveClimb_init ⟨1048576, 0⟩).eviction_params
      [500, 500, 500, 350, 105]).fallback_counter = 5 := by
  refine ⟨?_, ?_, ?_, ?_, ?_, ?_, ?_⟩ <;> decide!

end DynamicAdaptiveClimb

/-- C10. Whatever the rounding `rnd` of the `double` operations (`round_double` for IEEE 754,
`id` for exact arithmetic): from a controller state with `fallback_counter = 0` and
`in_fallback = 0`, over five consecutive non-improving ticks `in_fallback` is 0 after each of
the first four and 1 after the fifth; it stays 1 over any further non-improving ticks; and
the first improving tick after them sets `in_fallback` to 0 and `fallback_counter` to 0. A
tick is improving when the smoothed miss ratio it computes, in that arithmetic, is below
`last_miss_rates[2]`. -/
theorem fallback_hysteresis (rnd : ℚ → ℚ)
    (p : DynamicAdaptiveClimb.DynamicAdaptiveClimb_params_t)
    (cs ds : List Int) (e : Int)
    (h0 : p.fallback_counter = 0) (hf : p.in_fallback = 0) (hlen : cs.length = 5)
    (hni : DynamicAdaptiveClimb.NonImprovingRun_fl rnd p (cs ++ ds))
    (himp : DynamicAdaptiveClimb.improving_fl rnd
      { DynamicAdaptiveClimb.ticks_fl rnd p (cs ++ ds) with recent_hit_count := e } = true) :
    (∀ i, i ≤ 4 → (DynamicAdaptiveClimb.ticks_fl rnd p (cs.take i)).in_fallback = 0) ∧
    (DynamicAdaptiveClimb.ticks_fl rnd p cs).in_fallback = 1 ∧
    (∀ j, (DynamicAdaptiveClimb.ticks_fl rnd p (cs ++ ds.take j)).in_fallback = 1) ∧
    (DynamicAdaptiveClimb.ticks_fl rnd p (cs ++ ds ++ [e])).in_fallback = 0 ∧
    (DynamicAdaptiveClimb.ticks_fl rnd p (cs ++ ds ++ [e])).fallback_counter = 0 := by
  have hpre : ∀ l1 l2 : List Int, cs ++ ds = l1 ++ l2 →
      (DynamicAdaptiveClimb.ticks_fl rnd p l1).in_fallback =
        (if l1 ≠ [] ∧ p.fallback_counter + l1.length
            ≥ DynamicAdaptiveClimb.ADAPTIVECLIMB_FALLBACK_INTERVAL then 1
          else p.in_fallback) := by
    intro l1 l2 hsplit
    rw [hsplit] at hni
    exact (DynamicAdaptiveClimb.nonImprovingRun_fl_fallback rnd l1 p
      (DynamicAdaptiveClimb.nonImprovingRun_fl_append rnd l1 l2 p hni).1).2
  refine ⟨?_, ?_, ?_, ?_, ?_⟩
  · intro i hi
    rw [hpre (cs.take i) (cs.drop i ++ ds) (by rw [← List.append_assoc, List.take_append_drop]),
      h0, hf]
    have hl : (cs.take i).length = i := by rw [List.length_take]; omega
    rw [hl]
    unfold DynamicAdaptiveClimb.ADAPTIVECLIMB_FALLBACK_INTERVAL
    split_ifs with h
    · omega
    · rfl
  · rw [hpre cs ds rfl, h0, hlen]
    have hne : cs ≠ [] := by intro h; rw [h] at hlen; simp at hlen
    unfold DynamicAdaptiveClimb.ADAPTIVECLIMB_FALLBACK_INTERVAL
    simp [hne]
  · intro j
    rw [hpre (cs ++ ds.take j) (ds.drop j)
      (by rw [List.append_assoc, List.take_append_drop]), h0]
    have hne : cs ++ ds.take j ≠ [] := by
      intro h
      have h1 : cs = [] := (List.append_eq_nil.1 h).1
      rw [h1] at hlen; simp at hlen
    unfold DynamicAdaptiveClimb.ADAPTIVECLIMB_FALLBACK_INTERVAL
    rw [if_pos]
    refine ⟨hne, ?_⟩
    simp only [List.length_append, hlen]
    push_cast
    omega
  · rw [DynamicAdaptiveClimb.ticks_fl_append]
    exact (DynamicAdaptiveClimb.tick_fl_improving rnd _ himp).2
  · rw [DynamicAdaptiveClimb.ticks_fl_append]
    exact (DynamicAdaptiveClimb.tick_fl_improving rnd _ himp).1

/-- C10 in IEEE 754 `double` at the controller of `DynamicAdaptiveClimb_init` for 1048576
bytes: ticks at hit counts 500, 500, 500, 350 and 100 are non-improving, and a sixth at hit
count 1000 is improving. -/
theorem fallback_hysteresis_witness :
    ((DynamicAdaptiveClimb.DynamicAdaptiveClimb_init ⟨1048576, 0⟩).eviction_params.fallback_counter
        = 0 ∧
      (DynamicAdaptiveClimb.DynamicAdaptiveClimb_init ⟨1048576, 0⟩).eviction_params.in_fallback
        = 0 ∧
      ([500, 500, 500, 350, 100] : List Int).length = 5 ∧
      DynamicAdaptiveClimb.NonImprovingRun_fl round_double
        (DynamicAdaptiveClimb.DynamicAdaptiveClimb_init ⟨1048576, 0⟩).eviction_params
        ([500, 500, 500, 350, 100] ++ []) ∧
      DynamicAdaptiveClimb.improving_fl round_double
        { DynamicAdaptiveClimb.ticks_fl round_double
            (DynamicAdaptiveClimb.DynamicAdaptiveClimb_init ⟨1048576, 0⟩).eviction_params
            ([500, 500, 500, 350, 100] ++ []) with recent_hit_count := 1000 } = true) ∧
    ((∀ i, i ≤ 4 →
        (DynamicAdaptiveClimb.ticks_fl round_double
          (DynamicAdaptiveClimb.DynamicAdaptiveClimb_init ⟨1048576, 0⟩).eviction_params
          (([500, 500, 500, 350, 100] : List Int).take i)).in_fallback = 0) ∧
      (DynamicAdaptiveClimb.ticks_fl round_double
        (DynamicAdaptiveClimb.DynamicAdaptiveClimb_init ⟨1048576, 0⟩).eviction_params
        [500, 500, 500, 350, 100]).in_fallback = 1 ∧
      (∀ j,
        (DynamicAdaptiveClimb.ticks_fl round_double
          (DynamicAdaptiveClimb.DynamicAdaptiveClimb_init ⟨1048576, 0⟩).eviction_params
          ([500, 500, 500, 350, 100] ++ ([] : List Int).take j)).in_fallback = 1) ∧
      (DynamicAdaptiveClimb.ticks_fl round_double
        (DynamicAdaptiveClimb.DynamicAdaptiveClimb_init ⟨1048576, 0⟩).eviction_params
        ([500, 500, 500, 350, 100] ++ [] ++ [1000])).in_fallback = 0 ∧
      (DynamicAdaptiveClimb.ticks_fl round_double
        (DynamicAdaptiveClimb.DynamicAdaptiveClimb_init ⟨1048576, 0⟩).eviction_params
        ([500, 500, 500, 350, 100] ++ [] ++ [1000])).fallback_counter = 0) :=
  ⟨⟨rfl, rfl, rfl,
      by simp only [DynamicAdaptiveClimb.NonImprovingRun_fl, List.append_nil]; decide!,
      by decide!⟩,
    fallback_hysteresis round_double
      (DynamicAdaptiveClimb.DynamicAdaptiveClimb_init ⟨1048576, 0⟩).eviction_params
      [500, 500, 500, 350, 100] [] 1000 rfl rfl rfl
      (by simp only [DynamicAdaptiveClimb.NonImprovingRun_fl, List.append_nil]; decide!)
      (by decide!)⟩

/-! ## Tick cadence -/

namespace AdaptiveClimb

theorem ac_update_window_total (W : Nat) (g : Globals) (hit : Int) :
    (update_hit_miss_window W g hit).total_requests = g.total_requests ∧
    (update_hit_miss_window W g hit).last_miss_rate = g.last_miss_rate := by
  unfold update_hit_miss_window
  dsimp only
  split_ifs <;> exact ⟨rfl, rfl⟩

theorem ac_adjust_off_tick (g : Globals) (p : AdaptiveClimb_params_t)
    (h : g.total_requests % ADJUSTMENT_INTERVAL ≠ 0) : adjust_k_parameter g p = (g, p) := by
  unfold adjust_k_parameter
  rw [if_pos h]

theorem ac_adjust_total (g : Globals) (p : AdaptiveClimb_params_t) :
    (adjust_k_parameter g p).1.total_requests = g.total_requests := by
  unfold adjust_k_parameter
  split_ifs <;> rfl

/-- What one request does to the file-scope variables and to `K` and `jump`: exactly one call
of `adjust_k_parameter`, made after the request counter and the window are updated. -/
theorem ac_process_request_controller (fuel : Nat) (s : State) (req : request_t) :
    ∃ hit : Int,
      (process_request fuel s req).2.globals
        = (adjust_k_parameter (at_adjust s.globals hit) s.cache.eviction_params).1 ∧
      (process_request fuel s req).2.cache.eviction_params.K
        = (adjust_k_parameter (at_adjust s.globals hit) s.cache.eviction_params).2.K ∧
      (process_request fuel s req).2.cache.eviction_params.jump
        = (adjust_k_parameter (at_adjust s.globals hit) s.cache.eviction_params).2.jump ∧
      request_ticks s req = passes_guard (at_adjust s.globals hit) := by
  cases hs : (s.cache.hashtable req.obj_id).isSome with
  | true =>
    have hf : cache_find_base s.cache req false = some req.obj_id := by
      simp [cache_find_base, hashtable_find_obj_id, hs]
    have hf' : cache_find_base s.cache req true = some req.obj_id := hf
    refine ⟨1, ?_, ?_, ?_, ?_⟩
    · unfold process_request; rw [hf]; dsimp only
      unfold AdaptiveClimb_get; rw [hf']; rfl
    · unfold process_request; rw [hf]; dsimp only
      unfold AdaptiveClimb_get; rw [hf']; rfl
    · unfold process_request; rw [hf]; dsimp only
      unfold AdaptiveClimb_get; rw [hf']; rfl
    · unfold request_ticks; rw [hf]
  | false =>
    have hf : cache_find_base s.cache req false = none := by
      simp [cache_find_base, hashtable_find_obj_id, hs]
    refine ⟨0, ?_, ?_, ?_, ?_⟩
    · unfold process_request; rw [hf]; dsimp only
      unfold AdaptiveClimb_insert; rw [hf]; rfl
    · unfold process_request; rw [hf]; dsimp only
      unfold AdaptiveClimb_insert; rw [hf]; rfl
    · unfold process_request; rw [hf]; dsimp only
      unfold AdaptiveClimb_insert; rw [hf]; rfl
    · unfold request_ticks; rw [hf]

theorem ac_at_adjust_total (g : Globals) (hit : Int) :
    (at_adjust g hit).total_requests = wrap_int (g.total_requests + 1) ∧
    (at_adjust g hit).last_miss_rate = g.last_miss_rate := by
  unfold at_adjust
  exact ⟨(ac_update_window_total _ _ _).1, (ac_update_window_total _ _ _).2⟩

theorem ac_process_request_total (fuel : Nat) (s : State) (req : request_t) :
    (process_request fuel s req).2.globals.total_requests
      = wrap_int (s.globals.total_requests + 1) := by
  obtain ⟨hit, h1, -, -, -⟩ := ac_process_request_controller fuel s req
  rw [h1, ac_adjust_total, (ac_at_adjust_total _ _).1]

/-- The guard of the call a request makes, in terms of the counter before the request. -/
theorem ac_request_ticks_guard (s : State) (req : request_t) :
    request_ticks s req = decide (wrap_int (s.globals.total_requests + 1) % 1000 = 0) := by
  obtain ⟨hit, -, -, -, h4⟩ := ac_process_request_controller 0 s req
  rw [h4]
  unfold passes_guard ADJUSTMENT_INTERVAL
  rw [(ac_at_adjust_total _ _).1]

/-- What the body of `adjust_k_parameter` does once the guard is passed: it stores the miss
rate of the window, and moves `K` and `jump` by 2 in opposite directions, `K` down when the
miss rate is above the stored one and up otherwise. -/
theorem ac_adjust_at_tick (g : Globals) (q : AdaptiveClimb_params_t)
    (h : g.total_requests % ADJUSTMENT_INTERVAL = 0) :
    (adjust_k_parameter g q).1
      = { g with
          last_miss_rate := 1 - (g.recent_hit_count : ℚ) / (HIT_MISS_WINDOW : ℚ) } ∧
    (1 - (g.recent_hit_count : ℚ) / (HIT_MISS_WINDOW : ℚ) > g.last_miss_rate →
      (adjust_k_parameter g q).2.K = (if q.K > MIN_K then q.K - 2 else MIN_K) ∧
      (adjust_k_parameter g q).2.jump = (if q.jump < MAX_K then q.jump + 2 else MAX_K)) ∧
    (¬ 1 - (g.recent_hit_count : ℚ) / (HIT_MISS_WINDOW : ℚ) > g.last_miss_rate →
      (adjust_k_parameter g q).2.K = (if q.K < MAX_K then q.K + 2 else MAX_K) ∧
      (adjust_k_parameter g q).2.jump = (if q.jump > MIN_K then q.jump - 2 else MIN_K)) := by
  unfold adjust_k_parameter
  rw [if_neg (not_not.2 h)]
  dsimp only
  refine ⟨rfl, fun hm => ?_, fun hm => ?_⟩
  · rw [if_pos hm]; exact ⟨rfl, rfl⟩
  · rw [if_neg hm]; exact ⟨rfl, rfl⟩

/-- Counting requests and ticks along a trace that stays below the range of `int`. -/
theorem ac_run_requests_count (fuel : Nat) (reqs : List request_t) :
    ∀ (s : State) (t : Nat), s.globals.total_requests = t → t + reqs.length < 2 ^ 31 →
      (run_requests fuel s reqs).globals.total_requests = (t + reqs.length : Nat) ∧
      tick_count fuel s reqs + t / 1000 = (t + reqs.length) / 1000 := by
  induction reqs with
  | nil => intro s t ht _; exact ⟨by simpa [run_requests] using ht, by simp [tick_count]⟩
  | cons r rest ih =>
    intro s t ht hlt
    simp only [List.length_cons] at hlt
    have hlt1 : t + 1 + rest.length < 2 ^ 31 := by omega
    have hmod : (((t + 1 : Nat) : Int) % 1000 = 0) ↔ ((t + 1) % 1000 = 0) := by omega
    have hlen : t + (r :: rest).length = t + 1 + rest.length := by
      simp only [List.length_cons]; omega
    have hw : wrap_int ((t : Int) + 1) = ((t + 1 : Nat) : Int) := wrap_int_succ t (by omega)
    have h1 : (process_request fuel s r).2.globals.total_requests = (t + 1 : Nat) := by
      rw [ac_process_request_total, ht, hw]
    have hguard : request_ticks s r = decide ((t + 1) % 1000 = 0) := by
      rw [ac_request_ticks_guard, ht, hw]
      simp only [hmod]
    clear hw
    obtain ⟨i1, i2⟩ := ih (process_request fuel s r).2 (t + 1) h1 hlt1
    have hrun : run_requests fuel s (r :: rest)
        = run_requests fuel (process_request fuel s r).2 rest := rfl
    rw [hrun, hlen]
    refine ⟨i1, ?_⟩
    have hcount : tick_count fuel s (r :: rest)
        = (if request_ticks s r then 1 else 0)
          + tick_count fuel (process_request fuel s r).2 rest := rfl
    rw [hcount, hguard]
    by_cases h : (t + 1) % 1000 = 0
    · have hd : (t + 1) / 1000 = t / 1000 + 1 := by omega
      rw [hd] at i2
      simp only [h, decide_True, if_true]
      omega
    · have hd : (t + 1) / 1000 = t / 1000 := by omega
      rw [hd] at i2
      simp only [h, decide_False, Bool.false_eq_true, if_false]
      omega

/-- The counter after a trace of any length: the number of requests, wrapped. -/
theorem ac_run_requests_total (fuel : Nat) (reqs : List request_t) :
    ∀ (s : State) (t : Nat), s.globals.total_requests = wrap_int t →
      (run_requests fuel s reqs).globals.total_requests
        = wrap_int ((t + reqs.length : Nat) : Int) := by
  induction reqs with
  | nil => intro s t ht; exact ht
  | cons r rest ih =>
    intro s t ht
    have hlen : t + (r :: rest).length = t + 1 + rest.length := by
      simp only [List.length_cons]; omega
    have hrun : run_requests fuel s (r :: rest)
        = run_requests fuel (process_request fuel s r).2 rest := rfl
    rw [hrun, hlen]
    exact ih (process_request fuel s r).2 (t + 1)
      (by rw [ac_process_request_total, ht, wrap_int_add, Nat.cast_add, Nat.cast_one])

theorem ac_tick_count_append (fuel : Nat) (l1 l2 : List request_t) :
    ∀ s : State, tick_count fuel s (l1 ++ l2)
      = tick_count fuel s l1 + tick_count fuel (run_requests fuel s l1) l2 := by
  induction l1 with
  | nil => intro s; simp [tick_count, run_requests]
  | cons r rest ih =>
    intro s
    have h1 : tick_count fuel s (r :: rest ++ l2)
        = (if request_ticks s r then 1 else 0)
          + tick_count fuel (process_request fuel s r).2 (rest ++ l2) := rfl
    have h2 : tick_count fuel s (r :: rest)
        = (if request_ticks s r then 1 else 0)
          + tick_count fuel (process_request fuel s r).2 rest := rfl
    have h3 : run_requests fuel s (r :: rest)
        = run_requests fuel (process_request fuel s r).2 rest := rfl
    rw [h1, h2, h3, ih]
    omega

/-- Once the counter has wrapped, no request up to the 2147484000th ticks. -/
theorem ac_run_requests_count_wrapped (fuel : Nat) (reqs : List request_t) :
    ∀ (s : State) (t : Nat), s.globals.total_requests = wrap_int t → 2147483647 ≤ t →
      t + reqs.length ≤ 2147484000 → tick_count fuel s reqs = 0 := by
  induction reqs with
  | nil => intro s t _ _ _; rfl
  | cons r rest ih =>
    intro s t ht h0 h1
    simp only [List.length_cons] at h1
    have h1' : t + 1 + rest.length ≤ 2147484000 := by omega
    have h0' : 2147483647 ≤ t + 1 := by omega
    have hno : wrap_int ((t : Int) + 1) % 1000 ≠ 0 :=
      wrap_int_succ_no_tick t h0 (by omega)
    have hg : request_ticks s r = false := by
      rw [ac_request_ticks_guard, ht, wrap_int_add]
      exact decide_eq_false hno
    have hcount : tick_count fuel s (r :: rest)
        = (if request_ticks s r then 1 else 0)
          + tick_count fuel (process_request fuel s r).2 rest := rfl
    rw [hcount, hg, ih (process_request fuel s r).2 (t + 1)
      (by rw [ac_process_request_total, ht, wrap_int_add, Nat.cast_add, Nat.cast_one]) h0' h1']
    rfl

/-- A trace of 2147484000 requests from the fresh state ticks 2147483 times: the request
2147484000 finds the wrapped counter at -2147483296 and does not tick. -/
theorem ac_tick_count_past_wrap (fuel cache_size obj_md_size : Nat) (reqs : List request_t)
    (h : reqs.length = 2147484000) :
    tick_count fuel (initial cache_size obj_md_size) reqs = 2147483 := by
  have hl1 : (reqs.take 2147483647).length = 2147483647 := by
    rw [List.length_take]; omega
  have hl2 : (reqs.drop 2147483647).length = 353 := by
    rw [List.length_drop]; omega
  have hsplit : reqs = reqs.take 2147483647 ++ reqs.drop 2147483647 :=
    (List.take_append_drop _ _).symm
  have hb1 : 0 + (reqs.take 2147483647).length < 2 ^ 31 := by rw [hl1]; decide
  have hb2 : 2147483647 + (reqs.drop 2147483647).length ≤ 2147484000 := by rw [hl2]
  have hw : ((0 + (reqs.take 2147483647).length : Nat) : Int) = wrap_int (2147483647 : Nat) := by
    rw [hl1, wrap_int_natCast 2147483647 (by decide)]
  obtain ⟨c1, c2⟩ := ac_run_requests_count fuel (reqs.take 2147483647)
    (initial cache_size obj_md_size) 0 rfl hb1
  have c3 := ac_run_requests_count_wrapped fuel (reqs.drop 2147483647)
    (run_requests fuel (initial cache_size obj_md_size) (reqs.take 2147483647)) 2147483647
    (c1.trans hw) (le_refl _) hb2
  rw [hl1] at c2
  rw [hsplit, ac_tick_count_append, c3]
  omega

end AdaptiveClimb

namespace AdaptiveClimb

/-- Below the first multiple of the interval no request changes `K`, `jump` or the stored
miss rate. -/
theorem ac_run_requests_before_tick (fuel : Nat) (reqs : List request_t) :
    ∀ (s : State) (t : Nat), s.globals.total_requests = t → t + reqs.length < 1000 →
      (run_requests fuel s reqs).cache.eviction_params.K = s.cache.eviction_params.K ∧
      (run_requests fuel s reqs).cache.eviction_params.jump = s.cache.eviction_params.jump ∧
      (run_requests fuel s reqs).globals.last_miss_rate = s.globals.last_miss_rate := by
  induction reqs with
  | nil => intro s t _ _; exact ⟨rfl, rfl, rfl⟩
  | cons r rest ih =>
    intro s t ht hlt
    simp only [List.length_cons] at hlt
    have hlt1 : t + 1 + rest.length < 1000 := by omega
    have hmod : ((t + 1 : Nat) : Int) % 1000 ≠ 0 := by omega
    have hw : wrap_int ((t : Int) + 1) = ((t + 1 : Nat) : Int) := wrap_int_succ t (by omega)
    obtain ⟨hit, h1, h2, h3, -⟩ := ac_process_request_controller fuel s r
    have hoff : (at_adjust s.globals hit).total_requests % ADJUSTMENT_INTERVAL ≠ 0 := by
      rw [(ac_at_adjust_total _ _).1, ht, hw]
      exact hmod
    rw [ac_adjust_off_tick _ _ hoff] at h1 h2 h3
    have ht1 : (process_request fuel s r).2.globals.total_requests = (t + 1 : Nat) := by
      rw [ac_process_request_total, ht, hw]
    obtain ⟨i1, i2, i3⟩ := ih (process_request fuel s r).2 (t + 1) ht1 hlt1
    have hrun : run_requests fuel s (r :: rest)
        = run_requests fuel (process_request fuel s r).2 rest := rfl
    rw [hrun, i1, i2, i3, h2, h3, h1]
    exact ⟨rfl, rfl, (ac_at_adjust_total _ _).2⟩

/-- The thousandth request from the fresh state runs the body of `adjust_k_parameter`: it
moves `K` and `jump` off their initial values 10 and 1 and stores the miss rate of the
window. -/
theorem ac_first_tick (fuel cache_size obj_md_size : Nat) (reqs : List request_t)
    (h : reqs.length = 1000) :
    ((run_requests fuel (initial cache_size obj_md_size) reqs).cache.eviction_params.K = 8 ∧
        (run_requests fuel (initial cache_size obj_md_size) reqs).cache.eviction_params.jump = 3 ∨
      (run_requests fuel (initial cache_size obj_md_size) reqs).cache.eviction_params.K = 12 ∧
        (run_requests fuel (initial cache_size obj_md_size) reqs).cache.eviction_params.jump
          = 5) ∧
    (run_requests fuel (initial cache_size obj_md_size) reqs).globals.last_miss_rate
      = 1 - ((run_requests fuel (initial cache_size obj_md_size)
          reqs).globals.recent_hit_count : ℚ) / 1000 := by
  rcases List.eq_nil_or_concat reqs with hnil | ⟨front, r, hcat⟩
  · rw [hnil] at h; exact absurd h (by decide)
  rw [List.concat_eq_append] at hcat
  subst hcat
  have hfl : front.length = 999 := by
    simp only [List.length_append, List.length_singleton] at h; omega
  have hb : 0 + front.length < 1000 := by omega
  have hb2 : 0 + front.length < 2 ^ 31 := by omega
  have hw : wrap_int (((0 + front.length : Nat) : Int) + 1) = 1000 := by
    rw [hfl]; decide!
  obtain ⟨b1, b2, b3⟩ := ac_run_requests_before_tick fuel front
    (initial cache_size obj_md_size) 0 rfl hb
  obtain ⟨b4, -⟩ := ac_run_requests_count fuel front (initial cache_size obj_md_size) 0 rfl hb2
  have hrun : run_requests fuel (initial cache_size obj_md_size) (front ++ [r])
      = (process_request fuel
          (run_requests fuel (initial cache_size obj_md_size) front) r).2 := by
    simp [run_requests, List.foldl_append]
  rw [hrun]
  obtain ⟨hit, h1, h2, h3, -⟩ := ac_process_request_controller fuel
    (run_requests fuel (initial cache_size obj_md_size) front) r
  have htick : (at_adjust (run_requests fuel (initial cache_size obj_md_size) front).globals
      hit).total_requests % ADJUSTMENT_INTERVAL = 0 := by
    rw [(ac_at_adjust_total _ _).1, b4, hw]; decide
  have hlm : (at_adjust (run_requests fuel (initial cache_size obj_md_size) front).globals
      hit).last_miss_rate = 0 := by
    rw [(ac_at_adjust_total _ _).2, b3]; rfl
  have hK : (run_requests fuel (initial cache_size obj_md_size) front).cache.eviction_params.K
      = 10 := b1
  have hJ : (run_requests fuel (initial cache_size obj_md_size) front).cache.eviction_params.jump
      = 1 := b2
  obtain ⟨a1, a2, a3⟩ := ac_adjust_at_tick _
    (run_requests fuel (initial cache_size obj_md_size) front).cache.eviction_params htick
  constructor
  · rw [h2, h3]
    by_cases hm : 1 - ((at_adjust (run_requests fuel (initial cache_size obj_md_size)
        front).globals hit).recent_hit_count : ℚ) / (HIT_MISS_WINDOW : ℚ)
        > (at_adjust (run_requests fuel (initial cache_size obj_md_size) front).globals
          hit).last_miss_rate
    · left
      rw [(a2 hm).1, (a2 hm).2, hK, hJ]
      exact ⟨by decide, by decide⟩
    · right
      rw [(a3 hm).1, (a3 hm).2, hK, hJ]
      exact ⟨by decide, by decide⟩
  · rw [h1, a1]
    show 1 - ((at_adjust (run_requests fuel (initial cache_size obj_md_size) front).globals
      hit).recent_hit_count : ℚ) / ((1000 : Nat) : ℚ) = _
    norm_num

end AdaptiveClimb

/-- C11 as stated fails once the `int` counter has wrapped: of a trace of 2147484000
requests from the fresh state only 2147483 tick, not 2147484, because the counter reads
-2147483296 after the last request instead of a multiple of 1000. -/
theorem tick_count_short_after_wrap :
    AdaptiveClimb.tick_count 1 (AdaptiveClimb.initial 3 0)
      (List.replicate 2147484000 ⟨1, 1⟩) = 2147483 ∧
    (List.replicate 2147484000 (⟨1, 1⟩ : request_t)).length / 1000 = 2147484 ∧
    (AdaptiveClimb.run_requests 1 (AdaptiveClimb.initial 3 0)
      (List.replicate 2147484000 ⟨1, 1⟩)).globals.total_requests = -2147483296 ∧
    AdaptiveClimb.tick_count 1 (AdaptiveClimb.initial 3 0) (List.replicate 2147484000 ⟨1, 1⟩)
      ≠ (List.replicate 2147484000 (⟨1, 1⟩ : request_t)).length / 1000 := by
  have h1 := AdaptiveClimb.ac_tick_count_past_wrap 1 3 0 (List.replicate 2147484000 ⟨1, 1⟩)
    (List.length_replicate _ _)
  have h2 : (List.replicate 2147484000 (⟨1, 1⟩ : request_t)).length / 1000 = 2147484 := by
    rw [List.length_replicate]
  have h3 := AdaptiveClimb.ac_run_requests_total 1 (List.replicate 2147484000 ⟨1, 1⟩)
    (AdaptiveClimb.initial 3 0) 0 (by decide!)
  have h4 : wrap_int ((0 + (List.replicate 2147484000 (⟨1, 1⟩ : request_t)).length : Nat) : Int)
      = -2147483296 := by
    rw [List.length_replicate]; decide!
  refine ⟨h1, h2, h3.trans h4, ?_⟩
  rw [h1, h2]
  decide

/-- C11. A call of `adjust_k_parameter` whose `total_requests` is not a multiple of
`ADJUSTMENT_INTERVAL` changes nothing (both policies), and at a multiple it runs the controller
body: the tick of the dynamic policy, and for AdaptiveClimb the store of the miss rate of the
window with the move of `K` and `jump` by 2. For the AdaptiveClimb policy (interval 1000) from
fresh state, each request makes exactly one such call, after incrementing the counter; so
after a trace of `n` requests, `n` below `2 ^ 31` (the range of the `int` counter),
`total_requests = n`, exactly `n / 1000` of them ticked, the request after them ticks exactly
when `n + 1` is a multiple of 1000, while `n < 1000` the values of `K`, `jump` and
`last_miss_rate` are still the initial ones, and at `n = 1000` the body has run: `K` and `jump`
are 8 and 3 or 12 and 5, and `last_miss_rate` is the miss rate of the window. -/
theorem tick_cadence (cache_size obj_md_size fuel : Nat) (reqs : List request_t)
    (p : DynamicAdaptiveClimb.DynamicAdaptiveClimb_params_t)
    (g : AdaptiveClimb.Globals) (q : AdaptiveClimb.AdaptiveClimb_params_t)
    (hp : p.total_requests % DynamicAdaptiveClimb.ADJUSTMENT_INTERVAL ≠ 0)
    (hg : g.total_requests % AdaptiveClimb.ADJUSTMENT_INTERVAL ≠ 0)
    (hn : reqs.length < 2 ^ 31) :
    DynamicAdaptiveClimb.adjust_k_parameter p = p ∧
    AdaptiveClimb.adjust_k_parameter g q = (g, q) ∧
    (∀ p0 : DynamicAdaptiveClimb.DynamicAdaptiveClimb_params_t,
      p0.total_requests % DynamicAdaptiveClimb.ADJUSTMENT_INTERVAL = 0 →
      DynamicAdaptiveClimb.adjust_k_parameter p0 = DynamicAdaptiveClimb.controller_tick p0) ∧
    (∀ (g0 : AdaptiveClimb.Globals) (q0 : AdaptiveClimb.AdaptiveClimb_params_t),
      g0.total_requests % AdaptiveClimb.ADJUSTMENT_INTERVAL = 0 →
      (AdaptiveClimb.adjust_k_parameter g0 q0).1
        = { g0 with
            last_miss_rate :=
              1 - (g0.recent_hit_count : ℚ) / (AdaptiveClimb.HIT_MISS_WINDOW : ℚ) } ∧
      (1 - (g0.recent_hit_count : ℚ) / (AdaptiveClimb.HIT_MISS_WINDOW : ℚ) > g0.last_miss_rate →
        (AdaptiveClimb.adjust_k_parameter g0 q0).2.K
          = (if q0.K > AdaptiveClimb.MIN_K then q0.K - 2 else AdaptiveClimb.MIN_K) ∧
        (AdaptiveClimb.adjust_k_parameter g0 q0).2.jump
          = (if q0.jump < AdaptiveClimb.MAX_K then q0.jump + 2 else AdaptiveClimb.MAX_K)) ∧
      (¬ 1 - (g0.recent_hit_count : ℚ) / (AdaptiveClimb.HIT_MISS_WINDOW : ℚ)
          > g0.last_miss_rate →
        (AdaptiveClimb.adjust_k_parameter g0 q0).2.K
          = (if q0.K < AdaptiveClimb.MAX_K then q0.K + 2 else AdaptiveClimb.MAX_K) ∧
        (AdaptiveClimb.adjust_k_parameter g0 q0).2.jump
          = (if q0.jump > AdaptiveClimb.MIN_K then q0.jump - 2 else AdaptiveClimb.MIN_K))) ∧
    (∀ (s : AdaptiveClimb.State) (req : request_t), ∃ hit : Int,
      (AdaptiveClimb.process_request fuel s req).2.globals
        = (AdaptiveClimb.adjust_k_parameter (AdaptiveClimb.at_adjust s.globals hit)
            s.cache.eviction_params).1 ∧
      (AdaptiveClimb.process_request fuel s req).2.cache.eviction_params.K
        = (AdaptiveClimb.adjust_k_parameter (AdaptiveClimb.at_adjust s.globals hit)
            s.cache.eviction_params).2.K ∧
      (AdaptiveClimb.process_request fuel s req).2.cache.eviction_params.jump
        = (AdaptiveClimb.adjust_k_parameter (AdaptiveClimb.at_adjust s.globals hit)
            s.cache.eviction_params).2.jump ∧
      AdaptiveClimb.request_ticks s req
        = AdaptiveClimb.passes_guard (AdaptiveClimb.at_adjust s.globals hit)) ∧
    (AdaptiveClimb.run_requests fuel (AdaptiveClimb.initial cache_size obj_md_size)
      reqs).globals.total_requests = (reqs.length : Nat) ∧
    AdaptiveClimb.tick_count fuel (AdaptiveClimb.initial cache_size obj_md_size) reqs
      = reqs.length / 1000 ∧
    (∀ req : request_t,
      AdaptiveClimb.request_ticks
        (AdaptiveClimb.run_requests fuel (AdaptiveClimb.initial cache_size obj_md_size) reqs) req
        = decide ((reqs.length + 1) % 1000 = 0)) ∧
    (reqs.length < 1000 →
      (AdaptiveClimb.run_requests fuel (AdaptiveClimb.initial cache_size obj_md_size)
        reqs).cache.eviction_params.K = 10 ∧
      (AdaptiveClimb.run_requests fuel (AdaptiveClimb.initial cache_size obj_md_size)
        reqs).cache.eviction_params.jump = 1 ∧
      (AdaptiveClimb.run_requests fuel (AdaptiveClimb.initial cache_size obj_md_size)
        reqs).globals.last_miss_rate = 0) ∧
    (reqs.length = 1000 →
      ((AdaptiveClimb.run_requests fuel (AdaptiveClimb.initial cache_size obj_md_size)
            reqs).cache.eviction_params.K = 8 ∧
          (AdaptiveClimb.run_requests fuel (AdaptiveClimb.initial cache_size obj_md_size)
            reqs).cache.eviction_params.jump = 3 ∨
        (AdaptiveClimb.run_requests fuel (AdaptiveClimb.initial cache_size obj_md_size)
            reqs).cache.eviction_params.K = 12 ∧
          (AdaptiveClimb.run_requests fuel (AdaptiveClimb.initial cache_size obj_md_size)
            reqs).cache.eviction_params.jump = 5) ∧
      (AdaptiveClimb.run_requests fuel (AdaptiveClimb.initial cache_size obj_md_size)
        reqs).globals.last_miss_rate
        = 1 - ((AdaptiveClimb.run_requests fuel (AdaptiveClimb.initial cache_size obj_md_size)
            reqs).globals.recent_hit_count : ℚ) / 1000) := by
  have hn0 : 0 + reqs.length < 2 ^ 31 := by omega
  have hguard := wrap_int_succ_guard reqs.length hn
  have hcount := AdaptiveClimb.ac_run_requests_count fuel reqs
    (AdaptiveClimb.initial cache_size obj_md_size) 0 rfl hn0
  simp only [Nat.zero_add, Nat.zero_div, Nat.add_zero] at hcount
  refine ⟨?_, AdaptiveClimb.ac_adjust_off_tick g q hg,
    fun p0 h0 => DynamicAdaptiveClimb.adjust_k_parameter_at_tick p0 h0,
    fun g0 q0 h0 => AdaptiveClimb.ac_adjust_at_tick g0 q0 h0,
    fun s req => AdaptiveClimb.ac_process_request_controller fuel s req,
    hcount.1, hcount.2, ?_, ?_, ?_⟩
  · unfold DynamicAdaptiveClimb.adjust_k_parameter
    rw [if_pos hp]
  · intro req
    rw [AdaptiveClimb.ac_request_ticks_guard, hcount.1]
    simp only [hguard]
  · intro hlt
    exact AdaptiveClimb.ac_run_requests_before_tick fuel reqs
      (AdaptiveClimb.initial cache_size obj_md_size) 0 rfl (by rw [Nat.zero_add]; exact hlt)
  · intro hlen
    exact AdaptiveClimb.ac_first_tick fuel cache_size obj_md_size reqs hlen

/-- C11 at a trace of 1000 requests for one object on a cache of capacity 3: the counter is
1000, exactly one request has ticked, and `K` and `jump` have left their initial values. -/
theorem tick_cadence_witness :
    ((({ (DynamicAdaptiveClimb.DynamicAdaptiveClimb_init ⟨3, 0⟩).eviction_params with
          total_requests := 1 } : DynamicAdaptiveClimb.DynamicAdaptiveClimb_params_t).total_requests
        % DynamicAdaptiveClimb.ADJUSTMENT_INTERVAL ≠ 0) ∧
      (({ AdaptiveClimb.Globals.initial 1000 with total_requests := 999 } :
          AdaptiveClimb.Globals).total_requests % AdaptiveClimb.ADJUSTMENT_INTERVAL ≠ 0) ∧
      (List.replicate 1000 (⟨1, 1⟩ : request_t)).length < 2 ^ 31) ∧
    ((AdaptiveClimb.run_requests 1 (AdaptiveClimb.initial 3 0)
        (List.replicate 1000 ⟨1, 1⟩)).globals.total_requests
        = ((List.replicate 1000 (⟨1, 1⟩ : request_t)).length : Nat) ∧
      AdaptiveClimb.tick_count 1 (AdaptiveClimb.initial 3 0) (List.replicate 1000 ⟨1, 1⟩)
        = (List.replicate 1000 (⟨1, 1⟩ : request_t)).length / 1000 ∧
      ((AdaptiveClimb.run_requests 1 (AdaptiveClimb.initial 3 0)
            (List.replicate 1000 ⟨1, 1⟩)).cache.eviction_params.K = 8 ∧
          (AdaptiveClimb.run_requests 1 (AdaptiveClimb.initial 3 0)
            (List.replicate 1000 ⟨1, 1⟩)).cache.eviction_params.jump = 3 ∨
        (AdaptiveClimb.run_requests 1 (AdaptiveClimb.initial 3 0)
            (List.replicate 1000 ⟨1, 1⟩)).cache.eviction_params.K = 12 ∧
          (AdaptiveClimb.run_requests 1 (AdaptiveClimb.initial 3 0)
            (List.replicate 1000 ⟨1, 1⟩)).cache.eviction_params.jump = 5)) :=
  ⟨⟨by decide, by decide, by rw [List.length_replicate]; decide⟩,
    ⟨(tick_cadence 3 0 1 (List.replicate 1000 ⟨1, 1⟩)
      { (DynamicAdaptiveClimb.DynamicAdaptiveClimb_init ⟨3, 0⟩).eviction_params with
        total_requests := 1 }
      { AdaptiveClimb.Globals.initial 1000 with total_requests := 999 }
      (AdaptiveClimb.AdaptiveClimb_init 3 0).eviction_params (by decide) (by decide)
      (by rw [List.length_replicate]; decide)).2.2.2.2.2.1,
     (tick_cadence 3 0 1 (List.replicate 1000 ⟨1, 1⟩)
      { (DynamicAdaptiveClimb.DynamicAdaptiveClimb_init ⟨3, 0⟩).eviction_params with
        total_requests := 1 }
      { AdaptiveClimb.Globals.initial 1000 with total_requests := 999 }
      (AdaptiveClimb.AdaptiveClimb_init 3 0).eviction_params (by decide) (by decide)
      (by rw [List.length_replicate]; decide)).2.2.2.2.2.2.1,
     ((tick_cadence 3 0 1 (List.replicate 1000 ⟨1, 1⟩)
      { (DynamicAdaptiveClimb.DynamicAdaptiveClimb_init ⟨3, 0⟩).eviction_params with
        total_requests := 1 }
      { AdaptiveClimb.Globals.initial 1000 with total_requests := 999 }
      (AdaptiveClimb.AdaptiveClimb_init 3 0).eviction_params (by decide) (by decide)
      (by rw [List.length_replicate]; decide)).2.2.2.2.2.2.2.2.2
        (List.length_replicate _ _)).1⟩⟩

/-! ## Eviction and removal through the interface -/

theorem evict_victim_tail (k : CacheCore) (t : Nat) :
    (evict_victim k t).q_tail = prevOf k.heap t := by
  cases hp : prevOf k.heap t with
  | none => simp [evict_victim, hp, CacheCore.evict_base, CacheCore.remove_obj_base]
  | some pv =>
    simp [evict_victim, hp, CacheCore.evict_base, CacheCore.remove_obj_base, prevOf_setNext]

namespace AdaptiveClimb

theorem ac_evict_core (s : State) (req : request_t) :
    toCore (AdaptiveClimb_evict s req).cache =
      (match (toCore s.cache).q_tail with
        | none => toCore s.cache
        | some victim => evict_victim (toCore s.cache) victim) := by
  unfold AdaptiveClimb_evict
  cases h : s.cache.eviction_params.q_tail with
  | none => simp [toCore, h]
  | some v => simp [toCore, ofCore, h]

theorem ac_remove_hit_core (s : State) (obj_id : Nat)
    (h : (s.cache.hashtable obj_id).isSome = true) :
    (AdaptiveClimb_remove s obj_id).1 = true ∧
    toCore (AdaptiveClimb_remove s obj_id).2.cache =
      (detach (toCore s.cache) obj_id).remove_obj_base obj_id true ∧
    (AdaptiveClimb_remove s obj_id).2.globals = s.globals ∧
    (AdaptiveClimb_remove s obj_id).2.cache.eviction_params.K = s.cache.eviction_params.K ∧
    (AdaptiveClimb_remove s obj_id).2.cache.eviction_params.jump
      = s.cache.eviction_params.jump := by
  have hf : hashtable_find_obj_id s.cache.hashtable obj_id = some obj_id := by
    simp [hashtable_find_obj_id, h]
  unfold AdaptiveClimb_remove
  rw [hf]
  exact ⟨rfl, rfl, rfl, rfl, rfl⟩

theorem ac_remove_miss (s : State) (obj_id : Nat)
    (h : (s.cache.hashtable obj_id).isSome = false) :
    AdaptiveClimb_remove s obj_id = (false, s) := by
  have hf : hashtable_find_obj_id s.cache.hashtable obj_id = none := by
    simp [hashtable_find_obj_id, h]
  unfold AdaptiveClimb_remove
  rw [hf]

end AdaptiveClimb

/-- C12. On an empty recency queue (`q_tail` null) `DynamicAdaptiveClimb_evict` and
`AdaptiveClimb_evict` return the state unchanged. On a well-formed queue `init ++ [t]` they
remove exactly the tail `t` from queue and registry: the victim reported by `to_evict` is `t`,
the queue becomes the well-formed queue `init` (the other objects in their old order), the
new tail is the old `t->queue.prev`, and the bytes of `t` are released. -/
theorem evict_removes_tail (c0 c : cache_t DynamicAdaptiveClimb.DynamicAdaptiveClimb_params_t)
    (s0 s : AdaptiveClimb.State) (init init' : List Nat) (t t' : Nat) (req : request_t)
    (h0 : c0.eviction_params.q_tail = none)
    (hq : QueueIs (DynamicAdaptiveClimb.toCore c) (init ++ [t]))
    (h0' : s0.cache.eviction_params.q_tail = none)
    (hq' : QueueIs (AdaptiveClimb.toCore s.cache) (init' ++ [t'])) :
    (DynamicAdaptiveClimb.DynamicAdaptiveClimb_evict c0 req = c0 ∧
      DynamicAdaptiveClimb.DynamicAdaptiveClimb_to_evict c req = some t ∧
      QueueIs (DynamicAdaptiveClimb.toCore (DynamicAdaptiveClimb.DynamicAdaptiveClimb_evict c req))
        init ∧
      (DynamicAdaptiveClimb.DynamicAdaptiveClimb_evict c req).eviction_params.q_tail
        = prevOf c.hashtable t ∧
      hashtable_find_obj_id (DynamicAdaptiveClimb.DynamicAdaptiveClimb_evict c req).hashtable t
        = none ∧
      (DynamicAdaptiveClimb.DynamicAdaptiveClimb_evict c req).occupied_byte
        = c.occupied_byte - (objSize c.hashtable t + c.obj_md_size)) ∧
    (AdaptiveClimb.AdaptiveClimb_evict s0 req = s0 ∧
      AdaptiveClimb.AdaptiveClimb_to_evict s req = some t' ∧
      QueueIs (AdaptiveClimb.toCore (AdaptiveClimb.AdaptiveClimb_evict s req).cache) init' ∧
      (AdaptiveClimb.AdaptiveClimb_evict s req).cache.eviction_params.q_tail
        = prevOf s.cache.hashtable t' ∧
      hashtable_find_obj_id (AdaptiveClimb.AdaptiveClimb_evict s req).cache.hashtable t' = none ∧
      (AdaptiveClimb.AdaptiveClimb_evict s req).cache.occupied_byte
        = s.cache.occupied_byte - (objSize s.cache.hashtable t' + s.cache.obj_md_size)) := by
  have ht : (DynamicAdaptiveClimb.toCore c).q_tail = some t := by rw [hq.1.2.1]; simp
  have ht' : (AdaptiveClimb.toCore s.cache).q_tail = some t' := by rw [hq'.1.2.1]; simp
  have e : DynamicAdaptiveClimb.toCore (DynamicAdaptiveClimb.DynamicAdaptiveClimb_evict c req)
      = evict_victim (DynamicAdaptiveClimb.toCore c) t := by
    rw [DynamicAdaptiveClimb.evict_core c req, ht]
  have e' : AdaptiveClimb.toCore (AdaptiveClimb.AdaptiveClimb_evict s req).cache
      = evict_victim (AdaptiveClimb.toCore s.cache) t' := by
    rw [AdaptiveClimb.ac_evict_core s req, ht']
  have hv := evict_victim_queueIs hq
  have hv' := evict_victim_queueIs hq'
  rw [← e] at hv
  rw [← e'] at hv'
  have hnd := List.nodup_append.1 hq.1.2.2.2
  have hnd' := List.nodup_append.1 hq'.1.2.2.2
  have htn : t ∉ init := fun hm => hnd.2.2 hm (List.mem_singleton_self _)
  have htn' : t' ∉ init' := fun hm => hnd'.2.2 hm (List.mem_singleton_self _)
  obtain ⟨-, -, f3, -⟩ := evict_victim_frame (DynamicAdaptiveClimb.toCore c) t
  obtain ⟨-, -, f3', -⟩ := evict_victim_frame (AdaptiveClimb.toCore s.cache) t'
  refine ⟨⟨?_, ht, hv, ?_, ?_, ?_⟩, ⟨?_, ht', hv', ?_, ?_, ?_⟩⟩
  · unfold DynamicAdaptiveClimb.DynamicAdaptiveClimb_evict; rw [h0]
  · show (DynamicAdaptiveClimb.toCore
        (DynamicAdaptiveClimb.DynamicAdaptiveClimb_evict c req)).q_tail = _
    rw [e, evict_victim_tail]; rfl
  · have := queueIs_registered hv t
    rw [if_neg htn] at this
    exact this
  · show (DynamicAdaptiveClimb.toCore
        (DynamicAdaptiveClimb.DynamicAdaptiveClimb_evict c req)).occupied_byte = _
    rw [e, f3]; rfl
  · unfold AdaptiveClimb.AdaptiveClimb_evict; rw [h0']
  · show (AdaptiveClimb.toCore (AdaptiveClimb.AdaptiveClimb_evict s req).cache).q_tail = _
    rw [e', evict_victim_tail]; rfl
  · have := queueIs_registered hv' t'
    rw [if_neg htn'] at this
    exact this
  · show (AdaptiveClimb.toCore (AdaptiveClimb.AdaptiveClimb_evict s req).cache).occupied_byte = _
    rw [e', f3']; rfl

/-- C12 at the fresh caches (empty queue) and at the queue 3,2,1 of the scenario. -/
theorem evict_removes_tail_witness :
    ((DynamicAdaptiveClimb.DynamicAdaptiveClimb_init ⟨3, 0⟩).eviction_params.q_tail = none ∧
      QueueIs (DynamicAdaptiveClimb.toCore DynamicAdaptiveClimb.scenario_ABC) ([3, 2] ++ [1]) ∧
      (AdaptiveClimb.initial 3 0).cache.eviction_params.q_tail = none ∧
      QueueIs (AdaptiveClimb.toCore AdaptiveClimb.scenario_ABC.cache) ([3, 2] ++ [1])) ∧
    (QueueIs
      (DynamicAdaptiveClimb.toCore
        (DynamicAdaptiveClimb.DynamicAdaptiveClimb_evict DynamicAdaptiveClimb.scenario_ABC ⟨0, 0⟩))
      [3, 2] ∧
    QueueIs
      (AdaptiveClimb.toCore
        (AdaptiveClimb.AdaptiveClimb_evict AdaptiveClimb.scenario_ABC ⟨0, 0⟩).cache) [3, 2]) :=
  ⟨⟨rfl, DynamicAdaptiveClimb.dac_scenario_queueIs, rfl, AdaptiveClimb.ac_scenario_queueIs⟩,
    ⟨(evict_removes_tail (DynamicAdaptiveClimb.DynamicAdaptiveClimb_init ⟨3, 0⟩)
        DynamicAdaptiveClimb.scenario_ABC (AdaptiveClimb.initial 3 0) AdaptiveClimb.scenario_ABC
        [3, 2] [3, 2] 1 1 ⟨0, 0⟩ rfl DynamicAdaptiveClimb.dac_scenario_queueIs rfl
        AdaptiveClimb.ac_scenario_queueIs).1.2.2.1,
      (evict_removes_tail (DynamicAdaptiveClimb.DynamicAdaptiveClimb_init ⟨3, 0⟩)
        DynamicAdaptiveClimb.scenario_ABC (AdaptiveClimb.initial 3 0) AdaptiveClimb.scenario_ABC
        [3, 2] [3, 2] 1 1 ⟨0, 0⟩ rfl DynamicAdaptiveClimb.dac_scenario_queueIs rfl
        AdaptiveClimb.ac_scenario_queueIs).2.2.2.1⟩⟩

/-- C13. For a well-formed queue `l` and an identifier present in the registry,
`DynamicAdaptiveClimb_remove` (and `AdaptiveClimb_remove`) returns true, the object is no
longer in the registry nor in the queue, the queue is the well-formed queue `l.erase id` (the
other objects in their old order), and the estimator (window, cursor, hit count,
`total_requests`) and the controller state (`K`, `jump`, `ema_miss_ratio`, both histories,
`fallback_counter`, `in_fallback`; for AdaptiveClimb all file-scope variables, `K` and
`jump`) are unchanged. -/
theorem remove_cached_object (c : cache_t DynamicAdaptiveClimb.DynamicAdaptiveClimb_params_t)
    (s : AdaptiveClimb.State) (l l' : List Nat) (obj_id : Nat)
    (hq : QueueIs (DynamicAdaptiveClimb.toCore c) l)
    (hreg : hashtable_find_obj_id c.hashtable obj_id = some obj_id)
    (hq' : QueueIs (AdaptiveClimb.toCore s.cache) l')
    (hreg' : hashtable_find_obj_id s.cache.hashtable obj_id = some obj_id) :
    ((DynamicAdaptiveClimb.DynamicAdaptiveClimb_remove c obj_id).1 = true ∧
      QueueIs
        (DynamicAdaptiveClimb.toCore (DynamicAdaptiveClimb.DynamicAdaptiveClimb_remove c obj_id).2)
        (l.erase obj_id) ∧
      obj_id ∉ l.erase obj_id ∧
      hashtable_find_obj_id
        (DynamicAdaptiveClimb.DynamicAdaptiveClimb_remove c obj_id).2.hashtable obj_id = none ∧
      (DynamicAdaptiveClimb.DynamicAdaptiveClimb_remove c obj_id).2.eviction_params
        = { c.eviction_params with
            q_head :=
              (DynamicAdaptiveClimb.DynamicAdaptiveClimb_remove c obj_id).2.eviction_params.q_head
            q_tail :=
              (DynamicAdaptiveClimb.DynamicAdaptiveClimb_remove c obj_id).2.eviction_params.q_tail
          }) ∧
    ((AdaptiveClimb.AdaptiveClimb_remove s obj_id).1 = true ∧
      QueueIs (AdaptiveClimb.toCore (AdaptiveClimb.AdaptiveClimb_remove s obj_id).2.cache)
        (l'.erase obj_id) ∧
      obj_id ∉ l'.erase obj_id ∧
      hashtable_find_obj_id
        (AdaptiveClimb.AdaptiveClimb_remove s obj_id).2.cache.hashtable obj_id = none ∧
      (AdaptiveClimb.AdaptiveClimb_remove s obj_id).2.globals = s.globals ∧
      (AdaptiveClimb.AdaptiveClimb_remove s obj_id).2.cache.eviction_params.K
        = s.cache.eviction_params.K ∧
      (AdaptiveClimb.AdaptiveClimb_remove s obj_id).2.cache.eviction_params.jump
        = s.cache.eviction_params.jump) := by
  have hs : (c.hashtable obj_id).isSome = true := by
    unfold hashtable_find_obj_id at hreg
    cases h : (c.hashtable obj_id).isSome with
    | true => rfl
    | false => rw [h] at hreg; simp at hreg
  have hs' : (s.cache.hashtable obj_id).isSome = true := by
    unfold hashtable_find_obj_id at hreg'
    cases h : (s.cache.hashtable obj_id).isSome with
    | true => rfl
    | false => rw [h] at hreg'; simp at hreg'
  have hx : obj_id ∈ l := (hq.2.1 _).1 hs
  have hx' : obj_id ∈ l' := (hq'.2.1 _).1 hs'
  have r := DynamicAdaptiveClimb.remove_hit_core c obj_id hs
  obtain ⟨r1', r2', r3', r4', r5'⟩ := AdaptiveClimb.ac_remove_hit_core s obj_id hs'
  have m := remove_queueIs hq hx
  have m' := remove_queueIs hq' hx'
  rw [← r.2] at m
  rw [← r2'] at m'
  have hn : obj_id ∉ l.erase obj_id := fun h => (List.Nodup.mem_erase_iff hq.1.2.2.2).1 h |>.1 rfl
  have hn' : obj_id ∉ l'.erase obj_id :=
    fun h => (List.Nodup.mem_erase_iff hq'.1.2.2.2).1 h |>.1 rfl
  refine ⟨⟨r.1, m, hn, ?_, ?_⟩, ⟨r1', m', hn', ?_, r3', r4', r5'⟩⟩
  · have := queueIs_registered m obj_id
    rw [if_neg hn] at this
    exact this
  · unfold DynamicAdaptiveClimb.DynamicAdaptiveClimb_remove
    rw [hreg]
    rfl
  · have := queueIs_registered m' obj_id
    rw [if_neg hn'] at this
    exact this

/-- C13 at the queue 3,2,1 of the scenario and the removal of object 2. -/
theorem remove_cached_object_witness :
    (QueueIs (DynamicAdaptiveClimb.toCore DynamicAdaptiveClimb.scenario_ABC) [3, 2, 1] ∧
      hashtable_find_obj_id DynamicAdaptiveClimb.scenario_ABC.hashtable 2 = some 2 ∧
      QueueIs (AdaptiveClimb.toCore AdaptiveClimb.scenario_ABC.cache) [3, 2, 1] ∧
      hashtable_find_obj_id AdaptiveClimb.scenario_ABC.cache.hashtable 2 = some 2) ∧
    ((DynamicAdaptiveClimb.DynamicAdaptiveClimb_remove DynamicAdaptiveClimb.scenario_ABC 2).1
        = true ∧
      QueueIs
        (DynamicAdaptiveClimb.toCore
          (DynamicAdaptiveClimb.DynamicAdaptiveClimb_remove DynamicAdaptiveClimb.scenario_ABC 2).2)
        [3, 1] ∧
      (AdaptiveClimb.AdaptiveClimb_remove AdaptiveClimb.scenario_ABC 2).1 = true ∧
      QueueIs
        (AdaptiveClimb.toCore
          (AdaptiveClimb.AdaptiveClimb_remove AdaptiveClimb.scenario_ABC 2).2.cache) [3, 1]) :=
  ⟨⟨DynamicAdaptiveClimb.dac_scenario_queueIs, by decide!, AdaptiveClimb.ac_scenario_queueIs,
      by decide!⟩,
    ⟨(remove_cached_object DynamicAdaptiveClimb.scenario_ABC AdaptiveClimb.scenario_ABC
        [3, 2, 1] [3, 2, 1] 2 DynamicAdaptiveClimb.dac_scenario_queueIs (by decide!)
        AdaptiveClimb.ac_scenario_queueIs (by decide!)).1.1,
      (remove_cached_object DynamicAdaptiveClimb.scenario_ABC AdaptiveClimb.scenario_ABC
        [3, 2, 1] [3, 2, 1] 2 DynamicAdaptiveClimb.dac_scenario_queueIs (by decide!)
        AdaptiveClimb.ac_scenario_queueIs (by decide!)).1.2.1,
      (remove_cached_object DynamicAdaptiveClimb.scenario_ABC AdaptiveClimb.scenario_ABC
        [3, 2, 1] [3, 2, 1] 2 DynamicAdaptiveClimb.dac_scenario_queueIs (by decide!)
        AdaptiveClimb.ac_scenario_queueIs (by decide!)).2.1,
      (remove_cached_object DynamicAdaptiveClimb.scenario_ABC AdaptiveClimb.scenario_ABC
        [3, 2, 1] [3, 2, 1] 2 DynamicAdaptiveClimb.dac_scenario_queueIs (by decide!)
        AdaptiveClimb.ac_scenario_queueIs (by decide!)).2.2.1⟩⟩

/-- C14. For an identifier not present in the registry, `DynamicAdaptiveClimb_remove` and
`AdaptiveClimb_remove` return false and the whole state (queue, registry, estimator and
controller) unchanged; and for every identifier `remove` returns true exactly when the
identifier is present in the registry. -/
theorem remove_absent_identifier
    (c : cache_t DynamicAdaptiveClimb.DynamicAdaptiveClimb_params_t)
    (s : AdaptiveClimb.State) (obj_id : Nat)
    (habs : hashtable_find_obj_id c.hashtable obj_id = none)
    (habs' : hashtable_find_obj_id s.cache.hashtable obj_id = none) :
    DynamicAdaptiveClimb.DynamicAdaptiveClimb_remove c obj_id = (false, c) ∧
    AdaptiveClimb.AdaptiveClimb_remove s obj_id = (false, s) ∧
    (∀ (c1 : cache_t DynamicAdaptiveClimb.DynamicAdaptiveClimb_params_t) (id : Nat),
      (DynamicAdaptiveClimb.DynamicAdaptiveClimb_remove c1 id).1 = true
        ↔ hashtable_find_obj_id c1.hashtable id = some id) ∧
    (∀ (s1 : AdaptiveClimb.State) (id : Nat),
      (AdaptiveClimb.AdaptiveClimb_remove s1 id).1 = true
        ↔ hashtable_find_obj_id s1.cache.hashtable id = some id) := by
  refine ⟨?_, ?_, ?_, ?_⟩
  · unfold DynamicAdaptiveClimb.DynamicAdaptiveClimb_remove; rw [habs]
  · unfold AdaptiveClimb.AdaptiveClimb_remove; rw [habs']
  · intro c1 id
    unfold DynamicAdaptiveClimb.DynamicAdaptiveClimb_remove hashtable_find_obj_id
    cases (c1.hashtable id).isSome <;> simp
  · intro s1 id
    unfold AdaptiveClimb.AdaptiveClimb_remove hashtable_find_obj_id
    cases (s1.cache.hashtable id).isSome <;> simp

/-- C14 at the queue 3,2,1 of the scenario and the absent identifier 7. -/
theorem remove_absent_identifier_witness :
    (hashtable_find_obj_id DynamicAdaptiveClimb.scenario_ABC.hashtable 7 = none ∧
      hashtable_find_obj_id AdaptiveClimb.scenario_ABC.cache.hashtable 7 = none) ∧
    (DynamicAdaptiveClimb.DynamicAdaptiveClimb_remove DynamicAdaptiveClimb.scenario_ABC 7
        = (false, DynamicAdaptiveClimb.scenario_ABC) ∧
      AdaptiveClimb.AdaptiveClimb_remove AdaptiveClimb.scenario_ABC 7
        = (false, AdaptiveClimb.scenario_ABC)) :=
  ⟨⟨by decide!, by decide!⟩,
    ⟨(remove_absent_identifier DynamicAdaptiveClimb.scenario_ABC AdaptiveClimb.scenario_ABC 7
        (by decide!) (by decide!)).1,
      (remove_absent_identifier DynamicAdaptiveClimb.scenario_ABC AdaptiveClimb.scenario_ABC 7
        (by decide!) (by decide!)).2.1⟩⟩

/-! ## Termination of the eviction loop -/

/-- On a well-formed queue `l` every fuel of at least `l.length` gives the loop the same
final state and the same number of iterations as fuel `l.length`; there are at most
`l.length` iterations, and the final state is at an exit of the source loop: the loop
condition is false or `q_tail` is null. -/
theorem evict_loop_stable (req : request_t) (fuel : Nat) :
    ∀ (k : CacheCore) (l : List Nat), QueueIs k l → l.length ≤ fuel →
      evict_loop req fuel k = evict_loop req l.length k ∧
      evict_loop_iterations req fuel k = evict_loop_iterations req l.length k ∧
      evict_loop_iterations req fuel k ≤ l.length ∧
      QueueIs (evict_loop req fuel k) (l.rdrop (evict_loop_iterations req fuel k)) ∧
      (¬ over_capacity req (evict_loop req fuel k) ∨ (evict_loop req fuel k).q_tail = none) := by
  induction fuel with
  | zero =>
    intro k l hq hf
    have hl : l = [] := List.length_eq_zero.1 (Nat.le_zero.1 hf)
    subst hl
    refine ⟨rfl, rfl, Nat.le_refl _, ?_, Or.inr hq.1.2.1⟩
    simpa [evict_loop, evict_loop_iterations] using hq
  | succ f ih =>
    intro k l hq hf
    by_cases hc : k.occupied_byte + req.obj_size + k.obj_md_size > k.cache_size
    · rcases List.eq_nil_or_concat l with rfl | ⟨init, t, rfl⟩
      · have ht : k.q_tail = none := hq.1.2.1
        have e : evict_loop req (f + 1) k = k := by simp [evict_loop, hc, ht]
        have ei : evict_loop_iterations req (f + 1) k = 0 := by
          simp [evict_loop_iterations, hc, ht]
        rw [e, ei]
        refine ⟨rfl, rfl, Nat.le_refl _, ?_, Or.inr ht⟩
        simpa using hq
      · rw [List.concat_eq_append] at hq hf ⊢
        have ht : k.q_tail = some t := by rw [hq.1.2.1]; simp
        have hlen : (init ++ [t]).length = init.length + 1 := by simp
        rw [hlen] at hf ⊢
        have e : ∀ n, evict_loop req (n + 1) k = evict_loop req n (evict_victim k t) := by
          intro n; simp [evict_loop, hc, ht]
        have ei : ∀ n, evict_loop_iterations req (n + 1) k
            = evict_loop_iterations req n (evict_victim k t) + 1 := by
          intro n; simp [evict_loop_iterations, hc, ht]
        obtain ⟨i1, i2, i3, i4, i5⟩ := ih _ _ (evict_victim_queueIs hq) (by omega)
        rw [e f, e init.length, ei f, ei init.length]
        refine ⟨i1, by rw [i2], by omega, ?_, i5⟩
        rw [List.rdrop_concat_succ]
        exact i4
    · have e : ∀ n, evict_loop req n k = k := fun n => evict_loop_fits req n k hc
      have ei : ∀ n, evict_loop_iterations req n k = 0 := by
        intro n
        cases n with
        | zero => rfl
        | succ m => simp [evict_loop_iterations, hc]
      rw [e (f + 1), e l.length, ei (f + 1), ei l.length]
      refine ⟨rfl, rfl, Nat.zero_le _, ?_, Or.inl hc⟩
      simpa using hq

namespace DynamicAdaptiveClimb

theorem insert_fuel_irrelevant (fuel : Nat) (c : cache_t DynamicAdaptiveClimb_params_t)
    (l : List Nat) (req : request_t) (hq : QueueIs (toCore c) l) (hf : l.length ≤ fuel) :
    DynamicAdaptiveClimb_insert fuel c req = DynamicAdaptiveClimb_insert l.length c req := by
  have hst := (evict_loop_stable req fuel (toCore c) l hq hf).1
  unfold DynamicAdaptiveClimb_insert
  cases cache_find_base c req false with
  | some obj => rfl
  | none =>
    simp only [toCore, update_hit_miss_window_q_head, update_hit_miss_window_q_tail] at hst ⊢
    rw [hst]

end DynamicAdaptiveClimb

namespace AdaptiveClimb

theorem ac_insert_fuel_irrelevant (fuel : Nat) (s : State) (l : List Nat) (req : request_t)
    (hq : QueueIs (toCore s.cache) l) (hf : l.length ≤ fuel) :
    AdaptiveClimb_insert fuel s req = AdaptiveClimb_insert l.length s req := by
  have hst := (evict_loop_stable req fuel (toCore s.cache) l hq hf).1
  unfold AdaptiveClimb_insert
  cases cache_find_base s.cache req false with
  | some obj => rfl
  | none =>
    simp only [toCore, ac_adjust_q_head, ac_adjust_q_tail] at hst ⊢
    rw [hst]

end AdaptiveClimb

/-- C15. On every well-formed queue `l`, for every capacity, per-object overhead and object
size (no assumption relates them), the eviction loop of the miss path terminates: every fuel
of at least `l.length` gives the same final state and insert result as fuel `l.length`, the
loop performs at most `l.length` iterations, removing that many entries from the tail, and it
ends at an exit of the source loop, with the loop condition false or with the queue empty
(`q_tail` null) even if still over capacity. -/
theorem eviction_loop_terminates (fuel : Nat)
    (c : cache_t DynamicAdaptiveClimb.DynamicAdaptiveClimb_params_t) (s : AdaptiveClimb.State)
    (k : CacheCore) (l : List Nat) (req : request_t)
    (hq : QueueIs k l) (hf : l.length ≤ fuel)
    (hc : DynamicAdaptiveClimb.toCore c = k) (hs : AdaptiveClimb.toCore s.cache = k) :
    evict_loop req fuel k = evict_loop req l.length k ∧
    evict_loop_iterations req fuel k = evict_loop_iterations req l.length k ∧
    evict_loop_iterations req fuel k ≤ l.length ∧
    QueueIs (evict_loop req fuel k) (l.rdrop (evict_loop_iterations req fuel k)) ∧
    (¬ over_capacity req (evict_loop req fuel k) ∨ (evict_loop req fuel k).q_tail = none) ∧
    evict_loop req 1 (evict_loop req fuel k) = evict_loop req fuel k ∧
    DynamicAdaptiveClimb.DynamicAdaptiveClimb_insert fuel c req
      = DynamicAdaptiveClimb.DynamicAdaptiveClimb_insert l.length c req ∧
    AdaptiveClimb.AdaptiveClimb_insert fuel s req
      = AdaptiveClimb.AdaptiveClimb_insert l.length s req := by
  obtain ⟨h1, h2, h3, h4, h5⟩ := evict_loop_stable req fuel k l hq hf
  refine ⟨h1, h2, h3, h4, h5, ?_, ?_, ?_⟩
  · rcases h5 with h | h
    · exact evict_loop_fits req 1 _ h
    · by_cases hov : over_capacity req (evict_loop req fuel k)
      · unfold over_capacity at hov
        simp [evict_loop, hov, h]
      · exact evict_loop_fits req 1 _ hov
  · exact DynamicAdaptiveClimb.insert_fuel_irrelevant fuel c l req (hc ▸ hq) hf
  · exact AdaptiveClimb.ac_insert_fuel_irrelevant fuel s l req (hs ▸ hq) hf

/-- C15 at the full queue 3,2,1 of the scenario (capacity 3), an absent object of size 5,
larger than the capacity, and fuel 7: the loop makes three iterations and stops on the empty
queue, still over capacity. -/
theorem eviction_loop_terminates_witness :
    (QueueIs (DynamicAdaptiveClimb.toCore DynamicAdaptiveClimb.scenario_ABC) [3, 2, 1] ∧
      ([3, 2, 1] : List Nat).length ≤ 7 ∧
      AdaptiveClimb.toCore AdaptiveClimb.scenario_ABC.cache
        = DynamicAdaptiveClimb.toCore DynamicAdaptiveClimb.scenario_ABC) ∧
    (evict_loop_iterations ⟨4, 5⟩ 7 (DynamicAdaptiveClimb.toCore DynamicAdaptiveClimb.scenario_ABC)
        ≤ ([3, 2, 1] : List Nat).length ∧
      evict_loop_iterations ⟨4, 5⟩ 7
        (DynamicAdaptiveClimb.toCore DynamicAdaptiveClimb.scenario_ABC) = 3 ∧
      over_capacity ⟨4, 5⟩
        (evict_loop ⟨4, 5⟩ 7 (DynamicAdaptiveClimb.toCore DynamicAdaptiveClimb.scenario_ABC)) ∧
      (evict_loop ⟨4, 5⟩ 7
        (DynamicAdaptiveClimb.toCore DynamicAdaptiveClimb.scenario_ABC)).q_tail = none) :=
  ⟨⟨DynamicAdaptiveClimb.dac_scenario_queueIs, by decide, by with_unfolding_all rfl⟩,
    ⟨(eviction_loop_terminates 7 DynamicAdaptiveClimb.scenario_ABC AdaptiveClimb.scenario_ABC
        (DynamicAdaptiveClimb.toCore DynamicAdaptiveClimb.scenario_ABC) [3, 2, 1] ⟨4, 5⟩
        DynamicAdaptiveClimb.dac_scenario_queueIs (by decide) rfl
        (by with_unfolding_all rfl)).2.2.1,
      by decide!, by decide!, by decide!⟩⟩

/-! ## The tuning state and the cache decisions -/

/-- C16. Two DynamicAdaptiveClimb states that agree on the recency queue, the registry, the
occupied bytes, the capacity and the per-object overhead, whatever their tuning state and
windows, give the same request the same hit/miss result, the same returned object and the
same resulting queue, registry and occupied bytes (hence the same evicted objects), through
`get`, through `insert` and, before it is committed, through the loop of the miss path. -/
theorem tuning_state_does_not_influence (fuel : Nat)
    (c1 c2 : cache_t DynamicAdaptiveClimb.DynamicAdaptiveClimb_params_t) (req : request_t)
    (h : DynamicAdaptiveClimb.toCore c1 = DynamicAdaptiveClimb.toCore c2) :
    (DynamicAdaptiveClimb.DynamicAdaptiveClimb_get c1 req).1
      = (DynamicAdaptiveClimb.DynamicAdaptiveClimb_get c2 req).1 ∧
    DynamicAdaptiveClimb.toCore (DynamicAdaptiveClimb.DynamicAdaptiveClimb_get c1 req).2
      = DynamicAdaptiveClimb.toCore (DynamicAdaptiveClimb.DynamicAdaptiveClimb_get c2 req).2 ∧
    (DynamicAdaptiveClimb.DynamicAdaptiveClimb_insert fuel c1 req).1
      = (DynamicAdaptiveClimb.DynamicAdaptiveClimb_insert fuel c2 req).1 ∧
    DynamicAdaptiveClimb.toCore (DynamicAdaptiveClimb.DynamicAdaptiveClimb_insert fuel c1 req).2
      = DynamicAdaptiveClimb.toCore (DynamicAdaptiveClimb.DynamicAdaptiveClimb_insert fuel c2 req).2 ∧
    (DynamicAdaptiveClimb.process_request fuel c1 req).1
      = (DynamicAdaptiveClimb.process_request fuel c2 req).1 ∧
    DynamicAdaptiveClimb.toCore (DynamicAdaptiveClimb.process_request fuel c1 req).2
      = DynamicAdaptiveClimb.toCore (DynamicAdaptiveClimb.process_request fuel c2 req).2 ∧
    DynamicAdaptiveClimb.DynamicAdaptiveClimb_to_evict c1 req
      = DynamicAdaptiveClimb.DynamicAdaptiveClimb_to_evict c2 req := by
  have hh : c1.hashtable = c2.hashtable := congrArg CacheCore.heap h
  have ht : c1.eviction_params.q_tail = c2.eviction_params.q_tail := congrArg CacheCore.q_tail h
  cases hs : (c1.hashtable req.obj_id).isSome with
  | true =>
    have hs2 : (c2.hashtable req.obj_id).isSome = true := by rw [← hh]; exact hs
    have g1 := DynamicAdaptiveClimb.get_hit_core c1 req hs
    have g2 := DynamicAdaptiveClimb.get_hit_core c2 req hs2
    have hg : DynamicAdaptiveClimb.toCore (DynamicAdaptiveClimb.DynamicAdaptiveClimb_get c1 req).2
        = DynamicAdaptiveClimb.toCore (DynamicAdaptiveClimb.DynamicAdaptiveClimb_get c2 req).2 := by
      rw [g1.2, g2.2, h]
    rw [DynamicAdaptiveClimb.insert_hit fuel c1 req hs,
      DynamicAdaptiveClimb.insert_hit fuel c2 req hs2,
      DynamicAdaptiveClimb.process_request_hit fuel c1 req hs,
      DynamicAdaptiveClimb.process_request_hit fuel c2 req hs2]
    exact ⟨by rw [g1.1, g2.1], hg, rfl, hg, by rw [g1.1, g2.1], hg, ht⟩
  | false =>
    have hs2 : (c2.hashtable req.obj_id).isSome = false := by rw [← hh]; exact hs
    have i1 := DynamicAdaptiveClimb.insert_miss_core fuel c1 req hs
    have i2 := DynamicAdaptiveClimb.insert_miss_core fuel c2 req hs2
    have hi : DynamicAdaptiveClimb.toCore
          (DynamicAdaptiveClimb.DynamicAdaptiveClimb_insert fuel c1 req).2
        = DynamicAdaptiveClimb.toCore
          (DynamicAdaptiveClimb.DynamicAdaptiveClimb_insert fuel c2 req).2 := by
      rw [i1.2, i2.2, h]
    rw [DynamicAdaptiveClimb.get_miss c1 req hs, DynamicAdaptiveClimb.get_miss c2 req hs2,
      DynamicAdaptiveClimb.process_request_miss fuel c1 req hs,
      DynamicAdaptiveClimb.process_request_miss fuel c2 req hs2]
    exact ⟨rfl, h, by rw [i1.1, i2.1], hi, rfl, hi, ht⟩

/-- C16 at the queue 3,2,1 of the scenario, once as it is and once with `K`, `jump`, the
smoothed miss ratio, the regime and the hit count overwritten. -/
theorem tuning_state_does_not_influence_witness :
    DynamicAdaptiveClimb.toCore DynamicAdaptiveClimb.scenario_ABC
      = DynamicAdaptiveClimb.toCore
        { DynamicAdaptiveClimb.scenario_ABC with
          eviction_params :=
            { DynamicAdaptiveClimb.scenario_ABC.eviction_params with
              K := 4999, jump := 7, ema_miss_ratio := 1, in_fallback := 1,
              fallback_counter := 9, recent_hit_count := 17 } } ∧
    DynamicAdaptiveClimb.toCore
        (DynamicAdaptiveClimb.DynamicAdaptiveClimb_insert 3
          DynamicAdaptiveClimb.scenario_ABC ⟨4, 1⟩).2
      = DynamicAdaptiveClimb.toCore
        (DynamicAdaptiveClimb.DynamicAdaptiveClimb_insert 3
          { DynamicAdaptiveClimb.scenario_ABC with
            eviction_params :=
              { DynamicAdaptiveClimb.scenario_ABC.eviction_params with
                K := 4999, jump := 7, ema_miss_ratio := 1, in_fallback := 1,
                fallback_counter := 9, recent_hit_count := 17 } } ⟨4, 1⟩).2 :=
  ⟨rfl,
    (tuning_state_does_not_influence 3 DynamicAdaptiveClimb.scenario_ABC
      { DynamicAdaptiveClimb.scenario_ABC with
        eviction_params :=
          { DynamicAdaptiveClimb.scenario_ABC.eviction_params with
            K := 4999, jump := 7, ema_miss_ratio := 1, in_fallback := 1,
            fallback_counter := 9, recent_hit_count := 17 } } ⟨4, 1⟩ rfl).2.2.2.1⟩

/-! ## The controller step, the history and the clamp of the simple policy -/

namespace DynamicAdaptiveClimb

/-- The parameter update on values inside the clamp range: `K` and `jump` move in opposite
directions by the step of the regime (1 in fallback, 2 otherwise), or stay at the bound they
are on. -/
theorem parameter_update_in_range (m : ℚ) (p : DynamicAdaptiveClimb_params_t)
    (hK : MIN_K ≤ p.K ∧ p.K ≤ MAX_K) (hj : MIN_K ≤ p.jump ∧ p.jump ≤ MAX_K) :
    (m > p.last_miss_rates.getD 2 0 →
      ((parameter_update m p).K = p.K - (if p.in_fallback ≠ 0 then 1 else 2) ∨
        (p.K = MIN_K ∧ (parameter_update m p).K = MIN_K)) ∧
      ((parameter_update m p).jump = p.jump + (if p.in_fallback ≠ 0 then 1 else 2) ∨
        (p.jump = MAX_K ∧ (parameter_update m p).jump = MAX_K))) ∧
    (¬ m > p.last_miss_rates.getD 2 0 →
      ((parameter_update m p).K = p.K + (if p.in_fallback ≠ 0 then 1 else 2) ∨
        (p.K = MAX_K ∧ (parameter_update m p).K = MAX_K)) ∧
      ((parameter_update m p).jump = p.jump - (if p.in_fallback ≠ 0 then 1 else 2) ∨
        (p.jump = MIN_K ∧ (parameter_update m p).jump = MIN_K))) := by
  unfold MIN_K MAX_K at hK hj ⊢
  obtain ⟨hK1, hK2⟩ := hK
  obtain ⟨hj1, hj2⟩ := hj
  constructor
  · intro hm
    unfold parameter_update MIN_K MAX_K
    dsimp only
    rw [if_pos hm, if_pos hm]
    by_cases hf : p.in_fallback ≠ 0
    · rw [if_pos hf, if_pos hf]
      dsimp only
      constructor
      · by_cases h1 : p.K > 5
        · left; rw [if_pos h1]
        · right; rw [if_neg h1]; exact ⟨by omega, rfl⟩
      · by_cases h2 : p.jump < 5000
        · left; rw [if_pos h2]
        · right; rw [if_neg h2]; exact ⟨by omega, rfl⟩
    · rw [if_neg hf, if_neg hf]
      dsimp only
      constructor
      · by_cases h1 : p.K > 5
        · left; rw [if_pos h1]
        · right; rw [if_neg h1]; exact ⟨by omega, rfl⟩
      · by_cases h2 : p.jump < 5000
        · left; rw [if_pos h2]
        · right; rw [if_neg h2]; exact ⟨by omega, rfl⟩
  · intro hm
    unfold parameter_update MIN_K MAX_K
    dsimp only
    rw [if_neg hm, if_neg hm]
    by_cases hf : p.in_fallback ≠ 0
    · rw [if_pos hf, if_pos hf]
      dsimp only
      constructor
      · by_cases h1 : p.K < 5000
        · left; rw [if_pos h1]
        · right; rw [if_neg h1]; exact ⟨by omega, rfl⟩
      · by_cases h2 : p.jump > 5
        · left; rw [if_pos h2]
        · right; rw [if_neg h2]; exact ⟨by omega, rfl⟩
    · rw [if_neg hf, if_neg hf]
      dsimp only
      constructor
      · by_cases h1 : p.K < 5000
        · left; rw [if_pos h1]
        · right; rw [if_neg h1]; exact ⟨by omega, rfl⟩
      · by_cases h2 : p.jump > 5
        · left; rw [if_pos h2]
        · right; rw [if_neg h2]; exact ⟨by omega, rfl⟩

end DynamicAdaptiveClimb

/-- C17, the code at the failing input. After `DynamicAdaptiveClimb_init` with nominal
capacity 36864 (`K = 6`), a first tick on a window with 500 hits (miss rate 1/2, risen from
0) leaves `K = 4`; at the second tick, on a window without hits, the miss rate 1 has risen
above the previous sample 1/2 and the regime is aggressive, yet `K` goes up from 4 to 5: it
increases, by 1, while `jump` goes from 8 to 10. -/
theorem controller_step_against_direction :
    (DynamicAdaptiveClimb.ticks
      (DynamicAdaptiveClimb.DynamicAdaptiveClimb_init ⟨36864, 0⟩).eviction_params [500]).K = 4 ∧
    (DynamicAdaptiveClimb.ticks
      (DynamicAdaptiveClimb.DynamicAdaptiveClimb_init ⟨36864, 0⟩).eviction_params [500]).jump
      = 8 ∧
    DynamicAdaptiveClimb.miss_rate DynamicAdaptiveClimb.HIT_MISS_WINDOW
        { DynamicAdaptiveClimb.ticks
            (DynamicAdaptiveClimb.DynamicAdaptiveClimb_init ⟨36864, 0⟩).eviction_params [500]
          with recent_hit_count := 0 }
      > (DynamicAdaptiveClimb.ticks
          (DynamicAdaptiveClimb.DynamicAdaptiveClimb_init ⟨36864, 0⟩).eviction_params
          [500]).last_miss_rates.getD 2 0 ∧
    (DynamicAdaptiveClimb.ticks
      (DynamicAdaptiveClimb.DynamicAdaptiveClimb_init ⟨36864, 0⟩).eviction_params
      [500, 0]).in_fallback = 0 ∧
    (DynamicAdaptiveClimb.ticks
      (DynamicAdaptiveClimb.DynamicAdaptiveClimb_init ⟨36864, 0⟩).eviction_params
      [500, 0]).K = 5 ∧
    (DynamicAdaptiveClimb.ticks
      (DynamicAdaptiveClimb.DynamicAdaptiveClimb_init ⟨36864, 0⟩).eviction_params
      [500, 0]).jump = 10 := by
  decide!

/-- C18, the code at the failing input. Three consecutive ticks from the initial controller
state, on windows with 1000, 500 and 0 hits, sample the miss rates 0, 1/2 and 1; afterwards
all three slots of `last_miss_rates` hold the last sample 1 and all three slots of
`last_hit_rates` hold 0, because slot 1 is assigned from the slot 0 just written and slot 2
from the slot 1 just written. -/
theorem history_holds_last_sample_only :
    DynamicAdaptiveClimb.miss_rate DynamicAdaptiveClimb.HIT_MISS_WINDOW
        { (DynamicAdaptiveClimb.DynamicAdaptiveClimb_init ⟨36864, 0⟩).eviction_params
          with recent_hit_count := 1000 } = 0 ∧
    DynamicAdaptiveClimb.miss_rate DynamicAdaptiveClimb.HIT_MISS_WINDOW
        { (DynamicAdaptiveClimb.DynamicAdaptiveClimb_init ⟨36864, 0⟩).eviction_params
          with recent_hit_count := 500 } = 1 / 2 ∧
    DynamicAdaptiveClimb.miss_rate DynamicAdaptiveClimb.HIT_MISS_WINDOW
        { (DynamicAdaptiveClimb.DynamicAdaptiveClimb_init ⟨36864, 0⟩).eviction_params
          with recent_hit_count := 0 } = 1 ∧
    (DynamicAdaptiveClimb.ticks
      (DynamicAdaptiveClimb.DynamicAdaptiveClimb_init ⟨36864, 0⟩).eviction_params
      [1000, 500, 0]).last_miss_rates = [1, 1, 1] ∧
    (DynamicAdaptiveClimb.ticks
      (DynamicAdaptiveClimb.DynamicAdaptiveClimb_init ⟨36864, 0⟩).eviction_params
      [1000, 500, 0]).last_hit_rates = [0, 0, 0] := by
  decide!

/-- C19, the code at the failing input. `AdaptiveClimb_init` sets `jump = 1`, below
`MIN_K = 5`, for every capacity; and from `K = 10` three calls of `adjust_k_parameter` at
multiples of the interval with rising miss rates (windows with 900, 800 and 700 hits) take
`K` through 8 and 6 to 4, below `MIN_K`. -/
theorem simple_clamp_broken :
    (∀ cache_size obj_md_size : Nat,
      (AdaptiveClimb.AdaptiveClimb_init cache_size obj_md_size).eviction_params.jump = 1 ∧
      (AdaptiveClimb.AdaptiveClimb_init cache_size obj_md_size).eviction_params.K = 10) ∧
    ({ AdaptiveClimb.Globals.initial AdaptiveClimb.HIT_MISS_WINDOW with
        total_requests := 1000 } : AdaptiveClimb.Globals).total_requests
      % AdaptiveClimb.ADJUSTMENT_INTERVAL = 0 ∧
    (AdaptiveClimb.ticks
      ({ AdaptiveClimb.Globals.initial AdaptiveClimb.HIT_MISS_WINDOW with
          total_requests := 1000 },
        (AdaptiveClimb.AdaptiveClimb_init 3 0).eviction_params) [900, 800]).2.K = 6 ∧
    (AdaptiveClimb.ticks
      ({ AdaptiveClimb.Globals.initial AdaptiveClimb.HIT_MISS_WINDOW with
          total_requests := 1000 },
        (AdaptiveClimb.AdaptiveClimb_init 3 0).eviction_params) [900, 800, 700]).2.K = 4 := by
  refine ⟨fun _ _ => ⟨rfl, rfl⟩, ?_, ?_, ?_⟩ <;> decide!

/-! ## Range of the hit count and of the smoothed miss ratio -/

theorem sum_zero_one_bounds (T : List Int) (h : ∀ v ∈ T, v = 0 ∨ v = 1) :
    0 ≤ T.sum ∧ T.sum ≤ T.length := by
  induction T with
  | nil => simp
  | cons a rest ih =>
    obtain ⟨i1, i2⟩ := ih (fun v hv => h v (List.mem_cons_of_mem _ hv))
    simp only [List.sum_cons, List.length_cons]
    push_cast
    rcases h a (List.mem_cons_self _ _) with ha | ha <;> subst ha <;> constructor <;> omega

namespace DynamicAdaptiveClimb

theorem fallback_update_window (p : DynamicAdaptiveClimb_params_t) :
    (fallback_update p).recent_hits = p.recent_hits ∧
    (fallback_update p).hit_miss_ptr = p.hit_miss_ptr ∧
    (fallback_update p).recent_hit_count = p.recent_hit_count ∧
    (fallback_update p).ema_miss_ratio = p.ema_miss_ratio ∧
    (fallback_update p).last_miss_rates = p.last_miss_rates ∧
    (fallback_update p).last_hit_rates = p.last_hit_rates := by
  unfold fallback_update; dsimp only; split_ifs <;> exact ⟨rfl, rfl, rfl, rfl, rfl, rfl⟩

theorem parameter_update_window (m : ℚ) (p : DynamicAdaptiveClimb_params_t) :
    (parameter_update m p).recent_hits = p.recent_hits ∧
    (parameter_update m p).hit_miss_ptr = p.hit_miss_ptr ∧
    (parameter_update m p).recent_hit_count = p.recent_hit_count ∧
    (parameter_update m p).ema_miss_ratio = p.ema_miss_ratio ∧
    (parameter_update m p).last_miss_rates = p.last_miss_rates ∧
    (parameter_update m p).last_hit_rates = p.last_hit_rates := by
  unfold parameter_update; dsimp only; split_ifs <;> exact ⟨rfl, rfl, rfl, rfl, rfl, rfl⟩

/-- A tick leaves the window alone and replaces the smoothed miss ratio by the weighted mean
of the window's miss rate and its old value. -/
theorem controller_tick_window (p : DynamicAdaptiveClimb_params_t) :
    (controller_tick p).recent_hits = p.recent_hits ∧
    (controller_tick p).hit_miss_ptr = p.hit_miss_ptr ∧
    (controller_tick p).recent_hit_count = p.recent_hit_count ∧
    (controller_tick p).ema_miss_ratio
      = EMA_ALPHA * miss_rate HIT_MISS_WINDOW p + (1 - EMA_ALPHA) * p.ema_miss_ratio := by
  unfold controller_tick history_update
  dsimp only
  rw [(parameter_update_window _ _).1, (parameter_update_window _ _).2.1,
    (parameter_update_window _ _).2.2.1, (parameter_update_window _ _).2.2.2.1,
    (fallback_update_window _).1, (fallback_update_window _).2.1,
    (fallback_update_window _).2.2.1, (fallback_update_window _).2.2.2.1]
  exact ⟨rfl, rfl, rfl, rfl⟩

/-- After a tick on three-slot histories every slot holds the sample of this tick. -/
theorem controller_tick_history (p : DynamicAdaptiveClimb_params_t)
    (h1 : p.last_miss_rates.length = 3) (h2 : p.last_hit_rates.length = 3) :
    (controller_tick p).last_miss_rates
      = [miss_rate HIT_MISS_WINDOW p, miss_rate HIT_MISS_WINDOW p,
          miss_rate HIT_MISS_WINDOW p] ∧
    (controller_tick p).last_hit_rates
      = [1 - miss_rate HIT_MISS_WINDOW p, 1 - miss_rate HIT_MISS_WINDOW p,
          1 - miss_rate HIT_MISS_WINDOW p] := by
  unfold controller_tick history_update
  dsimp only
  rw [(parameter_update_window _ _).2.2.2.2.1, (parameter_update_window _ _).2.2.2.2.2,
    (fallback_update_window _).2.2.2.2.1, (fallback_update_window _).2.2.2.2.2]
  dsimp only
  match hm : p.last_miss_rates, hh : p.last_hit_rates, h1, h2 with
  | [a, b, c], [d, e, f], _, _ => simp

/-- The window fields and the smoothed miss ratio after one request. -/
theorem process_request_window (fuel : Nat) (c : cache_t DynamicAdaptiveClimb_params_t)
    (req : request_t) :
    ∃ (hit : Int) (p' : DynamicAdaptiveClimb_params_t), (hit = 0 ∨ hit = 1) ∧
      (process_request fuel c req).2.eviction_params = adjust_k_parameter p' ∧
      p'.recent_hits = (update_hit_miss_window HIT_MISS_WINDOW c.eviction_params hit).recent_hits ∧
      p'.hit_miss_ptr
        = (update_hit_miss_window HIT_MISS_WINDOW c.eviction_params hit).hit_miss_ptr ∧
      p'.recent_hit_count
        = (update_hit_miss_window HIT_MISS_WINDOW c.eviction_params hit).recent_hit_count ∧
      p'.ema_miss_ratio = c.eviction_params.ema_miss_ratio := by
  have hw : ∀ hit : Int,
      (update_hit_miss_window HIT_MISS_WINDOW
        { c.eviction_params with
          total_requests := wrap_int (c.eviction_params.total_requests + 1) }
        hit).recent_hits
        = (update_hit_miss_window HIT_MISS_WINDOW c.eviction_params hit).recent_hits ∧
      (update_hit_miss_window HIT_MISS_WINDOW
        { c.eviction_params with
          total_requests := wrap_int (c.eviction_params.total_requests + 1) }
        hit).hit_miss_ptr
        = (update_hit_miss_window HIT_MISS_WINDOW c.eviction_params hit).hit_miss_ptr ∧
      (update_hit_miss_window HIT_MISS_WINDOW
        { c.eviction_params with
          total_requests := wrap_int (c.eviction_params.total_requests + 1) }
        hit).recent_hit_count
        = (update_hit_miss_window HIT_MISS_WINDOW c.eviction_params hit).recent_hit_count ∧
      (update_hit_miss_window HIT_MISS_WINDOW
        { c.eviction_params with
          total_requests := wrap_int (c.eviction_params.total_requests + 1) }
        hit).ema_miss_ratio = c.eviction_params.ema_miss_ratio := by
    intro hit
    unfold update_hit_miss_window
    dsimp only
    split_ifs <;> exact ⟨rfl, rfl, rfl, rfl⟩
  cases hs : (c.hashtable req.obj_id).isSome with
  | true =>
    have hf : cache_find_base c req true = some req.obj_id := by
      simp [cache_find_base, hashtable_find_obj_id, hs]
    rw [process_request_hit fuel c req hs]
    unfold DynamicAdaptiveClimb_get
    rw [hf]
    exact ⟨1, _, Or.inr rfl, rfl, (hw 1).1, (hw 1).2.1, (hw 1).2.2.1, (hw 1).2.2.2⟩
  | false =>
    have hf : cache_find_base c req false = none := by
      simp [cache_find_base, hashtable_find_obj_id, hs]
    rw [process_request_miss fuel c req hs]
    unfold DynamicAdaptiveClimb_insert
    rw [hf]
    exact ⟨0, _, Or.inl rfl, rfl, (hw 0).1, (hw 0).2.1, (hw 0).2.2.1, (hw 0).2.2.2⟩

end DynamicAdaptiveClimb

namespace DynamicAdaptiveClimb

theorem window_consistent_count (W : Nat) (p : DynamicAdaptiveClimb_params_t)
    (h : window_consistent W p) : 0 ≤ p.recent_hit_count ∧ p.recent_hit_count ≤ W := by
  obtain ⟨A, B, -, -, -, hlen, hcnt, h01⟩ := h
  obtain ⟨s0, s1⟩ := sum_zero_one_bounds (B ++ A) h01
  rw [hcnt]
  refine ⟨s0, ?_⟩
  have : (B ++ A).length = W := by
    rw [← hlen]; simp only [List.length_append]; omega
  rw [← this]; exact s1

theorem window_consistent_congr (W : Nat) (p q : DynamicAdaptiveClimb_params_t)
    (h1 : q.recent_hits = p.recent_hits) (h2 : q.hit_miss_ptr = p.hit_miss_ptr)
    (h3 : q.recent_hit_count = p.recent_hit_count) (h : window_consistent W p) :
    window_consistent W q := by
  obtain ⟨A, B, a, b, c, d, e, f⟩ := h
  exact ⟨A, B, by rw [h1, a], by rw [h2, b], c, d, by rw [h3, e], f⟩

theorem window_consistent_step (W : Nat) (p : DynamicAdaptiveClimb_params_t) (o : Int)
    (ho : o = 0 ∨ o = 1) (h : window_consistent W p) :
    window_consistent W (update_hit_miss_window W p o) := by
  obtain ⟨A, B, a, b, c, d, e, f⟩ := h
  obtain ⟨A1, B1, a1, b1, c1, d1, hT, e1, f1⟩ :=
    window_step W p o ho (B ++ A) ⟨A, B, a, b, c, d, rfl, e, f⟩
  refine ⟨A1, B1, a1, b1, c1, d1, ?_, ?_⟩
  · rw [hT]; exact e1
  · rw [hT]; exact f1

theorem window_consistent_init (ccp : common_cache_params_t) :
    window_consistent HIT_MISS_WINDOW (DynamicAdaptiveClimb_init ccp).eviction_params := by
  refine ⟨[], List.replicate HIT_MISS_WINDOW 0, rfl, rfl, ?_, ?_, ?_, ?_⟩
  · intro h
    have hl := congrArg List.length h
    simp only [List.length_replicate, List.length_nil] at hl
    exact absurd hl (by decide)
  · simp
  · simp [DynamicAdaptiveClimb_init, DynamicAdaptiveClimb_init_W]
  · intro v hv
    simp only [List.append_nil] at hv
    exact Or.inl (List.eq_of_mem_replicate hv)

/-- The guard and the tick leave the window alone; the smoothed miss ratio is kept or
replaced by the weighted mean of the window's miss rate and its old value. -/
theorem adjust_k_parameter_window (p : DynamicAdaptiveClimb_params_t) :
    (adjust_k_parameter p).recent_hits = p.recent_hits ∧
    (adjust_k_parameter p).hit_miss_ptr = p.hit_miss_ptr ∧
    (adjust_k_parameter p).recent_hit_count = p.recent_hit_count ∧
    ((adjust_k_parameter p).ema_miss_ratio = p.ema_miss_ratio ∨
      (adjust_k_parameter p).ema_miss_ratio
        = EMA_ALPHA * miss_rate HIT_MISS_WINDOW p + (1 - EMA_ALPHA) * p.ema_miss_ratio) := by
  unfold adjust_k_parameter
  split_ifs
  · exact ⟨rfl, rfl, rfl, Or.inl rfl⟩
  · obtain ⟨t1, t2, t3, t4⟩ := controller_tick_window p
    exact ⟨t1, t2, t3, Or.inr t4⟩

/-- The weighted mean of a miss rate taken from a consistent window and of a ratio in
`[0, 1]` is in `[0, 1]`. -/
theorem ema_update_range (p : DynamicAdaptiveClimb_params_t)
    (hw : window_consistent HIT_MISS_WINDOW p)
    (h0 : 0 ≤ p.ema_miss_ratio) (h1 : p.ema_miss_ratio ≤ 1) :
    0 ≤ EMA_ALPHA * miss_rate HIT_MISS_WINDOW p + (1 - EMA_ALPHA) * p.ema_miss_ratio ∧
    EMA_ALPHA * miss_rate HIT_MISS_WINDOW p + (1 - EMA_ALPHA) * p.ema_miss_ratio ≤ 1 := by
  obtain ⟨c0, c1⟩ := window_consistent_count HIT_MISS_WINDOW p hw
  have q0 : (0 : ℚ) ≤ (p.recent_hit_count : ℚ) := by exact_mod_cast c0
  have q1 : (p.recent_hit_count : ℚ) ≤ 1000 := by
    have : p.recent_hit_count ≤ 1000 := by simpa [HIT_MISS_WINDOW] using c1
    exact_mod_cast this
  have m0 : 0 ≤ (p.recent_hit_count : ℚ) / 1000 := div_nonneg q0 (by norm_num)
  have m1 : (p.recent_hit_count : ℚ) / 1000 ≤ 1 := by
    rw [div_le_one (by norm_num)]; exact q1
  unfold miss_rate EMA_ALPHA HIT_MISS_WINDOW
  push_cast
  constructor <;> linarith

/-- Consistency of the window and the range of the smoothed miss ratio survive
`adjust_k_parameter`. -/
theorem adjust_k_parameter_range (p : DynamicAdaptiveClimb_params_t)
    (hw : window_consistent HIT_MISS_WINDOW p)
    (h0 : 0 ≤ p.ema_miss_ratio) (h1 : p.ema_miss_ratio ≤ 1) :
    window_consistent HIT_MISS_WINDOW (adjust_k_parameter p) ∧
    0 ≤ (adjust_k_parameter p).ema_miss_ratio ∧ (adjust_k_parameter p).ema_miss_ratio ≤ 1 := by
  obtain ⟨a1, a2, a3, a4⟩ := adjust_k_parameter_window p
  refine ⟨window_consistent_congr _ p _ a1 a2 a3 hw, ?_⟩
  rcases a4 with a4 | a4
  · rw [a4]; exact ⟨h0, h1⟩
  · rw [a4]; exact ema_update_range p hw h0 h1

end DynamicAdaptiveClimb

namespace DynamicAdaptiveClimb

/-- One request keeps the window consistent and the smoothed miss ratio in `[0, 1]`. -/
theorem process_request_range (fuel : Nat) (c : cache_t DynamicAdaptiveClimb_params_t)
    (req : request_t) (hw : window_consistent HIT_MISS_WINDOW c.eviction_params)
    (h0 : 0 ≤ c.eviction_params.ema_miss_ratio) (h1 : c.eviction_params.ema_miss_ratio ≤ 1) :
    window_consistent HIT_MISS_WINDOW (process_request fuel c req).2.eviction_params ∧
    0 ≤ (process_request fuel c req).2.eviction_params.ema_miss_ratio ∧
    (process_request fuel c req).2.eviction_params.ema_miss_ratio ≤ 1 := by
  obtain ⟨hit, p1, ho, he, e1, e2, e3, e4⟩ := process_request_window fuel c req
  rw [he]
  have hw1 : window_consistent HIT_MISS_WINDOW p1 :=
    window_consistent_congr _ _ p1 e1 e2 e3
      (window_consistent_step HIT_MISS_WINDOW c.eviction_params hit ho hw)
  exact adjust_k_parameter_range p1 hw1 (by rw [e4]; exact h0) (by rw [e4]; exact h1)

/-- One operation of the policy interface keeps the window consistent and the smoothed miss
ratio in `[0, 1]`. -/
theorem step_range (fuel : Nat) (c : cache_t DynamicAdaptiveClimb_params_t) (op : Op)
    (hw : window_consistent HIT_MISS_WINDOW c.eviction_params)
    (h0 : 0 ≤ c.eviction_params.ema_miss_ratio) (h1 : c.eviction_params.ema_miss_ratio ≤ 1) :
    window_consistent HIT_MISS_WINDOW (step fuel c op).eviction_params ∧
    0 ≤ (step fuel c op).eviction_params.ema_miss_ratio ∧
    (step fuel c op).eviction_params.ema_miss_ratio ≤ 1 := by
  have hreq := process_request_range fuel c
  cases op with
  | insert req =>
    have hr := hreq req hw h0 h1
    cases hs : (c.hashtable req.obj_id).isSome with
    | true =>
      rw [process_request_hit fuel c req hs] at hr
      have hstep : step fuel c (Op.insert req) = (DynamicAdaptiveClimb_insert fuel c req).2 :=
        rfl
      rw [hstep, insert_hit fuel c req hs]
      exact hr
    | false =>
      rw [process_request_miss fuel c req hs] at hr
      exact hr
  | get req =>
    have hr := hreq req hw h0 h1
    cases hs : (c.hashtable req.obj_id).isSome with
    | true =>
      rw [process_request_hit fuel c req hs] at hr
      exact hr
    | false =>
      have hstep : step fuel c (Op.get req) = (DynamicAdaptiveClimb_get c req).2 := rfl
      rw [hstep, get_miss c req hs]
      exact ⟨hw, h0, h1⟩
  | evict req =>
    have hstep : step fuel c (Op.evict req) = DynamicAdaptiveClimb_evict c req := rfl
    rw [hstep]
    unfold DynamicAdaptiveClimb_evict
    cases c.eviction_params.q_tail with
    | none => exact ⟨hw, h0, h1⟩
    | some v => exact ⟨window_consistent_congr _ _ _ rfl rfl rfl hw, h0, h1⟩
  | remove obj_id =>
    have hstep : step fuel c (Op.remove obj_id) = (DynamicAdaptiveClimb_remove c obj_id).2 :=
      rfl
    rw [hstep]
    unfold DynamicAdaptiveClimb_remove
    cases hashtable_find_obj_id c.hashtable obj_id with
    | none => exact ⟨hw, h0, h1⟩
    | some o => exact ⟨window_consistent_congr _ _ _ rfl rfl rfl hw, h0, h1⟩

theorem run_requests_range (fuel : Nat) (reqs : List request_t) :
    ∀ c : cache_t DynamicAdaptiveClimb_params_t,
      window_consistent HIT_MISS_WINDOW c.eviction_params →
      0 ≤ c.eviction_params.ema_miss_ratio → c.eviction_params.ema_miss_ratio ≤ 1 →
      window_consistent HIT_MISS_WINDOW (run_requests fuel c reqs).eviction_params ∧
      0 ≤ (run_requests fuel c reqs).eviction_params.ema_miss_ratio ∧
      (run_requests fuel c reqs).eviction_params.ema_miss_ratio ≤ 1 := by
  induction reqs with
  | nil => intro c hw h0 h1; exact ⟨hw, h0, h1⟩
  | cons r rest ih =>
    intro c hw h0 h1
    obtain ⟨a, b, d⟩ := process_request_range fuel c r hw h0 h1
    exact ih (process_request fuel c r).2 a b d

theorem run_range (fuel : Nat) (ops : List Op) :
    ∀ c : cache_t DynamicAdaptiveClimb_params_t,
      window_consistent HIT_MISS_WINDOW c.eviction_params →
      0 ≤ c.eviction_params.ema_miss_ratio → c.eviction_params.ema_miss_ratio ≤ 1 →
      window_consistent HIT_MISS_WINDOW (run fuel c ops).eviction_params ∧
      0 ≤ (run fuel c ops).eviction_params.ema_miss_ratio ∧
      (run fuel c ops).eviction_params.ema_miss_ratio ≤ 1 := by
  induction ops with
  | nil => intro c hw h0 h1; exact ⟨hw, h0, h1⟩
  | cons o rest ih =>
    intro c hw h0 h1
    obtain ⟨a, b, d⟩ := step_range fuel c o hw h0 h1
    exact ih (step fuel c o) a b d

end DynamicAdaptiveClimb

/-- C20. In every state reached from `DynamicAdaptiveClimb_init` (smoothed miss ratio 1/2),
by any sequence of requests and also by any sequence of calls of the policy interface, the
hit count of the window lies between 0 and `HIT_MISS_WINDOW` and the smoothed miss ratio,
updated in exact arithmetic as `0.3 * miss_rate + 0.7 * ema`, lies between 0 and 1. -/
theorem ema_range (ccp : DynamicAdaptiveClimb.common_cache_params_t) (fuel : Nat) :
    (DynamicAdaptiveClimb.DynamicAdaptiveClimb_init ccp).eviction_params.ema_miss_ratio
      = 1 / 2 ∧
    (∀ p : DynamicAdaptiveClimb.DynamicAdaptiveClimb_params_t,
      (DynamicAdaptiveClimb.controller_tick p).ema_miss_ratio
        = 3 / 10 * (1 - (p.recent_hit_count : ℚ) / (DynamicAdaptiveClimb.HIT_MISS_WINDOW : ℚ))
          + 7 / 10 * p.ema_miss_ratio) ∧
    (∀ reqs : List request_t,
      0 ≤ (DynamicAdaptiveClimb.run_requests fuel
        (DynamicAdaptiveClimb.DynamicAdaptiveClimb_init ccp) reqs).eviction_params.recent_hit_count ∧
      (DynamicAdaptiveClimb.run_requests fuel
        (DynamicAdaptiveClimb.DynamicAdaptiveClimb_init ccp) reqs).eviction_params.recent_hit_count
        ≤ DynamicAdaptiveClimb.HIT_MISS_WINDOW ∧
      0 ≤ (DynamicAdaptiveClimb.run_requests fuel
        (DynamicAdaptiveClimb.DynamicAdaptiveClimb_init ccp) reqs).eviction_params.ema_miss_ratio ∧
      (DynamicAdaptiveClimb.run_requests fuel
        (DynamicAdaptiveClimb.DynamicAdaptiveClimb_init ccp) reqs).eviction_params.ema_miss_ratio
        ≤ 1) ∧
    (∀ ops : List DynamicAdaptiveClimb.Op,
      0 ≤ (DynamicAdaptiveClimb.run fuel
        (DynamicAdaptiveClimb.DynamicAdaptiveClimb_init ccp) ops).eviction_params.recent_hit_count ∧
      (DynamicAdaptiveClimb.run fuel
        (DynamicAdaptiveClimb.DynamicAdaptiveClimb_init ccp) ops).eviction_params.recent_hit_count
        ≤ DynamicAdaptiveClimb.HIT_MISS_WINDOW ∧
      0 ≤ (DynamicAdaptiveClimb.run fuel
        (DynamicAdaptiveClimb.DynamicAdaptiveClimb_init ccp) ops).eviction_params.ema_miss_ratio ∧
      (DynamicAdaptiveClimb.run fuel
        (DynamicAdaptiveClimb.DynamicAdaptiveClimb_init ccp) ops).eviction_params.ema_miss_ratio
        ≤ 1) := by
  have hi0 :
      (0 : ℚ) ≤ (DynamicAdaptiveClimb.DynamicAdaptiveClimb_init ccp).eviction_params.ema_miss_ratio := by
    show (0 : ℚ) ≤ 1 / 2
    norm_num
  have hi1 :
      (DynamicAdaptiveClimb.DynamicAdaptiveClimb_init ccp).eviction_params.ema_miss_ratio ≤ 1 := by
    show (1 / 2 : ℚ) ≤ 1
    norm_num
  refine ⟨rfl, ?_, ?_, ?_⟩
  · intro p
    rw [(DynamicAdaptiveClimb.controller_tick_window p).2.2.2]
    unfold DynamicAdaptiveClimb.miss_rate DynamicAdaptiveClimb.EMA_ALPHA
    norm_num
  · intro reqs
    obtain ⟨a, b, d⟩ := DynamicAdaptiveClimb.run_requests_range fuel reqs _
      (DynamicAdaptiveClimb.window_consistent_init ccp) hi0 hi1
    obtain ⟨c0, c1⟩ := DynamicAdaptiveClimb.window_consistent_count _ _ a
    exact ⟨c0, c1, b, d⟩
  · intro ops
    obtain ⟨a, b, d⟩ := DynamicAdaptiveClimb.run_range fuel ops _
      (DynamicAdaptiveClimb.window_consistent_init ccp) hi0 hi1
    obtain ⟨c0, c1⟩ := DynamicAdaptiveClimb.window_consistent_count _ _ a
    exact ⟨c0, c1, b, d⟩


/-! ## Detaching an unlinked object -/

/-- Detaching an object whose links are both null writes null into `q_head` and into
`q_tail` and touches no object. -/
theorem detach_unlinked (k : CacheCore) (obj : Nat) (hp : prevOf k.heap obj = none)
    (hn : nextOf k.heap obj = none) :
    detach k obj = { k with q_head := none, q_tail := none } := by
  unfold detach
  simp only [hp, hn]

/-- The queue links of the scenario are untouched by the unlinked object beside them. -/
theorem scenario_unlinked_linked :
    Linked (DynamicAdaptiveClimb.toCore DynamicAdaptiveClimb.scenario_unlinked) [3, 2, 1] := by
  obtain ⟨⟨h1, h2, h3, h4⟩, hreg, -⟩ := DynamicAdaptiveClimb.dac_scenario_queueIs
  have hne : ∀ a ∈ [3, 2, 1], a ≠ 7 := by decide
  have hheap : ∀ a ∈ [3, 2, 1],
      (DynamicAdaptiveClimb.toCore DynamicAdaptiveClimb.scenario_unlinked).heap a
        = (DynamicAdaptiveClimb.toCore DynamicAdaptiveClimb.scenario_ABC).heap a := by
    intro a ha
    simp [DynamicAdaptiveClimb.toCore, DynamicAdaptiveClimb.scenario_unlinked, hne a ha]
  refine ⟨h1, h2, ?_, h4⟩
  refine Seg.frame h3 ?_ ?_ ?_
  · intro a ha; rw [hheap a ha]
  · intro a ha; unfold prevOf; rw [hheap a ha]
  · intro a ha; unfold nextOf; rw [hheap a ha]

/-- C21 as stated fails. Beside the well-formed queue 3,2,1 the object 7 is live and unlinked
(both links null, not in the queue). The detach step on it sets `q_head` and `q_tail` to
null instead of leaving them at 3 and 1, and `move_to_head` then yields the queue holding 7
alone instead of 7,3,2,1. -/
theorem detach_unlinked_drops_queue :
    Linked (DynamicAdaptiveClimb.toCore DynamicAdaptiveClimb.scenario_unlinked) [3, 2, 1] ∧
    DynamicAdaptiveClimb.scenario_unlinked.eviction_params.q_head = some 3 ∧
    DynamicAdaptiveClimb.scenario_unlinked.eviction_params.q_tail = some 1 ∧
    DynamicAdaptiveClimb.scenario_unlinked.hashtable 7 = some ⟨1, none, none⟩ ∧
    (detach (DynamicAdaptiveClimb.toCore DynamicAdaptiveClimb.scenario_unlinked) 7).q_head
      = none ∧
    (detach (DynamicAdaptiveClimb.toCore DynamicAdaptiveClimb.scenario_unlinked) 7).q_tail
      = none ∧
    walk_next
      (DynamicAdaptiveClimb.move_to_head DynamicAdaptiveClimb.scenario_unlinked (some 7)).hashtable
      5
      (DynamicAdaptiveClimb.move_to_head DynamicAdaptiveClimb.scenario_unlinked
        (some 7)).eviction_params.q_head = [7] ∧
    (DynamicAdaptiveClimb.move_to_head DynamicAdaptiveClimb.scenario_unlinked
      (some 7)).eviction_params.q_tail = some 7 ∧
    (DynamicAdaptiveClimb.DynamicAdaptiveClimb_remove DynamicAdaptiveClimb.scenario_unlinked
      7).2.eviction_params.q_head = none := by
  refine ⟨scenario_unlinked_linked, ?_, ?_, ?_, ?_, ?_, ?_, ?_, ?_⟩ <;> decide!

/-- C21, amended. For every well-formed queue `l` and every live object whose `prev` and
`next` are both null, such as an unlinked object outside the queue: the detach step writes no
link of any object and sets `q_head` and `q_tail` to null, which leaves the state unchanged
exactly when the queue is empty; `move_to_head` on such an object yields the queue holding
that object alone. -/
theorem detach_unlinked_clears_ends
    (c : cache_t DynamicAdaptiveClimb.DynamicAdaptiveClimb_params_t) (l : List Nat) (obj : Nat)
    (hq : Linked (DynamicAdaptiveClimb.toCore c) l) (hlive : (c.hashtable obj).isSome = true)
    (hp : prevOf c.hashtable obj = none) (hn : nextOf c.hashtable obj = none) :
    (detach (DynamicAdaptiveClimb.toCore c) obj).heap = c.hashtable ∧
    (detach (DynamicAdaptiveClimb.toCore c) obj).q_head = none ∧
    (detach (DynamicAdaptiveClimb.toCore c) obj).q_tail = none ∧
    (detach (DynamicAdaptiveClimb.toCore c) obj = DynamicAdaptiveClimb.toCore c ↔ l = []) ∧
    Linked (DynamicAdaptiveClimb.toCore (DynamicAdaptiveClimb.move_to_head c (some obj))) [obj] ∧
    walk_next (DynamicAdaptiveClimb.move_to_head c (some obj)).hashtable (l.length + 1)
      (DynamicAdaptiveClimb.move_to_head c (some obj)).eviction_params.q_head = [obj] := by
  have hd := detach_unlinked (DynamicAdaptiveClimb.toCore c) obj hp hn
  have hlinked : Linked (DynamicAdaptiveClimb.toCore
      (DynamicAdaptiveClimb.move_to_head c (some obj))) [obj] := by
    have hm : DynamicAdaptiveClimb.toCore (DynamicAdaptiveClimb.move_to_head c (some obj))
        = insert_at_head (detach (DynamicAdaptiveClimb.toCore c) obj) obj := rfl
    rw [hm, hd]
    exact insert_at_head_linked ((linked_nil_iff _).2 ⟨rfl, rfl⟩) (List.not_mem_nil obj) hlive
  refine ⟨by rw [hd]; rfl, by rw [hd], by rw [hd], ?_, hlinked, ?_⟩
  · rw [hd]
    constructor
    · intro e
      have hh : (none : Option Nat) = (DynamicAdaptiveClimb.toCore c).q_head :=
        congrArg CacheCore.q_head e
      rw [hq.1] at hh
      exact List.head?_eq_none_iff.1 hh.symm
    · intro e
      rw [e] at hq
      obtain ⟨h1, h2⟩ := (linked_nil_iff _).1 hq
      have hk : ∀ k : CacheCore, k.q_head = none → k.q_tail = none →
          ({ k with q_head := none, q_tail := none } : CacheCore) = k := by
        intro k a b
        cases k
        simp only at a b
        subst a
        subst b
        rfl
      exact hk _ h1 h2
  · have hw := seg_walk_next hlinked.2.2.1 (l.length + 1) (by simp)
    rw [← hlinked.1] at hw
    exact hw

/-- C21 amended, at the queue 3,2,1 of the scenario and the unlinked object 7 beside it. -/
theorem detach_unlinked_clears_ends_witness :
    (Linked (DynamicAdaptiveClimb.toCore DynamicAdaptiveClimb.scenario_unlinked) [3, 2, 1] ∧
      (DynamicAdaptiveClimb.scenario_unlinked.hashtable 7).isSome = true ∧
      prevOf DynamicAdaptiveClimb.scenario_unlinked.hashtable 7 = none ∧
      nextOf DynamicAdaptiveClimb.scenario_unlinked.hashtable 7 = none) ∧
    (detach (DynamicAdaptiveClimb.toCore DynamicAdaptiveClimb.scenario_unlinked) 7).q_head
      = none ∧
    Linked
      (DynamicAdaptiveClimb.toCore
        (DynamicAdaptiveClimb.move_to_head DynamicAdaptiveClimb.scenario_unlinked (some 7)))
      [7] :=
  ⟨⟨scenario_unlinked_linked, by decide, by decide, by decide⟩,
    (detach_unlinked_clears_ends DynamicAdaptiveClimb.scenario_unlinked [3, 2, 1] 7
      scenario_unlinked_linked (by decide) (by decide) (by decide)).2.1,
    (detach_unlinked_clears_ends DynamicAdaptiveClimb.scenario_unlinked [3, 2, 1] 7
      scenario_unlinked_linked (by decide) (by decide) (by decide)).2.2.2.2.1⟩

/-! ## Links and membership -/

/-- In a well-formed cache with queue `l` both links of an object read null exactly when the
object is not in the queue, in which case it is not registered either, or is the only member
of the queue. -/
theorem queueIs_links_null {k : CacheCore} {l : List Nat} (h : QueueIs k l) (o : Nat) :
    ((prevOf k.heap o = none ∧ nextOf k.heap o = none) ↔ (o ∉ l ∨ l = [o])) ∧
    (o ∉ l → k.heap o = none) := by
  obtain ⟨⟨-, -, hseg, -⟩, hreg, -⟩ := h
  have habs : o ∉ l → k.heap o = none := by
    intro ho
    have hn : ¬ (k.heap o).isSome = true := fun hs => ho ((hreg o).1 hs)
    cases hk : k.heap o with
    | none => rfl
    | some v => rw [hk] at hn; exact absurd rfl hn
  refine ⟨⟨?_, ?_⟩, habs⟩
  · rintro ⟨hp, hn⟩
    by_cases ho : o ∈ l
    · right
      obtain ⟨pre, post, rfl⟩ := List.append_of_mem ho
      obtain ⟨-, h2⟩ := (seg_append k.heap none none pre (o :: post)).1 hseg
      obtain ⟨-, hprev, hnext, -⟩ := h2
      rw [hp, lastOr_none] at hprev
      rw [hn, headOr_none] at hnext
      have hpre : pre = [] := List.getLast?_eq_none_iff.1 hprev.symm
      have hpost : post = [] := List.head?_eq_none_iff.1 hnext.symm
      rw [hpre, hpost]; rfl
    · exact Or.inl ho
  · rintro (ho | hl)
    · have := habs ho
      simp [prevOf, nextOf, this]
    · rw [hl] at hseg
      obtain ⟨-, hprev, hnext, -⟩ := hseg
      exact ⟨hprev, hnext⟩

/-- C22 as stated fails. After `DynamicAdaptiveClimb_init` and the admission of one object,
that object is the queue (walking `next` from `q_head` lists it, and it is `q_tail`), yet its
`prev` and `next` are both null: null links do not tell that an object is outside the queue. -/
theorem queued_object_with_null_links :
    walk_next
      (DynamicAdaptiveClimb.run 1 (DynamicAdaptiveClimb.DynamicAdaptiveClimb_init ⟨3, 0⟩)
        [DynamicAdaptiveClimb.Op.insert ⟨1, 1⟩]).hashtable 2
      (DynamicAdaptiveClimb.run 1 (DynamicAdaptiveClimb.DynamicAdaptiveClimb_init ⟨3, 0⟩)
        [DynamicAdaptiveClimb.Op.insert ⟨1, 1⟩]).eviction_params.q_head = [1] ∧
    (DynamicAdaptiveClimb.run 1 (DynamicAdaptiveClimb.DynamicAdaptiveClimb_init ⟨3, 0⟩)
      [DynamicAdaptiveClimb.Op.insert ⟨1, 1⟩]).eviction_params.q_tail = some 1 ∧
    prevOf
      (DynamicAdaptiveClimb.run 1 (DynamicAdaptiveClimb.DynamicAdaptiveClimb_init ⟨3, 0⟩)
        [DynamicAdaptiveClimb.Op.insert ⟨1, 1⟩]).hashtable 1 = none ∧
    nextOf
      (DynamicAdaptiveClimb.run 1 (DynamicAdaptiveClimb.DynamicAdaptiveClimb_init ⟨3, 0⟩)
        [DynamicAdaptiveClimb.Op.insert ⟨1, 1⟩]).hashtable 1 = none ∧
    ¬ ((prevOf
          (DynamicAdaptiveClimb.run 1 (DynamicAdaptiveClimb.DynamicAdaptiveClimb_init ⟨3, 0⟩)
            [DynamicAdaptiveClimb.Op.insert ⟨1, 1⟩]).hashtable 1 = none ∧
        nextOf
          (DynamicAdaptiveClimb.run 1 (DynamicAdaptiveClimb.DynamicAdaptiveClimb_init ⟨3, 0⟩)
            [DynamicAdaptiveClimb.Op.insert ⟨1, 1⟩]).hashtable 1 = none) ↔
      1 ∉ walk_next
        (DynamicAdaptiveClimb.run 1 (DynamicAdaptiveClimb.DynamicAdaptiveClimb_init ⟨3, 0⟩)
          [DynamicAdaptiveClimb.Op.insert ⟨1, 1⟩]).hashtable 2
        (DynamicAdaptiveClimb.run 1 (DynamicAdaptiveClimb.DynamicAdaptiveClimb_init ⟨3, 0⟩)
          [DynamicAdaptiveClimb.Op.insert ⟨1, 1⟩]).eviction_params.q_head) := by
  decide!

/-- C22, amended. In every state reached from `DynamicAdaptiveClimb_init` by insert, get,
evict and remove operations, with `l` the queue (what walking `next` from `q_head` lists):
the `prev` and `next` links of an object both read null exactly when the object is not a
member of the queue or is its only member; and an object that is not a member, such as one
taken out by eviction or removal, is no longer registered. -/
theorem links_null_iff_unqueued_or_alone (ccp : DynamicAdaptiveClimb.common_cache_params_t)
    (fuel : Nat) (ops : List DynamicAdaptiveClimb.Op) (hf : ops.length ≤ fuel) :
    ∃ l : List Nat,
      QueueIs
        (DynamicAdaptiveClimb.toCore
          (DynamicAdaptiveClimb.run fuel (DynamicAdaptiveClimb.DynamicAdaptiveClimb_init ccp)
            ops)) l ∧
      walk_next
        (DynamicAdaptiveClimb.run fuel (DynamicAdaptiveClimb.DynamicAdaptiveClimb_init ccp)
          ops).hashtable l.length
        (DynamicAdaptiveClimb.run fuel (DynamicAdaptiveClimb.DynamicAdaptiveClimb_init ccp)
          ops).eviction_params.q_head = l ∧
      ∀ o : Nat,
        ((prevOf
              (DynamicAdaptiveClimb.run fuel (DynamicAdaptiveClimb.DynamicAdaptiveClimb_init ccp)
                ops).hashtable o = none ∧
            nextOf
              (DynamicAdaptiveClimb.run fuel (DynamicAdaptiveClimb.DynamicAdaptiveClimb_init ccp)
                ops).hashtable o = none) ↔ (o ∉ l ∨ l = [o])) ∧
        (o ∉ l →
          (DynamicAdaptiveClimb.run fuel (DynamicAdaptiveClimb.DynamicAdaptiveClimb_init ccp)
            ops).hashtable o = none) := by
  obtain ⟨l, h, -⟩ := DynamicAdaptiveClimb.run_queueIs fuel ops _ []
    (DynamicAdaptiveClimb.queueIs_init _ ccp) (by simpa using hf)
  exact ⟨l, h, (queueIs_pointers h).1, fun o => queueIs_links_null h o⟩

/-- C22 amended, at a run of five operations on a cache of nominal capacity 3. -/
theorem links_null_iff_unqueued_or_alone_witness :
    [DynamicAdaptiveClimb.Op.insert ⟨1, 1⟩, DynamicAdaptiveClimb.Op.insert ⟨2, 1⟩,
      DynamicAdaptiveClimb.Op.get ⟨1, 1⟩, DynamicAdaptiveClimb.Op.evict ⟨0, 0⟩,
      DynamicAdaptiveClimb.Op.remove 7].length ≤ 5 ∧
    ∃ l : List Nat,
      QueueIs
        (DynamicAdaptiveClimb.toCore
          (DynamicAdaptiveClimb.run 5 (DynamicAdaptiveClimb.DynamicAdaptiveClimb_init ⟨3, 0⟩)
            [DynamicAdaptiveClimb.Op.insert ⟨1, 1⟩, DynamicAdaptiveClimb.Op.insert ⟨2, 1⟩,
              DynamicAdaptiveClimb.Op.get ⟨1, 1⟩, DynamicAdaptiveClimb.Op.evict ⟨0, 0⟩,
              DynamicAdaptiveClimb.Op.remove 7])) l ∧
      walk_next
        (DynamicAdaptiveClimb.run 5 (DynamicAdaptiveClimb.DynamicAdaptiveClimb_init ⟨3, 0⟩)
            [DynamicAdaptiveClimb.Op.insert ⟨1, 1⟩, DynamicAdaptiveClimb.Op.insert ⟨2, 1⟩,
              DynamicAdaptiveClimb.Op.get ⟨1, 1⟩, DynamicAdaptiveClimb.Op.evict ⟨0, 0⟩,
              DynamicAdaptiveClimb.Op.remove 7]).hashtable l.length
        (DynamicAdaptiveClimb.run 5 (DynamicAdaptiveClimb.DynamicAdaptiveClimb_init ⟨3, 0⟩)
            [DynamicAdaptiveClimb.Op.insert ⟨1, 1⟩, DynamicAdaptiveClimb.Op.insert ⟨2, 1⟩,
              DynamicAdaptiveClimb.Op.get ⟨1, 1⟩, DynamicAdaptiveClimb.Op.evict ⟨0, 0⟩,
              DynamicAdaptiveClimb.Op.remove 7]).eviction_params.q_head = l ∧
      ∀ o : Nat,
        ((prevOf
              (DynamicAdaptiveClimb.run 5 (DynamicAdaptiveClimb.DynamicAdaptiveClimb_init ⟨3, 0⟩)
            [DynamicAdaptiveClimb.Op.insert ⟨1, 1⟩, DynamicAdaptiveClimb.Op.insert ⟨2, 1⟩,
              DynamicAdaptiveClimb.Op.get ⟨1, 1⟩, DynamicAdaptiveClimb.Op.evict ⟨0, 0⟩,
              DynamicAdaptiveClimb.Op.remove 7]).hashtable o = none ∧
            nextOf
              (DynamicAdaptiveClimb.run 5 (DynamicAdaptiveClimb.DynamicAdaptiveClimb_init ⟨3, 0⟩)
            [DynamicAdaptiveClimb.Op.insert ⟨1, 1⟩, DynamicAdaptiveClimb.Op.insert ⟨2, 1⟩,
              DynamicAdaptiveClimb.Op.get ⟨1, 1⟩, DynamicAdaptiveClimb.Op.evict ⟨0, 0⟩,
              DynamicAdaptiveClimb.Op.remove 7]).hashtable o = none) ↔ (o ∉ l ∨ l = [o])) ∧
        (o ∉ l →
          (DynamicAdaptiveClimb.run 5 (DynamicAdaptiveClimb.DynamicAdaptiveClimb_init ⟨3, 0⟩)
            [DynamicAdaptiveClimb.Op.insert ⟨1, 1⟩, DynamicAdaptiveClimb.Op.insert ⟨2, 1⟩,
              DynamicAdaptiveClimb.Op.get ⟨1, 1⟩, DynamicAdaptiveClimb.Op.evict ⟨0, 0⟩,
              DynamicAdaptiveClimb.Op.remove 7]).hashtable o = none) :=
  ⟨by decide, links_null_iff_unqueued_or_alone ⟨3, 0⟩ 5 _ (by decide)⟩

/-! ## The regime flag and the counter of non-improving ticks -/

namespace DynamicAdaptiveClimb

end DynamicAdaptiveClimb

namespace DynamicAdaptiveClimb

theorem update_hit_miss_window_cursor (W : Nat) (p : DynamicAdaptiveClimb_params_t) (o : Int) :
    (update_hit_miss_window W p o).hit_miss_ptr = (p.hit_miss_ptr + 1) % W ∧
    (update_hit_miss_window W p o).recent_hits = p.recent_hits.set p.hit_miss_ptr o := by
  unfold update_hit_miss_window
  dsimp only
  split_ifs <;> exact ⟨rfl, rfl⟩

theorem fallback_update_total (p : DynamicAdaptiveClimb_params_t) :
    (fallback_update p).total_requests = p.total_requests := by
  unfold fallback_update; dsimp only; split_ifs <;> rfl

theorem parameter_update_total (m : ℚ) (p : DynamicAdaptiveClimb_params_t) :
    (parameter_update m p).total_requests = p.total_requests := by
  unfold parameter_update; dsimp only; split_ifs <;> rfl

theorem adjust_k_parameter_total (p : DynamicAdaptiveClimb_params_t) :
    (adjust_k_parameter p).total_requests = p.total_requests := by
  unfold adjust_k_parameter
  split_ifs
  · rfl
  · unfold controller_tick history_update
    dsimp only
    rw [parameter_update_total, fallback_update_total]

/-- What one request records: the counter goes up by one, wrapping, and the outcome of the request, 1
for a hit and 0 for a miss, is written into the window at the cursor. -/
theorem process_request_record (fuel : Nat) (c : cache_t DynamicAdaptiveClimb_params_t)
    (req : request_t) :
    (process_request fuel c req).2.eviction_params.total_requests
      = wrap_int (c.eviction_params.total_requests + 1) ∧
    (process_request fuel c req).2.eviction_params.recent_hits
      = (update_hit_miss_window HIT_MISS_WINDOW c.eviction_params
          (if (process_request fuel c req).1 then 1 else 0)).recent_hits ∧
    (process_request fuel c req).2.eviction_params.hit_miss_ptr
      = (update_hit_miss_window HIT_MISS_WINDOW c.eviction_params
          (if (process_request fuel c req).1 then 1 else 0)).hit_miss_ptr ∧
    (process_request fuel c req).2.eviction_params.recent_hit_count
      = (update_hit_miss_window HIT_MISS_WINDOW c.eviction_params
          (if (process_request fuel c req).1 then 1 else 0)).recent_hit_count := by
  have hw : ∀ hit : Int,
      (update_hit_miss_window HIT_MISS_WINDOW
        { c.eviction_params with
          total_requests := wrap_int (c.eviction_params.total_requests + 1) }
        hit).recent_hits
        = (update_hit_miss_window HIT_MISS_WINDOW c.eviction_params hit).recent_hits ∧
      (update_hit_miss_window HIT_MISS_WINDOW
        { c.eviction_params with
          total_requests := wrap_int (c.eviction_params.total_requests + 1) }
        hit).hit_miss_ptr
        = (update_hit_miss_window HIT_MISS_WINDOW c.eviction_params hit).hit_miss_ptr ∧
      (update_hit_miss_window HIT_MISS_WINDOW
        { c.eviction_params with
          total_requests := wrap_int (c.eviction_params.total_requests + 1) }
        hit).recent_hit_count
        = (update_hit_miss_window HIT_MISS_WINDOW c.eviction_params hit).recent_hit_count := by
    intro hit
    unfold update_hit_miss_window
    dsimp only
    split_ifs <;> exact ⟨rfl, rfl, rfl⟩
  have key : ∃ p1 : DynamicAdaptiveClimb_params_t,
      (process_request fuel c req).2.eviction_params = adjust_k_parameter p1 ∧
      p1.total_requests = wrap_int (c.eviction_params.total_requests + 1) ∧
      p1.recent_hits = (update_hit_miss_window HIT_MISS_WINDOW c.eviction_params
          (if (process_request fuel c req).1 then 1 else 0)).recent_hits ∧
      p1.hit_miss_ptr = (update_hit_miss_window HIT_MISS_WINDOW c.eviction_params
          (if (process_request fuel c req).1 then 1 else 0)).hit_miss_ptr ∧
      p1.recent_hit_count = (update_hit_miss_window HIT_MISS_WINDOW c.eviction_params
          (if (process_request fuel c req).1 then 1 else 0)).recent_hit_count := by
    cases hs : (c.hashtable req.obj_id).isSome with
    | true =>
      have hf : cache_find_base c req true = some req.obj_id := by
        simp [cache_find_base, hashtable_find_obj_id, hs]
      rw [process_request_hit fuel c req hs]
      unfold DynamicAdaptiveClimb_get
      rw [hf]
      exact ⟨_, rfl,
        (update_hit_miss_window_ctl HIT_MISS_WINDOW
          { c.eviction_params with
            total_requests := wrap_int (c.eviction_params.total_requests + 1) }
          1).1,
        (hw 1).1, (hw 1).2.1, (hw 1).2.2⟩
    | false =>
      have hf : cache_find_base c req false = none := by
        simp [cache_find_base, hashtable_find_obj_id, hs]
      rw [process_request_miss fuel c req hs]
      unfold DynamicAdaptiveClimb_insert
      rw [hf]
      exact ⟨_, rfl,
        (update_hit_miss_window_ctl HIT_MISS_WINDOW
          { c.eviction_params with
            total_requests := wrap_int (c.eviction_params.total_requests + 1) }
          0).1,
        (hw 0).1, (hw 0).2.1, (hw 0).2.2⟩
  obtain ⟨p1, he, k1, k2, k3, k4⟩ := key
  obtain ⟨a1, a2, a3, -⟩ := adjust_k_parameter_window p1
  rw [he, adjust_k_parameter_total, a1, a2, a3]
  exact ⟨k1, k2, k3, k4⟩

end DynamicAdaptiveClimb

namespace DynamicAdaptiveClimb

theorem outcomes_length (fuel : Nat) (reqs : List request_t) :
    ∀ c : cache_t DynamicAdaptiveClimb_params_t, (outcomes fuel c reqs).length = reqs.length := by
  induction reqs with
  | nil => intro c; rfl
  | cons r rest ih => intro c; simp [outcomes, ih]

/-- One request below the range of `int` adds one to the counter and keeps the cursor equal
to the counter modulo the window size. -/
theorem process_request_cursor (fuel : Nat) (c : cache_t DynamicAdaptiveClimb_params_t)
    (req : request_t) (b : Nat)
    (h : (c.eviction_params.hit_miss_ptr : Int)
      = c.eviction_params.total_requests % (HIT_MISS_WINDOW : Int))
    (h0 : 0 ≤ c.eviction_params.total_requests) (hb : c.eviction_params.total_requests ≤ b)
    (hlt : b + 1 < 2 ^ 31) :
    ((process_request fuel c req).2.eviction_params.hit_miss_ptr : Int)
      = (process_request fuel c req).2.eviction_params.total_requests
        % (HIT_MISS_WINDOW : Int) ∧
    0 ≤ (process_request fuel c req).2.eviction_params.total_requests ∧
    (process_request fuel c req).2.eviction_params.total_requests ≤ (b + 1 : Nat) := by
  have ha : (((c.eviction_params.hit_miss_ptr + 1) % HIT_MISS_WINDOW : Nat) : Int)
      = (c.eviction_params.total_requests + 1) % (HIT_MISS_WINDOW : Int) := by
    unfold HIT_MISS_WINDOW at h ⊢
    push_cast at h ⊢
    omega
  have h1 : 0 ≤ c.eviction_params.total_requests + 1 := by omega
  have h2 : c.eviction_params.total_requests + 1 ≤ (b + 1 : Nat) := by push_cast; omega
  have hw : wrap_int (c.eviction_params.total_requests + 1)
      = c.eviction_params.total_requests + 1 := wrap_int_small _ (by omega) (by omega)
  obtain ⟨r1, -, r3, -⟩ := process_request_record fuel c req
  rw [r1, r3, (update_hit_miss_window_cursor _ _ _).1, hw]
  exact ⟨ha, h1, h2⟩

/-- One operation of the policy interface below the range of `int` keeps the cursor equal to
the request counter modulo the window size. -/
theorem step_cursor (fuel : Nat) (c : cache_t DynamicAdaptiveClimb_params_t) (op : Op)
    (b : Nat)
    (h : (c.eviction_params.hit_miss_ptr : Int)
      = c.eviction_params.total_requests % (HIT_MISS_WINDOW : Int))
    (h0 : 0 ≤ c.eviction_params.total_requests) (hb : c.eviction_params.total_requests ≤ b)
    (hlt : b + 1 < 2 ^ 31) :
    ((step fuel c op).eviction_params.hit_miss_ptr : Int)
      = (step fuel c op).eviction_params.total_requests % (HIT_MISS_WINDOW : Int) ∧
    0 ≤ (step fuel c op).eviction_params.total_requests ∧
    (step fuel c op).eviction_params.total_requests ≤ (b + 1 : Nat) := by
  have hb1 : c.eviction_params.total_requests ≤ (b + 1 : Nat) := by push_cast; omega
  cases op with
  | insert req =>
    have hr := process_request_cursor fuel c req b h h0 hb hlt
    have hstep : step fuel c (Op.insert req) = (DynamicAdaptiveClimb_insert fuel c req).2 := rfl
    cases hs : (c.hashtable req.obj_id).isSome with
    | true =>
      rw [process_request_hit fuel c req hs] at hr
      rw [hstep, insert_hit fuel c req hs]
      exact hr
    | false =>
      rw [process_request_miss fuel c req hs] at hr
      exact hr
  | get req =>
    have hr := process_request_cursor fuel c req b h h0 hb hlt
    have hstep : step fuel c (Op.get req) = (DynamicAdaptiveClimb_get c req).2 := rfl
    cases hs : (c.hashtable req.obj_id).isSome with
    | true =>
      rw [process_request_hit fuel c req hs] at hr
      exact hr
    | false =>
      rw [hstep, get_miss c req hs]
      exact ⟨h, h0, hb1⟩
  | evict req =>
    have hstep : step fuel c (Op.evict req) = DynamicAdaptiveClimb_evict c req := rfl
    rw [hstep]
    unfold DynamicAdaptiveClimb_evict
    cases c.eviction_params.q_tail with
    | none => exact ⟨h, h0, hb1⟩
    | some v => exact ⟨h, h0, hb1⟩
  | remove obj_id =>
    have hstep : step fuel c (Op.remove obj_id) = (DynamicAdaptiveClimb_remove c obj_id).2 :=
      rfl
    rw [hstep]
    unfold DynamicAdaptiveClimb_remove
    cases hashtable_find_obj_id c.hashtable obj_id with
    | none => exact ⟨h, h0, hb1⟩
    | some o => exact ⟨h, h0, hb1⟩

theorem run_cursor (fuel : Nat) (ops : List Op) :
    ∀ (c : cache_t DynamicAdaptiveClimb_params_t) (b : Nat),
      (c.eviction_params.hit_miss_ptr : Int)
        = c.eviction_params.total_requests % (HIT_MISS_WINDOW : Int) →
      0 ≤ c.eviction_params.total_requests → c.eviction_params.total_requests ≤ b →
      b + ops.length < 2 ^ 31 →
      ((run fuel c ops).eviction_params.hit_miss_ptr : Int)
        = (run fuel c ops).eviction_params.total_requests % (HIT_MISS_WINDOW : Int) := by
  induction ops with
  | nil => intro c b h _ _ _; exact h
  | cons o rest ih =>
    intro c b h h0 hb hlt
    simp only [List.length_cons] at hlt
    obtain ⟨s1, s2, s3⟩ := step_cursor fuel c o b h h0 hb (by omega)
    exact ih (step fuel c o) (b + 1) s1 s2 s3 (by omega)

/-- The counter after a sequence of requests of any length: their number, wrapped. -/
theorem run_requests_total (fuel : Nat) (reqs : List request_t) :
    ∀ (c : cache_t DynamicAdaptiveClimb_params_t) (t : Nat),
      c.eviction_params.total_requests = wrap_int t →
      (run_requests fuel c reqs).eviction_params.total_requests
        = wrap_int ((t + reqs.length : Nat) : Int) := by
  induction reqs with
  | nil => intro c t ht; exact ht
  | cons r rest ih =>
    intro c t ht
    have hlen : t + (r :: rest).length = t + 1 + rest.length := by
      simp only [List.length_cons]; omega
    have hrun : run_requests fuel c (r :: rest)
        = run_requests fuel (process_request fuel c r).2 rest := rfl
    rw [hrun, hlen]
    exact ih (process_request fuel c r).2 (t + 1)
      (by rw [(process_request_record fuel c r).1, ht, wrap_int_add, Nat.cast_add,
        Nat.cast_one])

/-- The cursor after a sequence of requests of any length: their number modulo the window
size. -/
theorem run_requests_ptr (fuel : Nat) (reqs : List request_t) :
    ∀ (c : cache_t DynamicAdaptiveClimb_params_t) (n : Nat),
      c.eviction_params.hit_miss_ptr = n % 1000 →
      (run_requests fuel c reqs).eviction_params.hit_miss_ptr = (n + reqs.length) % 1000 := by
  induction reqs with
  | nil => intro c n h; exact h
  | cons r rest ih =>
    intro c n h
    have hlen : n + (r :: rest).length = n + 1 + rest.length := by
      simp only [List.length_cons]; omega
    have hmod : (n % 1000 + 1) % 1000 = (n + 1) % 1000 := by omega
    have hrun : run_requests fuel c (r :: rest)
        = run_requests fuel (process_request fuel c r).2 rest := rfl
    rw [hrun, hlen]
    refine ih (process_request fuel c r).2 (n + 1) ?_
    rw [(process_request_record fuel c r).2.2.1, (update_hit_miss_window_cursor _ _ _).1, h]
    exact hmod

/-- After a sequence of requests the window holds, from the cursor on and wrapping around,
the last `HIT_MISS_WINDOW` entries of what it held before followed by the outcomes of the
requests. -/
theorem run_requests_window (fuel : Nat) (reqs : List request_t) :
    ∀ (c : cache_t DynamicAdaptiveClimb_params_t) (T : List Int),
      (∃ A B, c.eviction_params.recent_hits = A ++ B ∧
        c.eviction_params.hit_miss_ptr = A.length ∧ B ≠ [] ∧
        (A ++ B).length = HIT_MISS_WINDOW ∧ B ++ A = T ∧
        c.eviction_params.recent_hit_count = T.sum ∧ ∀ v ∈ T, v = 0 ∨ v = 1) →
      ∃ A B, (run_requests fuel c reqs).eviction_params.recent_hits = A ++ B ∧
        (run_requests fuel c reqs).eviction_params.hit_miss_ptr = A.length ∧ B ≠ [] ∧
        (A ++ B).length = HIT_MISS_WINDOW ∧
        B ++ A = (T ++ outcomes fuel c reqs).drop reqs.length ∧
        (run_requests fuel c reqs).eviction_params.recent_hit_count
          = ((T ++ outcomes fuel c reqs).drop reqs.length).sum ∧
        ∀ v ∈ (T ++ outcomes fuel c reqs).drop reqs.length, v = 0 ∨ v = 1 := by
  induction reqs with
  | nil =>
    intro c T hinv
    simpa [run_requests, outcomes] using hinv
  | cons r rest ih =>
    intro c T hinv
    have hTne : T ≠ [] := by
      obtain ⟨A, B, -, -, hB, -, hT, -, -⟩ := hinv
      intro h; rw [h] at hT
      exact hB (List.append_eq_nil.1 hT).1
    obtain ⟨-, r2, r3, r4⟩ := process_request_record fuel c r
    have ho : (if (process_request fuel c r).1 then (1 : Int) else 0) = 0 ∨
        (if (process_request fuel c r).1 then (1 : Int) else 0) = 1 := by
      cases (process_request fuel c r).1
      · exact Or.inl rfl
      · exact Or.inr rfl
    obtain ⟨A1, B1, a1, b1, c1, d1, e1, f1, g1⟩ :=
      window_step HIT_MISS_WINDOW c.eviction_params _ ho T hinv
    have hwin := ih (process_request fuel c r).2
      (T.tail ++ [if (process_request fuel c r).1 then (1 : Int) else 0])
      ⟨A1, B1, by rw [r2, a1], by rw [r3, b1], c1, d1, e1, by rw [r4, f1], g1⟩
    have hrun : run_requests fuel c (r :: rest)
        = run_requests fuel (process_request fuel c r).2 rest := rfl
    have hout : outcomes fuel c (r :: rest)
        = (if (process_request fuel c r).1 then (1 : Int) else 0)
          :: outcomes fuel (process_request fuel c r).2 rest := rfl
    have hdrop : (T ++ outcomes fuel c (r :: rest)).drop (r :: rest).length
        = (T.tail ++ [if (process_request fuel c r).1 then (1 : Int) else 0]
            ++ outcomes fuel (process_request fuel c r).2 rest).drop rest.length := by
      rw [hout]
      cases T with
      | nil => exact absurd rfl hTne
      | cons t T0 => simp
    rw [hrun, hdrop]
    exact hwin

end DynamicAdaptiveClimb

namespace DynamicAdaptiveClimb

/-- The window of `DynamicAdaptiveClimb_init`: all slots 0, cursor 0, no hit counted. -/
theorem init_window (ccp : common_cache_params_t) :
    ∃ A B, (DynamicAdaptiveClimb_init ccp).eviction_params.recent_hits = A ++ B ∧
      (DynamicAdaptiveClimb_init ccp).eviction_params.hit_miss_ptr = A.length ∧ B ≠ [] ∧
      (A ++ B).length = HIT_MISS_WINDOW ∧ B ++ A = List.replicate HIT_MISS_WINDOW 0 ∧
      (DynamicAdaptiveClimb_init ccp).eviction_params.recent_hit_count
        = (List.replicate HIT_MISS_WINDOW (0 : Int)).sum ∧
      ∀ v ∈ List.replicate HIT_MISS_WINDOW (0 : Int), v = 0 ∨ v = 1 := by
  refine ⟨[], List.replicate HIT_MISS_WINDOW 0, rfl, rfl, ?_, ?_, ?_, ?_, ?_⟩
  · intro h
    have hl := congrArg List.length h
    simp only [List.length_replicate, List.length_nil] at hl
    exact absurd hl (by decide)
  · simp
  · simp
  · simp [DynamicAdaptiveClimb_init, DynamicAdaptiveClimb_init_W]
  · intro v hv
    exact Or.inl (List.eq_of_mem_replicate hv)

end DynamicAdaptiveClimb

/-- C24 as stated fails once the `int` counter has wrapped. After 2147483648 requests from
`DynamicAdaptiveClimb_init` the counter reads -2147483648 while the cursor is 648, which is
neither the mathematical residue 352 of the counter modulo 1000 nor the value -648 of the C
expression `total_requests % 1000`; and after 2147487296 requests the counter, -2147480000,
is a multiple of 10000, so the controller ticks, with the cursor at 296. -/
theorem cursor_counter_misaligned_after_wrap :
    (DynamicAdaptiveClimb.run_requests 1 (DynamicAdaptiveClimb.DynamicAdaptiveClimb_init ⟨3, 0⟩)
      (List.replicate 2147483648 ⟨1, 1⟩)).eviction_params.total_requests = -2147483648 ∧
    (DynamicAdaptiveClimb.run_requests 1 (DynamicAdaptiveClimb.DynamicAdaptiveClimb_init ⟨3, 0⟩)
      (List.replicate 2147483648 ⟨1, 1⟩)).eviction_params.hit_miss_ptr = 648 ∧
    ((DynamicAdaptiveClimb.run_requests 1 (DynamicAdaptiveClimb.DynamicAdaptiveClimb_init ⟨3, 0⟩)
      (List.replicate 2147483648 ⟨1, 1⟩)).eviction_params.hit_miss_ptr : Int)
      ≠ (DynamicAdaptiveClimb.run_requests 1
          (DynamicAdaptiveClimb.DynamicAdaptiveClimb_init ⟨3, 0⟩)
          (List.replicate 2147483648 ⟨1, 1⟩)).eviction_params.total_requests
        % (DynamicAdaptiveClimb.HIT_MISS_WINDOW : Int) ∧
    ((DynamicAdaptiveClimb.run_requests 1 (DynamicAdaptiveClimb.DynamicAdaptiveClimb_init ⟨3, 0⟩)
      (List.replicate 2147483648 ⟨1, 1⟩)).eviction_params.hit_miss_ptr : Int)
      ≠ Int.tmod (DynamicAdaptiveClimb.run_requests 1
          (DynamicAdaptiveClimb.DynamicAdaptiveClimb_init ⟨3, 0⟩)
          (List.replicate 2147483648 ⟨1, 1⟩)).eviction_params.total_requests
        (DynamicAdaptiveClimb.HIT_MISS_WINDOW : Int) ∧
    (DynamicAdaptiveClimb.run_requests 1 (DynamicAdaptiveClimb.DynamicAdaptiveClimb_init ⟨3, 0⟩)
      (List.replicate 2147487296 ⟨1, 1⟩)).eviction_params.total_requests
      % DynamicAdaptiveClimb.ADJUSTMENT_INTERVAL = 0 ∧
    (DynamicAdaptiveClimb.run_requests 1 (DynamicAdaptiveClimb.DynamicAdaptiveClimb_init ⟨3, 0⟩)
      (List.replicate 2147487296 ⟨1, 1⟩)).eviction_params.hit_miss_ptr = 296 := by
  have hi : (DynamicAdaptiveClimb.DynamicAdaptiveClimb_init ⟨3, 0⟩).eviction_params.total_requests
      = wrap_int ((0 : Nat) : Int) := (wrap_int_natCast 0 (by decide)).symm
  have hj : (DynamicAdaptiveClimb.DynamicAdaptiveClimb_init ⟨3, 0⟩).eviction_params.hit_miss_ptr
      = 0 % 1000 := rfl
  have t1 := DynamicAdaptiveClimb.run_requests_total 1 (List.replicate 2147483648 ⟨1, 1⟩)
    (DynamicAdaptiveClimb.DynamicAdaptiveClimb_init ⟨3, 0⟩) 0 hi
  have p1 := DynamicAdaptiveClimb.run_requests_ptr 1 (List.replicate 2147483648 ⟨1, 1⟩)
    (DynamicAdaptiveClimb.DynamicAdaptiveClimb_init ⟨3, 0⟩) 0 hj
  have t2 := DynamicAdaptiveClimb.run_requests_total 1 (List.replicate 2147487296 ⟨1, 1⟩)
    (DynamicAdaptiveClimb.DynamicAdaptiveClimb_init ⟨3, 0⟩) 0 hi
  have p2 := DynamicAdaptiveClimb.run_requests_ptr 1 (List.replicate 2147487296 ⟨1, 1⟩)
    (DynamicAdaptiveClimb.DynamicAdaptiveClimb_init ⟨3, 0⟩) 0 hj
  rw [List.length_replicate] at t1 p1 t2 p2
  have w1 : wrap_int ((0 + 2147483648 : Nat) : Int) = -2147483648 := by decide!
  have w2 : wrap_int ((0 + 2147487296 : Nat) : Int) = -2147480000 := by decide!
  rw [w1] at t1
  rw [w2] at t2
  rw [t1, p1, t2, p2]
  decide!

/-- C24. From `DynamicAdaptiveClimb_init`, after any sequence of fewer than `2 ^ 31` requests
(get on a hit, insert on a miss; `2 ^ 31` is where the `int` counter wraps) `total_requests`
is their number and `hit_miss_ptr` equals `total_requests mod HIT_MISS_WINDOW` (1000); the
same alignment holds after any sequence of fewer than `2 ^ 31` calls of the policy interface.
Hence when `total_requests mod 10000 == 0`, the state in which the controller ticks, the
cursor is 0; and with the cursor at 0 the window lists, slot by slot and oldest first, the
last 1000 entries of the initial zeros followed by the outcomes, which at a tick are exactly
the outcomes of the most recent 1000 requests. -/
theorem cursor_counter_alignment (ccp : DynamicAdaptiveClimb.common_cache_params_t)
    (fuel : Nat) (reqs : List request_t) (ops : List DynamicAdaptiveClimb.Op)
    (hreqs : reqs.length < 2 ^ 31) (hops : ops.length < 2 ^ 31) :
    DynamicAdaptiveClimb.HIT_MISS_WINDOW = 1000 ∧
    DynamicAdaptiveClimb.ADJUSTMENT_INTERVAL = 10000 ∧
    (DynamicAdaptiveClimb.run_requests fuel (DynamicAdaptiveClimb.DynamicAdaptiveClimb_init ccp)
      reqs).eviction_params.total_requests = reqs.length ∧
    ((DynamicAdaptiveClimb.run_requests fuel (DynamicAdaptiveClimb.DynamicAdaptiveClimb_init ccp)
      reqs).eviction_params.hit_miss_ptr : Int)
      = (DynamicAdaptiveClimb.run_requests fuel
          (DynamicAdaptiveClimb.DynamicAdaptiveClimb_init ccp) reqs).eviction_params.total_requests
        % (DynamicAdaptiveClimb.HIT_MISS_WINDOW : Int) ∧
    ((DynamicAdaptiveClimb.run fuel (DynamicAdaptiveClimb.DynamicAdaptiveClimb_init ccp)
      ops).eviction_params.hit_miss_ptr : Int)
      = (DynamicAdaptiveClimb.run fuel
          (DynamicAdaptiveClimb.DynamicAdaptiveClimb_init ccp) ops).eviction_params.total_requests
        % (DynamicAdaptiveClimb.HIT_MISS_WINDOW : Int) ∧
    ((DynamicAdaptiveClimb.run_requests fuel (DynamicAdaptiveClimb.DynamicAdaptiveClimb_init ccp)
        reqs).eviction_params.total_requests % DynamicAdaptiveClimb.ADJUSTMENT_INTERVAL = 0 →
      (DynamicAdaptiveClimb.run_requests fuel (DynamicAdaptiveClimb.DynamicAdaptiveClimb_init ccp)
        reqs).eviction_params.hit_miss_ptr = 0) ∧
    ((DynamicAdaptiveClimb.run_requests fuel (DynamicAdaptiveClimb.DynamicAdaptiveClimb_init ccp)
        reqs).eviction_params.hit_miss_ptr = 0 →
      (DynamicAdaptiveClimb.run_requests fuel (DynamicAdaptiveClimb.DynamicAdaptiveClimb_init ccp)
        reqs).eviction_params.recent_hits
        = (List.replicate DynamicAdaptiveClimb.HIT_MISS_WINDOW 0
            ++ DynamicAdaptiveClimb.outcomes fuel
              (DynamicAdaptiveClimb.DynamicAdaptiveClimb_init ccp) reqs).drop reqs.length) ∧
    ((DynamicAdaptiveClimb.run_requests fuel (DynamicAdaptiveClimb.DynamicAdaptiveClimb_init ccp)
        reqs).eviction_params.total_requests % DynamicAdaptiveClimb.ADJUSTMENT_INTERVAL = 0 →
      reqs ≠ [] →
      (DynamicAdaptiveClimb.run_requests fuel (DynamicAdaptiveClimb.DynamicAdaptiveClimb_init ccp)
        reqs).eviction_params.recent_hits
        = (DynamicAdaptiveClimb.outcomes fuel
            (DynamicAdaptiveClimb.DynamicAdaptiveClimb_init ccp) reqs).rtake
            DynamicAdaptiveClimb.HIT_MISS_WINDOW ∧
      ((DynamicAdaptiveClimb.outcomes fuel
          (DynamicAdaptiveClimb.DynamicAdaptiveClimb_init ccp) reqs).rtake
          DynamicAdaptiveClimb.HIT_MISS_WINDOW).length = 1000) := by
  have hinit : ((DynamicAdaptiveClimb.DynamicAdaptiveClimb_init ccp).eviction_params.hit_miss_ptr
      : Int)
      = (DynamicAdaptiveClimb.DynamicAdaptiveClimb_init ccp).eviction_params.total_requests
        % (DynamicAdaptiveClimb.HIT_MISS_WINDOW : Int) := by
    show ((0 : Nat) : Int) = (0 : Int) % ((1000 : Nat) : Int)
    decide
  have hops0 : 0 + ops.length < 2 ^ 31 := by omega
  have hmodc : (((0 + reqs.length) % 1000 : Nat) : Int) = (reqs.length : Int) % 1000 := by
    omega
  have hrun := DynamicAdaptiveClimb.run_cursor fuel ops
    (DynamicAdaptiveClimb.DynamicAdaptiveClimb_init ccp) 0 hinit (le_refl _) (le_refl _) hops0
  have htot0 : (DynamicAdaptiveClimb.run_requests fuel
      (DynamicAdaptiveClimb.DynamicAdaptiveClimb_init ccp) reqs).eviction_params.total_requests
      = reqs.length := by
    rw [DynamicAdaptiveClimb.run_requests_total fuel reqs
      (DynamicAdaptiveClimb.DynamicAdaptiveClimb_init ccp) 0
      (wrap_int_natCast 0 (by decide)).symm, Nat.zero_add, wrap_int_natCast _ hreqs]
  have hptr := DynamicAdaptiveClimb.run_requests_ptr fuel reqs
    (DynamicAdaptiveClimb.DynamicAdaptiveClimb_init ccp) 0 rfl
  have hcur : ((DynamicAdaptiveClimb.run_requests fuel
      (DynamicAdaptiveClimb.DynamicAdaptiveClimb_init ccp) reqs).eviction_params.hit_miss_ptr
      : Int)
      = (DynamicAdaptiveClimb.run_requests fuel
          (DynamicAdaptiveClimb.DynamicAdaptiveClimb_init ccp) reqs).eviction_params.total_requests
        % (DynamicAdaptiveClimb.HIT_MISS_WINDOW : Int) := by
    rw [htot0, hptr]
    exact hmodc
  obtain ⟨A, B, a, b, -, -, e, -, -⟩ :=
    DynamicAdaptiveClimb.run_requests_window fuel reqs
      (DynamicAdaptiveClimb.DynamicAdaptiveClimb_init ccp) _
      (DynamicAdaptiveClimb.init_window ccp)
  have hzero : (DynamicAdaptiveClimb.run_requests fuel
      (DynamicAdaptiveClimb.DynamicAdaptiveClimb_init ccp)
      reqs).eviction_params.total_requests % DynamicAdaptiveClimb.ADJUSTMENT_INTERVAL = 0 →
      (DynamicAdaptiveClimb.run_requests fuel (DynamicAdaptiveClimb.DynamicAdaptiveClimb_init ccp)
        reqs).eviction_params.hit_miss_ptr = 0 := by
    intro ht
    unfold DynamicAdaptiveClimb.ADJUSTMENT_INTERVAL at ht
    unfold DynamicAdaptiveClimb.HIT_MISS_WINDOW at hcur
    push_cast at hcur
    omega
  have hwin : (DynamicAdaptiveClimb.run_requests fuel
      (DynamicAdaptiveClimb.DynamicAdaptiveClimb_init ccp) reqs).eviction_params.hit_miss_ptr = 0 →
      (DynamicAdaptiveClimb.run_requests fuel (DynamicAdaptiveClimb.DynamicAdaptiveClimb_init ccp)
        reqs).eviction_params.recent_hits
        = (List.replicate DynamicAdaptiveClimb.HIT_MISS_WINDOW 0
            ++ DynamicAdaptiveClimb.outcomes fuel
              (DynamicAdaptiveClimb.DynamicAdaptiveClimb_init ccp) reqs).drop reqs.length := by
    intro hp
    rw [b] at hp
    have hA : A = [] := List.length_eq_zero.1 hp
    rw [a, ← e, hA]
    simp
  refine ⟨rfl, rfl, htot0, hcur, hrun, hzero, hwin, ?_⟩
  intro ht hne
  have hlen : 10000 ≤ reqs.length := by
    rw [htot0] at ht
    unfold DynamicAdaptiveClimb.ADJUSTMENT_INTERVAL at ht
    have hpos : 0 < reqs.length := List.length_pos.2 hne
    omega
  have hol := DynamicAdaptiveClimb.outcomes_length fuel reqs
    (DynamicAdaptiveClimb.DynamicAdaptiveClimb_init ccp)
  have hW : DynamicAdaptiveClimb.HIT_MISS_WINDOW = 1000 := rfl
  constructor
  · rw [hwin (hzero ht)]
    have hsplit : reqs.length
        = (List.replicate DynamicAdaptiveClimb.HIT_MISS_WINDOW (0 : Int)).length
          + (reqs.length - DynamicAdaptiveClimb.HIT_MISS_WINDOW) := by
      rw [List.length_replicate, hW]; omega
    rw [List.rtake, hol]
    nth_rewrite 1 [hsplit]
    rw [List.drop_append]
  · rw [List.rtake, List.length_drop, hol, hW]
    omega

/-- C24 at a trace of 10000 requests for one object on a cache of capacity 3, and at the
two calls `insert` and `get` of the interface: the counter is 10000, a multiple of the
adjustment interval, and the cursor is 0. -/
theorem cursor_counter_alignment_witness :
    ((List.replicate 10000 (⟨1, 1⟩ : request_t)).length < 2 ^ 31 ∧
      ([DynamicAdaptiveClimb.Op.insert ⟨1, 1⟩, DynamicAdaptiveClimb.Op.get ⟨1, 1⟩] :
        List DynamicAdaptiveClimb.Op).length < 2 ^ 31) ∧
    ((DynamicAdaptiveClimb.run_requests 1 (DynamicAdaptiveClimb.DynamicAdaptiveClimb_init ⟨3, 0⟩)
        (List.replicate 10000 ⟨1, 1⟩)).eviction_params.total_requests
        = ((List.replicate 10000 (⟨1, 1⟩ : request_t)).length : Nat) ∧
      ((DynamicAdaptiveClimb.run_requests 1
          (DynamicAdaptiveClimb.DynamicAdaptiveClimb_init ⟨3, 0⟩)
          (List.replicate 10000 ⟨1, 1⟩)).eviction_params.hit_miss_ptr : Int)
        = (DynamicAdaptiveClimb.run_requests 1
            (DynamicAdaptiveClimb.DynamicAdaptiveClimb_init ⟨3, 0⟩)
            (List.replicate 10000 ⟨1, 1⟩)).eviction_params.total_requests
          % (DynamicAdaptiveClimb.HIT_MISS_WINDOW : Int) ∧
      ((DynamicAdaptiveClimb.run 1 (DynamicAdaptiveClimb.DynamicAdaptiveClimb_init ⟨3, 0⟩)
          [DynamicAdaptiveClimb.Op.insert ⟨1, 1⟩,
            DynamicAdaptiveClimb.Op.get ⟨1, 1⟩]).eviction_params.hit_miss_ptr : Int)
        = (DynamicAdaptiveClimb.run 1 (DynamicAdaptiveClimb.DynamicAdaptiveClimb_init ⟨3, 0⟩)
            [DynamicAdaptiveClimb.Op.insert ⟨1, 1⟩,
              DynamicAdaptiveClimb.Op.get ⟨1, 1⟩]).eviction_params.total_requests
          % (DynamicAdaptiveClimb.HIT_MISS_WINDOW : Int)) :=
  ⟨⟨by rw [List.length_replicate]; decide, by decide⟩,
    ⟨(cursor_counter_alignment ⟨3, 0⟩ 1 (List.replicate 10000 ⟨1, 1⟩)
        [DynamicAdaptiveClimb.Op.insert ⟨1, 1⟩, DynamicAdaptiveClimb.Op.get ⟨1, 1⟩]
        (by rw [List.length_replicate]; decide) (by decide)).2.2.1,
      (cursor_counter_alignment ⟨3, 0⟩ 1 (List.replicate 10000 ⟨1, 1⟩)
        [DynamicAdaptiveClimb.Op.insert ⟨1, 1⟩, DynamicAdaptiveClimb.Op.get ⟨1, 1⟩]
        (by rw [List.length_replicate]; decide) (by decide)).2.2.2.1,
      (cursor_counter_alignment ⟨3, 0⟩ 1 (List.replicate 10000 ⟨1, 1⟩)
        [DynamicAdaptiveClimb.Op.insert ⟨1, 1⟩, DynamicAdaptiveClimb.Op.get ⟨1, 1⟩]
        (by rw [List.length_replicate]; decide) (by decide)).2.2.2.2.1⟩⟩

/-! ## The miss loop of the 3L cache -/

namespace Cache3L

/-- Within capacity the loop of `cache_3l_evict` does not run: the call returns at once and
the state is unchanged. -/
theorem evict_within_capacity (fuel : Nat) (c : cache_3l_t)
    (h : c.current_size ≤ c.cache_size) : cache_3l_evict fuel c = some c := by
  have hn : ¬ c.current_size > c.cache_size := Nat.not_lt.2 h
  cases fuel with
  | zero => unfold cache_3l_evict; rw [if_neg hn]
  | succ n => unfold cache_3l_evict; rw [if_neg hn]

theorem miss_loop_state_within_capacity (efuel : Nat) (c : cache_3l_t)
    (h : c.current_size ≤ c.cache_size) (n : Nat) : miss_loop_state efuel n c = some c := by
  induction n with
  | zero => rfl
  | succ k ih =>
    unfold miss_loop_state
    rw [evict_within_capacity efuel c h]
    exact ih

theorem miss_loop_never_ends (efuel : Nat) (c : cache_3l_t) (req : request_t)
    (h : c.current_size ≤ c.cache_size) (hc : miss_loop_condition c req = true) (fuel : Nat) :
    miss_loop efuel req fuel c = none := by
  induction fuel with
  | zero => unfold miss_loop; rw [if_pos hc]
  | succ k ih =>
    unfold miss_loop
    rw [if_pos hc, evict_within_capacity efuel c h]
    exact ih

theorem miss_loop_false_on_entry (efuel : Nat) (c : cache_3l_t) (req : request_t)
    (hc : miss_loop_condition c req = false) (fuel : Nat) :
    miss_loop efuel req fuel c = some c := by
  cases fuel with
  | zero => unfold miss_loop; rw [hc]; rfl
  | succ k => unfold miss_loop; rw [hc]; rfl

end Cache3L

/-- C25. For every state of the 3L cache with `current_size <= cache_size`:
`cache_3l_evict` returns at once with the state unchanged; so when the condition of the miss
loop of `cache_3l_get`, `current_size + obj_size > cache_size`, holds on entry, the state
after any number of executions of the loop body is the state on entry and the condition
still holds, the loop has not ended within any number of iterations, and `cache_3l_get` for
a missing request does not return; the loop ends (at once) exactly when the condition is
false on entry. -/
theorem miss_loop_makes_no_progress (c : Cache3L.cache_3l_t) (req : request_t)
    (efuel clock_time : Nat) (h : c.current_size ≤ c.cache_size) :
    (∀ fuel, Cache3L.cache_3l_evict fuel c = some c) ∧
    (Cache3L.miss_loop_condition c req = true ↔
      (c.current_size + req.obj_size) % 2 ^ 64 > c.cache_size) ∧
    (Cache3L.miss_loop_condition c req = true →
      ∀ n, Cache3L.miss_loop_state efuel n c = some c ∧
        Cache3L.miss_loop_condition c req = true) ∧
    (Cache3L.miss_loop_condition c req = true →
      ∀ fuel, Cache3L.miss_loop efuel req fuel c = none) ∧
    (Cache3L.miss_loop_condition c req = true → Cache3L.table_find c req.obj_id = none →
      ∀ fuel, Cache3L.cache_3l_get efuel fuel c req clock_time = none) ∧
    (∀ fuel, Cache3L.miss_loop efuel req fuel c ≠ none ↔
      Cache3L.miss_loop_condition c req = false) ∧
    (Cache3L.miss_loop_condition c req = false →
      ∀ fuel, Cache3L.miss_loop efuel req fuel c = some c) := by
  refine ⟨fun fuel => Cache3L.evict_within_capacity fuel c h, ?_, ?_, ?_, ?_, ?_, ?_⟩
  · unfold Cache3L.miss_loop_condition Cache3L.UINT64_MOD
    exact decide_eq_true_iff
  · intro hc n
    exact ⟨Cache3L.miss_loop_state_within_capacity efuel c h n, hc⟩
  · intro hc fuel
    exact Cache3L.miss_loop_never_ends efuel c req h hc fuel
  · intro hc hmiss fuel
    unfold Cache3L.cache_3l_get Cache3L.cache_3l_lookup
    rw [hmiss]
    show Option.map _ (Cache3L.miss_loop efuel req fuel c) = none
    rw [Cache3L.miss_loop_never_ends efuel c req h hc fuel]
    rfl
  · intro fuel
    cases hc : Cache3L.miss_loop_condition c req with
    | true =>
      rw [Cache3L.miss_loop_never_ends efuel c req h hc fuel]
      simp
    | false =>
      rw [Cache3L.miss_loop_false_on_entry efuel c req hc fuel]
      simp
  · intro hc fuel
    exact Cache3L.miss_loop_false_on_entry efuel c req hc fuel

/-- C25 at a cache of capacity 10 holding object 1 of size 8, and a request for the missing
object 2 of size 5: the state is within capacity, the loop condition holds, and neither the
loop nor `cache_3l_get` ends within 1000 iterations. -/
theorem miss_loop_makes_no_progress_witness :
    Cache3L.scenario_one.current_size ≤ Cache3L.scenario_one.cache_size ∧
    Cache3L.miss_loop_condition Cache3L.scenario_one ⟨2, 5⟩ = true ∧
    Cache3L.table_find Cache3L.scenario_one 2 = none ∧
    Cache3L.miss_loop_state 7 1000 Cache3L.scenario_one = some Cache3L.scenario_one ∧
    Cache3L.miss_loop 7 ⟨2, 5⟩ 1000 Cache3L.scenario_one = none ∧
    Cache3L.cache_3l_get 7 1000 Cache3L.scenario_one ⟨2, 5⟩ 1 = none :=
  ⟨by decide, by decide, by decide,
    ((miss_loop_makes_no_progress Cache3L.scenario_one ⟨2, 5⟩ 7 1 (by decide)).2.2.1
      (by decide) 1000).1,
    (miss_loop_makes_no_progress Cache3L.scenario_one ⟨2, 5⟩ 7 1 (by decide)).2.2.2.1
      (by decide) 1000,
    (miss_loop_makes_no_progress Cache3L.scenario_one ⟨2, 5⟩ 7 1 (by decide)).2.2.2.2.1
      (by decide) (by decide) 1000⟩

/-! ## The position helpers -/

namespace DynamicAdaptiveClimb

theorem scan_to_obj_spec (h : Heap) (o : Nat) (post : List Nat) (n : Option Nat) :
    ∀ (pre : List Nat) (p : Option Nat) (fuel : Nat) (pos : Int),
      Seg h p (pre ++ o :: post) n → o ∉ pre → pre.length < fuel →
      scan_to_obj h o fuel (headOr (pre ++ o :: post) n) pos
        = some (some o, pos + pre.length) := by
  intro pre
  induction pre with
  | nil =>
    intro p fuel pos _ _ hf
    obtain ⟨f, rfl⟩ : ∃ f, fuel = f + 1 := ⟨fuel - 1, by simp at hf; omega⟩
    simp [headOr, scan_to_obj]
  | cons a pre ih =>
    intro p fuel pos hs ho hf
    obtain ⟨f, rfl⟩ : ∃ f, fuel = f + 1 := ⟨fuel - 1, by simp at hf; omega⟩
    have hao : a ≠ o := fun e => ho (by simp [e])
    have hs1 : Seg h p (a :: (pre ++ o :: post)) n := hs
    obtain ⟨-, -, hnext, hrest⟩ := hs1
    have hgoal : scan_to_obj h o (f + 1) (headOr (a :: pre ++ o :: post) n) pos
        = scan_to_obj h o f (nextOf h a) (pos + 1) := by
      show scan_to_obj h o (f + 1) (some a) pos = _
      rw [scan_to_obj, if_neg hao]
    rw [hgoal, hnext, ih (some a) f (pos + 1) hrest
      (fun hm => ho (List.mem_cons_of_mem _ hm)) (by simp at hf; omega)]
    simp only [List.length_cons]
    push_cast
    congr 2
    ring

theorem find_tail_spec (h : Heap) :
    ∀ (rest : List Nat) (a : Nat) (p : Option Nat) (fuel : Nat),
      Seg h p (a :: rest) none → rest.length < fuel →
      find_tail h fuel a = lastOr rest (some a) := by
  intro rest
  induction rest with
  | nil =>
    intro a p fuel hs hf
    obtain ⟨f, rfl⟩ : ∃ f, fuel = f + 1 := ⟨fuel - 1, by simp at hf; omega⟩
    obtain ⟨-, -, hnext, -⟩ := hs
    have hn : nextOf h a = none := hnext
    rw [find_tail, hn]
    rfl
  | cons b rest ih =>
    intro a p fuel hs hf
    obtain ⟨f, rfl⟩ : ∃ f, fuel = f + 1 := ⟨fuel - 1, by simp at hf; omega⟩
    obtain ⟨-, -, hnext, hrest⟩ := hs
    have hn : nextOf h a = some b := hnext
    rw [find_tail, hn]
    show find_tail h f b = lastOr rest (some b)
    exact ih b (some a) f hrest (by simp at hf; omega)

theorem search_from_head_found (h : Heap) (o : Nat) (half : Int) (post : List Nat)
    (n : Option Nat) :
    ∀ (pre : List Nat) (p : Option Nat) (fuel : Nat) (pos : Int),
      Seg h p (pre ++ o :: post) n → o ∉ pre → pre.length < fuel →
      pos + pre.length ≤ half →
      search_from_head h o half fuel (headOr (pre ++ o :: post) n) pos
        = some (some (pos + pre.length)) := by
  intro pre
  induction pre with
  | nil =>
    intro p fuel pos _ _ hf hh
    obtain ⟨f, rfl⟩ : ∃ f, fuel = f + 1 := ⟨fuel - 1, by simp at hf; omega⟩
    have hp : pos ≤ half := by simpa using hh
    show search_from_head h o half (f + 1) (some o) pos = _
    rw [search_from_head, if_pos hp, if_pos rfl]
    simp
  | cons a pre ih =>
    intro p fuel pos hs ho hf hh
    obtain ⟨f, rfl⟩ : ∃ f, fuel = f + 1 := ⟨fuel - 1, by simp at hf; omega⟩
    have hao : a ≠ o := fun e => ho (by simp [e])
    have hs1 : Seg h p (a :: (pre ++ o :: post)) n := hs
    obtain ⟨-, -, hnext, hrest⟩ := hs1
    simp only [List.length_cons] at hh
    push_cast at hh
    have hp : pos ≤ half := by omega
    have hgoal : search_from_head h o half (f + 1) (headOr (a :: pre ++ o :: post) n) pos
        = search_from_head h o half f (nextOf h a) (pos + 1) := by
      show search_from_head h o half (f + 1) (some a) pos = _
      rw [search_from_head, if_pos hp, if_neg hao]
    rw [hgoal, hnext, ih (some a) f (pos + 1) hrest
      (fun hm => ho (List.mem_cons_of_mem _ hm)) (by simp at hf; omega) (by omega)]
    simp only [List.length_cons]
    push_cast
    congr 2
    ring

theorem search_from_head_passed (h : Heap) (o : Nat) (half : Int) (rest : List Nat)
    (n : Option Nat) :
    ∀ (pre : List Nat) (p : Option Nat) (fuel : Nat) (pos : Int),
      Seg h p (pre ++ rest) n → o ∉ pre → pre.length < fuel →
      pos + pre.length = half + 1 →
      search_from_head h o half fuel (headOr (pre ++ rest) n) pos = some none := by
  intro pre
  induction pre with
  | nil =>
    intro p fuel pos _ _ hf hh
    obtain ⟨f, rfl⟩ : ∃ f, fuel = f + 1 := ⟨fuel - 1, by simp at hf; omega⟩
    have hp : ¬ pos ≤ half := by
      simp only [List.length_nil] at hh
      push_cast at hh
      omega
    cases hc : headOr ([] ++ rest) n with
    | none => rw [search_from_head]
    | some a => rw [search_from_head, if_neg hp]
  | cons a pre ih =>
    intro p fuel pos hs ho hf hh
    obtain ⟨f, rfl⟩ : ∃ f, fuel = f + 1 := ⟨fuel - 1, by simp at hf; omega⟩
    have hao : a ≠ o := fun e => ho (by simp [e])
    have hs1 : Seg h p (a :: (pre ++ rest)) n := hs
    obtain ⟨-, -, hnext, hrest⟩ := hs1
    simp only [List.length_cons] at hh
    push_cast at hh
    have hp : pos ≤ half := by omega
    have hgoal : search_from_head h o half (f + 1) (headOr (a :: pre ++ rest) n) pos
        = search_from_head h o half f (nextOf h a) (pos + 1) := by
      show search_from_head h o half (f + 1) (some a) pos = _
      rw [search_from_head, if_pos hp, if_neg hao]
    rw [hgoal, hnext]
    exact ih (some a) f (pos + 1) hrest
      (fun hm => ho (List.mem_cons_of_mem _ hm)) (by simp at hf; omega) (by omega)

end DynamicAdaptiveClimb

namespace DynamicAdaptiveClimb

theorem search_from_tail_found (h : Heap) (o : Nat) (half : Int) (pre : List Nat)
    (p : Option Nat) :
    ∀ (post : List Nat) (n : Option Nat) (fuel : Nat) (pos : Int),
      Seg h p (pre ++ o :: post) n → o ∉ post → post.length < fuel →
      half < pos - post.length →
      search_from_tail h o half fuel (lastOr (pre ++ o :: post) p) pos
        = some (some (pos - post.length)) := by
  intro post
  induction post using List.reverseRecOn with
  | nil =>
    intro n fuel pos _ _ hf hh
    obtain ⟨f, rfl⟩ : ∃ f, fuel = f + 1 := ⟨fuel - 1, by simp at hf; omega⟩
    have hp : pos > half := by simpa using hh
    rw [lastOr_concat, search_from_tail, if_pos hp, if_pos rfl]
    simp
  | append_singleton post b ih =>
    intro n fuel pos hs ho hf hh
    obtain ⟨f, rfl⟩ : ∃ f, fuel = f + 1 := ⟨fuel - 1, by simp at hf; omega⟩
    have hl : pre ++ o :: (post ++ [b]) = (pre ++ o :: post) ++ [b] := by simp
    have hbo : b ≠ o := fun e => ho (by simp [e])
    rw [hl] at hs ⊢
    obtain ⟨hs1, hs2⟩ := (seg_append h p n (pre ++ o :: post) [b]).1 hs
    obtain ⟨-, hprev, -, -⟩ := hs2
    simp only [List.length_append, List.length_singleton] at hh hf
    push_cast at hh
    have hp : pos > half := by omega
    rw [lastOr_concat, search_from_tail, if_pos hp, if_neg hbo, hprev,
      ih (headOr [b] n) f (pos - 1) hs1 (fun hm => ho (List.mem_append_left _ hm)) (by omega)
        (by omega)]
    simp only [List.length_append, List.length_singleton]
    push_cast
    congr 2
    ring

theorem step_next_spec (h : Heap) (o : Nat) (post : List Nat) (n : Option Nat) :
    ∀ (pre : List Nat) (p : Option Nat), Seg h p (pre ++ o :: post) n →
      step_next h pre.length (headOr (pre ++ o :: post) n) = some o := by
  intro pre
  induction pre with
  | nil => intro p _; rfl
  | cons a pre ih =>
    intro p hs
    have hs1 : Seg h p (a :: (pre ++ o :: post)) n := hs
    obtain ⟨-, -, hnext, hrest⟩ := hs1
    show step_next h (pre.length + 1) (some a) = some o
    rw [step_next, hnext]
    exact ih (some a) hrest

theorem step_prev_spec (h : Heap) (o : Nat) (pre : List Nat) (p : Option Nat) :
    ∀ (post : List Nat) (n : Option Nat), Seg h p (pre ++ o :: post) n →
      step_prev h post.length (lastOr (pre ++ o :: post) p) = some o := by
  intro post
  induction post using List.reverseRecOn with
  | nil =>
    intro n _
    rw [lastOr_concat]
    rfl
  | append_singleton post b ih =>
    intro n hs
    have hl : pre ++ o :: (post ++ [b]) = (pre ++ o :: post) ++ [b] := by simp
    rw [hl] at hs ⊢
    obtain ⟨hs1, hs2⟩ := (seg_append h p n (pre ++ o :: post) [b]).1 hs
    obtain ⟨-, hprev, -, -⟩ := hs2
    have hlen : (post ++ [b]).length = post.length + 1 := by simp
    rw [lastOr_concat, hlen, step_prev, hprev]
    exact ih (headOr [b] n) hs1

theorem getD_map_some_middle (done rest : List Nat) (x : Nat) :
    ((done ++ x :: rest).map some).getD done.length none = some x := by
  have hlen : (done.map some).length ≤ done.length := by simp
  rw [List.getD_eq_getElem?_getD, List.map_append, List.getElem?_append_right hlen]
  simp

theorem get_obj_pos_array_from_spec (o : Nat) (post : List Nat) :
    ∀ (pre done : List Nat) (k : Nat), o ∉ pre → pre.length < k →
      get_obj_pos_array_from ((done ++ pre ++ o :: post).map some) (some o) k done.length
        = (done.length : Int) + pre.length + 1 := by
  intro pre
  induction pre with
  | nil =>
    intro done k _ hk
    obtain ⟨f, rfl⟩ : ∃ f, k = f + 1 := ⟨k - 1, by simp at hk; omega⟩
    have hget : ((done ++ [] ++ o :: post).map some).getD done.length none = some o := by
      rw [List.append_nil]
      exact getD_map_some_middle done post o
    rw [get_obj_pos_array_from, if_pos hget]
    simp
  | cons a pre ih =>
    intro done k ho hk
    obtain ⟨f, rfl⟩ : ∃ f, k = f + 1 := ⟨k - 1, by simp at hk; omega⟩
    have hao : a ≠ o := fun e => ho (by simp [e])
    have hl0 : done ++ a :: pre ++ o :: post = done ++ a :: (pre ++ o :: post) := by simp
    have hget : ((done ++ a :: pre ++ o :: post).map some).getD done.length none = some a := by
      rw [hl0]
      exact getD_map_some_middle done _ a
    have hne : ¬ ((done ++ a :: pre ++ o :: post).map some).getD done.length none = some o := by
      rw [hget]
      intro e
      exact hao (Option.some.inj e)
    have hl : done ++ a :: pre ++ o :: post = (done ++ [a]) ++ pre ++ o :: post := by simp
    have hlen : done.length + 1 = (done ++ [a]).length := by simp
    rw [get_obj_pos_array_from, if_neg hne, hl, hlen,
      ih (done ++ [a]) f (fun hm => ho (List.mem_cons_of_mem _ hm)) (by simp at hk; omega)]
    simp only [List.length_append, List.length_singleton, List.length_cons, List.length_nil]
    push_cast
    ring

end DynamicAdaptiveClimb

namespace DynamicAdaptiveClimb

theorem lastOr_some (l : List Nat) : ∀ a : Nat, ∃ t, lastOr l (some a) = some t := by
  induction l with
  | nil => intro a; exact ⟨a, rfl⟩
  | cons b rest ih => intro a; exact ih b

/-- On a chain `pre ++ o :: post` closed by null on both sides, `get_obj_pos_optimized`
called with the length of the chain returns the 1-based position of `o`. -/
theorem get_obj_pos_optimized_spec (h : Heap) (o : Nat) (pre post : List Nat) (fuel : Nat)
    (hs : Seg h none (pre ++ o :: post) none) (hpre : o ∉ pre) (hpost : o ∉ post)
    (hf : (pre ++ o :: post).length < fuel) :
    get_obj_pos_optimized fuel h (pre ++ o :: post).head? (some o)
      ((pre ++ o :: post).length : Int) = some ((pre.length : Int) + 1) := by
  cases pre with
  | nil => simp [get_obj_pos_optimized]
  | cons a pre =>
    have hao : a ≠ o := fun e => hpre (by simp [e])
    have hhead : (a :: pre ++ o :: post).head? = some a := rfl
    obtain ⟨-, hs2⟩ := (seg_append h none none (a :: pre) (o :: post)).1 hs
    obtain ⟨-, -, hnexto, -⟩ := hs2
    have hlen : ((a :: pre ++ o :: post).length : Int)
        = (pre.length : Int) + 1 + 1 + post.length := by
      simp only [List.length_cons, List.length_append]
      push_cast
      ring
    rw [hhead]
    unfold get_obj_pos_optimized
    dsimp only
    rw [if_neg hao]
    by_cases hn : nextOf h o = none
    · rw [if_pos hn]
      rw [hn, headOr_none] at hnexto
      have hp : post = [] := List.head?_eq_none_iff.1 hnexto.symm
      rw [hlen, hp]
      simp
    · rw [if_neg hn]
      by_cases h50 : ((a :: pre ++ o :: post).length : Int) ≤ 50
      · rw [if_pos h50]
        have e : scan_to_obj h o fuel (some a) 1
            = some (some o, (1 : Int) + (a :: pre).length) :=
          scan_to_obj_spec h o post none (a :: pre) none fuel 1 hs hpre
            (by simp only [List.length_cons, List.length_append] at hf ⊢; omega)
        rw [e]
        simp only [Option.map_some', if_true, List.length_cons]
        push_cast
        congr 1
        ring
      · rw [if_neg h50]
        have htail : find_tail h fuel a = lastOr (a :: pre ++ o :: post) none :=
          find_tail_spec h (pre ++ o :: post) a none fuel hs
            (by simp only [List.length_cons, List.length_append] at hf ⊢; omega)
        obtain ⟨t, ht⟩ := lastOr_some (pre ++ o :: post) a
        have ht1 : lastOr (a :: pre ++ o :: post) none = some t := ht
        rw [htail, ht1, Option.some_bind]
        have hhalf : Int.tdiv ((a :: pre ++ o :: post).length : Int) 2
            = ((a :: pre ++ o :: post).length : Int) / 2 :=
          Int.tdiv_eq_ediv (by positivity) (by norm_num)
        rw [hhalf]
        by_cases hfirst : (1 : Int) + (a :: pre).length
            ≤ ((a :: pre ++ o :: post).length : Int) / 2
        · have e : search_from_head h o (((a :: pre ++ o :: post).length : Int) / 2) fuel
              (some a) 1 = some (some ((1 : Int) + (a :: pre).length)) :=
            search_from_head_found h o _ post none (a :: pre) none fuel 1 hs hpre
              (by simp only [List.length_cons, List.length_append] at hf ⊢; omega) hfirst
          rw [e, Option.some_bind]
          simp only [List.length_cons]
          push_cast
          congr 1
          ring
        · have hm0 : (0 : Int) ≤ ((a :: pre ++ o :: post).length : Int) / 2 := by positivity
          have hmle : (((a :: pre ++ o :: post).length : Int) / 2).toNat ≤ (a :: pre).length := by
            have := Int.toNat_of_nonneg hm0
            omega
          have hmem : o ∉ (a :: pre ++ o :: post).take
              (((a :: pre ++ o :: post).length : Int) / 2).toNat := by
            rw [List.take_append_of_le_length hmle]
            exact fun hm => hpre (List.mem_of_mem_take hm)
          have hsplit : (a :: pre ++ o :: post).take
                (((a :: pre ++ o :: post).length : Int) / 2).toNat
              ++ (a :: pre ++ o :: post).drop
                (((a :: pre ++ o :: post).length : Int) / 2).toNat
              = a :: pre ++ o :: post := List.take_append_drop _ _
          have htl : ((a :: pre ++ o :: post).take
              (((a :: pre ++ o :: post).length : Int) / 2).toNat).length
              = (((a :: pre ++ o :: post).length : Int) / 2).toNat := by
            rw [List.length_take]
            simp only [List.length_cons, List.length_append] at hmle ⊢
            omega
          have e := search_from_head_passed h o (((a :: pre ++ o :: post).length : Int) / 2)
            ((a :: pre ++ o :: post).drop (((a :: pre ++ o :: post).length : Int) / 2).toNat)
            none
            ((a :: pre ++ o :: post).take (((a :: pre ++ o :: post).length : Int) / 2).toNat)
            none fuel 1 (by rw [hsplit]; exact hs) hmem
            (by rw [htl]; simp only [List.length_cons, List.length_append] at hf hmle ⊢; omega)
            (by rw [htl, Int.toNat_of_nonneg hm0]; ring)
          rw [hsplit] at e
          have e1 : search_from_head h o (((a :: pre ++ o :: post).length : Int) / 2) fuel
              (some a) 1 = some none := e
          have e2 := search_from_tail_found h o (((a :: pre ++ o :: post).length : Int) / 2)
            (a :: pre) none post none fuel ((a :: pre ++ o :: post).length : Int) hs hpost
            (by simp only [List.length_cons, List.length_append] at hf ⊢; omega)
            (by
              simp only [List.length_cons, List.length_append] at hfirst ⊢
              push_cast at hfirst ⊢
              omega)
          rw [ht1] at e2
          rw [e1, Option.some_bind]
          dsimp only
          rw [e2]
          simp only [Option.map_some', Option.getD_some, List.length_cons, List.length_append]
          push_cast
          congr 1
          ring

end DynamicAdaptiveClimb

namespace DynamicAdaptiveClimb

/-- On a chain `pre ++ o :: post` closed by null on both sides, `get_obj_at_pos_optimized`
called with the 1-based position of `o` and the length of the chain returns `o`. -/
theorem get_obj_at_pos_optimized_spec (h : Heap) (o : Nat) (pre post : List Nat) (fuel : Nat)
    (hs : Seg h none (pre ++ o :: post) none) (hf : (pre ++ o :: post).length < fuel) :
    get_obj_at_pos_optimized fuel h (pre ++ o :: post).head? ((pre.length : Int) + 1)
      ((pre ++ o :: post).length : Int) = some (some o) := by
  obtain ⟨hd, tl, hL⟩ : ∃ hd tl, pre ++ o :: post = hd :: tl := by
    cases pre with
    | nil => exact ⟨o, post, rfl⟩
    | cons a pre => exact ⟨a, pre ++ o :: post, rfl⟩
  have hhead : (pre ++ o :: post).head? = some hd := by rw [hL]; rfl
  have hlenN : (pre ++ o :: post).length = pre.length + 1 + post.length := by
    simp only [List.length_cons, List.length_append]
    omega
  have htl : tl.length < fuel := by
    have := congrArg List.length hL
    simp only [List.length_cons] at this
    omega
  have htail : find_tail h fuel hd = lastOr (pre ++ o :: post) none := by
    have hs1 : Seg h none (hd :: tl) none := by rw [← hL]; exact hs
    rw [find_tail_spec h tl hd none fuel hs1 htl, hL]
    rfl
  obtain ⟨t, ht⟩ : ∃ t, lastOr (pre ++ o :: post) none = some t := by
    obtain ⟨t, ht⟩ := lastOr_some tl hd
    exact ⟨t, by rw [hL]; exact ht⟩
  have hlen : ((pre ++ o :: post).length : Int) = (pre.length : Int) + 1 + post.length := by
    rw [hlenN]
    push_cast
    ring
  rw [hhead]
  unfold get_obj_at_pos_optimized
  dsimp only
  have hrange : ¬ ((pre.length : Int) + 1 < 1 ∨
      (pre.length : Int) + 1 > ((pre ++ o :: post).length : Int)) := by
    rw [hlen]
    omega
  rw [if_neg hrange]
  by_cases h1 : (pre.length : Int) + 1 = 1
  · rw [if_pos h1]
    have hp : pre = [] := List.length_eq_zero.1 (by omega)
    rw [hp] at hL
    have hod : o = hd := (List.cons.inj hL).1
    rw [hod]
  · rw [if_neg h1]
    by_cases hn : (pre.length : Int) + 1 = ((pre ++ o :: post).length : Int)
    · rw [if_pos hn, htail]
      have hp : post = [] := List.length_eq_zero.1 (by rw [hlen] at hn; omega)
      rw [hp, lastOr_concat]
      rfl
    · rw [if_neg hn]
      by_cases hh : (pre.length : Int) + 1 ≤ Int.tdiv ((pre ++ o :: post).length : Int) 2
      · rw [if_pos hh]
        have hk : ((pre.length : Int) + 1 - 1).toNat = pre.length := by simp
        have e := step_next_spec h o post none pre none hs
        rw [headOr_none, hhead] at e
        rw [hk, e]
      · rw [if_neg hh, htail, ht, Option.map_some', ← ht]
        have hk : (((pre ++ o :: post).length : Int) - ((pre.length : Int) + 1)).toNat
            = post.length := by
          rw [hlen]
          have : (pre.length : Int) + 1 + post.length - ((pre.length : Int) + 1)
              = (post.length : Int) := by ring
          rw [this]
          simp
        rw [hk, step_prev_spec h o pre none post none hs]

end DynamicAdaptiveClimb

/-- C26. On a well-formed queue `l` of a DynamicAdaptiveClimb cache whose `queue_size` is the
length of `l`, for every object `obj` of the queue: `get_obj_pos_array` on the array listing
of the queue returns the 1-based index of `obj`; `get_obj_pos_optimized` from `q_head`
returns the same position, whether the queue has at most 50 objects or more; and
`get_obj_at_pos_optimized`, like `get_obj_at_pos_array`, returns `obj` for that position.
Fuel above the length of the queue is enough for every loop of the helpers. -/
theorem position_helpers_agree
    (c : cache_t DynamicAdaptiveClimb.DynamicAdaptiveClimb_params_t) (l : List Nat)
    (obj fuel : Nat) (hq : Linked (DynamicAdaptiveClimb.toCore c) l)
    (hsz : c.eviction_params.queue_size = (l.length : Int)) (ho : obj ∈ l)
    (hf : l.length < fuel) :
    DynamicAdaptiveClimb.get_obj_pos_array (l.map some) c.eviction_params.queue_size (some obj)
      = (l.indexOf obj : Int) + 1 ∧
    DynamicAdaptiveClimb.get_obj_pos_optimized fuel c.hashtable c.eviction_params.q_head
        (some obj) c.eviction_params.queue_size
      = some (DynamicAdaptiveClimb.get_obj_pos_array (l.map some)
          c.eviction_params.queue_size (some obj)) ∧
    DynamicAdaptiveClimb.get_obj_at_pos_optimized fuel c.hashtable c.eviction_params.q_head
        (DynamicAdaptiveClimb.get_obj_pos_array (l.map some) c.eviction_params.queue_size
          (some obj))
        c.eviction_params.queue_size = some (some obj) ∧
    DynamicAdaptiveClimb.get_obj_at_pos_array (l.map some) c.eviction_params.queue_size
        (DynamicAdaptiveClimb.get_obj_pos_array (l.map some) c.eviction_params.queue_size
          (some obj)) = some obj := by
  obtain ⟨hhead, -, hseg, hnd⟩ := hq
  have hhead1 : c.eviction_params.q_head = l.head? := hhead
  have hseg1 : Seg c.hashtable none l none := hseg
  obtain ⟨pre, post, rfl⟩ := List.append_of_mem ho
  have hnd1 : (pre ++ obj :: post).Nodup := hnd
  have hpre : obj ∉ pre := fun hm =>
    (List.nodup_append.1 hnd1).2.2 hm (List.mem_cons_self _ _)
  have hpost : obj ∉ post := (List.nodup_cons.1 (List.nodup_append.1 hnd1).2.1).1
  have hidx : (pre ++ obj :: post).indexOf obj = pre.length := by
    rw [List.indexOf_append_of_not_mem hpre, List.indexOf_cons_self]
    rfl
  have harr : DynamicAdaptiveClimb.get_obj_pos_array ((pre ++ obj :: post).map some)
      ((pre ++ obj :: post).length : Int) (some obj) = (pre.length : Int) + 1 := by
    have e := DynamicAdaptiveClimb.get_obj_pos_array_from_spec obj post pre []
      (pre ++ obj :: post).length hpre (by simp)
    simp only [List.nil_append, List.length_nil] at e
    unfold DynamicAdaptiveClimb.get_obj_pos_array
    rw [Int.toNat_ofNat, e]
    push_cast
    ring
  rw [hsz, hhead1, harr, hidx]
  refine ⟨rfl, DynamicAdaptiveClimb.get_obj_pos_optimized_spec c.hashtable obj pre post fuel
      hseg1 hpre hpost hf,
    DynamicAdaptiveClimb.get_obj_at_pos_optimized_spec c.hashtable obj pre post fuel hseg1 hf,
    ?_⟩
  unfold DynamicAdaptiveClimb.get_obj_at_pos_array
  have hrange : ¬ ((pre.length : Int) + 1 < 1 ∨
      (pre.length : Int) + 1 > ((pre ++ obj :: post).length : Int)) := by
    simp only [List.length_cons, List.length_append]
    push_cast
    omega
  rw [if_neg hrange]
  have hk : ((pre.length : Int) + 1 - 1).toNat = pre.length := by simp
  rw [hk]
  exact DynamicAdaptiveClimb.getD_map_some_middle pre post obj

set_option maxRecDepth 8000

/-- C26 at the chain of the objects 1 to 60 (a queue beyond the threshold 50) with
`queue_size = 60` and the object 40, in the second half of the queue. -/
theorem position_helpers_agree_witness :
    (Linked (DynamicAdaptiveClimb.toCore DynamicAdaptiveClimb.scenario_chain60)
        (List.range' 1 60) ∧
      DynamicAdaptiveClimb.scenario_chain60.eviction_params.queue_size
        = ((List.range' 1 60).length : Int) ∧
      40 ∈ List.range' 1 60 ∧ (List.range' 1 60).length < 61) ∧
    DynamicAdaptiveClimb.get_obj_pos_array ((List.range' 1 60).map some)
        DynamicAdaptiveClimb.scenario_chain60.eviction_params.queue_size (some 40)
      = ((List.range' 1 60).indexOf 40 : Int) + 1 ∧
    DynamicAdaptiveClimb.get_obj_pos_optimized 61 DynamicAdaptiveClimb.scenario_chain60.hashtable
        DynamicAdaptiveClimb.scenario_chain60.eviction_params.q_head (some 40)
        DynamicAdaptiveClimb.scenario_chain60.eviction_params.queue_size
      = some (DynamicAdaptiveClimb.get_obj_pos_array ((List.range' 1 60).map some)
          DynamicAdaptiveClimb.scenario_chain60.eviction_params.queue_size (some 40)) ∧
    DynamicAdaptiveClimb.get_obj_at_pos_optimized 61
        DynamicAdaptiveClimb.scenario_chain60.hashtable
        DynamicAdaptiveClimb.scenario_chain60.eviction_params.q_head
        (DynamicAdaptiveClimb.get_obj_pos_array ((List.range' 1 60).map some)
          DynamicAdaptiveClimb.scenario_chain60.eviction_params.queue_size (some 40))
        DynamicAdaptiveClimb.scenario_chain60.eviction_params.queue_size = some (some 40) ∧
    DynamicAdaptiveClimb.get_obj_at_pos_array ((List.range' 1 60).map some)
        DynamicAdaptiveClimb.scenario_chain60.eviction_params.queue_size
        (DynamicAdaptiveClimb.get_obj_pos_array ((List.range' 1 60).map some)
          DynamicAdaptiveClimb.scenario_chain60.eviction_params.queue_size (some 40))
      = some 40 :=
  ⟨⟨by decide, by decide, by decide, by decide⟩,
    position_helpers_agree DynamicAdaptiveClimb.scenario_chain60 (List.range' 1 60) 40 61
      (by decide) (by decide) (by decide) (by decide)⟩
